import Mathlib

/-! Pod replacement engine (`pkg/devspace/services/podreplace/podreplace.go`).

A shallow embedding of the pod replacement engine of devspace.  Cluster objects
are records, the cluster is an explicit state, every request to the cluster API
is recorded in a trace, and requests can be made to fail by a fault schedule.
What the cluster does on its own between two polls (its controllers, the
kubelet) is a parameter `Env.react`; the collaborators of the engine that live
in other packages are parameters of `Env` as well.
-/

namespace PodReplace

/-! ## Go maps `map[string]string` -/

/-- A Go `map[string]string` as an association list with unique keys kept by
`mapSet`; a nil map reads like the empty one. -/
abbrev StrMap := List (String × String)

/-- The entry of key `k`, if the map has one. -/
def mapLookup : StrMap → String → Option String
  | [], _ => none
  | kv :: m, k => if kv.1 = k then some kv.2 else mapLookup m k

/-- Go `m[k]`: the zero value `""` when the key is absent. -/
def mapGet (m : StrMap) (k : String) : String :=
  (mapLookup m k).getD ""

/-- Go `delete(m, k)`. -/
def mapDelete : StrMap → String → StrMap
  | [], _ => []
  | kv :: m, k => if kv.1 = k then mapDelete m k else kv :: mapDelete m k

/-- Go `m[k] = v`. -/
def mapSet (m : StrMap) (k v : String) : StrMap :=
  mapDelete m k ++ [(k, v)]

/-- Whether the map has an entry for `k`. -/
def mapHas (m : StrMap) (k : String) : Bool :=
  (mapLookup m k).isSome

/-! ## Errors -/

/-- Errors of the engine and of the cluster API. -/
inductive Err
  | notFound
  | alreadyExists
  | transient
  | timeout
  | selectNotFound
  | msg (s : String)
  | wrap (step : String) (e : Err)
  deriving DecidableEq, Repr

/-! ## `strconv.Itoa` and `strconv.Atoi` -/

/-- The character of a decimal digit. -/
def digitChar (d : Nat) : Char := Char.ofNat (48 + d)

/-- The value of a decimal digit character. -/
def digitVal (c : Char) : Option Nat :=
  if 48 ≤ c.toNat ∧ c.toNat ≤ 57 then some (c.toNat - 48) else none

/-- Decimal digits of `n`, most significant first (`fuel` bounds the length). -/
def natDigits : Nat → Nat → List Char
  | 0, _ => []
  | fuel + 1, n =>
    if n < 10 then [digitChar n] else natDigits fuel (n / 10) ++ [digitChar (n % 10)]

/-- Go `strconv.Itoa`. -/
def itoa (i : Int) : String :=
  match i with
  | Int.ofNat n => String.mk (natDigits (n + 1) n)
  | Int.negSucc n => String.mk ('-' :: natDigits (n + 2) (n + 1))

/-- Reads a run of decimal digits, most significant first. -/
def parseDigits : List Char → Nat → Option Nat
  | [], acc => some acc
  | c :: cs, acc =>
    match digitVal c with
    | some d => parseDigits cs (acc * 10 + d)
    | none => none

/-- The digit loop of `strconv.ParseUint(s, 10, 64)`: a character that is no
decimal digit is a syntax error, a value above `2^64 - 1` a range error, and the
first of the two in reading order is the one returned. -/
def parseUint : List Char → Nat → Except Err Nat
  | [], n => .ok n
  | c :: cs, n =>
    match digitVal c with
    | none => .error (.msg "invalid syntax")
    | some d =>
      -- n*base overflows
      if n ≥ 1844674407370955162 then .error (.msg "value out of range")
      -- n+d overflows
      else if n * 10 + d > 18446744073709551615 then .error (.msg "value out of range")
      else parseUint cs (n * 10 + d)

/-- Go `strconv.Atoi` where `int` has 64 bits: an optional sign and at least one
decimal digit, with a value from `-2^63` to `2^63 - 1`; the error is the syntax
error or the range error of `strconv.ParseInt(s, 10, 0)`. -/
def Atoi (s : String) : Except Err Int :=
  match s.data with
  | [] => .error (.msg "invalid syntax")
  | c :: cs =>
    let neg : Bool := c = '-'
    let digits := if c = '-' ∨ c = '+' then cs else c :: cs
    if digits.isEmpty then .error (.msg "invalid syntax")
    else
      match parseUint digits 0 with
      | .error e => .error e
      | .ok un =>
        if neg = false ∧ un ≥ 9223372036854775808 then .error (.msg "value out of range")
        else if neg = true ∧ un > 9223372036854775808 then .error (.msg "value out of range")
        else if neg then .ok (- (un : Int)) else .ok (un : Int)

/-- The value `strconv.Atoi` returns; `none` when it returns an error. -/
def atoi (s : String) : Option Int :=
  match Atoi s with
  | .ok n => some n
  | .error _ => none

/-- The values of an `int` of 64 bits. -/
def isInt64 (x : Int) : Prop := -9223372036854775808 ≤ x ∧ x ≤ 9223372036854775807

instance (x : Int) : Decidable (isInt64 x) := by unfold isInt64; infer_instance

/-- Go conversion `int32(x)`: wraps around modulo `2^32`. -/
def toInt32 (x : Int) : Int :=
  (x + 2147483648) % 4294967296 - 2147483648

/-- The values of an `int32`. -/
def isInt32 (x : Int) : Prop := -2147483648 ≤ x ∧ x ≤ 2147483647

instance (x : Int) : Decidable (isInt32 x) := by unfold isInt32; infer_instance

/-! ## Marker keys -/

def ParentKindAnnotation : String := "devspace.sh/parent-kind"
def ParentNameAnnotation : String := "devspace.sh/parent-name"
def ParentHashAnnotation : String := "devspace.sh/parent-hash"
def ReplaceConfigHashAnnotation : String := "devspace.sh/config-hash"
def ReplicasAnnotation : String := "devspace.sh/replicas"

/-- Modelled from the spec: the replaced-label `kubectl.ReplacedLabel`, which
marks a pod as engine-managed (package `kubectl` is not among the sources). -/
def ReplacedLabel : String := "devspace.sh/replaced"

/-- Modelled from the spec: the label `kubectl.ImageNameLabel` under which the
image identifier of the selection criteria is stamped on the replacement. -/
def ImageNameLabel : String := "devspace.sh/image-name"

/-- Modelled from the spec: the matched-container-annotation
`kubectl.MatchedContainerAnnotation`. -/
def MatchedContainerAnnotation : String := "devspace.sh/container"

/-! ## Cluster objects -/

/-- The three controller kinds the engine handles (`appsv1.ReplicaSet`,
`appsv1.Deployment`, `appsv1.StatefulSet`). -/
inductive Kind
  | ReplicaSet
  | Deployment
  | StatefulSet
  deriving DecidableEq, Repr

/-- The kind as it is written into annotations and owner references. -/
def Kind.str : Kind → String
  | .ReplicaSet => "ReplicaSet"
  | .Deployment => "Deployment"
  | .StatefulSet => "StatefulSet"

/-- Type `metav1.OwnerReference`. -/
structure OwnerReference where
  apiVersion : String
  kind : String
  name : String
  controller : Bool
  deriving DecidableEq, Repr

/-- Type `metav1.ObjectMeta`, the fields the engine reads or writes. -/
structure ObjectMeta where
  name : String
  ns : String
  labels : StrMap := []
  annotations : StrMap := []
  uid : String := ""
  resourceVersion : String := ""
  ownerReferences : List OwnerReference := []
  deletionTimestamp : Option String := none
  deriving DecidableEq, Repr

/-- Type `corev1.Container`: name, image, and the remaining fields as one value. -/
structure Container where
  name : String
  image : String
  rest : String := ""
  deriving DecidableEq, Repr

/-- Type `corev1.PodSpec`: the containers and the remaining fields as one value. -/
structure PodSpec where
  containers : List Container
  rest : String := ""
  deriving DecidableEq, Repr

/-- Type `corev1.Pod`. -/
structure Pod where
  metadata : ObjectMeta
  spec : PodSpec
  deriving DecidableEq, Repr

/-- Type `corev1.PodTemplateSpec`. -/
structure PodTemplateSpec where
  labels : StrMap := []
  annotations : StrMap := []
  spec : PodSpec
  deriving DecidableEq, Repr

/-- A `runtime.Object` that is one of the three supported controllers: its
kind, metadata, `Spec.Replicas` (a `*int32`) and `Spec.Template`. -/
structure Controller where
  kind : Kind
  metadata : ObjectMeta
  replicas : Option Int
  template : PodTemplateSpec
  deriving DecidableEq, Repr

/-- Type `kubectl.SelectedPodContainer`. -/
structure SelectedPodContainer where
  pod : Pod
  container : Container
  deriving DecidableEq, Repr

/-- The objects of the cluster. -/
structure Cluster where
  pods : List Pod
  controllers : List Controller
  deriving DecidableEq, Repr

/-! ## Configuration types (`latest`, `generated`, `config`, `dependency/types`) -/

/-- Type `latest.PatchConfig`: one generic patch of the patch list. -/
structure PatchConfig where
  op : String
  path : String
  value : String
  deriving DecidableEq, Repr

/-- Type `latest.ReplacePod`, the replacement spec.  `LabelSelector` is a Go map
that can be nil (`none`). -/
structure ReplacePodSpec where
  ImageName : String := ""
  LabelSelector : Option StrMap := none
  ContainerName : String := ""
  Namespace : String := ""
  ReplaceImage : String := ""
  Patches : List PatchConfig := []
  deriving DecidableEq, Repr

/-- Type `latest.ImageConfig`, the fields `Resolve` reads. -/
structure ImageConfig where
  Image : String
  Tags : List String := []
  deriving DecidableEq, Repr

/-- Type `generated.ImageCache`, the fields `Resolve` reads. -/
structure ImageCache where
  ImageName : String
  Tag : String
  deriving DecidableEq, Repr

/-- Type `latest.Config`: `Images` is a `map[string]*ImageConfig`; a nil map and
a nil entry read like an absent key. -/
structure ParsedConfig where
  Images : List (String × ImageConfig) := []
  deriving DecidableEq, Repr

/-- Type `generated.Config`: the images of its active cache (`GetActive().Images`). -/
structure GeneratedConfig where
  Images : List (String × ImageCache) := []
  deriving DecidableEq, Repr

/-- The struct `config` behind the interface `config.Config`; each component can
be nil. -/
structure ConfigData where
  rawConfig : Option (List (String × String))
  parsedConfig : Option ParsedConfig
  generatedConfig : Option GeneratedConfig
  resolvedVariables : Option (List (String × String))
  deriving DecidableEq, Repr

/-- The interface value `config.Config`, which can be nil. -/
abbrev Config := Option ConfigData

/-- Type `types.Dependency`: `DependencyConfig().Name`, `Config()` and `Children()`. -/
inductive Dependency where
  | mk (name : String) (config : Config) (children : List Dependency)

/-- Accessor `dep.DependencyConfig().Name`. -/
def Dependency.name : Dependency → String
  | .mk n _ _ => n

/-- Accessor `dep.Config()`. -/
def Dependency.config : Dependency → Config
  | .mk _ c _ => c

/-- Accessor `dep.Children()`. -/
def Dependency.children : Dependency → List Dependency
  | .mk _ _ cs => cs

/-- Type `imageselector.ImageSelector`; the dependency is kept by its name. -/
structure ImageSelector where
  ConfigImageName : String
  Image : String
  Dependency : Option String := none
  deriving DecidableEq, Repr

/-! ## Requests and the world -/

/-- The change a merge patch makes to the annotations of an object. -/
inductive AnnotationPatch
  | unchanged
  | clear
  | keys (ops : List (String × Option String))
  deriving DecidableEq, Repr

/-- A merge patch on a controller, as far as the engine produces one: the
annotations and `spec.replicas`. -/
structure Patch where
  annotations : AnnotationPatch
  replicas : Option Int
  deriving DecidableEq, Repr

/-- Options of the target selector (`targetselector.Options`). -/
structure TargetOptions where
  labelSelector : StrMap
  ns : String
  containerName : String
  imageSelector : List ImageSelector := []
  timeout : Nat
  allowPick : Bool := false
  skipInitContainers : Bool := true
  deriving DecidableEq, Repr

/-- A request to the cluster API. -/
inductive Call
  | getPod (ns name : String)
  | deletePod (ns name : String)
  | createPod (pod : Pod)
  | getController (kind : Kind) (ns name : String)
  | patchController (kind : Kind) (ns name : String) (patch : Patch)
  | listPods (options : TargetOptions)
  deriving DecidableEq, Repr

/-- Requests that change the cluster. -/
def Call.mutating : Call → Bool
  | .deletePod _ _ => true
  | .createPod _ => true
  | .patchController _ _ _ _ => true
  | _ => false

/-- The cluster, the requests issued so far (oldest first), and the fault
schedule: one entry is consumed by each request, `true` makes it fail with a
transient error and without effect; an exhausted schedule lets requests through. -/
structure World where
  cluster : Cluster
  trace : List Call := []
  faults : List Bool := []
  deriving DecidableEq, Repr

/-- The environment of the engine: the cluster's own activity and the
collaborators from other packages. -/
structure Env where
  /-- What the cluster does on its own during one poll interval. -/
  react : Cluster → Cluster
  /-- One evaluation of the target selector on the current objects: a container,
  nothing yet, or an error. -/
  pick : Cluster → TargetOptions → Except Err (Option SelectedPodContainer)
  /-- The image resolver `util.Replace`, rendered with `%v`. -/
  replaceImage : String → Config → List Dependency → Except Err String
  /-- The non-empty branch of `applyPodPatches`: `loader.ApplyPatchesOnObject`
  between the two format conversions. -/
  applyPatches : Pod → List PatchConfig → Except Err Pod
  /-- The digest `hash.String`. -/
  hashString : String → String
  /-- The serialisation `yaml.Marshal` of the replacement spec. -/
  yamlMarshal : ReplacePodSpec → Except Err String
  /-- The serialisation `json.Marshal` of a pod template. -/
  jsonMarshal : PodTemplateSpec → Except Err String
  /-- The naming helper `encoding.SafeConcatName`. -/
  safeConcatName : String → String → String
  /-- Docker reference parsing behind `GetStrippedDockerImageName`: the
  tag-stripped name, or `none` when the name does not parse. -/
  strippedName : String → Option String
  /-- Functions `regexp.Compile` and `MatchString`: `none` when the expression does
  not compile. -/
  regexMatch : String → String → Option Bool

/-- Computations of the engine: they read and change the world and can fail;
the world is kept when they fail. -/
abbrev M (α : Type) := World → Except Err α × World

/-- Return a value. -/
def M.pure {α : Type} (a : α) : M α := fun w => (.ok a, w)

/-- Sequence two computations; an error of the first ends the run. -/
def M.bind {α β : Type} (m : M α) (f : α → M β) : M β := fun w =>
  match m w with
  | (.ok a, w1) => f a w1
  | (.error e, w1) => (.error e, w1)

instance : Monad M where
  pure := M.pure
  bind := M.bind

/-- Fail with an error. -/
def fail {α : Type} (e : Err) : M α := fun w => (.error e, w)

/-- Run a computation and hand its outcome, error or value, to the caller
(Go's `x, err := f()`). -/
def attempt {α : Type} (m : M α) : M (Except Err α) := fun w =>
  match m w with
  | (r, w1) => (.ok r, w1)

/-- Lift a pure fallible result. -/
def liftExcept {α : Type} (r : Except Err α) : M α := fun w => (r, w)

/-- Go `errors.Wrap(err, step)` on the error of a computation. -/
def wrapErr {α : Type} (step : String) (m : M α) : M α := fun w =>
  match m w with
  | (.ok a, w1) => (.ok a, w1)
  | (.error e, w1) => (.error (.wrap step e), w1)

/-! ## The cluster API -/

/-- Whether the fault schedule makes the next request fail. -/
def World.faulty (w : World) : Bool :=
  match w.faults with
  | true :: _ => true
  | _ => false

/-- The world after a request was issued: the request is recorded and one entry
of the fault schedule is consumed. -/
def World.next (w : World) (c : Call) : World :=
  { w with trace := w.trace ++ [c], faults := w.faults.tail }

/-- Issue a request: it is recorded, and fails with a transient error when the
fault schedule says so. -/
def request (c : Call) : M Unit := fun w =>
  if w.faulty then (.error .transient, w.next c) else (.ok (), w.next c)

/-- The current objects. -/
def getCluster : M Cluster := fun w => (.ok w.cluster, w)

/-- Replace the current objects. -/
def setCluster (c : Cluster) : M Unit := fun w => (.ok (), { w with cluster := c })

/-- One poll interval passes: the cluster acts on its own. -/
def tick (env : Env) : M Unit := fun w =>
  (.ok (), { w with cluster := env.react w.cluster })

/-- Whether a pod is the one of that namespace and name. -/
def isPod (ns name : String) (p : Pod) : Bool :=
  p.metadata.ns == ns && p.metadata.name == name

/-- Whether a controller is the one of that kind, namespace and name. -/
def isController (kind : Kind) (ns name : String) (c : Controller) : Bool :=
  decide (c.kind = kind) && c.metadata.ns == ns && c.metadata.name == name

/-- The pod of that namespace and name. -/
def findPod (c : Cluster) (ns name : String) : Option Pod :=
  c.pods.find? (isPod ns name)

/-- The controller of that kind, namespace and name. -/
def findController (c : Cluster) (kind : Kind) (ns name : String) : Option Controller :=
  c.controllers.find? (isController kind ns name)

/-- Request `Pods(ns).Get(name)`. -/
def getPod (ns name : String) : M Pod := do
  request (.getPod ns name)
  let c ← getCluster
  match findPod c ns name with
  | some p => pure p
  | none => fail .notFound

/-- The pod with a deletion timestamp, if it is the pod of that namespace and
name and has none yet. -/
def markTerminating (ns name : String) (p : Pod) : Pod :=
  if isPod ns name p && p.metadata.deletionTimestamp.isNone then
    { p with metadata := { p.metadata with deletionTimestamp := some "now" } }
  else p

/-- Request `Pods(ns).Delete(name)`: the pod gets a deletion timestamp; the
cluster removes it later on its own. -/
def deletePod (ns name : String) : M Unit := do
  request (.deletePod ns name)
  let c ← getCluster
  match findPod c ns name with
  | none => fail .notFound
  | some _ => setCluster { c with pods := c.pods.map (markTerminating ns name) }

/-- Request `Pods(ns).Create(pod)`. -/
def createPod (pod : Pod) : M Unit := do
  request (.createPod pod)
  let c ← getCluster
  match findPod c pod.metadata.ns pod.metadata.name with
  | some _ => fail .alreadyExists
  | none => setCluster { c with pods := c.pods ++ [pod] }

/-- Request `Get(name)` on `ReplicaSets(ns)`, `Deployments(ns)` or `StatefulSets(ns)`. -/
def getController (kind : Kind) (ns name : String) : M Controller := do
  request (.getController kind ns name)
  let c ← getCluster
  match findController c kind ns name with
  | some o => pure o
  | none => fail .notFound

/-- Modelled from the spec: `MergeFrom(original).Data(modified)` (its file is not
among the sources), the merge patch computed as a diff against the deep copy
taken before mutation, on the two fields the engine mutates.  An annotation map
that became empty is omitted from the serialised object, so the diff clears the
map. -/
def mergeFrom (original modified : Controller) : Patch :=
  { annotations :=
      if modified.metadata.annotations.isEmpty && !original.metadata.annotations.isEmpty then
        .clear
      else
        .keys ((modified.metadata.annotations.filter
                  (fun kv => mapLookup original.metadata.annotations kv.1 != some kv.2)).map
                  (fun kv => (kv.1, some kv.2))
               ++ (original.metadata.annotations.filter
                  (fun kv => !mapHas modified.metadata.annotations kv.1)).map
                  (fun kv => (kv.1, none)))
    replicas := if modified.replicas = original.replicas then none else modified.replicas }

/-- The effect of the annotation part of a merge patch. -/
def applyAnnotationPatch (m : StrMap) : AnnotationPatch → StrMap
  | .unchanged => m
  | .clear => []
  | .keys ops => ops.foldl (fun acc op =>
      match op.2 with
      | some v => mapSet acc op.1 v
      | none => mapDelete acc op.1) m

/-- The effect of a merge patch on the stored controller. -/
def applyPatch (o : Controller) (p : Patch) : Controller :=
  { o with
    metadata := { o.metadata with annotations := applyAnnotationPatch o.metadata.annotations p.annotations }
    replicas := match p.replicas with
      | some r => some r
      | none => o.replicas }

/-- The controller after a patch, if it is the one of that kind, namespace and
name. -/
def patchIn (kind : Kind) (ns name : String) (patch : Patch) (o : Controller) : Controller :=
  if isController kind ns name o then applyPatch o patch else o

/-- Request `Patch(name, types.MergePatchType, data)` on a controller. -/
def patchController (kind : Kind) (ns name : String) (patch : Patch) : M Unit := do
  request (.patchController kind ns name patch)
  let c ← getCluster
  match findController c kind ns name with
  | none => fail .notFound
  | some _ => setCluster { c with controllers := c.controllers.map (patchIn kind ns name patch) }

/-- Go `wait.Poll(interval, timeout, condition)` with `ticks = timeout / interval`:
the interval passes before each run of the condition; the bound ends the wait
with a timeout error. -/
def poll (env : Env) (condition : M Bool) : Nat → M Unit
  | 0 => fail .timeout
  | ticks + 1 => do
    tick env
    let done ← condition
    if done then pure () else poll env condition ticks

/-- The polling loop of the target selector: `checks` evaluations, one interval
apart. -/
def selectLoop (env : Env) (options : TargetOptions) : Nat → M SelectedPodContainer
  | 0 => fail .selectNotFound
  | checks + 1 => do
    request (.listPods options)
    let c ← getCluster
    match env.pick c options with
    | .error e => fail e
    | .ok (some selected) => pure selected
    | .ok none => do
      tick env
      selectLoop env options checks

/-- Modelled from the spec: `targetselector.SelectSingleContainer` (the package
is not among the sources): `selectSingleContainer(criteria, timeout,
waitStrategy) -> SelectedPodContainer | NotFoundError`, a bounded lookup that
evaluates the selection once per second until the timeout (in seconds). -/
def SelectSingleContainer (env : Env) (options : TargetOptions) : M SelectedPodContainer :=
  selectLoop env options (options.timeout + 1)

/-! ## Image selectors (`pkg/util/imageselector/imageselector.go`) -/

/-- Splits at the first `.`: the text before it and the text after it
(`name[:strings.Index(name, ".")]` and the rest behind the dot). -/
def splitFirstDot : List Char → Option (List Char × List Char)
  | [] => none
  | c :: cs =>
    if c = '.' then some ([], cs)
    else match splitFirstDot cs with
      | some (a, b) => some (c :: a, b)
      | none => none

/-- Function `Resolve` with the recursion into dependencies bounded by `fuel`. -/
def ResolveAux : Nat → String → Config → List Dependency → Except Err (List ImageSelector)
  | 0, _, _, _ => .error (.msg "image name exhausted")
  | fuel + 1, configImageName, config, dependencies =>
    match config with
    | none => .ok []
    | some cfg =>
      match cfg.generatedConfig, cfg.parsedConfig with
      | some generated, some c =>
        if configImageName = "" then .ok []
        else
          -- check if cached
          match generated.Images.lookup configImageName, c.Images.lookup configImageName with
          | some cached, some img =>
            if cached.ImageName ≠ "" ∧ cached.Tag ≠ "" then
              .ok [{ ConfigImageName := configImageName, Image := cached.ImageName ++ ":" ++ cached.Tag }]
            else
              match img.Tags with
              | tag :: _ => .ok [{ ConfigImageName := configImageName, Image := img.Image ++ ":" ++ tag }]
              | [] => .ok [{ ConfigImageName := configImageName, Image := img.Image }]
          | none, some img =>
            -- check if defined in images
            match img.Tags with
            | tag :: _ => .ok [{ ConfigImageName := configImageName, Image := img.Image ++ ":" ++ tag }]
            | [] => .ok [{ ConfigImageName := configImageName, Image := img.Image }]
          | _, none =>
            -- check if image from dependency
            match splitFirstDot configImageName.data with
            | none => .error (.msg ("couldn't find imageName " ++ configImageName))
            | some (dependency, dependencyImageName) =>
              match dependencies.find? (fun dep => dep.name == String.mk dependency) with
              | none => .error (.msg ("couldn't find imageName " ++ configImageName))
              | some dep =>
                match ResolveAux fuel (String.mk dependencyImageName) dep.config dep.children with
                | .error e => .error e
                | .ok [sel] =>
                  .ok [{ sel with
                         Dependency := match sel.Dependency with
                           | none => some dep.name
                           | some d => some d
                         ConfigImageName := configImageName }]
                | .ok imageSelector => .ok imageSelector
      | _, _ => .ok []

/-- Function `Resolve`: each recursive call is on a shorter image name, so the
length of the name bounds the recursion. -/
def Resolve (configImageName : String) (config : Config) (dependencies : List Dependency) :
    Except Err (List ImageSelector) :=
  ResolveAux (configImageName.length + 1) configImageName config dependencies

/-- Go `strings.Replace(s, "#", by, -1)`. -/
def replaceHash (s : String) (by_ : String) : String :=
  String.mk (s.data.flatMap (fun c => if c = '#' then by_.data else [c]))

/-- Function `GetStrippedDockerImageName`; the docker reference libraries are in `env`. -/
def GetStrippedDockerImageName (env : Env) (imageName : String) : Option String :=
  env.strippedName imageName

/-- Function `CompareImageNames`. -/
def CompareImageNames (env : Env) (selector : ImageSelector) (image2 : String) : Bool :=
  let image1 := selector.Image
  let tagStrippedImage1 := (GetStrippedDockerImageName env (replaceHash image1 "a")).getD image1
  let tagStrippedImage2 := (GetStrippedDockerImageName env image2).getD image2
  if tagStrippedImage1 ≠ image1 then
    if tagStrippedImage1 ++ ":latest" = image1 ∧ tagStrippedImage2 = image2 then true
    else if image1.data.contains '#' then
      match env.regexMatch ("^" ++ replaceHash image1 "[a-zA-Z]" ++ "$") image2 with
      | some matched => matched
      | none => image1 == image2
    else image1 == image2
  else tagStrippedImage1 == tagStrippedImage2

/-! ## The engine (`pkg/devspace/services/podreplace/podreplace.go`) -/

/-- Go `metav1.GetControllerOf`: the owner reference marked as controller. -/
def GetControllerOf (m : ObjectMeta) : Option OwnerReference :=
  m.ownerReferences.find? (fun r => r.controller)

/-- The loops of `replaceImageInPodSpec`: the first container that is the only
one, or that matches, gets the image; then the loop breaks. -/
def exchangeImage (matches_ : Container → Bool) (imageStr : String) (single : Bool) :
    List Container → List Container
  | [] => []
  | c :: cs =>
    if single then { c with image := imageStr } :: cs
    else if matches_ c then { c with image := imageStr } :: cs
    else c :: exchangeImage matches_ imageStr single cs

/-- Function `replaceImageInPodSpec`; the pod spec it mutates is returned. -/
def replaceImageInPodSpec (env : Env) (podSpec : PodSpec) (config : Config)
    (dependencies : List Dependency) (replacePod : ReplacePodSpec) : Except Err PodSpec :=
  match env.replaceImage replacePod.ReplaceImage config dependencies with
  | .error e => .error e
  | .ok imageStr =>
    -- either replace by labelSelector & containerName or by resolved image name
    if replacePod.LabelSelector.isSome then
      if podSpec.containers.length > 1 ∧ replacePod.ContainerName = "" then
        .error (.msg "pod spec has more than 1 containers and containerName is an empty string")
      else if podSpec.containers.length = 0 then
        .error (.msg "no containers in pod spec")
      else
        .ok { podSpec with
              containers := exchangeImage (fun c => c.name == replacePod.ContainerName) imageStr
                (podSpec.containers.length == 1) podSpec.containers }
    else
      match Resolve replacePod.ImageName config dependencies with
      | .error e => .error e
      | .ok [sel] =>
        .ok { podSpec with
              containers := exchangeImage (fun c => CompareImageNames env sel c.image) imageStr
                (podSpec.containers.length == 1) podSpec.containers }
      | .ok _ => .error (.msg "unexpected amount of image selectors resolved")

/-- Function `hashConfig`. -/
def hashConfig (env : Env) (replacePod : ReplacePodSpec) : Except Err String :=
  match env.yamlMarshal replacePod with
  | .error e => .error e
  | .ok out => .ok (env.hashString out)

/-- Function `hashParentPodSpec`; it works on a copy, the object is a value here.
The `default` branch of its type switch needs an object outside the three
kinds, which `Controller` does not have. -/
def hashParentPodSpec (env : Env) (obj : Controller) (config : Config)
    (dependencies : List Dependency) (replacePod : ReplacePodSpec) : Except Err String :=
  let podSpec := obj.template
  let replaced : Except Err PodTemplateSpec :=
    if replacePod.ReplaceImage ≠ "" then
      match replaceImageInPodSpec env podSpec.spec config dependencies replacePod with
      | .error e => .error e
      | .ok spec => .ok { podSpec with spec := spec }
    else .ok podSpec
  match replaced with
  | .error e => .error e
  | .ok podSpec =>
    match env.jsonMarshal podSpec with
    | .error e => .error e
    | .ok out => .ok (env.hashString out)

/-- Function `applyPodPatches`. -/
def applyPodPatches (env : Env) (pod : Pod) (replacePod : ReplacePodSpec) : Except Err Pod :=
  if replacePod.Patches.length = 0 then .ok pod
  else env.applyPatches pod replacePod.Patches

/-- The value of `int(*t.Spec.Replicas)`, 1 when the field is unset. -/
def currentReplicas (obj : Controller) : Int :=
  match obj.replicas with
  | some r => r
  | none => 1

/-- The object `scaleDownParent` builds before it computes the patch: the
replica count recorded under the replicas annotation, and zero replicas
(`ptr.Int32(0)`). -/
def quiesced (obj : Controller) : Controller :=
  { obj with
    metadata := { obj.metadata with
      annotations := mapSet obj.metadata.annotations ReplicasAnnotation (itoa (currentReplicas obj)) }
    replicas := some 0 }

/-- Function `scaleDownParent`; its three branches, one per kind, are the same
code, and the patch goes to the client of the object's kind. -/
def scaleDownParent (obj : Controller) : M Unit :=
  let cloned := obj
  let replicas := currentReplicas obj
  if replicas = 0 then pure ()
  else
    let t := quiesced obj
    patchController t.kind t.metadata.ns t.metadata.name (mergeFrom cloned t)

/-- The object `scaleUpParent` builds before it computes the patch: the old
replica count as an `int32`, and the replicas annotation deleted. -/
def restored (parent : Controller) (oldReplica : Int) : Controller :=
  { parent with
    replicas := some (toInt32 oldReplica)
    metadata := { parent.metadata with
      annotations := mapDelete parent.metadata.annotations ReplicasAnnotation } }

/-- Function `scaleUpParent`. -/
def scaleUpParent (parent : Controller) : M Unit :=
  let clonedParent := parent
  -- check if required annotation is there
  let annotations := parent.metadata.annotations
  if mapGet annotations ReplicasAnnotation = "" then pure ()
  else
    -- scale up parent
    match Atoi (mapGet annotations ReplicasAnnotation) with
    | .error err => fail (.wrap "parse old replicas" err)
    | .ok oldReplica =>
      if oldReplica = 0 then pure ()
      else
        -- set the replicas, delete replicas annotation
        let t := restored parent oldReplica
        -- patch parent
        wrapErr "patch parent"
          (patchController t.kind t.metadata.ns t.metadata.name (mergeFrom clonedParent t))

/-- The condition polled by `deleteAndWait`. -/
def deletedCondition (pod : Pod) : M Bool := do
  let r ← attempt (getPod pod.metadata.ns pod.metadata.name)
  match r with
  | .error e => if e = .notFound then pure true else fail e
  | .ok _ => pure false

/-- Function `deleteAndWait`: one poll per second for two minutes. -/
def deleteAndWait (env : Env) (pod : Pod) : M Unit := do
  let r ← attempt (deletePod pod.metadata.ns pod.metadata.name)
  match r with
  | .error e => if e = .notFound then pure () else fail e
  | .ok _ => poll env (deletedCondition pod) 120

/-- Function `getParentFromReplaced`. -/
def getParentFromReplaced (pod : Pod) : M Controller :=
  let kind := mapGet pod.metadata.annotations ParentKindAnnotation
  let name := mapGet pod.metadata.annotations ParentNameAnnotation
  if kind = "ReplicaSet" then getController .ReplicaSet pod.metadata.ns name
  else if kind = "Deployment" then getController .Deployment pod.metadata.ns name
  else if kind = "StatefulSet" then getController .StatefulSet pod.metadata.ns name
  else fail (.msg "unrecognized parent kind")

/-- Function `getParent`. -/
def getParent (pod : Pod) : M Controller :=
  match GetControllerOf pod.metadata with
  | none => fail (.msg "pod was not created by a ReplicaSet, Deployment or StatefulSet, patching only works if pod was created by one of those resources")
  | some controller =>
    -- replica set / deployment ?
    if controller.kind = "ReplicaSet" then do
      let r ← attempt (getController .ReplicaSet pod.metadata.ns controller.name)
      match r with
      | .error e =>
        if e = .notFound then fail (.msg ("unrecognized owning ReplicaSet " ++ controller.name))
        else fail e
      | .ok replicaSet =>
        match GetControllerOf replicaSet.metadata with
        | none => pure replicaSet
        | some replicaSetOwner =>
          -- is deployment?
          if replicaSetOwner.kind = "Deployment" then do
            let r ← attempt (getController .Deployment pod.metadata.ns replicaSetOwner.name)
            match r with
            | .error e =>
              if e = .notFound then
                fail (.msg ("unrecognized owning Deployment " ++ replicaSetOwner.name))
              else fail e
            | .ok deployment => pure deployment
          else fail (.msg ("unrecognized owner of ReplicaSet " ++ replicaSet.metadata.name))
    -- statefulset?
    else if controller.kind = "StatefulSet" then do
      let r ← attempt (getController .StatefulSet pod.metadata.ns controller.name)
      match r with
      | .error e =>
        if e = .notFound then fail (.msg ("unrecognized owning StatefulSet " ++ controller.name))
        else fail e
      | .ok statefulSet => pure statefulSet
    else fail (.msg ("unrecognized owner of Pod " ++ pod.metadata.name))

/-- The label selector built by `findSingleReplacedPod`; `none` when neither an
image name nor a label is given. -/
def replacedLabelSelector (replacePod : ReplacePodSpec) : Option StrMap :=
  let labelSelector : StrMap := [(ReplacedLabel, "true")]
  if replacePod.ImageName ≠ "" then
    some (mapSet labelSelector ImageNameLabel replacePod.ImageName)
  else if (replacePod.LabelSelector.getD []).length > 0 then
    some ((replacePod.LabelSelector.getD []).foldl (fun acc kv => mapSet acc kv.1 kv.2) labelSelector)
  else none

/-- Function `findSingleReplacedPod`; `timeout` is in seconds. -/
def findSingleReplacedPod (env : Env) (replacePod : ReplacePodSpec) (timeout : Nat) :
    M (Option SelectedPodContainer) :=
  match replacedLabelSelector replacePod with
  | none => fail (.msg "imageName or labelSelector need to be defined")
  | some labelSelector => do
    -- create selector
    let targetOptions : TargetOptions :=
      { labelSelector := labelSelector, ns := replacePod.Namespace,
        containerName := replacePod.ContainerName, timeout := timeout,
        allowPick := false, skipInitContainers := true }
    let r ← attempt (SelectSingleContainer env targetOptions)
    match r with
    | .error e => if e = .selectNotFound then pure none else fail e
    | .ok selected => pure (some selected)

/-- Function `findSingleReplaceablePodParent`. -/
def findSingleReplaceablePodParent (env : Env) (config : Config)
    (dependencies : List Dependency) (replacePod : ReplacePodSpec) :
    M (SelectedPodContainer × Controller) := do
  let imageSelector ← liftExcept (Resolve replacePod.ImageName config dependencies)
  -- create selector
  let targetOptions : TargetOptions :=
    { labelSelector := replacePod.LabelSelector.getD [], ns := replacePod.Namespace,
      containerName := replacePod.ContainerName, imageSelector := imageSelector,
      timeout := 300, allowPick := false, skipInitContainers := true }
  let container ← SelectSingleContainer env targetOptions
  let parent ← wrapErr "get pod parent" (getParent container.pod)
  pure (container, parent)

/-- Go `errors.Wrap` on a pure result. -/
def wrapExcept {α : Type} (step : String) : Except Err α → Except Err α
  | .ok a => .ok a
  | .error e => .error (.wrap step e)

/-- The second half of the body construction in `replace`: the metadata is
reset to name, namespace, labels and annotations, the controller's labels are
deleted, and the markers are stamped. -/
def resetMetadata (env : Env) (pod : SelectedPodContainer) (parent : Controller)
    (replacePod : ReplacePodSpec) (parentHash configHash : String) (copiedPod : Pod) : Pod :=
  -- reset the metadata
  let name := env.safeConcatName copiedPod.metadata.name "devspace"
  -- make sure the pod-template-hash label is deleted
  let labels := mapDelete copiedPod.metadata.labels "pod-template-hash"
  let labels := mapDelete labels "controller-revision-hash"
  let labels := mapDelete labels "statefulset.kubernetes.io/pod-name"
  let labels := mapSet labels ReplacedLabel "true"
  let labels :=
    if replacePod.ImageName ≠ "" then mapSet labels ImageNameLabel replacePod.ImageName
    else labels
  let annotations := mapSet copiedPod.metadata.annotations MatchedContainerAnnotation pod.container.name
  let annotations := mapSet annotations ParentHashAnnotation parentHash
  let annotations := mapSet annotations ReplaceConfigHashAnnotation configHash
  -- get pod spec from object
  let annotations := mapSet annotations ParentNameAnnotation parent.metadata.name
  let annotations := mapSet annotations ParentKindAnnotation parent.kind.str
  { metadata := { name := name, ns := copiedPod.metadata.ns, labels := labels,
                  annotations := annotations }
    spec := copiedPod.spec }

/-- The first half of the body construction in `replace`: the copy of the pod
with the image replaced and the patches applied. -/
def patchedCopy (env : Env) (pod : SelectedPodContainer) (config : Config)
    (dependencies : List Dependency) (replacePod : ReplacePodSpec) : Except Err Pod :=
  let copiedPod := pod.pod
  -- replace the image name
  let replaced : Except Err Pod :=
    if replacePod.ReplaceImage ≠ "" then
      match replaceImageInPodSpec env copiedPod.spec config dependencies replacePod with
      | .error e => .error e
      | .ok spec => .ok { copiedPod with spec := spec }
    else .ok copiedPod
  match replaced with
  | .error e => .error e
  | .ok copiedPod =>
    -- apply the patches
    wrapExcept "apply pod patches" (applyPodPatches env copiedPod replacePod)

/-- The first part of `replace` (up to the type switch on the parent): the body
of the replacement pod. -/
def replacementBody (env : Env) (pod : SelectedPodContainer) (parent : Controller)
    (config : Config) (dependencies : List Dependency) (replacePod : ReplacePodSpec) :
    Except Err Pod :=
  match wrapExcept "hash parent pod spec"
      (hashParentPodSpec env parent config dependencies replacePod) with
  | .error e => .error e
  | .ok parentHash =>
    match wrapExcept "hash config" (hashConfig env replacePod) with
    | .error e => .error e
    | .ok configHash =>
      match patchedCopy env pod config dependencies replacePod with
      | .error e => .error e
      | .ok copiedPod =>
        .ok (resetMetadata env pod parent replacePod parentHash configHash copiedPod)

/-- The condition polled by `replace` while the original pod terminates. -/
def originalGoneCondition (pod : SelectedPodContainer) (copiedPod : Pod) : M Bool := do
  let r ← attempt (getPod pod.pod.metadata.ns pod.pod.metadata.name)
  match r with
  | .error e => if e = .notFound then pure true else fail e
  | .ok p =>
    -- for non stateful set its enough if the pod is still terminating
    if p.metadata.deletionTimestamp.isSome
        ∧ mapGet copiedPod.metadata.annotations ParentKindAnnotation ≠ "StatefulSet" then
      pure true
    else pure false

/-- Function `replace`: one poll every two seconds for two minutes. -/
def replace (env : Env) (pod : SelectedPodContainer) (parent : Controller) (config : Config)
    (dependencies : List Dependency) (replacePod : ReplacePodSpec) : M Unit := do
  let copiedPod ← liftExcept (replacementBody env pod parent config dependencies replacePod)
  -- scale down parent
  wrapErr "scale down parent" (scaleDownParent parent)
  -- wait until pod is in terminating mode
  wrapErr "wait for original pod to terminate"
    (poll env (originalGoneCondition pod copiedPod) 60)
  -- create the new pod
  wrapErr "create copied pod" (createPod copiedPod)

/-- Whether the replacement pod lacks a usable parent annotation. -/
def lacksParentAnnotations (pod : Pod) : Bool :=
  mapGet pod.metadata.annotations ParentKindAnnotation == ""
    || mapGet pod.metadata.annotations ParentNameAnnotation == ""

/-- Function `updateNeeded`. -/
def updateNeeded (env : Env) (pod : SelectedPodContainer) (config : Config)
    (dependencies : List Dependency) (replacePod : ReplacePodSpec) : M Bool :=
  if lacksParentAnnotations pod.pod then do
    deleteAndWait env pod.pod
    pure true
  else do
    let r ← attempt (getParentFromReplaced pod.pod)
    match r with
    | .error _ => do
      deleteAndWait env pod.pod
      pure true
    | .ok parent => do
      let parentHash ← liftExcept (wrapExcept "hash parent"
        (hashParentPodSpec env parent config dependencies replacePod))
      let configHash ← liftExcept (wrapExcept "hash config" (hashConfig env replacePod))
      -- don't update if pod spec & config hash are the same
      if parentHash = mapGet pod.pod.metadata.annotations ParentHashAnnotation
          ∧ configHash = mapGet pod.pod.metadata.annotations ReplaceConfigHashAnnotation then do
        -- make sure parent is downscaled; an error is only logged
        let _ ← attempt (scaleDownParent parent)
        pure false
      else do
        -- delete replaced pod
        wrapErr "delete replaced pod" (deleteAndWait env pod.pod)
        -- scale up parent
        scaleUpParent parent
        pure true

/-- Method `RevertReplacePod`. -/
def RevertReplacePod (env : Env) (replacePod : ReplacePodSpec) :
    M (Option SelectedPodContainer) := do
  -- try to find a single patched pod
  let found ← wrapErr "find patched pod" (findSingleReplacedPod env replacePod 4)
  match found with
  | none => pure none
  | some selectedPod =>
    if lacksParentAnnotations selectedPod.pod then do
      deleteAndWait env selectedPod.pod
      pure (some selectedPod)
    else do
      let r ← attempt (getParentFromReplaced selectedPod.pod)
      match r with
      | .error _ => do
        deleteAndWait env selectedPod.pod
        pure (some selectedPod)
      | .ok parent => do
        -- delete replaced pod
        wrapErr "delete replaced pod" (deleteAndWait env selectedPod.pod)
        -- scale up parent
        scaleUpParent parent
        pure (some selectedPod)

/-- Method `ReplacePod`. -/
def ReplacePod (env : Env) (config : Config) (dependencies : List Dependency)
    (replacePod : ReplacePodSpec) : M Unit := do
  -- try to find a single patched pod
  let found ← wrapErr "find patched pod" (findSingleReplacedPod env replacePod 2)
  let shouldUpdate ←
    (match found with
     | some selectedPod => updateNeeded env selectedPod config dependencies replacePod
     | none => pure true)
  if shouldUpdate = false then pure ()
  else do
    -- try to find a single patchable object
    let (container, parent) ← findSingleReplaceablePodParent env config dependencies replacePod
    -- replace the pod
    replace env container parent config dependencies replacePod

/-! ## Reasoning about computations -/

/-- Equality of outcomes is decidable. -/
instance instDecidableEqOutcome {α : Type} [DecidableEq α] : DecidableEq (Except Err α) :=
  fun a b =>
    match a, b with
    | .ok x, .ok y => decidable_of_iff (x = y) (by constructor <;> intro h <;> simp_all)
    | .error x, .error y => decidable_of_iff (x = y) (by constructor <;> intro h <;> simp_all)
    | .ok _, .error _ => isFalse (by intro h; cases h)
    | .error _, .ok _ => isFalse (by intro h; cases h)

/-- Every run of `m` relates the world before to the world after. -/
def Pres {α : Type} (R : World → World → Prop) (m : M α) : Prop :=
  ∀ w, R w (m w).2

/-- A preorder on worlds. -/
structure IsPreorder (R : World → World → Prop) : Prop where
  refl : ∀ w, R w w
  trans : ∀ a b c, R a b → R b c → R a c

/-- The relation `R` holds across everything the engine does under the given
permissions: `del` says which pods may be deleted, `cre` which pods may be
created, `pat` which pairs of fetched and modified controller may be patched. -/
structure Allows (env : Env) (R : World → World → Prop) (del : String → String → Prop)
    (cre : Pod → Prop) (pat : Controller → Controller → Prop) : Prop where
  pre : IsPreorder R
  tick : Pres R (tick env)
  read : ∀ c : Call, c.mutating = false → Pres R (request c)
  deletePod : ∀ ns name, del ns name → Pres R (deletePod ns name)
  createPod : ∀ p, cre p → Pres R (createPod p)
  patch : ∀ o t, pat o t →
    Pres R (patchController t.kind t.metadata.ns t.metadata.name (mergeFrom o t))

/-- The patch of `scaleDownParent`: from a fetched object with replicas to its
quiesced form. -/
def QuiescePatch (o t : Controller) : Prop :=
  currentReplicas o ≠ 0 ∧ t = quiesced o

/-- The patch of `scaleUpParent`: from a fetched object with a recorded count to
its restored form. -/
def RestorePatch (o t : Controller) : Prop :=
  ∃ r, atoi (mapGet o.metadata.annotations ReplicasAnnotation) = some r ∧ r ≠ 0 ∧ t = restored o r

/-- The patches the engine issues. -/
def EnginePatch (o t : Controller) : Prop :=
  QuiescePatch o t ∨ RestorePatch o t

/-- The pods `replace` can submit for a spec: the bodies built from some
selected pod and parent. -/
def IsBody (env : Env) (config : Config) (dependencies : List Dependency)
    (replacePod : ReplacePodSpec) (p : Pod) : Prop :=
  ∃ pod parent, replacementBody env pod parent config dependencies replacePod = .ok p

/-- The requests issued between two worlds all satisfy `P`. -/
def Emits (P : Call → Prop) (w w2 : World) : Prop :=
  ∃ t, w2.trace = w.trace ++ t ∧ ∀ c ∈ t, P c

/-- The cluster changed between two worlds only by its own activity. -/
def OnlyReacts (env : Env) (w w2 : World) : Prop :=
  ∃ n : Nat, w2.cluster = env.react^[n] w.cluster

/-- A pod carries the four markers of a parent and a spec: the kind and name
of the parent and the two fingerprints. -/
def StampedFor (env : Env) (config : Config) (dependencies : List Dependency)
    (replacePod : ReplacePodSpec) (parent : Controller) (p : Pod) : Prop :=
  mapLookup p.metadata.annotations ParentKindAnnotation = some parent.kind.str
    ∧ mapGet p.metadata.annotations ParentKindAnnotation ∈ ["ReplicaSet", "Deployment", "StatefulSet"]
    ∧ mapLookup p.metadata.annotations ParentNameAnnotation = some parent.metadata.name
    ∧ (∃ parentHash, hashParentPodSpec env parent config dependencies replacePod = .ok parentHash
        ∧ mapLookup p.metadata.annotations ParentHashAnnotation = some parentHash)
    ∧ (∃ configHash, hashConfig env replacePod = .ok configHash
        ∧ mapLookup p.metadata.annotations ReplaceConfigHashAnnotation = some configHash)

/-- Every pod a request creates is stamped for the given parent. -/
def CreatesStampedFor (env : Env) (config : Config) (dependencies : List Dependency)
    (replacePod : ReplacePodSpec) (parent : Controller) (c : Call) : Prop :=
  ∀ p, c = .createPod p → StampedFor env config dependencies replacePod parent p

/-- Every pod a request creates is stamped for some supported controller. -/
def CreatesStamped (env : Env) (config : Config) (dependencies : List Dependency)
    (replacePod : ReplacePodSpec) (c : Call) : Prop :=
  ∀ p, c = .createPod p → ∃ parent, StampedFor env config dependencies replacePod parent p

/-- The requests issued between two worlds, oldest first. -/
def newCalls (w w2 : World) : List Call :=
  w2.trace.drop w.trace.length

/-- A request that is not the creation of a pod. -/
def NotCreate (c : Call) : Prop :=
  ∀ p, c ≠ .createPod p

/-- The original pod of a selection is absent from the cluster, or, for a parent
that is not a StatefulSet, still there with a deletion timestamp. -/
def OriginalGone (parent : Controller) (pod : SelectedPodContainer) (c : Cluster) : Prop :=
  findPod c pod.pod.metadata.ns pod.pod.metadata.name = none
    ∨ (parent.kind ≠ .StatefulSet
      ∧ ∃ p, findPod c pod.pod.metadata.ns pod.pod.metadata.name = some p
          ∧ p.metadata.deletionTimestamp.isSome = true)

/-- Whether a pod carries the replaced label. -/
def isReplaced (p : Pod) : Bool :=
  mapLookup p.metadata.labels ReplacedLabel == some "true"

/-- The replacement pods of a cluster. -/
def replacedPods (c : Cluster) : List Pod :=
  c.pods.filter isReplaced

/-! ## A small concrete environment -/

/-- Whether a pod carries every label of a selector. -/
def hasLabels (selector : StrMap) (p : Pod) : Bool :=
  selector.all (fun kv => mapLookup p.metadata.labels kv.1 == some kv.2)

/-- Whether a pod is owned by a controller that is scaled to zero. -/
def ownerAtZero (c : Cluster) (p : Pod) : Bool :=
  match GetControllerOf p.metadata with
  | none => false
  | some r => c.controllers.any (fun o =>
      o.kind.str == r.kind && o.metadata.name == r.name && o.metadata.ns == p.metadata.ns
        && o.replicas == some 0)

/-- Whether a controller has a pod of its own. -/
def hasOwnedPod (c : Cluster) (o : Controller) : Bool :=
  c.pods.any (fun p =>
    match GetControllerOf p.metadata with
    | none => false
    | some r => r.kind == o.kind.str && r.name == o.metadata.name && p.metadata.ns == o.metadata.ns)

/-- The pod a controller starts from its template. -/
def podFromTemplate (o : Controller) : Pod :=
  { metadata := { name := o.metadata.name ++ "-0", ns := o.metadata.ns,
                  labels := o.template.labels, annotations := o.template.annotations,
                  uid := "uid-" ++ o.metadata.name, resourceVersion := "1",
                  ownerReferences := [{ apiVersion := "apps/v1", kind := o.kind.str,
                                        name := o.metadata.name, controller := true }] }
    spec := o.template.spec }

/-- The pod of a controller at zero starts terminating, unless it carries the
replaced label. -/
def demoMark (c : Cluster) (p : Pod) : Pod :=
  if ownerAtZero c p && !isReplaced p then
    { p with metadata := { p.metadata with deletionTimestamp := some "now" } }
  else p

/-- A cluster that reconciles in one interval: terminating pods go away, the
pods of a controller at zero start terminating, and a controller above zero
without a pod starts one.  It leaves pods with the replaced label alone. -/
def demoReact (c : Cluster) : Cluster :=
  let alive := c.pods.filter (fun p => p.metadata.deletionTimestamp.isNone)
  let marked := alive.map (demoMark c)
  let started := ((c.controllers.filter (fun o =>
    decide (0 < currentReplicas o) && !hasOwnedPod c o)).map podFromTemplate).filter
      (fun p => !isReplaced p)
  { c with pods := marked ++ started }

/-- The first container of the first pod that is not terminating, is in the
namespace, carries the labels, and, when a name is asked for, has a container
of that name. -/
def demoPick (c : Cluster) (options : TargetOptions) : Except Err (Option SelectedPodContainer) :=
  let candidates := c.pods.filter (fun p =>
    p.metadata.ns == options.ns && p.metadata.deletionTimestamp.isNone
      && hasLabels options.labelSelector p)
  match candidates with
  | [] => .ok none
  | p :: _ =>
    match p.spec.containers.find? (fun k =>
        options.containerName == "" || k.name == options.containerName) with
    | some k => .ok (some { pod := p, container := k })
    | none => .ok none

/-- A concrete environment: the resolver returns the expression itself, there
are no effective patches, the digest is the text itself. -/
def demoEnv : Env :=
  { react := demoReact
    pick := demoPick
    replaceImage := fun expr _ _ => .ok expr
    applyPatches := fun pod _ => .ok pod
    hashString := fun s => s
    yamlMarshal := fun r => .ok (r.ImageName ++ "|" ++ r.ContainerName ++ "|" ++ r.Namespace
      ++ "|" ++ r.ReplaceImage)
    jsonMarshal := fun t => .ok (String.join (t.spec.containers.map (fun k => k.name ++ "=" ++ k.image ++ ";")))
    safeConcatName := fun a b => a ++ "-" ++ b
    strippedName := fun s => some (String.mk (s.data.takeWhile (fun ch => ch != ':')))
    regexMatch := fun _ _ => none }

/-- A StatefulSet `db` with three replicas. -/
def demoSet : Controller :=
  { kind := .StatefulSet
    metadata := { name := "db", ns := "dev" }
    replicas := some 3
    template := { labels := [("app", "db")], spec := { containers := [{ name := "main", image := "postgres" }] } } }

/-- The spec used in the examples: select by label, swap the image. -/
def demoSpec : ReplacePodSpec :=
  { LabelSelector := some [("app", "db")], Namespace := "dev", ReplaceImage := "postgres:dev" }

/-- A cluster with the StatefulSet and one of its pods. -/
def demoCluster : Cluster :=
  { pods := [podFromTemplate demoSet], controllers := [demoSet] }

/-- The world the examples start from. -/
def demoWorld : World := { cluster := demoCluster }

/-- The selection of the examples: the pod of the StatefulSet and its container. -/
def demoSelected : SelectedPodContainer :=
  { pod := podFromTemplate demoSet, container := { name := "main", image := "postgres" } }

/-- The replacement pod built in the examples. -/
def demoBody : Pod :=
  { metadata :=
      { name := "db-0-devspace", ns := "dev"
        labels := [("app", "db"), ("devspace.sh/replaced", "true")]
        annotations := [("devspace.sh/container", "main"),
                        ("devspace.sh/parent-hash", "main=postgres:dev;"),
                        ("devspace.sh/config-hash", "||dev|postgres:dev"),
                        ("devspace.sh/parent-name", "db"),
                        ("devspace.sh/parent-kind", "StatefulSet")] }
    spec := { containers := [{ name := "main", image := "postgres:dev" }] } }

/-- The error of `replaceImageInPodSpec` for several containers and no container name. -/
def ambiguousContainerError : Err :=
  .msg "pod spec has more than 1 containers and containerName is an empty string"

/-- A StatefulSet `web` whose pods have two containers. -/
def demoSet2 : Controller :=
  { kind := .StatefulSet
    metadata := { name := "web", ns := "dev" }
    replicas := some 2
    template := { labels := [("app", "web")]
                  spec := { containers := [{ name := "app", image := "nginx" },
                                           { name := "sidecar", image := "envoy" }] } } }

/-- The world of the two-container examples. -/
def demoWorld2 : World :=
  { cluster := { pods := [podFromTemplate demoSet2], controllers := [demoSet2] } }

/-- A spec that selects by label, names no container and has no
image-replacement expression. -/
def demoSpecPlain : ReplacePodSpec :=
  { LabelSelector := some [("app", "web")], Namespace := "dev" }

/-- The same spec with an image-replacement expression. -/
def demoSpecImage : ReplacePodSpec :=
  { LabelSelector := some [("app", "web")], Namespace := "dev", ReplaceImage := "nginx:dev" }

/-- The selection of the two-container examples. -/
def demoSelected2 : SelectedPodContainer :=
  { pod := podFromTemplate demoSet2, container := { name := "app", image := "nginx" } }

/-- What a list of merge-patch operations does to the entry of one key. -/
def opsEffect (ops : List (String × Option String)) (k : String) (init : Option String) :
    Option String :=
  ops.foldl (fun acc op => if op.1 = k then op.2 else acc) init

/-- What the engine assumes of its environment when it runs alone: the cluster
leaves its controllers as they are, neither starts nor alters replacement pods,
keeps those that are not terminating, the target selector returns a pod of the
cluster that carries the labels it was asked for, and the patch applier keeps
the namespace of the pod. -/
structure EnvFrame (env : Env) : Prop where
  controllers : ∀ c, (env.react c).controllers = c.controllers
  replaced_sub : ∀ c, List.Sublist (replacedPods (env.react c)) (replacedPods c)
  replaced_live : ∀ c p, p ∈ c.pods → isReplaced p = true →
    p.metadata.deletionTimestamp = none → p ∈ (env.react c).pods
  pick_sound : ∀ c options sel, env.pick c options = .ok (some sel) →
    sel.pod ∈ c.pods ∧ hasLabels options.labelSelector sel.pod = true
  patches_ns : ∀ p ps q, env.applyPatches p ps = .ok q → q.metadata.ns = p.metadata.ns

/-- A fault-free world stays fault-free. -/
def FaultFree (w w2 : World) : Prop :=
  w.faults = [] → w2.faults = []

/-- Between two worlds the engine only read: the cluster changed by its own
activity alone, no mutating request was issued, and no fault was added. -/
def Quiet (env : Env) (w w2 : World) : Prop :=
  OnlyReacts env w w2 ∧ Emits (fun c => c.mutating = false) w w2 ∧ FaultFree w w2

/-- The mutating requests issued between two worlds, oldest first. -/
def mutatingCalls (w w2 : World) : List Call :=
  (newCalls w w2).filter Call.mutating

/-- Between two worlds the mutating requests issued are exactly `l`, in order. -/
def Mutates (l : List Call) (w w2 : World) : Prop :=
  ∃ t, w2.trace = w.trace ++ t ∧ t.filter Call.mutating = l

/-- The world of the examples after the lookup of the first `ReplacePod`. -/
def demoWl : World := (findSingleReplacedPod demoEnv demoSpec 2 demoWorld).2

/-- The world of the examples after the selection of the first `ReplacePod`. -/
def demoWs : World := (findSingleReplaceablePodParent demoEnv none [] demoSpec demoWl).2

/-- The world of the examples after the first `ReplacePod`. -/
def demoW1 : World := (replace demoEnv demoSelected demoSet none [] demoSpec demoWs).2

/-- The replacement pod as the selector returns it. -/
def demoFound : SelectedPodContainer :=
  { pod := demoBody, container := { name := "main", image := "postgres:dev" } }

/-- The controllers are the same in both worlds. -/
def KeepsControllers (w w2 : World) : Prop :=
  w2.cluster.controllers = w.cluster.controllers

/-- The spec of the examples with another image-replacement expression. -/
def demoSpec2 : ReplacePodSpec :=
  { demoSpec with ReplaceImage := "postgres:next" }

/-- One call of the engine. -/
inductive Op where
  | replacePod (config : Config) (dependencies : List Dependency) (replacePod : ReplacePodSpec)
  | revertReplacePod (replacePod : ReplacePodSpec)

/-- The world after one call; the call may have failed. -/
def runOp (env : Env) (op : Op) (w : World) : World :=
  match op with
  | .replacePod config dependencies replacePod =>
    (ReplacePod env config dependencies replacePod w).2
  | .revertReplacePod replacePod => (RevertReplacePod env replacePod w).2

/-- The world after a sequence of calls, one after the other. -/
def runOps (env : Env) (ops : List Op) (w : World) : World :=
  ops.foldl (fun acc op => runOp env op acc) w

/-- A sequence of calls for the examples: replace, replace again, revert. -/
def demoOps : List Op :=
  [.replacePod none [] demoSpec, .replacePod none [] demoSpec2, .revertReplacePod demoSpec]

/-- The world of the examples with a schedule that makes the ninth request, the
create of the first `ReplacePod`, fail. -/
def demoFaultyWorld : World :=
  { demoWorld with faults := [false, false, false, false, false, false, false, false, true] }

/-- The world of the examples after the first `ReplacePod`, with a schedule
that makes the fifth request, the restore patch of a revert, fail. -/
def demoW1Faulty : World :=
  { demoW1 with faults := [false, false, false, false, true] }

/-- The StatefulSet of the examples when it is quiesced. -/
def demoSetQuiesced : Controller :=
  { demoSet with
    metadata := { demoSet.metadata with annotations := [("devspace.sh/replicas", "3")] }
    replicas := some 0 }

/-- The world left by a `RevertReplacePod` whose delete request failed. -/
def demoWa : World :=
  (RevertReplacePod demoEnv demoSpec { demoW1 with faults := [false, false, true] }).2

/-- The world left by a `RevertReplacePod` whose restore patch failed. -/
def demoWb : World := (RevertReplacePod demoEnv demoSpec demoW1Faulty).2

/-- The world left by a `ReplacePod` whose create failed. -/
def demoWc : World := (ReplacePod demoEnv none [] demoSpec demoFaultyWorld).2

/-- Whether a pod is in the namespace of a selection criteria and carries its
labels. -/
def matchesCriteria (ls : StrMap) (ns : String) (p : Pod) : Bool :=
  p.metadata.ns == ns && hasLabels ls p

/-- The pods of a cluster that match a selection criteria. -/
def matchingPods (ls : StrMap) (ns : String) (c : Cluster) : List Pod :=
  c.pods.filter (matchesCriteria ls ns)

/-- The lookup criteria of the spec of the examples. -/
def demoCriteria : StrMap := [("devspace.sh/replaced", "true"), ("app", "db")]

/-! ## Fingerprints and the order of map entries -/

/-- Two Go maps with the same entries, whatever the order of insertion. -/
def SameEntries (m1 m2 : StrMap) : Prop :=
  ∀ k, mapLookup m1 k = mapLookup m2 k

/-- Two pod templates that are equal as values: the same entries in their maps
and the same pod spec. -/
def SameTemplate (t1 t2 : PodTemplateSpec) : Prop :=
  SameEntries t1.labels t2.labels ∧ SameEntries t1.annotations t2.annotations ∧ t1.spec = t2.spec

/-- Two object metadata that are equal as values. -/
def SameMeta (m1 m2 : ObjectMeta) : Prop :=
  m1.name = m2.name ∧ m1.ns = m2.ns ∧ SameEntries m1.labels m2.labels
    ∧ SameEntries m1.annotations m2.annotations ∧ m1.uid = m2.uid
    ∧ m1.resourceVersion = m2.resourceVersion ∧ m1.ownerReferences = m2.ownerReferences
    ∧ m1.deletionTimestamp = m2.deletionTimestamp

/-- Two controllers that are equal as values. -/
def SameObject (o1 o2 : Controller) : Prop :=
  o1.kind = o2.kind ∧ SameMeta o1.metadata o2.metadata ∧ o1.replicas = o2.replicas
    ∧ SameTemplate o1.template o2.template

/-- Two label selectors that are equal as values: both nil, or both maps with
the same entries. -/
def SameSelector : Option StrMap → Option StrMap → Prop
  | none, none => True
  | some a, some b => SameEntries a b
  | _, _ => False

/-- Two replacement specs that are equal as values. -/
def SameSpec (r1 r2 : ReplacePodSpec) : Prop :=
  r1.ImageName = r2.ImageName ∧ SameSelector r1.LabelSelector r2.LabelSelector
    ∧ r1.ContainerName = r2.ContainerName ∧ r1.Namespace = r2.Namespace
    ∧ r1.ReplaceImage = r2.ReplaceImage ∧ r1.Patches = r2.Patches

/-- The two serialisers write the entries of a map in an order that does not
depend on the order of insertion (`encoding/json` and `yaml` sort the keys of a
map): values with the same entries have the same text. -/
structure CanonicalMarshal (env : Env) : Prop where
  json : ∀ t1 t2, SameTemplate t1 t2 → env.jsonMarshal t1 = env.jsonMarshal t2
  yaml : ∀ r1 r2, SameSpec r1 r2 → env.yamlMarshal r1 = env.yamlMarshal r2

/-- The two objects `hashParentPodSpec` has in hand: the object of the caller
and the deep copy it takes. -/
structure HashMemory where
  obj : Controller
  cloned : Controller
  deriving DecidableEq, Repr

/-- Function `hashParentPodSpec` together with the objects it leaves behind:
`cloned := obj.DeepCopyObject()`, the pod template it works on is the one of the
copy (`&t.Spec.Template`), and `replaceImageInPodSpec` writes through that
pointer. -/
def hashParentPodSpecRun (env : Env) (obj : Controller) (config : Config)
    (dependencies : List Dependency) (replacePod : ReplacePodSpec) :
    Except Err String × HashMemory :=
  let mem : HashMemory := { obj := obj, cloned := obj }
  -- replace the image name
  if replacePod.ReplaceImage ≠ "" then
    match replaceImageInPodSpec env mem.cloned.template.spec config dependencies replacePod with
    | .error e => (.error e, mem)
    | .ok spec =>
      let mem : HashMemory :=
        { mem with cloned := { mem.cloned with template := { mem.cloned.template with spec := spec } } }
      match env.jsonMarshal mem.cloned.template with
      | .error e => (.error e, mem)
      | .ok out => (.ok (env.hashString out), mem)
  else
    match env.jsonMarshal mem.cloned.template with
    | .error e => (.error e, mem)
    | .ok out => (.ok (env.hashString out), mem)

/-- The concrete environment with serialisers that read maps by key: the
template is written with its `app` label and `team` annotation, the spec with
the `app` entry of its label selector. -/
def demoEnvCanon : Env :=
  { demoEnv with
    yamlMarshal := fun r => .ok (r.ImageName ++ "|" ++ r.ContainerName ++ "|" ++ r.Namespace
      ++ "|" ++ r.ReplaceImage ++ "|" ++ toString r.LabelSelector.isSome ++ "|"
      ++ mapGet (r.LabelSelector.getD []) "app" ++ "|"
      ++ String.join (r.Patches.map (fun p => p.op ++ p.path ++ p.value)))
    jsonMarshal := fun t => .ok (mapGet t.labels "app" ++ "/" ++ mapGet t.annotations "team" ++ "/"
      ++ String.join (t.spec.containers.map (fun k => k.name ++ "=" ++ k.image ++ ";"))) }

/-- The StatefulSet of the examples with two labels on its template. -/
def demoSetAB : Controller :=
  { demoSet with template := { demoSet.template with labels := [("app", "db"), ("tier", "data")] } }

/-- The same StatefulSet with the two labels inserted in the other order. -/
def demoSetBA : Controller :=
  { demoSet with template := { demoSet.template with labels := [("tier", "data"), ("app", "db")] } }

/-- The spec of the examples with two entries in its label selector. -/
def demoSpecAB : ReplacePodSpec :=
  { demoSpec with LabelSelector := some [("app", "db"), ("tier", "data")] }

/-- The same spec with the two entries inserted in the other order. -/
def demoSpecBA : ReplacePodSpec :=
  { demoSpec with LabelSelector := some [("tier", "data"), ("app", "db")] }

/-! ## Ownership chains for the examples -/

/-- The error of `getParent` for a pod without controller owner reference. -/
def noOwnerError : Err :=
  .msg "pod was not created by a ReplicaSet, Deployment or StatefulSet, patching only works if pod was created by one of those resources"

/-- The controller owner reference to an object of group `apps/v1`. -/
def demoOwner (kind owner : String) : OwnerReference :=
  { apiVersion := "apps/v1", kind := kind, name := owner, controller := true }

/-- The controller owner reference of the ReplicaSet `roll-7c`. -/
def demoRolloutOwner : OwnerReference :=
  { apiVersion := "argoproj.io/v1alpha1", kind := "Rollout", name := "roll", controller := true }

/-- A Deployment `api`. -/
def demoDeployment : Controller :=
  { kind := .Deployment
    metadata := { name := "api", ns := "dev" }
    replicas := some 2
    template := { labels := [("app", "api")], spec := { containers := [{ name := "api", image := "api:1" }] } } }

/-- The ReplicaSet `api-5d` of the Deployment `api`. -/
def demoReplicaSet : Controller :=
  { kind := .ReplicaSet
    metadata := { name := "api-5d", ns := "dev"
                  ownerReferences := [demoOwner "Deployment" "api"] }
    replicas := some 2
    template := demoDeployment.template }

/-- A ReplicaSet `solo` without owner. -/
def demoBareReplicaSet : Controller :=
  { kind := .ReplicaSet
    metadata := { name := "solo", ns := "dev" }
    replicas := some 1
    template := { labels := [("app", "solo")], spec := { containers := [{ name := "solo", image := "solo:1" }] } } }

/-- A ReplicaSet `roll-7c` whose controller owner is an object of another kind,
a `Rollout`. -/
def demoOwnedReplicaSet : Controller :=
  { kind := .ReplicaSet
    metadata := { name := "roll-7c", ns := "dev"
                  ownerReferences := [demoRolloutOwner] }
    replicas := some 1
    template := { labels := [("app", "roll")], spec := { containers := [{ name := "roll", image := "roll:1" }] } } }

/-- A pod with the given name and controller owner reference. -/
def demoOwnedPod (name kind owner : String) : Pod :=
  { metadata := { name := name, ns := "dev", ownerReferences := [demoOwner kind owner] }
    spec := { containers := [{ name := "main", image := "img" }] } }

/-- A pod without owner reference. -/
def demoOrphanPod : Pod :=
  { metadata := { name := "orphan", ns := "dev" }
    spec := { containers := [{ name := "main", image := "img" }] } }

/-- A world with the controllers of the examples and no faults. -/
def demoChainWorld : World :=
  { cluster := { pods := [], controllers :=
      [demoSet, demoDeployment, demoReplicaSet, demoBareReplicaSet, demoOwnedReplicaSet] } }

/-! ## The identity of the replacement body -/

/-- A pod body without resource identity: empty UID, empty resource version, no
owner references, no deletion timestamp; its metadata is nothing but a name, a
namespace, labels and annotations. -/
def FreshIdentity (p : Pod) : Prop :=
  p.metadata.uid = "" ∧ p.metadata.resourceVersion = "" ∧ p.metadata.ownerReferences = []
    ∧ p.metadata.deletionTimestamp = none
    ∧ p.metadata = { name := p.metadata.name, ns := p.metadata.ns, labels := p.metadata.labels,
                     annotations := p.metadata.annotations }

/-- Every pod a request creates is without resource identity. -/
def CreatesFresh (c : Call) : Prop :=
  ∀ p, c = .createPod p → FreshIdentity p

/-- The error of `findSingleReplacedPod` for a spec without selection criteria. -/
def noCriteriaError : Err :=
  .msg "imageName or labelSelector need to be defined"

/-- A spec with an empty, non-nil label selector and no image name. -/
def demoSpecEmptyMap : ReplacePodSpec :=
  { LabelSelector := some [], Namespace := "dev", ReplaceImage := "postgres:dev" }

/-! ## The effect of the two patches -/

/-- The request of `scaleDownParent` for a fetched object. -/
def quiescePatchCall (obj : Controller) : Call :=
  .patchController obj.kind obj.metadata.ns obj.metadata.name (mergeFrom obj (quiesced obj))

/-- The request of `scaleUpParent` for a fetched object and the count it
recorded. -/
def restorePatchCall (parent : Controller) (oldReplica : Int) : Call :=
  .patchController parent.kind parent.metadata.ns parent.metadata.name
    (mergeFrom parent (restored parent oldReplica))

/-- Two controllers that differ at most in their replica count and in the
entry of their annotations under the replicas annotation. -/
def SameButReplicas (o s : Controller) : Prop :=
  (∀ k, k ≠ ReplicasAnnotation →
      mapLookup s.metadata.annotations k = mapLookup o.metadata.annotations k)
    ∧ s.kind = o.kind ∧ s.template = o.template ∧ s.metadata.name = o.metadata.name
    ∧ s.metadata.ns = o.metadata.ns ∧ s.metadata.labels = o.metadata.labels
    ∧ s.metadata.uid = o.metadata.uid ∧ s.metadata.resourceVersion = o.metadata.resourceVersion
    ∧ s.metadata.ownerReferences = o.metadata.ownerReferences
    ∧ s.metadata.deletionTimestamp = o.metadata.deletionTimestamp

/-- The keys of a Go map are distinct. -/
def DistinctKeys (m : StrMap) : Prop :=
  (m.map Prod.fst).Nodup

instance (m : StrMap) : Decidable (DistinctKeys m) := by unfold DistinctKeys; infer_instance

/-- A Deployment `shop` with labels and annotations of its own and no replica
count set. -/
def demoShop : Controller :=
  { kind := .Deployment
    metadata := { name := "shop", ns := "dev", labels := [("app", "shop")],
                  annotations := [("team", "blue"), ("note", "keep")], uid := "u1",
                  resourceVersion := "7" }
    replicas := none
    template := { labels := [("app", "shop")], spec := { containers := [{ name := "shop", image := "shop:1" }] } } }

/-- A world with the Deployment `shop` and the StatefulSet `db`. -/
def demoShopWorld : World :=
  { cluster := { pods := [], controllers := [demoSet, demoShop] } }

/-- The StatefulSet of the examples with the count 0 under the replicas
annotation. -/
def demoSetZero : Controller :=
  { demoSet with
    metadata := { demoSet.metadata with annotations := [("devspace.sh/replicas", "0")] }
    replicas := some 0 }

/-- The StatefulSet of the examples with a text that is no number under the
replicas annotation. -/
def demoSetGarbled : Controller :=
  { demoSet with
    metadata := { demoSet.metadata with annotations := [("devspace.sh/replicas", "three")] }
    replicas := some 0 }

/-- The StatefulSet of the examples with the number `2^63`, one above the largest
`int`, under the replicas annotation. -/
def demoSetHuge : Controller :=
  { demoSet with
    metadata := { demoSet.metadata with
      annotations := [("devspace.sh/replicas", "9223372036854775808")] }
    replicas := some 0 }

/-- The Deployment `shop` when it is quiesced from five replicas. -/
def demoShopQuiesced : Controller :=
  { demoShop with
    metadata := { demoShop.metadata with
      annotations := [("team", "blue"), ("devspace.sh/replicas", "5"), ("note", "keep")] }
    replicas := some 0 }

/-- A world with the quiesced Deployment `shop` and the StatefulSet `db`. -/
def demoShopQuiescedWorld : World :=
  { cluster := { pods := [], controllers := [demoSet, demoShopQuiesced] } }

/-! ## Image-based matching in the examples -/

/-- A configuration with one image, `app`, built as `nginx`. -/
def demoImageConfig : Config :=
  some { rawConfig := none
         parsedConfig := some { Images := [("app", { Image := "nginx" })] }
         generatedConfig := some {}
         resolvedVariables := none }

/-- A spec that selects by image name, names no container and swaps the image. -/
def demoImageSpec : ReplacePodSpec :=
  { ImageName := "app", Namespace := "dev", ReplaceImage := "nginx:dev" }

/-- The selector the image `app` resolves to. -/
def demoImageSelector : ImageSelector :=
  { ConfigImageName := "app", Image := "nginx" }

/-- A pod spec with two containers that both run the image. -/
def demoTwoMatches : PodSpec :=
  { containers := [{ name := "a", image := "nginx" }, { name := "b", image := "nginx:1.2" }] }

/-- A pod spec with two containers of which none runs the image. -/
def demoNoMatch : PodSpec :=
  { containers := [{ name := "a", image := "redis" }, { name := "b", image := "envoy" }] }

/-- A pod spec with two containers of which the second runs the image. -/
def demoOneMatch : PodSpec :=
  { containers := [{ name := "a", image := "redis" }, { name := "b", image := "nginx:1.2" }] }

/-! ## Failed requests -/

/-- Whether an error is the transient error of a failed request, bare or
wrapped with step names. -/
def Err.isFault : Err → Bool
  | .transient => true
  | .wrap _ e => e.isFault
  | _ => false

/-- The requests among `calls` that the fault schedule made fail: the schedule
is consumed one entry per request, an exhausted schedule lets requests through. -/
def failedCalls : List Call → List Bool → List Call
  | [], _ => []
  | _ :: _, [] => []
  | c :: cs, b :: bs => if b then c :: failedCalls cs bs else failedCalls cs bs

/-- The requests that failed between two worlds of one run. -/
def failedBetween (w w2 : World) : List Call :=
  failedCalls (newCalls w w2) w.faults

/-- Between two worlds requests were appended to the trace, each of which
consumed one entry of the fault schedule. -/
def Tracked (w w2 : World) : Prop :=
  ∃ t, w2.trace = w.trace ++ t ∧ w2.faults = w.faults.drop t.length

/-- A computation that hides no failed request outside `P`: its requests are
tracked, and a run in which a request not in `P` failed returns an error, the
error of a failed request. -/
def Careful {α : Type} (P : Call → Prop) (m : M α) : Prop :=
  Pres Tracked m
    ∧ ∀ w, (∃ c ∈ failedBetween w (m w).2, ¬ P c) → ∃ e, (m w).1 = .error e ∧ e.isFault = true

/-- A request that fetches a controller. -/
def Call.isControllerGet : Call → Prop
  | .getController _ _ _ => True
  | _ => False

/-- A request that is the quiescing patch of some controller with replicas. -/
def Call.isQuiescePatch (c : Call) : Prop :=
  ∃ o, currentReplicas o ≠ 0 ∧ c = .patchController o.kind o.metadata.ns o.metadata.name
    (mergeFrom o (quiesced o))

/-- The failed requests `updateNeeded` can hide: the fetch of the parent and the
quiescing patch. -/
def Call.isHidden (c : Call) : Prop :=
  c.isControllerGet ∨ c.isQuiescePatch

/-- The world of the examples after the first `ReplacePod`, with a schedule
that makes the second request, the fetch of the parent, fail. -/
def demoW1GetFaulty : World :=
  { demoW1 with faults := [false, true] }

/-- A world with the replacement pod of the examples and its StatefulSet scaled
up again, with a schedule that makes the third request fail. -/
def demoScaledUpFaulty : World :=
  { cluster := { pods := demoW1.cluster.pods, controllers := [demoSet] }
    faults := [false, false, true] }

/-- The pod spec with two matching containers after the image swap: the first
container has the new image. -/
def demoTwoMatchesSwapped : PodSpec :=
  { containers := [{ name := "a", image := "nginx:dev" }, { name := "b", image := "nginx:1.2" }] }

/-! ## The labels and annotations of the replacement body -/

/-- The labels the controller machinery puts on its pods, which `replace`
deletes. -/
def controllerLabels : List String :=
  ["pod-template-hash", "controller-revision-hash", "statefulset.kubernetes.io/pod-name"]

/-- The annotations `replace` stamps on the body. -/
def stampedAnnotations : List String :=
  [ MatchedContainerAnnotation, ParentHashAnnotation, ReplaceConfigHashAnnotation,
    ParentNameAnnotation, ParentKindAnnotation]

/-- Every pod a request creates is the body built for the selected pod and
parent. -/
def CreatesBodyOf (env : Env) (pod : SelectedPodContainer) (parent : Controller)
    (config : Config) (dependencies : List Dependency) (replacePod : ReplacePodSpec)
    (c : Call) : Prop :=
  ∀ p, c = .createPod p → replacementBody env pod parent config dependencies replacePod = .ok p

/-- A spec that selects by image name and has no image-replacement expression. -/
def demoRelabelSpec : ReplacePodSpec :=
  { ImageName := "app", Namespace := "dev" }

/-- A pod of the StatefulSet of the examples that carries an image-name label of
an earlier replacement and a label of the controller machinery. -/
def demoLabelledSelected : SelectedPodContainer :=
  { pod := { (podFromTemplate demoSet) with
      metadata := { (podFromTemplate demoSet).metadata with
        labels := [("app", "db"), ("devspace.sh/image-name", "old"),
                   ("controller-revision-hash", "db-7f")]
        annotations := [("note", "keep")] } }
    container := { name := "main", image := "postgres" } }

/-- The body `replace` builds for the labelled pod of the examples. -/
def demoRelabelBody : Pod :=
  resetMetadata demoEnv demoLabelledSelected demoSet demoRelabelSpec "main=postgres;" "app||dev|"
    demoLabelledSelected.pod

/-- The concrete environment with a cluster that never acts: a pod that is
being deleted stays. -/
def demoEnvStuck : Env := { demoEnv with react := fun c => c }

/-- A pod that is not in the cluster of the examples. -/
def demoGhostPod : Pod :=
  { metadata := { name := "ghost", ns := "dev" }
    spec := { containers := [{ name := "main", image := "img" }] } }

/-! ## The order of the requests -/

/-- The requests of one `replace` on a pod and its parent, in order: at most one
request that scales the parent to zero, then polls of the original pod, then at
most one create. -/
def ReplaceSteps (pod : SelectedPodContainer) (parent : Controller) (t : List Call) : Prop :=
  ∃ down polls cre, t = down ++ polls ++ cre
    ∧ (down = [] ∨ down = [quiescePatchCall parent])
    ∧ (∀ c ∈ polls, c = .getPod pod.pod.metadata.ns pod.pod.metadata.name)
    ∧ (cre = [] ∨ ∃ body, cre = [.createPod body])

/-- The requests of one `deleteAndWait` followed by the restore of the parent,
in order: the delete, polls of the pod, the restore patch. -/
def RevertSteps (pod : Pod) (parent : Controller) (oldReplica : Int) (t : List Call) : Prop :=
  ∃ polls, t = .deletePod pod.metadata.ns pod.metadata.name :: polls
      ++ [restorePatchCall parent oldReplica]
    ∧ ∀ c ∈ polls, c = .getPod pod.metadata.ns pod.metadata.name

/-- A world with the replacement pod of the examples and its StatefulSet scaled
up again, without the replicas annotation. -/
def demoScaledUp : World :=
  { cluster := { pods := demoW1.cluster.pods, controllers := [demoSet] } }

/-- The requests of a computation end in the requests of a `replace`, if any,
and before them no pod is created. -/
def EndsInReplace {α : Type} (m : M α) : Prop :=
  ∀ w, ∃ pre t, (m w).2.trace = w.trace ++ (pre ++ t) ∧ (∀ c ∈ pre, NotCreate c)
    ∧ (t = [] ∨ ∃ pod parent, ReplaceSteps pod parent t)

/-! ## Resolving an image name -/

/-- The condition under which `Resolve` looks the image name up at all: the name
is not empty and the config, its generated config and its parsed config are not
nil. -/
def ResolveGuard (configImageName : String) (config : Config) : Prop :=
  configImageName ≠ "" ∧ ∃ cfg generated c, config = some cfg
    ∧ cfg.generatedConfig = some generated ∧ cfg.parsedConfig = some c

/-- What `Resolve` returns after the recursive call into a dependency. -/
def afterDependency (configImageName : String) (dep : Dependency) :
    Except Err (List ImageSelector) → Except Err (List ImageSelector)
  | .error e => .error e
  | .ok [sel] =>
    .ok [{ sel with
           Dependency := match sel.Dependency with
             | none => some dep.name
             | some d => some d
           ConfigImageName := configImageName }]
  | .ok imageSelector => .ok imageSelector

/-- Function `ResolveSingle`. -/
def ResolveSingle (configImageName : String) (config : Config) (dependencies : List Dependency) :
    Except Err ImageSelector :=
  match Resolve configImageName config dependencies with
  | .error e => .error e
  | .ok [] => .error (.msg ("imageName " ++ configImageName ++ " not found"))
  | .ok [sel] => .ok sel
  | .ok _ => .error (.msg "unexpected amount of image selectors")

/-- A configuration without images. -/
def demoEmptyConfig : Config :=
  some { rawConfig := none, parsedConfig := some {}, generatedConfig := some {},
         resolvedVariables := none }

/-- A dependency `base` whose config is nil. -/
def demoNilDependency : Dependency := .mk "base" none []

/-- A dependency `lib` with the image `app`. -/
def demoLibDependency : Dependency := .mk "lib" demoImageConfig []

/-- The image name is an entry of the images of the parsed config. -/
def DefinedImage (configImageName : String) (config : Config) : Prop :=
  ∃ cfg c img, config = some cfg ∧ cfg.parsedConfig = some c
    ∧ c.Images.lookup configImageName = some img

/-- The error of the fuel bound of `ResolveAux`. -/
def fuelError : Err := .msg "image name exhausted"

/-! ## Completing a config (`pkg/devspace/config/config.go`) -/

/-- Function `NewConfig`. -/
def NewConfig (raw : Option (List (String × String))) (parsed : Option ParsedConfig)
    (generatedConfig : Option GeneratedConfig)
    (resolvedVariables : Option (List (String × String))) : ConfigData :=
  { rawConfig := raw, parsedConfig := parsed, generatedConfig := generatedConfig,
    resolvedVariables := resolvedVariables }

/-- Method `Raw`. -/
def ConfigData.Raw (c : ConfigData) : Option (List (String × String)) := c.rawConfig

/-- Method `Config`. -/
def ConfigData.Config (c : ConfigData) : Option ParsedConfig := c.parsedConfig

/-- Method `Generated`. -/
def ConfigData.Generated (c : ConfigData) : Option GeneratedConfig := c.generatedConfig

/-- Method `Variables`. -/
def ConfigData.Variables (c : ConfigData) : Option (List (String × String)) :=
  c.resolvedVariables

/-- Function `Ensure`; the constructors `latest.NewRaw()` and `generated.New()`
are in packages outside the sources, their results are the parameters `newRaw`
and `newGenerated`.  The value returned is never nil. -/
def Ensure (newRaw : ParsedConfig) (newGenerated : GeneratedConfig) (config : Config) :
    ConfigData :=
  let retConfig : ConfigData :=
    match config with
    | none => NewConfig none none none none
    | some c => c
  let retConfig :=
    if retConfig.Raw = none then
      NewConfig (some []) retConfig.Config retConfig.Generated retConfig.Variables
    else retConfig
  let retConfig :=
    if retConfig.Config = none then
      NewConfig retConfig.Raw (some newRaw) retConfig.Generated retConfig.Variables
    else retConfig
  let retConfig :=
    if retConfig.Generated = none then
      NewConfig retConfig.Raw retConfig.Config (some newGenerated) retConfig.Variables
    else retConfig
  let retConfig :=
    if retConfig.Variables = none then
      NewConfig retConfig.Raw retConfig.Config retConfig.Generated (some [])
    else retConfig
  retConfig

/-- A config with a parsed config and variables, and neither raw nor generated
config. -/
def demoPartialConfig : ConfigData :=
  { rawConfig := none
    parsedConfig := some { Images := [("app", { Image := "nginx" })] }
    generatedConfig := none
    resolvedVariables := some [("stage", "dev")] }

/-! ## A selector on a label that `replace` removes -/

/-- Whether the lookup of a criteria (labels, namespace, container name) can
return a pod: the pod is in the namespace, is not terminating, carries the
labels, and has a container of the name asked for (any container when no name
is asked for). -/
def isCandidate (ls : StrMap) (ns cn : String) (p : Pod) : Bool :=
  p.metadata.ns == ns && p.metadata.deletionTimestamp.isNone && hasLabels ls p
    && p.spec.containers.any (fun k => cn == "" || k.name == cn)

/-- The pods of a cluster the lookup of a criteria can return. -/
def candidates (ls : StrMap) (ns cn : String) (c : Cluster) : List Pod :=
  c.pods.filter (isCandidate ls ns cn)

/-- The target selector with the strategy the engine gives it, which waits
until a pod is not terminating: a pod it returns is in the namespace, is not
terminating, carries the labels and has the container asked for; and when no
image is asked for, as in the lookup of a replacement pod, it finds nothing only
when the cluster has no such pod. -/
structure PickLive (env : Env) : Prop where
  none_found : ∀ c options, options.imageSelector = [] →
    (env.pick c options = .ok none ∨ env.pick c options = .error .selectNotFound) →
    candidates options.labelSelector options.ns options.containerName c = []
  candidate : ∀ c options sel, env.pick c options = .ok (some sel) →
    isCandidate options.labelSelector options.ns options.containerName sel.pod = true

/-- The criteria of the lookup of a call: the label selector of the lookup, the
namespace and the container name of its spec. -/
def Op.usesLookup (ls : StrMap) (ns cn : String) : Op → Prop
  | .replacePod _ _ spec =>
    replacedLabelSelector spec = some ls ∧ spec.Namespace = ns ∧ spec.ContainerName = cn
  | .revertReplacePod spec =>
    replacedLabelSelector spec = some ls ∧ spec.Namespace = ns ∧ spec.ContainerName = cn

/-- Between two worlds no pod that the lookup can return was added: every such
pod of the later world has the namespace and name of one of the earlier world,
and there are no more of them. -/
def NoNewCandidate (ls : StrMap) (ns cn : String) (w w2 : World) : Prop :=
  (∀ p ∈ candidates ls ns cn w2.cluster, ∃ q ∈ candidates ls ns cn w.cluster,
      q.metadata.ns = p.metadata.ns ∧ q.metadata.name = p.metadata.name)
    ∧ (candidates ls ns cn w2.cluster).length ≤ (candidates ls ns cn w.cluster).length

/-- A selector that waits until a pod is not terminating: the first pod the
lookup can return, with its first container of the name asked for. -/
def demoPickLive (c : Cluster) (options : TargetOptions) :
    Except Err (Option SelectedPodContainer) :=
  match candidates options.labelSelector options.ns options.containerName c with
  | [] => .ok none
  | p :: _ =>
    match p.spec.containers.find? (fun k =>
        options.containerName == "" || k.name == options.containerName) with
    | some k => .ok (some { pod := p, container := k })
    | none => .ok none

/-- A cluster like `demoReact` in which a terminating pod with the replaced
label lingers (a finalizer, or a grace period longer than the waits of the
engine): terminating pods without the label go away, the pods of a controller at
zero start terminating, and a controller above zero without a pod starts one. -/
def demoReactLinger (c : Cluster) : Cluster :=
  let alive := c.pods.filter (fun p => p.metadata.deletionTimestamp.isNone || isReplaced p)
  let marked := alive.map (demoMark c)
  let started := ((c.controllers.filter (fun o =>
    decide (0 < currentReplicas o) && !hasOwnedPod c o)).map podFromTemplate).filter
      (fun p => !isReplaced p)
  { c with pods := marked ++ started }

/-- The concrete environment with that selector and that cluster. -/
def demoEnvLinger : Env := { demoEnv with react := demoReactLinger, pick := demoPickLive }

/-- A second StatefulSet, `cache`, whose pods carry the same label `app=db`. -/
def demoSetCache : Controller :=
  { demoSet with metadata := { name := "cache", ns := "dev" }, replicas := some 1 }

/-- A world with the two StatefulSets and one pod of each. -/
def demoTwoSetsWorld : World :=
  { cluster := { pods := [podFromTemplate demoSet, podFromTemplate demoSetCache],
                 controllers := [demoSet, demoSetCache] } }

/-- Three calls with the spec of the examples: replace, revert, replace. -/
def demoOpsRetry : List Op :=
  [.replacePod none [] demoSpec, .revertReplacePod demoSpec, .replacePod none [] demoSpec]

/-! ## The controllers along the requests of a run -/

/-- Whether a fault schedule makes the next request fail. -/
def nextFails (faults : List Bool) : Bool :=
  match faults with
  | true :: _ => true
  | _ => false

/-- The controllers after one request: only a patch that does not fail changes
them. -/
def stepControllers (failed : Bool) (c : Call) (cs : List Controller) : List Controller :=
  match c with
  | .patchController kind ns name patch =>
    if failed then cs else cs.map (patchIn kind ns name patch)
  | _ => cs

/-- The controllers after a list of requests, the first of which meets the head
of the fault schedule. -/
def replayControllers : List Bool → List Call → List Controller → List Controller
  | _, [], cs => cs
  | faults, c :: t, cs =>
    replayControllers faults.tail t (stepControllers (nextFails faults) c cs)

/-- What one request does to the record kept for the controller of a kind,
namespace and name: a patch on that controller that takes effect and sets its
replicas to zero records the replica count the controller had before; any other
patch on it that takes effect clears the record; every other request leaves the
record as it is. -/
def stepQuiesced (kind : Kind) (ns name : String) (failed : Bool) (c : Call)
    (cs : List Controller) (g : Option Int) : Option Int :=
  match c with
  | .patchController k2 ns2 name2 patch =>
    if failed = false ∧ k2 = kind ∧ ns2 = ns ∧ name2 = name then
      match cs.find? (isController kind ns name) with
      | none => g
      | some s => if patch.replicas = some 0 then some (currentReplicas s) else none
    else g
  | _ => g

/-- The record for a controller after a list of requests. -/
def replayQuiesced (kind : Kind) (ns name : String) :
    List Bool → List Call → List Controller → Option Int → Option Int
  | _, [], _, g => g
  | faults, c :: t, cs, g =>
    replayQuiesced kind ns name faults.tail t (stepControllers (nextFails faults) c cs)
      (stepQuiesced kind ns name (nextFails faults) c cs g)

/-- What the requests issued between two worlds did to the controller of a kind,
namespace and name: `some n` when the last patch that took effect on it scaled
it to zero, from the replica count `n`; `none` when no patch took effect on it,
or the last one that did restored it. -/
def quiescedCount (kind : Kind) (ns name : String) (w w2 : World) : Option Int :=
  replayQuiesced kind ns name w.faults (newCalls w w2) w.cluster.controllers none

/-- A request that, if it is a patch that takes effect, is the quiesce patch or
the restore patch computed from the controller as it is stored. -/
def EnginePatchOn (cs : List Controller) (failed : Bool) (c : Call) : Prop :=
  ∀ kind ns name patch, c = .patchController kind ns name patch → failed = false →
    ∀ s, cs.find? (isController kind ns name) = some s →
      ∃ t, EnginePatch s t ∧ patch = mergeFrom s t

/-- Every patch of a list of requests that takes effect is a quiesce patch or a
restore patch computed from the controller as it is stored at that moment. -/
def Faithful : List Bool → List Call → List Controller → Prop
  | _, [], _ => True
  | faults, c :: t, cs =>
    EnginePatchOn cs (nextFails faults) c
      ∧ Faithful faults.tail t (stepControllers (nextFails faults) c cs)

/-- Between two worlds the controllers changed by the patches that took effect
alone, each request consumed one entry of the fault schedule, and every patch
was computed from the stored controller. -/
def Replays (w w2 : World) : Prop :=
  ∃ t, w2.trace = w.trace ++ t ∧ w2.faults = w.faults.drop t.length
    ∧ w2.cluster.controllers = replayControllers w.faults t w.cluster.controllers
    ∧ Faithful w.faults t w.cluster.controllers

/-- The fetched controller is the one stored under its kind, namespace and name. -/
def Stored (o : Controller) (w : World) : Prop :=
  findController w.cluster o.kind o.metadata.ns o.metadata.name = some o

/-- A computation that, started in a world with `P`, relates the world before to
the world after by `R` and, when it returns a value, returns it in a world with
`Q`. -/
def Hoare {α : Type} (R : World → World → Prop) (P : World → Prop) (m : M α)
    (Q : α → World → Prop) : Prop :=
  ∀ w, P w → R w (m w).2 ∧ ∀ a, (m w).1 = .ok a → Q a (m w).2

/-- The record for a controller agrees with the stored controller: the replicas
annotation is the decimal text of the recorded count, and a controller with a
record has zero replicas and a recorded count other than zero. -/
def KeyInv (kind : Kind) (ns name : String) (cs : List Controller) (g : Option Int) : Prop :=
  ∀ o, cs.find? (isController kind ns name) = some o →
    mapLookup o.metadata.annotations ReplicasAnnotation = g.map itoa
      ∧ ∀ n, g = some n → n ≠ 0 ∧ o.replicas = some 0

/-! # Properties -/

theorem bind_apply {α β : Type} (m : M α) (f : α → M β) (w : World) :
    (m >>= f) w = match m w with
      | (.ok a, w1) => f a w1
      | (.error e, w1) => (.error e, w1) := rfl

theorem pure_apply {α : Type} (a : α) (w : World) : (pure a : M α) w = (.ok a, w) := rfl

theorem bind_ok_inv {α β : Type} {m : M α} {f : α → M β} {w w2 : World} {b : β}
    (h : (m >>= f) w = (.ok b, w2)) :
    ∃ a w1, m w = (.ok a, w1) ∧ f a w1 = (.ok b, w2) := by
  rw [bind_apply] at h
  rcases hm : m w with ⟨r, w1⟩
  rw [hm] at h
  cases r with
  | error e => simp at h
  | ok a => exact ⟨a, w1, rfl, h⟩

theorem bind_of_ok {α β : Type} {m : M α} {f : α → M β} {w w1 : World} {a : α}
    (h : m w = (.ok a, w1)) : (m >>= f) w = f a w1 := by
  rw [bind_apply, h]

theorem bind_of_error {α β : Type} {m : M α} {f : α → M β} {w w1 : World} {e : Err}
    (h : m w = (.error e, w1)) : (m >>= f) w = (.error e, w1) := by
  rw [bind_apply, h]

theorem pres_pure {α : Type} {R : World → World → Prop} (hR : IsPreorder R) (a : α) :
    Pres R (pure a : M α) := fun w => hR.refl w

theorem pres_fail {α : Type} {R : World → World → Prop} (hR : IsPreorder R) (e : Err) :
    Pres R (fail e : M α) := fun w => hR.refl w

theorem pres_liftExcept {α : Type} {R : World → World → Prop} (hR : IsPreorder R)
    (r : Except Err α) : Pres R (liftExcept r) := fun w => hR.refl w

theorem pres_getCluster {R : World → World → Prop} (hR : IsPreorder R) :
    Pres R getCluster := fun w => hR.refl w

theorem pres_bind {α β : Type} {R : World → World → Prop} (hR : IsPreorder R)
    {m : M α} {f : α → M β} (hm : Pres R m) (hf : ∀ a, Pres R (f a)) :
    Pres R (m >>= f) := by
  intro w
  rw [bind_apply]
  have h1 := hm w
  rcases hmw : m w with ⟨r, w1⟩
  rw [hmw] at h1
  cases r with
  | error e => exact h1
  | ok a => exact hR.trans _ _ _ h1 (hf a w1)

theorem pres_attempt {α : Type} {R : World → World → Prop} {m : M α} (hm : Pres R m) :
    Pres R (attempt m) := by
  intro w
  have h1 := hm w
  unfold attempt
  rcases hmw : m w with ⟨r, w1⟩
  rw [hmw] at h1
  exact h1

theorem pres_wrapErr {α : Type} {R : World → World → Prop} {m : M α} (step : String)
    (hm : Pres R m) : Pres R (wrapErr step m) := by
  intro w
  have h1 := hm w
  unfold wrapErr
  rcases hmw : m w with ⟨r, w1⟩
  rw [hmw] at h1
  cases r <;> exact h1

theorem pres_poll {R : World → World → Prop} (hR : IsPreorder R) (env : Env)
    {condition : M Bool} (ht : Pres R (tick env)) (hc : Pres R condition) (n : Nat) :
    Pres R (poll env condition n) := by
  induction n with
  | zero => exact pres_fail hR _
  | succ k ih =>
    unfold poll
    refine pres_bind hR ht (fun _ => pres_bind hR hc (fun done => ?_))
    cases done
    · exact ih
    · exact pres_pure hR ()

section Engine

variable {env : Env} {R : World → World → Prop} {del : String → String → Prop}
  {cre : Pod → Prop} {pat : Controller → Controller → Prop}

theorem pres_getPod (A : Allows env R del cre pat) (ns name : String) :
    Pres R (getPod ns name) := by
  unfold getPod
  refine pres_bind A.pre (A.read _ rfl) (fun _ => pres_bind A.pre (pres_getCluster A.pre) (fun c => ?_))
  cases findPod c ns name
  · exact pres_fail A.pre _
  · exact pres_pure A.pre _

theorem pres_getController (A : Allows env R del cre pat) (kind : Kind) (ns name : String) :
    Pres R (getController kind ns name) := by
  unfold getController
  refine pres_bind A.pre (A.read _ rfl) (fun _ => pres_bind A.pre (pres_getCluster A.pre) (fun c => ?_))
  cases findController c kind ns name
  · exact pres_fail A.pre _
  · exact pres_pure A.pre _

theorem pres_selectLoop (A : Allows env R del cre pat) (options : TargetOptions) (n : Nat) :
    Pres R (selectLoop env options n) := by
  induction n with
  | zero => exact pres_fail A.pre _
  | succ k ih =>
    unfold selectLoop
    refine pres_bind A.pre (A.read _ rfl) (fun _ => pres_bind A.pre (pres_getCluster A.pre) (fun c => ?_))
    rcases env.pick c options with e | (_ | sel)
    · exact pres_fail A.pre _
    · exact pres_bind A.pre A.tick (fun _ => ih)
    · exact pres_pure A.pre _

theorem pres_findSingleReplacedPod (A : Allows env R del cre pat) (replacePod : ReplacePodSpec)
    (timeout : Nat) : Pres R (findSingleReplacedPod env replacePod timeout) := by
  unfold findSingleReplacedPod
  cases replacedLabelSelector replacePod with
  | none => exact pres_fail A.pre _
  | some ls =>
    refine pres_bind A.pre (pres_attempt (pres_selectLoop A _ _)) (fun r => ?_)
    cases r with
    | error e =>
      dsimp only
      split
      · exact pres_pure A.pre _
      · exact pres_fail A.pre _
    | ok sel => exact pres_pure A.pre _

theorem pres_getParentFromReplaced (A : Allows env R del cre pat) (pod : Pod) :
    Pres R (getParentFromReplaced pod) := by
  unfold getParentFromReplaced
  dsimp only
  split
  · exact pres_getController A _ _ _
  · split
    · exact pres_getController A _ _ _
    · split
      · exact pres_getController A _ _ _
      · exact pres_fail A.pre _

theorem pres_getParent (A : Allows env R del cre pat) (pod : Pod) :
    Pres R (getParent pod) := by
  unfold getParent
  cases GetControllerOf pod.metadata with
  | none => exact pres_fail A.pre _
  | some controller =>
    dsimp only
    split
    · refine pres_bind A.pre (pres_attempt (pres_getController A _ _ _)) (fun r => ?_)
      cases r with
      | error e => dsimp only; split <;> exact pres_fail A.pre _
      | ok replicaSet =>
        dsimp only
        cases GetControllerOf replicaSet.metadata with
        | none => exact pres_pure A.pre _
        | some owner =>
          dsimp only
          split
          · refine pres_bind A.pre (pres_attempt (pres_getController A _ _ _)) (fun r => ?_)
            cases r with
            | error e => dsimp only; split <;> exact pres_fail A.pre _
            | ok d => exact pres_pure A.pre _
          · exact pres_fail A.pre _
    · split
      · refine pres_bind A.pre (pres_attempt (pres_getController A _ _ _)) (fun r => ?_)
        cases r with
        | error e => dsimp only; split <;> exact pres_fail A.pre _
        | ok d => exact pres_pure A.pre _
      · exact pres_fail A.pre _

theorem pres_findSingleReplaceablePodParent (A : Allows env R del cre pat) (config : Config)
    (dependencies : List Dependency) (replacePod : ReplacePodSpec) :
    Pres R (findSingleReplaceablePodParent env config dependencies replacePod) := by
  unfold findSingleReplaceablePodParent
  refine pres_bind A.pre (pres_liftExcept A.pre _) (fun sel => ?_)
  refine pres_bind A.pre (pres_selectLoop A _ _) (fun container => ?_)
  refine pres_bind A.pre (pres_wrapErr _ (pres_getParent A _)) (fun parent => ?_)
  exact pres_pure A.pre _

theorem pres_deletedCondition (A : Allows env R del cre pat) (pod : Pod) :
    Pres R (deletedCondition pod) := by
  unfold deletedCondition
  refine pres_bind A.pre (pres_attempt (pres_getPod A _ _)) (fun r => ?_)
  cases r with
  | error e => dsimp only; split
               · exact pres_pure A.pre _
               · exact pres_fail A.pre _
  | ok p => exact pres_pure A.pre _

theorem pres_deleteAndWait (A : Allows env R del cre pat) (pod : Pod)
    (hd : del pod.metadata.ns pod.metadata.name) : Pres R (deleteAndWait env pod) := by
  unfold deleteAndWait
  refine pres_bind A.pre (pres_attempt (A.deletePod _ _ hd)) (fun r => ?_)
  cases r with
  | error e => dsimp only; split
               · exact pres_pure A.pre _
               · exact pres_fail A.pre _
  | ok u => exact pres_poll A.pre env A.tick (pres_deletedCondition A pod) _

theorem pres_scaleDownParent (A : Allows env R del cre pat) (obj : Controller)
    (hp : ∀ o t, QuiescePatch o t → pat o t) : Pres R (scaleDownParent obj) := by
  unfold scaleDownParent
  dsimp only
  split
  · exact pres_pure A.pre _
  · rename_i h
    exact A.patch obj (quiesced obj) (hp _ _ ⟨h, rfl⟩)

theorem pres_scaleUpParent (A : Allows env R del cre pat) (parent : Controller)
    (hp : ∀ o t, RestorePatch o t → pat o t) : Pres R (scaleUpParent parent) := by
  unfold scaleUpParent
  dsimp only
  split
  · exact pres_pure A.pre _
  · cases hr : Atoi (mapGet parent.metadata.annotations ReplicasAnnotation) with
    | error e => exact pres_fail A.pre _
    | ok r =>
      dsimp only
      split
      · exact pres_pure A.pre _
      · rename_i h0
        have ha : atoi (mapGet parent.metadata.annotations ReplicasAnnotation) = some r := by
          unfold atoi
          rw [hr]
        exact pres_wrapErr _ (A.patch parent (restored parent r) (hp _ _ ⟨r, ha, h0, rfl⟩))

theorem pres_originalGoneCondition (A : Allows env R del cre pat) (pod : SelectedPodContainer)
    (copiedPod : Pod) : Pres R (originalGoneCondition pod copiedPod) := by
  unfold originalGoneCondition
  refine pres_bind A.pre (pres_attempt (pres_getPod A _ _)) (fun r => ?_)
  cases r with
  | error e => dsimp only; split
               · exact pres_pure A.pre _
               · exact pres_fail A.pre _
  | ok p => dsimp only; split <;> exact pres_pure A.pre _

theorem pres_replace (A : Allows env R del cre pat) (pod : SelectedPodContainer)
    (parent : Controller) (config : Config) (dependencies : List Dependency)
    (replacePod : ReplacePodSpec)
    (hp : ∀ o t, QuiescePatch o t → pat o t)
    (hc : ∀ body, replacementBody env pod parent config dependencies replacePod = .ok body →
      cre body) :
    Pres R (replace env pod parent config dependencies replacePod) := by
  unfold replace
  cases hb : replacementBody env pod parent config dependencies replacePod with
  | error e => exact fun w => A.pre.refl w
  | ok body =>
    intro w
    have h1 : (liftExcept (Except.ok body : Except Err Pod) >>= fun copiedPod => do
        wrapErr "scale down parent" (scaleDownParent parent)
        wrapErr "wait for original pod to terminate"
          (poll env (originalGoneCondition pod copiedPod) 60)
        wrapErr "create copied pod" (createPod copiedPod)) w
      = (do
        wrapErr "scale down parent" (scaleDownParent parent)
        wrapErr "wait for original pod to terminate"
          (poll env (originalGoneCondition pod body) 60)
        wrapErr "create copied pod" (createPod body) : M Unit) w := rfl
    rw [h1]
    refine pres_bind A.pre (pres_wrapErr _ (pres_scaleDownParent A parent hp)) (fun _ => ?_) w
    refine pres_bind A.pre (pres_wrapErr _ (pres_poll A.pre env A.tick
      (pres_originalGoneCondition A pod body) _)) (fun _ => ?_)
    exact pres_wrapErr _ (A.createPod body (hc body hb))

theorem pres_updateNeeded (A : Allows env R del cre pat) (pod : SelectedPodContainer)
    (config : Config) (dependencies : List Dependency) (replacePod : ReplacePodSpec)
    (hd : del pod.pod.metadata.ns pod.pod.metadata.name)
    (hp : ∀ o t, EnginePatch o t → pat o t) :
    Pres R (updateNeeded env pod config dependencies replacePod) := by
  unfold updateNeeded
  split
  · exact pres_bind A.pre (pres_deleteAndWait A _ hd) (fun _ => pres_pure A.pre _)
  · refine pres_bind A.pre (pres_attempt (pres_getParentFromReplaced A _)) (fun r => ?_)
    cases r with
    | error e => exact pres_bind A.pre (pres_deleteAndWait A _ hd) (fun _ => pres_pure A.pre _)
    | ok parent =>
      dsimp only
      refine pres_bind A.pre (pres_liftExcept A.pre _) (fun parentHash => ?_)
      refine pres_bind A.pre (pres_liftExcept A.pre _) (fun configHash => ?_)
      split
      · exact pres_bind A.pre (pres_attempt (pres_scaleDownParent A parent
          (fun o t h => hp o t (Or.inl h)))) (fun _ => pres_pure A.pre _)
      · refine pres_bind A.pre (pres_wrapErr _ (pres_deleteAndWait A _ hd)) (fun _ => ?_)
        exact pres_bind A.pre (pres_scaleUpParent A parent (fun o t h => hp o t (Or.inr h)))
          (fun _ => pres_pure A.pre _)

theorem pres_RevertReplacePod (A : Allows env R del cre pat) (replacePod : ReplacePodSpec)
    (hd : ∀ ns name, del ns name)
    (hp : ∀ o t, RestorePatch o t → pat o t) :
    Pres R (RevertReplacePod env replacePod) := by
  unfold RevertReplacePod
  refine pres_bind A.pre (pres_wrapErr _ (pres_findSingleReplacedPod A _ _)) (fun found => ?_)
  cases found with
  | none => exact pres_pure A.pre _
  | some sel =>
    dsimp only
    split
    · exact pres_bind A.pre (pres_deleteAndWait A _ (hd _ _)) (fun _ => pres_pure A.pre _)
    · refine pres_bind A.pre (pres_attempt (pres_getParentFromReplaced A _)) (fun r => ?_)
      cases r with
      | error e =>
        exact pres_bind A.pre (pres_deleteAndWait A _ (hd _ _)) (fun _ => pres_pure A.pre _)
      | ok parent =>
        dsimp only
        refine pres_bind A.pre (pres_wrapErr _ (pres_deleteAndWait A _ (hd _ _))) (fun _ => ?_)
        exact pres_bind A.pre (pres_scaleUpParent A parent hp) (fun _ => pres_pure A.pre _)

theorem pres_ReplacePod (A : Allows env R del cre pat) (config : Config)
    (dependencies : List Dependency) (replacePod : ReplacePodSpec)
    (hd : ∀ ns name, del ns name)
    (hp : ∀ o t, EnginePatch o t → pat o t)
    (hc : ∀ body, IsBody env config dependencies replacePod body → cre body) :
    Pres R (ReplacePod env config dependencies replacePod) := by
  unfold ReplacePod
  refine pres_bind A.pre (pres_wrapErr _ (pres_findSingleReplacedPod A _ _)) (fun found => ?_)
  have hproceed : Pres R (match found with
      | some selectedPod => updateNeeded env selectedPod config dependencies replacePod
      | none => (pure true : M Bool)) := by
    cases found with
    | none => exact pres_pure A.pre _
    | some sel => exact pres_updateNeeded A sel config dependencies replacePod (hd _ _) hp
  refine pres_bind A.pre hproceed (fun proceed => ?_)
  split
  · exact pres_pure A.pre _
  · refine pres_bind A.pre (pres_findSingleReplaceablePodParent A _ _ _) (fun cp => ?_)
    exact pres_replace A cp.1 cp.2 config dependencies replacePod
      (fun o t h => hp o t (Or.inl h)) (fun body hb => hc body ⟨cp.1, cp.2, hb⟩)

end Engine

/-! ## Which requests a computation issues -/

theorem emits_isPreorder (P : Call → Prop) : IsPreorder (Emits P) where
  refl := fun w => ⟨[], by simp, by simp⟩
  trans := by
    rintro a b c ⟨t1, h1, p1⟩ ⟨t2, h2, p2⟩
    refine ⟨t1 ++ t2, by rw [h2, h1, List.append_assoc], ?_⟩
    intro x hx
    rcases List.mem_append.mp hx with h | h
    · exact p1 x h
    · exact p2 x h

theorem emits_request (P : Call → Prop) (c : Call) (h : P c) : Pres (Emits P) (request c) := by
  intro w
  refine ⟨[c], ?_, by simpa using h⟩
  unfold request
  cases w.faulty <;> rfl

theorem emits_setCluster (P : Call → Prop) (c : Cluster) : Pres (Emits P) (setCluster c) :=
  fun w => ⟨[], by simp [setCluster], by simp⟩

theorem emits_deletePod (P : Call → Prop) (ns name : String) (h : P (.deletePod ns name)) :
    Pres (Emits P) (deletePod ns name) := by
  have hR := emits_isPreorder P
  unfold deletePod
  refine pres_bind hR (emits_request P _ h) (fun _ => pres_bind hR (pres_getCluster hR) (fun c => ?_))
  cases findPod c ns name
  · exact pres_fail hR _
  · exact emits_setCluster P _

theorem emits_createPod (P : Call → Prop) (pod : Pod) (h : P (.createPod pod)) :
    Pres (Emits P) (createPod pod) := by
  have hR := emits_isPreorder P
  unfold createPod
  refine pres_bind hR (emits_request P _ h) (fun _ => pres_bind hR (pres_getCluster hR) (fun c => ?_))
  cases findPod c pod.metadata.ns pod.metadata.name
  · exact emits_setCluster P _
  · exact pres_fail hR _

theorem emits_patchController (P : Call → Prop) (kind : Kind) (ns name : String) (patch : Patch)
    (h : P (.patchController kind ns name patch)) :
    Pres (Emits P) (patchController kind ns name patch) := by
  have hR := emits_isPreorder P
  unfold patchController
  refine pres_bind hR (emits_request P _ h) (fun _ => pres_bind hR (pres_getCluster hR) (fun c => ?_))
  cases findController c kind ns name
  · exact pres_fail hR _
  · exact emits_setCluster P _

/-- The engine issues only requests in `P` when `P` holds the reading requests
and the mutating requests it is permitted. -/
theorem allows_emits (env : Env) (P : Call → Prop) (hread : ∀ c : Call, c.mutating = false → P c) :
    Allows env (Emits P) (fun ns name => P (.deletePod ns name)) (fun p => P (.createPod p))
      (fun o t => P (.patchController t.kind t.metadata.ns t.metadata.name (mergeFrom o t))) where
  pre := emits_isPreorder P
  tick := fun w => ⟨[], by simp [tick], by simp⟩
  read := fun c hc => emits_request P c (hread c hc)
  deletePod := fun ns name h => emits_deletePod P ns name h
  createPod := fun p h => emits_createPod P p h
  patch := fun _ t h => emits_patchController P _ _ _ _ h

theorem onlyReacts_isPreorder (env : Env) : IsPreorder (OnlyReacts env) where
  refl := fun w => ⟨0, rfl⟩
  trans := by
    rintro a b c ⟨n, h1⟩ ⟨k, h2⟩
    exact ⟨k + n, by rw [h2, h1, Function.iterate_add_apply]⟩

/-- Reading requests and the passing of time change the cluster only by its own
activity. -/
theorem allows_onlyReacts (env : Env) :
    Allows env (OnlyReacts env) (fun _ _ => False) (fun _ => False) (fun _ _ => False) where
  pre := onlyReacts_isPreorder env
  tick := fun w => ⟨1, rfl⟩
  read := by
    intro c _ w
    refine ⟨0, ?_⟩
    unfold request
    cases w.faulty <;> rfl
  deletePod := fun _ _ h => h.elim
  createPod := fun _ h => h.elim
  patch := fun _ _ h => h.elim

/-! ## C8: reverting when there is no replacement -/

theorem revert_of_not_found (env : Env) (replacePod : ReplacePodSpec) (w w1 : World)
    (h : findSingleReplacedPod env replacePod 4 w = (.ok none, w1)) :
    RevertReplacePod env replacePod w = (.ok none, w1) := by
  unfold RevertReplacePod
  have h1 : wrapErr "find patched pod" (findSingleReplacedPod env replacePod 4) w
      = (.ok none, w1) := by
    simp [wrapErr, h]
  rw [bind_of_ok h1]
  rfl

/-- C8: when the lookup of `RevertReplacePod` finds no replaced pod, the call
returns success without a pod, every request it issued is a reading one (no
delete, create or patch), and the cluster changed only by its own activity
while the lookup waited. -/
theorem revert_missing_replacement (env : Env) (replacePod : ReplacePodSpec) (w : World)
    (h : (findSingleReplacedPod env replacePod 4 w).1 = .ok none) :
    (RevertReplacePod env replacePod w).1 = .ok none
      ∧ Emits (fun c => c.mutating = false) w (RevertReplacePod env replacePod w).2
      ∧ OnlyReacts env w (RevertReplacePod env replacePod w).2 := by
  have h1 : findSingleReplacedPod env replacePod 4 w
      = (.ok none, (findSingleReplacedPod env replacePod 4 w).2) := by
    rw [← h]
  rw [revert_of_not_found env replacePod w _ h1]
  refine ⟨rfl, ?_, ?_⟩
  · exact pres_findSingleReplacedPod
      (allows_emits env (fun c => c.mutating = false) (fun _ hc => hc)) replacePod 4 w
  · exact pres_findSingleReplacedPod (allows_onlyReacts env) replacePod 4 w

theorem revert_missing_replacement_witness :
    (findSingleReplacedPod demoEnv demoSpec 4 demoWorld).1 = .ok none
      ∧ (RevertReplacePod demoEnv demoSpec demoWorld).1 = .ok none
      ∧ Emits (fun c => c.mutating = false) demoWorld (RevertReplacePod demoEnv demoSpec demoWorld).2
      ∧ OnlyReacts demoEnv demoWorld (RevertReplacePod demoEnv demoSpec demoWorld).2 :=
  ⟨by decide!, revert_missing_replacement demoEnv demoSpec demoWorld (by decide!)⟩

/-! ## Maps -/

theorem mapLookup_nil (k : String) : mapLookup [] k = none := rfl

theorem mapLookup_cons (kv : String × String) (m : StrMap) (k : String) :
    mapLookup (kv :: m) k = if kv.1 = k then some kv.2 else mapLookup m k := rfl

theorem mapLookup_mapDelete_self (m : StrMap) (k : String) :
    mapLookup (mapDelete m k) k = none := by
  induction m with
  | nil => rfl
  | cons kv m ih =>
    unfold mapDelete
    by_cases h : kv.1 = k
    · simpa [h] using ih
    · simp [h, mapLookup_cons, ih]

theorem mapLookup_mapDelete_ne (m : StrMap) (k k2 : String) (hne : k2 ≠ k) :
    mapLookup (mapDelete m k) k2 = mapLookup m k2 := by
  induction m with
  | nil => rfl
  | cons kv m ih =>
    unfold mapDelete
    by_cases h : kv.1 = k
    · have h2 : ¬ kv.1 = k2 := fun e => hne (e ▸ h)
      have h3 : ¬ k = k2 := fun e => hne e.symm
      simp [h, mapLookup_cons, ih, h3]
    · simp [h, mapLookup_cons, ih]

theorem mapLookup_append (m1 m2 : StrMap) (k : String) :
    mapLookup (m1 ++ m2) k = (mapLookup m1 k).orElse (fun _ => mapLookup m2 k) := by
  induction m1 with
  | nil => rfl
  | cons kv m ih =>
    rw [List.cons_append, mapLookup_cons, mapLookup_cons]
    by_cases h : kv.1 = k
    · simp [h]
    · simp [h, ih]

theorem mapLookup_mapSet_self (m : StrMap) (k v : String) :
    mapLookup (mapSet m k v) k = some v := by
  unfold mapSet
  rw [mapLookup_append, mapLookup_mapDelete_self]
  simp [mapLookup_cons, mapLookup_nil]

theorem mapLookup_mapSet_ne (m : StrMap) (k v k2 : String) (hne : k2 ≠ k) :
    mapLookup (mapSet m k v) k2 = mapLookup m k2 := by
  unfold mapSet
  rw [mapLookup_append, mapLookup_mapDelete_ne m k k2 hne]
  have h : ¬ k = k2 := fun e => hne e.symm
  cases mapLookup m k2 <;> simp [mapLookup_cons, mapLookup_nil, h]

theorem mapGet_mapSet_self (m : StrMap) (k v : String) : mapGet (mapSet m k v) k = v := by
  unfold mapGet
  rw [mapLookup_mapSet_self]
  rfl

theorem mapGet_mapSet_ne (m : StrMap) (k v k2 : String) (hne : k2 ≠ k) :
    mapGet (mapSet m k v) k2 = mapGet m k2 := by
  unfold mapGet
  rw [mapLookup_mapSet_ne m k v k2 hne]

/-! ## The body of the replacement pod -/

theorem wrapExcept_ok_inv {α : Type} {step : String} {r : Except Err α} {a : α}
    (h : wrapExcept step r = .ok a) : r = .ok a := by
  cases r with
  | error e => simp [wrapExcept] at h
  | ok b => simpa [wrapExcept] using h

theorem replacementBody_ok_inv {env : Env} {pod : SelectedPodContainer} {parent : Controller}
    {config : Config} {dependencies : List Dependency} {replacePod : ReplacePodSpec} {body : Pod}
    (h : replacementBody env pod parent config dependencies replacePod = .ok body) :
    ∃ parentHash configHash copiedPod,
      hashParentPodSpec env parent config dependencies replacePod = .ok parentHash
      ∧ hashConfig env replacePod = .ok configHash
      ∧ patchedCopy env pod config dependencies replacePod = .ok copiedPod
      ∧ body = resetMetadata env pod parent replacePod parentHash configHash copiedPod := by
  unfold replacementBody at h
  cases h1 : wrapExcept "hash parent pod spec"
      (hashParentPodSpec env parent config dependencies replacePod) with
  | error e => rw [h1] at h; simp at h
  | ok parentHash =>
    rw [h1] at h
    cases h2 : wrapExcept "hash config" (hashConfig env replacePod) with
    | error e => rw [h2] at h; simp at h
    | ok configHash =>
      rw [h2] at h
      cases h3 : patchedCopy env pod config dependencies replacePod with
      | error e => rw [h3] at h; simp at h
      | ok copiedPod =>
        rw [h3] at h
        refine ⟨parentHash, configHash, copiedPod, wrapExcept_ok_inv h1, wrapExcept_ok_inv h2,
          rfl, ?_⟩
        simpa using h.symm

theorem resetMetadata_markers (env : Env) (pod : SelectedPodContainer) (parent : Controller)
    (replacePod : ReplacePodSpec) (parentHash configHash : String) (copiedPod : Pod) :
    let body := resetMetadata env pod parent replacePod parentHash configHash copiedPod
    mapLookup body.metadata.annotations ParentKindAnnotation = some parent.kind.str
      ∧ mapLookup body.metadata.annotations ParentNameAnnotation = some parent.metadata.name
      ∧ mapLookup body.metadata.annotations ParentHashAnnotation = some parentHash
      ∧ mapLookup body.metadata.annotations ReplaceConfigHashAnnotation = some configHash := by
  simp only [resetMetadata]
  refine ⟨mapLookup_mapSet_self _ _ _, ?_, ?_, ?_⟩
  · rw [mapLookup_mapSet_ne _ _ _ _ (by decide), mapLookup_mapSet_self]
  · rw [mapLookup_mapSet_ne _ _ _ _ (by decide), mapLookup_mapSet_ne _ _ _ _ (by decide),
      mapLookup_mapSet_ne _ _ _ _ (by decide), mapLookup_mapSet_self]
  · rw [mapLookup_mapSet_ne _ _ _ _ (by decide), mapLookup_mapSet_ne _ _ _ _ (by decide),
      mapLookup_mapSet_self]

theorem stampedFor_of_body {env : Env} {pod : SelectedPodContainer} {parent : Controller}
    {config : Config} {dependencies : List Dependency} {replacePod : ReplacePodSpec} {body : Pod}
    (h : replacementBody env pod parent config dependencies replacePod = .ok body) :
    StampedFor env config dependencies replacePod parent body := by
  obtain ⟨parentHash, configHash, copiedPod, h1, h2, _, rfl⟩ := replacementBody_ok_inv h
  obtain ⟨m1, m2, m3, m4⟩ :=
    resetMetadata_markers env pod parent replacePod parentHash configHash copiedPod
  refine ⟨m1, ?_, m2, ⟨parentHash, h1, m3⟩, ⟨configHash, h2, m4⟩⟩
  unfold mapGet
  rw [m1]
  cases parent.kind <;> simp [Kind.str]

/-! ## C7: the markers of a created pod -/

/-- C7: every pod that `replace` submits for creation carries the four
annotations parent-kind, parent-name, parent-hash and config-hash together:
the kind is one of the three supported kinds and is the parent's, the name is
the parent's name, the hashes are the two fingerprints computed for the spec;
and every pod that `ReplacePod` creates is stamped so for some controller.  No
assumption is made on the annotations of the source pod or on the patches. -/
theorem created_pod_has_all_markers (env : Env) (config : Config)
    (dependencies : List Dependency) (replacePod : ReplacePodSpec) :
    (∀ (pod : SelectedPodContainer) (parent : Controller) (w : World),
        Emits (CreatesStampedFor env config dependencies replacePod parent) w
          (replace env pod parent config dependencies replacePod w).2)
      ∧ (∀ w : World, Emits (CreatesStamped env config dependencies replacePod) w
          (ReplacePod env config dependencies replacePod w).2) := by
  constructor
  · intro pod parent w
    refine pres_replace (allows_emits env _ ?_) pod parent config dependencies replacePod ?_ ?_ w
    · intro c hc p hp
      subst hp
      simp [Call.mutating] at hc
    · intro o t _ p hp
      cases hp
    · intro body hb p hp
      cases hp
      exact stampedFor_of_body hb
  · intro w
    refine pres_ReplacePod (allows_emits env _ ?_) config dependencies replacePod ?_ ?_ ?_ w
    · intro c hc p hp
      subst hp
      simp [Call.mutating] at hc
    · intro ns name p hp
      cases hp
    · intro o t _ p hp
      cases hp
    · rintro body ⟨pod, parent, hb⟩ p hp
      cases hp
      exact ⟨parent, stampedFor_of_body hb⟩

/-! ## The requests, in closed form -/

theorem getPod_apply (ns name : String) (w : World) :
    getPod ns name w =
      if w.faulty then (.error .transient, w.next (.getPod ns name))
      else match findPod w.cluster ns name with
        | some p => (.ok p, w.next (.getPod ns name))
        | none => (.error .notFound, w.next (.getPod ns name)) := by
  unfold getPod
  rw [bind_apply]
  unfold request
  cases hf : w.faulty
  · simp only [Bool.false_eq_true, ↓reduceIte, bind_apply, getCluster]
    have hc : (w.next (.getPod ns name)).cluster = w.cluster := rfl
    rw [hc]
    cases findPod w.cluster ns name <;> rfl
  · rfl

theorem getController_apply (kind : Kind) (ns name : String) (w : World) :
    getController kind ns name w =
      if w.faulty then (.error .transient, w.next (.getController kind ns name))
      else match findController w.cluster kind ns name with
        | some o => (.ok o, w.next (.getController kind ns name))
        | none => (.error .notFound, w.next (.getController kind ns name)) := by
  unfold getController
  rw [bind_apply]
  unfold request
  cases hf : w.faulty
  · simp only [Bool.false_eq_true, ↓reduceIte, bind_apply, getCluster]
    have hc : (w.next (.getController kind ns name)).cluster = w.cluster := rfl
    rw [hc]
    cases findController w.cluster kind ns name <;> rfl
  · rfl

theorem originalGoneCondition_true {pod : SelectedPodContainer} {copiedPod : Pod} {w w1 : World}
    (h : originalGoneCondition pod copiedPod w = (.ok true, w1)) :
    w1.cluster = w.cluster
      ∧ (findPod w.cluster pod.pod.metadata.ns pod.pod.metadata.name = none
        ∨ ∃ p, findPod w.cluster pod.pod.metadata.ns pod.pod.metadata.name = some p
            ∧ p.metadata.deletionTimestamp.isSome = true
            ∧ mapGet copiedPod.metadata.annotations ParentKindAnnotation ≠ "StatefulSet") := by
  unfold originalGoneCondition at h
  rw [bind_apply] at h
  unfold attempt at h
  rw [getPod_apply] at h
  cases hf : w.faulty
  · rw [hf] at h
    simp only [Bool.false_eq_true, ↓reduceIte] at h
    cases hp : findPod w.cluster pod.pod.metadata.ns pod.pod.metadata.name with
    | none =>
      rw [hp] at h
      simp only [↓reduceIte, pure_apply, Prod.mk.injEq, true_and] at h
      exact ⟨by rw [← h]; rfl, Or.inl rfl⟩
    | some p =>
      rw [hp] at h
      simp only at h
      split at h
      · rename_i hc
        simp only [pure_apply, Prod.mk.injEq, true_and] at h
        exact ⟨by rw [← h]; rfl, Or.inr ⟨p, rfl, hc.1, hc.2⟩⟩
      · simp [pure_apply] at h
  · rw [hf] at h
    simp [fail] at h

theorem newCalls_of_emits {P : Call → Prop} {w w2 : World} (h : Emits P w w2) :
    ∀ c ∈ newCalls w w2, P c := by
  obtain ⟨t, ht, hp⟩ := h
  unfold newCalls
  rw [ht, List.drop_left]
  exact hp

theorem poll_ok_inv {env : Env} {condition : M Bool} {n : Nat} {w w1 : World}
    (h : poll env condition n w = (.ok (), w1)) :
    ∃ w0, condition w0 = (.ok true, w1) := by
  induction n generalizing w with
  | zero => simp [poll, fail] at h
  | succ k ih =>
    unfold poll at h
    rw [bind_apply] at h
    simp only [tick] at h
    rw [bind_apply] at h
    rcases hc : condition { w with cluster := env.react w.cluster } with ⟨r, w2⟩
    rw [hc] at h
    cases r with
    | error e => simp at h
    | ok done =>
      cases done with
      | true =>
        simp only [↓reduceIte, pure_apply, Prod.mk.injEq, true_and] at h
        exact ⟨_, by rw [hc, h]⟩
      | false =>
        simp only [Bool.false_eq_true, ↓reduceIte] at h
        exact ih h

theorem wrapErr_ok_inv {α : Type} {step : String} {m : M α} {w w1 : World} {a : α}
    (h : wrapErr step m w = (.ok a, w1)) : m w = (.ok a, w1) := by
  unfold wrapErr at h
  rcases hm : m w with ⟨r, w2⟩
  rw [hm] at h
  cases r with
  | error e => simp at h
  | ok b => simpa using h

theorem kind_str_ne_statefulSet (k : Kind) : k.str ≠ "StatefulSet" ↔ k ≠ .StatefulSet := by
  cases k <;> simp [Kind.str]

/-! ## The steps of `replace` -/

theorem replace_cases (env : Env) (pod : SelectedPodContainer) (parent : Controller)
    (config : Config) (dependencies : List Dependency) (replacePod : ReplacePodSpec) (w : World) :
    (∃ e, replacementBody env pod parent config dependencies replacePod = .error e
        ∧ replace env pod parent config dependencies replacePod w = (.error e, w))
    ∨ ∃ body, replacementBody env pod parent config dependencies replacePod = .ok body
      ∧ ((∃ e wa, wrapErr "scale down parent" (scaleDownParent parent) w = (.error e, wa)
            ∧ replace env pod parent config dependencies replacePod w = (.error e, wa))
        ∨ ∃ wa, wrapErr "scale down parent" (scaleDownParent parent) w = (.ok (), wa)
          ∧ ((∃ e wb, wrapErr "wait for original pod to terminate"
                  (poll env (originalGoneCondition pod body) 60) wa = (.error e, wb)
                ∧ replace env pod parent config dependencies replacePod w = (.error e, wb))
            ∨ ∃ wb, wrapErr "wait for original pod to terminate"
                  (poll env (originalGoneCondition pod body) 60) wa = (.ok (), wb)
                ∧ replace env pod parent config dependencies replacePod w
                    = wrapErr "create copied pod" (createPod body) wb)) := by
  unfold replace
  cases hb : replacementBody env pod parent config dependencies replacePod with
  | error e => exact Or.inl ⟨e, rfl, rfl⟩
  | ok body =>
    refine Or.inr ⟨body, rfl, ?_⟩
    rw [bind_apply]
    simp only [liftExcept]
    rw [bind_apply]
    rcases h1 : wrapErr "scale down parent" (scaleDownParent parent) w with ⟨r1, wa⟩
    cases r1 with
    | error e => exact Or.inl ⟨e, wa, rfl, rfl⟩
    | ok u =>
      refine Or.inr ⟨wa, rfl, ?_⟩
      simp only
      rw [bind_apply]
      rcases h2 : wrapErr "wait for original pod to terminate"
          (poll env (originalGoneCondition pod body) 60) wa with ⟨r2, wb⟩
      cases r2 with
      | error e => exact Or.inl ⟨e, wb, rfl, rfl⟩
      | ok u2 => exact Or.inr ⟨wb, rfl, rfl⟩

theorem allows_emits_notCreate (env : Env) :
    Allows env (Emits NotCreate) (fun _ _ => True) (fun _ => False) (fun _ _ => True) := by
  have A := allows_emits env NotCreate (by
    intro c hc p hp
    subst hp
    simp [Call.mutating] at hc)
  exact { pre := A.pre, tick := A.tick, read := A.read
          deletePod := fun ns name _ => A.deletePod ns name (by intro p hp; cases hp)
          createPod := fun _ h => h.elim
          patch := fun o t _ => A.patch o t (by intro p hp; cases hp) }

theorem emits_trans {P : Call → Prop} {a b c : World} (h1 : Emits P a b) (h2 : Emits P b c) :
    Emits P a c := (emits_isPreorder P).trans a b c h1 h2

theorem not_created_of_emits {w w2 : World} (h : Emits NotCreate w w2) (p : Pod) :
    Call.createPod p ∉ newCalls w w2 :=
  fun hm => newCalls_of_emits h _ hm p rfl

/-! ## C10: what ends the wait for the original pod -/

/-- C10: when `replace` issues the create of the replacement pod, the wait for
the original pod has completed, the create is the next thing done, and at that
moment the original pod is absent from the cluster or, for a ReplicaSet or
Deployment parent only, still there with a deletion timestamp; for a
StatefulSet parent the original pod is absent. -/
theorem statefulset_wait_semantics (env : Env) (pod : SelectedPodContainer)
    (parent : Controller) (config : Config) (dependencies : List Dependency)
    (replacePod : ReplacePodSpec) (w : World) (p : Pod)
    (hcreate : Call.createPod p ∈
      newCalls w (replace env pod parent config dependencies replacePod w).2) :
    ∃ wb, replace env pod parent config dependencies replacePod w
        = wrapErr "create copied pod" (createPod p) wb
      ∧ OriginalGone parent pod wb.cluster
      ∧ (parent.kind = .StatefulSet →
          findPod wb.cluster pod.pod.metadata.ns pod.pod.metadata.name = none) := by
  have hbody : replacementBody env pod parent config dependencies replacePod = .ok p := by
    have A := allows_emits env
      (fun c => ∀ q, c = .createPod q →
        replacementBody env pod parent config dependencies replacePod = .ok q)
      (by intro c hc q hq; subst hq; simp [Call.mutating] at hc)
    have h := pres_replace A pod parent config dependencies replacePod
      (by intro o t _ q hq; cases hq) (by intro body hb q hq; cases hq; exact hb) w
    exact newCalls_of_emits h _ hcreate p rfl
  have hsd : ∀ w0, Emits NotCreate w0 (wrapErr "scale down parent" (scaleDownParent parent) w0).2 :=
    pres_wrapErr _ (pres_scaleDownParent (allows_emits_notCreate env) parent (fun _ _ _ => trivial))
  have hwait : ∀ body w0, Emits NotCreate w0 (wrapErr "wait for original pod to terminate"
      (poll env (originalGoneCondition pod body) 60) w0).2 := fun body =>
    pres_wrapErr _ (pres_poll (allows_emits_notCreate env).pre env (allows_emits_notCreate env).tick
      (pres_originalGoneCondition (allows_emits_notCreate env) pod body) 60)
  rcases replace_cases env pod parent config dependencies replacePod w with
    ⟨e, he, _⟩ | ⟨body, hb, h⟩
  · rw [hbody] at he
    cases he
  · rw [hbody] at hb
    cases hb
    rcases h with ⟨e, wa, h1, hr⟩ | ⟨wa, h1, h⟩
    · rw [hr] at hcreate
      have := hsd w
      rw [h1] at this
      exact absurd hcreate (not_created_of_emits this p)
    · rcases h with ⟨e, wb, h2, hr⟩ | ⟨wb, h2, hr⟩
      · rw [hr] at hcreate
        have e1 := hsd w
        rw [h1] at e1
        have e2 := hwait p wa
        rw [h2] at e2
        exact absurd hcreate (not_created_of_emits (emits_trans e1 e2) p)
      · obtain ⟨w0, hc⟩ := poll_ok_inv (wrapErr_ok_inv h2)
        obtain ⟨hcl, hgone⟩ := originalGoneCondition_true hc
        have hkind : mapGet p.metadata.annotations ParentKindAnnotation = parent.kind.str := by
          unfold mapGet
          rw [(stampedFor_of_body hbody).1]
          rfl
        rw [hkind, kind_str_ne_statefulSet] at hgone
        rw [← hcl] at hgone
        refine ⟨wb, hr, ?_, ?_⟩
        · rcases hgone with h | ⟨q, hq, hts, hk⟩
          · exact Or.inl h
          · exact Or.inr ⟨hk, q, hq, hts⟩
        · intro hk
          rcases hgone with h | ⟨q, hq, hts, hk2⟩
          · exact h
          · exact absurd hk hk2

theorem statefulset_wait_semantics_witness :
    Call.createPod demoBody ∈
        newCalls demoWorld (replace demoEnv demoSelected demoSet none [] demoSpec demoWorld).2
      ∧ ∃ wb, replace demoEnv demoSelected demoSet none [] demoSpec demoWorld
          = wrapErr "create copied pod" (createPod demoBody) wb
        ∧ OriginalGone demoSet demoSelected wb.cluster
        ∧ (demoSet.kind = .StatefulSet →
            findPod wb.cluster demoSelected.pod.metadata.ns demoSelected.pod.metadata.name = none) :=
  ⟨by decide!, statefulset_wait_semantics demoEnv demoSelected demoSet none [] demoSpec demoWorld
    demoBody (by decide!)⟩

/-! ## C9: several containers and no container name -/

theorem replaceImageInPodSpec_ambiguous (env : Env) {podSpec : PodSpec} (config : Config)
    (dependencies : List Dependency) {replacePod : ReplacePodSpec}
    (hsel : replacePod.LabelSelector.isSome = true) (hname : replacePod.ContainerName = "")
    (hlen : 2 ≤ podSpec.containers.length) :
    (∃ e, replaceImageInPodSpec env podSpec config dependencies replacePod = .error e)
      ∧ ∀ imageStr, env.replaceImage replacePod.ReplaceImage config dependencies = .ok imageStr →
          replaceImageInPodSpec env podSpec config dependencies replacePod
            = .error ambiguousContainerError := by
  have key : ∀ imageStr, env.replaceImage replacePod.ReplaceImage config dependencies = .ok imageStr →
      replaceImageInPodSpec env podSpec config dependencies replacePod
        = .error ambiguousContainerError := by
    intro imageStr hres
    unfold replaceImageInPodSpec
    rw [hres]
    simp only [hsel, ↓reduceIte]
    have h1 : podSpec.containers.length > 1 ∧ replacePod.ContainerName = "" := ⟨by omega, hname⟩
    rw [if_pos h1]
    rfl
  refine ⟨?_, key⟩
  cases hres : env.replaceImage replacePod.ReplaceImage config dependencies with
  | error e => exact ⟨e, by unfold replaceImageInPodSpec; rw [hres]⟩
  | ok imageStr => exact ⟨_, key imageStr hres⟩

theorem patchedCopy_ambiguous (env : Env) {pod : SelectedPodContainer} (config : Config)
    (dependencies : List Dependency) {replacePod : ReplacePodSpec}
    (hsel : replacePod.LabelSelector.isSome = true) (hname : replacePod.ContainerName = "")
    (himg : replacePod.ReplaceImage ≠ "") (hlen : 2 ≤ pod.pod.spec.containers.length) :
    (∃ e, patchedCopy env pod config dependencies replacePod = .error e)
      ∧ ∀ imageStr, env.replaceImage replacePod.ReplaceImage config dependencies = .ok imageStr →
          patchedCopy env pod config dependencies replacePod = .error ambiguousContainerError := by
  obtain ⟨⟨e, he⟩, hk⟩ := replaceImageInPodSpec_ambiguous env config dependencies
    hsel hname hlen
  constructor
  · refine ⟨e, ?_⟩
    unfold patchedCopy
    simp only [himg, ne_eq, not_false_eq_true, ↓reduceIte, he]
  · intro imageStr hres
    unfold patchedCopy
    simp only [himg, ne_eq, not_false_eq_true, ↓reduceIte, hk imageStr hres]

theorem replaceImage_ok_of_hashParentPodSpec {env : Env} {parent : Controller} {config : Config}
    {dependencies : List Dependency} {replacePod : ReplacePodSpec} {parentHash : String}
    (himg : replacePod.ReplaceImage ≠ "")
    (h : hashParentPodSpec env parent config dependencies replacePod = .ok parentHash) :
    ∃ imageStr, env.replaceImage replacePod.ReplaceImage config dependencies = .ok imageStr := by
  cases hres : env.replaceImage replacePod.ReplaceImage config dependencies with
  | ok imageStr => exact ⟨imageStr, rfl⟩
  | error e =>
    exfalso
    unfold hashParentPodSpec at h
    have h1 : replaceImageInPodSpec env parent.template.spec config dependencies replacePod
        = .error e := by
      unfold replaceImageInPodSpec
      rw [hres]
    simp only [himg, ne_eq, not_false_eq_true, ↓reduceIte, h1] at h
    cases h

theorem replacementBody_ambiguous (env : Env) {pod : SelectedPodContainer} (config : Config)
    (dependencies : List Dependency) {replacePod : ReplacePodSpec} (parent : Controller)
    (hsel : replacePod.LabelSelector.isSome = true) (hname : replacePod.ContainerName = "")
    (himg : replacePod.ReplaceImage ≠ "") (hlen : 2 ≤ pod.pod.spec.containers.length) :
    ∃ e, replacementBody env pod parent config dependencies replacePod = .error e
      ∧ (e = ambiguousContainerError
        ∨ (∃ e1, hashParentPodSpec env parent config dependencies replacePod = .error e1
            ∧ e = .wrap "hash parent pod spec" e1)
        ∨ (∃ e2, hashConfig env replacePod = .error e2 ∧ e = .wrap "hash config" e2)) := by
  obtain ⟨_, hk⟩ := patchedCopy_ambiguous env config dependencies hsel hname himg hlen
  unfold replacementBody
  cases h1 : hashParentPodSpec env parent config dependencies replacePod with
  | error e1 => exact ⟨_, rfl, Or.inr (Or.inl ⟨e1, rfl, rfl⟩)⟩
  | ok parentHash =>
    cases h2 : hashConfig env replacePod with
    | error e2 => exact ⟨_, rfl, Or.inr (Or.inr ⟨e2, rfl, rfl⟩)⟩
    | ok configHash =>
      obtain ⟨imageStr, hres⟩ := replaceImage_ok_of_hashParentPodSpec himg h1
      exact ⟨ambiguousContainerError, by simp only [wrapExcept, hk imageStr hres], Or.inl rfl⟩

theorem replace_of_body_error {env : Env} {pod : SelectedPodContainer} {parent : Controller}
    {config : Config} {dependencies : List Dependency} {replacePod : ReplacePodSpec} {e : Err}
    (h : replacementBody env pod parent config dependencies replacePod = .error e) (w : World) :
    replace env pod parent config dependencies replacePod w = (.error e, w) := by
  unfold replace
  rw [h]
  rfl

theorem replacePod_of_not_found {env : Env} {config : Config} {dependencies : List Dependency}
    {replacePod : ReplacePodSpec} {w wl : World}
    (h : findSingleReplacedPod env replacePod 2 w = (.ok none, wl)) :
    ReplacePod env config dependencies replacePod w
      = (findSingleReplaceablePodParent env config dependencies replacePod >>= fun cp =>
          replace env cp.1 cp.2 config dependencies replacePod) wl := by
  unfold ReplacePod
  have h1 : wrapErr "find patched pod" (findSingleReplacedPod env replacePod 2) w
      = (.ok none, wl) := by
    simp [wrapErr, h]
  rw [bind_of_ok h1]
  rfl

/-- C9 (amended): for a target pod with two or more containers, selected under a
spec with a label selector, an empty container name and a non-empty
image-replacement expression, `replace` fails before its first request; so a
`ReplacePod` whose lookup found no replacement pod and whose selection returned
that pod fails, and every request it issued is a reading one (no patch, no
delete, no create).  The error is the ambiguity error of
`replaceImageInPodSpec`, unless one of the two fingerprints could not be
computed, in which case it is the error of that step. -/
theorem ambiguous_container_no_mutation (env : Env) (config : Config)
    (dependencies : List Dependency) (replacePod : ReplacePodSpec)
    (pod : SelectedPodContainer) (parent : Controller) (w wl ws : World)
    (hsel : replacePod.LabelSelector.isSome = true) (hname : replacePod.ContainerName = "")
    (himg : replacePod.ReplaceImage ≠ "") (hlen : 2 ≤ pod.pod.spec.containers.length)
    (hfind : findSingleReplacedPod env replacePod 2 w = (.ok none, wl))
    (hselect : findSingleReplaceablePodParent env config dependencies replacePod wl
      = (.ok (pod, parent), ws)) :
    ∃ e, ReplacePod env config dependencies replacePod w = (.error e, ws)
      ∧ replace env pod parent config dependencies replacePod ws = (.error e, ws)
      ∧ (e = ambiguousContainerError
        ∨ (∃ e1, hashParentPodSpec env parent config dependencies replacePod = .error e1
            ∧ e = .wrap "hash parent pod spec" e1)
        ∨ (∃ e2, hashConfig env replacePod = .error e2 ∧ e = .wrap "hash config" e2))
      ∧ Emits (fun c => c.mutating = false) w ws := by
  obtain ⟨e, he, hcases⟩ := replacementBody_ambiguous env config dependencies parent
    hsel hname himg hlen
  have hrep := replace_of_body_error he ws
  refine ⟨e, ?_, hrep, hcases, ?_⟩
  · rw [replacePod_of_not_found hfind, bind_of_ok hselect]
    exact hrep
  · have A := allows_emits env (fun c => c.mutating = false) (fun _ hc => hc)
    have e1 := pres_findSingleReplacedPod A replacePod 2 w
    rw [hfind] at e1
    have e2 := pres_findSingleReplaceablePodParent A config dependencies replacePod wl
    rw [hselect] at e2
    exact emits_trans e1 e2

theorem ambiguous_container_no_mutation_witness :
    (demoSpecImage.LabelSelector.isSome = true ∧ demoSpecImage.ContainerName = ""
        ∧ demoSpecImage.ReplaceImage ≠ "" ∧ 2 ≤ demoSelected2.pod.spec.containers.length)
      ∧ ∃ e, ReplacePod demoEnv none [] demoSpecImage demoWorld2
          = (.error e, (findSingleReplaceablePodParent demoEnv none [] demoSpecImage
              (findSingleReplacedPod demoEnv demoSpecImage 2 demoWorld2).2).2)
        ∧ replace demoEnv demoSelected2 demoSet2 none [] demoSpecImage
            (findSingleReplaceablePodParent demoEnv none [] demoSpecImage
              (findSingleReplacedPod demoEnv demoSpecImage 2 demoWorld2).2).2
          = (.error e, (findSingleReplaceablePodParent demoEnv none [] demoSpecImage
              (findSingleReplacedPod demoEnv demoSpecImage 2 demoWorld2).2).2)
        ∧ (e = ambiguousContainerError
          ∨ (∃ e1, hashParentPodSpec demoEnv demoSet2 none [] demoSpecImage = .error e1
              ∧ e = .wrap "hash parent pod spec" e1)
          ∨ (∃ e2, hashConfig demoEnv demoSpecImage = .error e2 ∧ e = .wrap "hash config" e2))
        ∧ Emits (fun c => c.mutating = false) demoWorld2
            (findSingleReplaceablePodParent demoEnv none [] demoSpecImage
              (findSingleReplacedPod demoEnv demoSpecImage 2 demoWorld2).2).2 :=
  ⟨⟨by decide, by decide, by decide, by decide⟩,
    ambiguous_container_no_mutation demoEnv none [] demoSpecImage demoSelected2 demoSet2
      demoWorld2 (findSingleReplacedPod demoEnv demoSpecImage 2 demoWorld2).2
      (findSingleReplaceablePodParent demoEnv none [] demoSpecImage
        (findSingleReplacedPod demoEnv demoSpecImage 2 demoWorld2).2).2
      (by decide) (by decide) (by decide) (by decide) (by decide!) (by decide!)⟩

/-- C9 (as stated, refuted): under a spec with a label selector, an empty
container name and no image-replacement expression, `ReplacePod` on a target
pod with two containers succeeds, and it patches the parent and creates a pod. -/
theorem ambiguous_container_counterexample :
    demoSpecPlain.LabelSelector.isSome = true ∧ demoSpecPlain.ContainerName = ""
      ∧ demoSpecPlain.ReplaceImage = ""
      ∧ (findSingleReplaceablePodParent demoEnv none [] demoSpecPlain
          (findSingleReplacedPod demoEnv demoSpecPlain 2 demoWorld2).2).1
          = .ok (demoSelected2, demoSet2)
      ∧ demoSelected2.pod.spec.containers.length = 2
      ∧ (ReplacePod demoEnv none [] demoSpecPlain demoWorld2).1 = .ok ()
      ∧ ((newCalls demoWorld2 (ReplacePod demoEnv none [] demoSpecPlain demoWorld2).2).filter
          Call.mutating).length = 2 := by
  decide!

/-! ## `Atoi` reads back what `Itoa` wrote -/

theorem digitVal_digitChar (d : Nat) (h : d < 10) : digitVal (digitChar d) = some d := by
  interval_cases d <;> rfl

theorem digitChar_ne_sign (d : Nat) (h : d < 10) : digitChar d ≠ '-' ∧ digitChar d ≠ '+' := by
  interval_cases d <;> decide

theorem parseDigits_append (l1 l2 : List Char) (acc : Nat) :
    parseDigits (l1 ++ l2) acc = (parseDigits l1 acc).bind (fun a => parseDigits l2 a) := by
  induction l1 generalizing acc with
  | nil => rfl
  | cons c cs ih =>
    simp only [List.cons_append, parseDigits]
    cases digitVal c with
    | none => rfl
    | some d => exact ih _

theorem parseDigits_natDigits (fuel n : Nat) (h : n < fuel) :
    parseDigits (natDigits fuel n) 0 = some n := by
  induction fuel generalizing n with
  | zero => omega
  | succ k ih =>
    unfold natDigits
    by_cases h10 : n < 10
    · simp [h10, parseDigits, digitVal_digitChar n h10]
    · simp only [h10, ↓reduceIte]
      rw [parseDigits_append, ih (n / 10) (by omega)]
      simp only [Option.some_bind, parseDigits, digitVal_digitChar (n % 10) (Nat.mod_lt _ (by omega))]
      congr 1
      omega

theorem natDigits_head (fuel n : Nat) :
    ∃ d cs, d < 10 ∧ natDigits (fuel + 1) n = digitChar d :: cs := by
  induction fuel generalizing n with
  | zero =>
    unfold natDigits
    by_cases h10 : n < 10
    · exact ⟨n, [], h10, by simp [h10]⟩
    · exact ⟨n % 10, [], Nat.mod_lt _ (by omega), by simp [h10, natDigits]⟩
  | succ k ih =>
    unfold natDigits
    by_cases h10 : n < 10
    · exact ⟨n, [], h10, by simp [h10]⟩
    · obtain ⟨d, cs, hd, hcs⟩ := ih (n / 10)
      exact ⟨d, cs ++ [digitChar (n % 10)], hd, by simp [h10, hcs]⟩

theorem parseDigits_le (cs : List Char) (acc v : Nat) (h : parseDigits cs acc = some v) :
    acc ≤ v := by
  induction cs generalizing acc with
  | nil =>
    simp only [parseDigits, Option.some.injEq] at h
    omega
  | cons c cs ih =>
    unfold parseDigits at h
    cases hd : digitVal c with
    | none => rw [hd] at h; cases h
    | some d =>
      rw [hd] at h
      have := ih _ h
      omega

theorem parseUint_of_parseDigits (cs : List Char) (acc v : Nat)
    (h : parseDigits cs acc = some v) (hv : v ≤ 18446744073709551615) :
    parseUint cs acc = .ok v := by
  induction cs generalizing acc with
  | nil =>
    simp only [parseDigits, Option.some.injEq] at h
    rw [parseUint, h]
  | cons c cs ih =>
    unfold parseDigits at h
    unfold parseUint
    cases hd : digitVal c with
    | none => rw [hd] at h; cases h
    | some d =>
      rw [hd] at h
      have hle := parseDigits_le _ _ _ h
      have h1 : ¬ acc ≥ 1844674407370955162 := by omega
      have h2 : ¬ acc * 10 + d > 18446744073709551615 := by omega
      simp only [h1, h2, ↓reduceIte]
      exact ih _ h

theorem atoi_itoa (i : Int) (hi : isInt64 i) : atoi (itoa i) = some i := by
  unfold isInt64 at hi
  cases i with
  | ofNat n =>
    obtain ⟨d, cs, hd, hcs⟩ := natDigits_head n n
    have hp := parseDigits_natDigits (n + 1) n (by omega)
    have hn : n ≤ 9223372036854775807 := by
      have := hi.2
      simp only [Int.ofNat_eq_coe] at this
      omega
    have hu := parseUint_of_parseDigits _ _ _ hp (by omega)
    unfold atoi Atoi itoa
    simp only
    rw [hcs] at hu ⊢
    simp only [(digitChar_ne_sign d hd).1, (digitChar_ne_sign d hd).2, or_self, ↓reduceIte,
      List.isEmpty_cons, Bool.false_eq_true, hu, decide_False, true_and, false_and, ge_iff_le]
    have h3 : ¬ 9223372036854775808 ≤ n := by omega
    simp only [h3, ↓reduceIte]
    rfl
  | negSucc n =>
    obtain ⟨d, cs, hd, hcs⟩ := natDigits_head (n + 1) (n + 1)
    have hp := parseDigits_natDigits (n + 2) (n + 1) (by omega)
    have hn : n + 1 ≤ 9223372036854775808 := by
      have := hi.1
      simp only [Int.negSucc_eq] at this
      omega
    have hu := parseUint_of_parseDigits _ _ _ hp (by omega)
    unfold atoi Atoi itoa
    simp only [true_or, ↓reduceIte, decide_True]
    rw [hcs] at hu ⊢
    simp only [List.isEmpty_cons, Bool.false_eq_true, ↓reduceIte, hu, Bool.true_eq_false,
      false_and, true_and, gt_iff_lt]
    have h3 : ¬ 9223372036854775808 < n + 1 := by omega
    simp only [h3, ↓reduceIte]
    rfl

theorem atoi_empty : atoi "" = none := rfl

theorem Atoi_of_atoi {s : String} {r : Int} (h : atoi s = some r) : Atoi s = .ok r := by
  unfold atoi at h
  cases hA : Atoi s with
  | error e => rw [hA] at h; cases h
  | ok n =>
    rw [hA] at h
    simp only [Option.some.injEq] at h
    rw [h]

theorem atoi_of_Atoi {s : String} {r : Int} (h : Atoi s = .ok r) : atoi s = some r := by
  unfold atoi
  rw [h]

theorem atoi_none_iff {s : String} : atoi s = none ↔ ∃ e, Atoi s = .error e := by
  unfold atoi
  cases Atoi s with
  | error e => simp
  | ok n => simp

theorem itoa_ne_empty (i : Int) : itoa i ≠ "" := by
  intro h
  have hd : (itoa i).data = [] := by rw [h]
  cases i with
  | ofNat n =>
    obtain ⟨d, cs, _, hcs⟩ := natDigits_head n n
    unfold itoa at hd
    simp only at hd
    rw [hcs] at hd
    cases hd
  | negSucc n =>
    unfold itoa at hd
    simp only at hd
    cases hd

theorem isInt64_of_isInt32 {x : Int} (h : isInt32 x) : isInt64 x := by
  unfold isInt32 at h
  unfold isInt64
  omega

/-! ## Merge patches -/

theorem mapLookup_applyOps (ops : List (String × Option String)) (m : StrMap) (k : String) :
    mapLookup (applyAnnotationPatch m (.keys ops)) k = opsEffect ops k (mapLookup m k) := by
  unfold applyAnnotationPatch opsEffect
  induction ops generalizing m with
  | nil => rfl
  | cons op ops ih =>
    simp only [List.foldl_cons]
    rw [ih]
    congr 1
    rcases op with ⟨key, _ | v⟩
    · by_cases hk : key = k
      · subst hk; simp [mapLookup_mapDelete_self]
      · simp [hk, mapLookup_mapDelete_ne _ _ _ (fun e => hk e.symm)]
    · by_cases hk : key = k
      · subst hk; simp [mapLookup_mapSet_self]
      · simp [hk, mapLookup_mapSet_ne _ _ _ _ (fun e => hk e.symm)]

theorem opsEffect_append (a b : List (String × Option String)) (k : String)
    (init : Option String) :
    opsEffect (a ++ b) k init = opsEffect b k (opsEffect a k init) := by
  unfold opsEffect
  rw [List.foldl_append]

theorem opsEffect_untouched (ops : List (String × Option String)) (k : String)
    (init : Option String) (h : ∀ op ∈ ops, op.1 ≠ k) : opsEffect ops k init = init := by
  unfold opsEffect
  induction ops generalizing init with
  | nil => rfl
  | cons op ops ih =>
    simp only [List.foldl_cons]
    rw [if_neg (h op (List.mem_cons_self _ _))]
    exact ih init (fun o ho => h o (List.mem_cons_of_mem _ ho))

theorem opsEffect_deleted (ops : List (String × Option String)) (k : String)
    (init : Option String) (hall : ∀ op ∈ ops, op.1 = k → op.2 = none)
    (hex : ∃ op ∈ ops, op.1 = k) : opsEffect ops k init = none := by
  unfold opsEffect
  induction ops generalizing init with
  | nil => obtain ⟨op, hop, _⟩ := hex; cases hop
  | cons op ops ih =>
    simp only [List.foldl_cons]
    by_cases hk : op.1 = k
    · rw [if_pos hk, hall op (List.mem_cons_self _ _) hk]
      by_cases hex2 : ∃ op2 ∈ ops, op2.1 = k
      · exact ih none (fun o ho => hall o (List.mem_cons_of_mem _ ho)) hex2
      · have := opsEffect_untouched ops k none (by
          intro o ho hok
          exact hex2 ⟨o, ho, hok⟩)
        unfold opsEffect at this
        exact this
    · rw [if_neg hk]
      refine ih init (fun o ho => hall o (List.mem_cons_of_mem _ ho)) ?_
      obtain ⟨o, ho, hok⟩ := hex
      rcases List.mem_cons.mp ho with h | h
      · subst h; exact absurd hok hk
      · exact ⟨o, h, hok⟩

theorem mem_mapDelete {m : StrMap} {k : String} {kv : String × String}
    (h : kv ∈ mapDelete m k) : kv.1 ≠ k ∧ kv ∈ m := by
  induction m with
  | nil => cases h
  | cons x m ih =>
    unfold mapDelete at h
    by_cases hx : x.1 = k
    · rw [if_pos hx] at h
      exact ⟨(ih h).1, List.mem_cons_of_mem _ (ih h).2⟩
    · rw [if_neg hx] at h
      rcases List.mem_cons.mp h with h1 | h1
      · subst h1; exact ⟨hx, List.mem_cons_self _ _⟩
      · exact ⟨(ih h1).1, List.mem_cons_of_mem _ (ih h1).2⟩

theorem exists_of_mapLookup {m : StrMap} {k v : String} (h : mapLookup m k = some v) :
    ∃ kv ∈ m, kv.1 = k := by
  induction m with
  | nil => cases h
  | cons x m ih =>
    rw [mapLookup_cons] at h
    by_cases hx : x.1 = k
    · exact ⟨x, List.mem_cons_self _ _, hx⟩
    · rw [if_neg hx] at h
      obtain ⟨kv, hkv, hk⟩ := ih h
      exact ⟨kv, List.mem_cons_of_mem _ hkv, hk⟩

theorem mapHas_mapSet_self (m : StrMap) (k v : String) : mapHas (mapSet m k v) k = true := by
  unfold mapHas
  rw [mapLookup_mapSet_self]
  rfl

theorem quiesce_patch_records (s o : Controller)
    (h : mapLookup s.metadata.annotations ReplicasAnnotation
      = mapLookup o.metadata.annotations ReplicasAnnotation) :
    mapLookup (applyPatch s (mergeFrom o (quiesced o))).metadata.annotations ReplicasAnnotation
      = some (itoa (currentReplicas o)) := by
  have hmod : (quiesced o).metadata.annotations
      = mapDelete o.metadata.annotations ReplicasAnnotation
        ++ [( ReplicasAnnotation, itoa (currentReplicas o))] := rfl
  have hne : ((quiesced o).metadata.annotations.isEmpty
      && !o.metadata.annotations.isEmpty) = false := by
    rw [hmod]
    simp
  show mapLookup (applyAnnotationPatch s.metadata.annotations
    (mergeFrom o (quiesced o)).annotations) ReplicasAnnotation = _
  unfold mergeFrom
  simp only [hne, Bool.false_eq_true, ↓reduceIte]
  rw [mapLookup_applyOps, opsEffect_append]
  rw [opsEffect_untouched _ _ _ (by
    intro op hop
    obtain ⟨kv, hkv, rfl⟩ := List.mem_map.mp hop
    have hkv2 := (List.mem_filter.mp hkv).2
    intro hk
    simp only at hk
    rw [hk, show (quiesced o).metadata.annotations
      = mapSet o.metadata.annotations ReplicasAnnotation (itoa (currentReplicas o)) from rfl,
      mapHas_mapSet_self] at hkv2
    simp at hkv2)]
  rw [hmod, List.filter_append, List.map_append, opsEffect_append]
  rw [opsEffect_untouched
    (((mapDelete o.metadata.annotations ReplicasAnnotation).filter
        (fun kv => mapLookup o.metadata.annotations kv.1 != some kv.2)).map
      (fun kv => (kv.1, some kv.2))) _ _ (by
    intro op hop
    obtain ⟨kv, hkv, rfl⟩ := List.mem_map.mp hop
    exact (mem_mapDelete (List.mem_filter.mp hkv).1).1)]
  by_cases hch : mapLookup o.metadata.annotations ReplicasAnnotation
      = some (itoa (currentReplicas o))
  · simp [List.filter, hch, opsEffect, h]
  · have hb : (mapLookup o.metadata.annotations ReplicasAnnotation
        != some (itoa (currentReplicas o))) = true := by
      simpa using hch
    simp [List.filter, hb, opsEffect]

theorem quiesce_patch_replicas (s o : Controller) (h0 : currentReplicas o ≠ 0) :
    (applyPatch s (mergeFrom o (quiesced o))).replicas = some 0 := by
  have hne : ¬ (quiesced o).replicas = o.replicas := by
    intro e
    apply h0
    unfold currentReplicas
    rw [← e]
    rfl
  unfold applyPatch mergeFrom
  simp only [hne, ↓reduceIte]
  rfl

theorem restore_patch_clears (s o : Controller) (r : Int)
    (hann : mapGet o.metadata.annotations ReplicasAnnotation ≠ "") :
    mapLookup (applyPatch s (mergeFrom o (restored o r))).metadata.annotations ReplicasAnnotation
      = none := by
  have hmod : (restored o r).metadata.annotations
      = mapDelete o.metadata.annotations ReplicasAnnotation := rfl
  obtain ⟨v, hv⟩ : ∃ v, mapLookup o.metadata.annotations ReplicasAnnotation = some v := by
    cases hl : mapLookup o.metadata.annotations ReplicasAnnotation with
    | none => exact absurd (by unfold mapGet; rw [hl]; rfl) hann
    | some v => exact ⟨v, rfl⟩
  show mapLookup (applyAnnotationPatch s.metadata.annotations
    (mergeFrom o (restored o r)).annotations) ReplicasAnnotation = _
  unfold mergeFrom
  split
  · rfl
  · rw [mapLookup_applyOps, opsEffect_append]
    apply opsEffect_deleted
    · intro op hop _
      obtain ⟨kv, _, rfl⟩ := List.mem_map.mp hop
      rfl
    · obtain ⟨kv, hkv, hk⟩ := exists_of_mapLookup hv
      refine ⟨(kv.1, none), List.mem_map.mpr ⟨kv, List.mem_filter.mpr ⟨hkv, ?_⟩, rfl⟩, hk⟩
      rw [hmod, hk]
      unfold mapHas
      rw [mapLookup_mapDelete_self]
      rfl

theorem restore_patch_replicas (s o : Controller) (r : Int) (h : s.replicas = o.replicas) :
    (applyPatch s (mergeFrom o (restored o r))).replicas = some (toInt32 r) := by
  unfold applyPatch mergeFrom
  by_cases he : (restored o r).replicas = o.replicas
  · simp only [he, ↓reduceIte]
    rw [h, ← he]
    rfl
  · simp only [he, ↓reduceIte]
    rfl

theorem deletePod_apply (ns name : String) (w : World) :
    deletePod ns name w =
      if w.faulty then (.error .transient, w.next (.deletePod ns name))
      else match findPod w.cluster ns name with
        | none => (.error .notFound, w.next (.deletePod ns name))
        | some _ => (.ok (), { w.next (.deletePod ns name) with
            cluster := { w.cluster with pods := w.cluster.pods.map (markTerminating ns name) } }) := by
  unfold deletePod
  rw [bind_apply]
  unfold request
  cases hf : w.faulty
  · simp only [Bool.false_eq_true, ↓reduceIte, bind_apply, getCluster]
    have hc : (w.next (.deletePod ns name)).cluster = w.cluster := rfl
    rw [hc]
    cases findPod w.cluster ns name <;> rfl
  · rfl

theorem createPod_apply (pod : Pod) (w : World) :
    createPod pod w =
      if w.faulty then (.error .transient, w.next (.createPod pod))
      else match findPod w.cluster pod.metadata.ns pod.metadata.name with
        | some _ => (.error .alreadyExists, w.next (.createPod pod))
        | none => (.ok (), { w.next (.createPod pod) with
            cluster := { w.cluster with pods := w.cluster.pods ++ [pod] } }) := by
  unfold createPod
  rw [bind_apply]
  unfold request
  cases hf : w.faulty
  · simp only [Bool.false_eq_true, ↓reduceIte, bind_apply, getCluster]
    have hc : (w.next (.createPod pod)).cluster = w.cluster := rfl
    rw [hc]
    cases findPod w.cluster pod.metadata.ns pod.metadata.name <;> rfl
  · rfl

theorem patchController_apply (kind : Kind) (ns name : String) (patch : Patch) (w : World) :
    patchController kind ns name patch w =
      if w.faulty then (.error .transient, w.next (.patchController kind ns name patch))
      else match findController w.cluster kind ns name with
        | none => (.error .notFound, w.next (.patchController kind ns name patch))
        | some _ => (.ok (), { w.next (.patchController kind ns name patch) with
            cluster := { w.cluster with
              controllers := w.cluster.controllers.map (patchIn kind ns name patch) } }) := by
  unfold patchController
  rw [bind_apply]
  unfold request
  cases hf : w.faulty
  · simp only [Bool.false_eq_true, ↓reduceIte, bind_apply, getCluster]
    have hc : (w.next (.patchController kind ns name patch)).cluster = w.cluster := rfl
    rw [hc]
    cases findController w.cluster kind ns name <;> rfl
  · rfl

theorem isController_patchIn (kind : Kind) (ns name : String) (patch : Patch) (k2 : Kind)
    (ns2 name2 : String) (o : Controller) :
    isController k2 ns2 name2 (patchIn kind ns name patch o) = isController k2 ns2 name2 o := by
  unfold patchIn
  split <;> rfl

theorem findController_patched (l : List Controller) (kind : Kind) (ns name : String)
    (patch : Patch) (k2 : Kind) (ns2 name2 : String) :
    (l.map (patchIn kind ns name patch)).find? (isController k2 ns2 name2)
      = (l.find? (isController k2 ns2 name2)).map (patchIn kind ns name patch) := by
  induction l with
  | nil => rfl
  | cons o l ih =>
    simp only [List.map_cons, List.find?_cons, isController_patchIn]
    cases isController k2 ns2 name2 o
    · exact ih
    · rfl

theorem isController_of_find {l : List Controller} {kind : Kind} {ns name : String}
    {o : Controller} (h : l.find? (isController kind ns name) = some o) :
    o.kind = kind ∧ o.metadata.ns = ns ∧ o.metadata.name = name := by
  have := List.find?_some h
  unfold isController at this
  simpa [Bool.and_eq_true, and_assoc] using this

/-! ## Segments in which the engine only reads -/

theorem faultFree_isPreorder : IsPreorder FaultFree where
  refl := fun _ h => h
  trans := fun _ _ _ h1 h2 h => h2 (h1 h)

theorem faultFree_request (c : Call) : Pres FaultFree (request c) := by
  intro w h
  unfold request
  cases w.faulty <;> simp [World.next, h]

theorem allows_faultFree (env : Env) :
    Allows env FaultFree (fun _ _ => True) (fun _ => True) (fun _ _ => True) where
  pre := faultFree_isPreorder
  tick := fun _ h => h
  read := fun c _ => faultFree_request c
  deletePod := by
    intro ns name _ w h
    rw [deletePod_apply]
    cases w.faulty
    · cases findPod w.cluster ns name <;> simp [World.next, h]
    · simp [World.next, h]
  createPod := by
    intro p _ w h
    rw [createPod_apply]
    cases w.faulty
    · cases findPod w.cluster p.metadata.ns p.metadata.name <;> simp [World.next, h]
    · simp [World.next, h]
  patch := by
    intro o t _ w h
    rw [patchController_apply]
    cases w.faulty
    · cases findController w.cluster t.kind t.metadata.ns t.metadata.name <;>
        simp [World.next, h]
    · simp [World.next, h]

theorem allows_quiet (env : Env) :
    Allows env (Quiet env) (fun _ _ => False) (fun _ => False) (fun _ _ => False) where
  pre :=
    { refl := fun w => ⟨(onlyReacts_isPreorder env).refl w, (emits_isPreorder _).refl w,
        faultFree_isPreorder.refl w⟩
      trans := fun a b c h1 h2 => ⟨(onlyReacts_isPreorder env).trans a b c h1.1 h2.1,
        (emits_isPreorder _).trans a b c h1.2.1 h2.2.1,
        faultFree_isPreorder.trans a b c h1.2.2 h2.2.2⟩ }
  tick := fun w => ⟨(allows_onlyReacts env).tick w,
    (allows_emits env _ (fun _ hc => hc)).tick w, (allows_faultFree env).tick w⟩
  read := fun c hc w => ⟨(allows_onlyReacts env).read c hc w,
    (allows_emits env _ (fun _ h => h)).read c hc w, (allows_faultFree env).read c hc w⟩
  deletePod := fun _ _ h => h.elim
  createPod := fun _ h => h.elim
  patch := fun _ _ h => h.elim

theorem quiet_controllers {env : Env} (hE : EnvFrame env) {w w2 : World} (h : Quiet env w w2) :
    w2.cluster.controllers = w.cluster.controllers := by
  obtain ⟨⟨n, hn⟩, _, _⟩ := h
  rw [hn]
  clear hn
  induction n with
  | zero => rfl
  | succ k ih => rw [Function.iterate_succ_apply', hE.controllers, ih]

theorem quiet_replaced_sub {env : Env} (hE : EnvFrame env) {w w2 : World} (h : Quiet env w w2) :
    List.Sublist (replacedPods w2.cluster) (replacedPods w.cluster) := by
  obtain ⟨⟨n, hn⟩, _, _⟩ := h
  rw [hn]
  clear hn
  induction n with
  | zero => exact List.Sublist.refl _
  | succ k ih =>
    rw [Function.iterate_succ_apply']
    exact (hE.replaced_sub _).trans ih

theorem quiet_replaced_live {env : Env} (hE : EnvFrame env) {w w2 : World} (h : Quiet env w w2)
    {p : Pod} (hp : p ∈ w.cluster.pods) (hr : isReplaced p = true)
    (hl : p.metadata.deletionTimestamp = none) : p ∈ w2.cluster.pods := by
  obtain ⟨⟨n, hn⟩, _, _⟩ := h
  rw [hn]
  clear hn
  induction n with
  | zero => exact hp
  | succ k ih =>
    rw [Function.iterate_succ_apply']
    exact hE.replaced_live _ p ih hr hl

theorem quiet_mutatingCalls {env : Env} {w w2 : World} (h : Quiet env w w2) :
    mutatingCalls w w2 = [] := by
  obtain ⟨_, ⟨t, ht, hp⟩, _⟩ := h
  unfold mutatingCalls newCalls
  rw [ht, List.drop_left, List.filter_eq_nil_iff]
  intro c hc
  simp [hp c hc]

/-! ## What a successful lookup returned -/

theorem attempt_apply {α : Type} (m : M α) (w : World) :
    attempt m w = (.ok (m w).1, (m w).2) := rfl

theorem selectLoop_ok_inv {env : Env} {options : TargetOptions} {n : Nat} {w w1 : World}
    {sel : SelectedPodContainer} (h : selectLoop env options n w = (.ok sel, w1)) :
    env.pick w1.cluster options = .ok (some sel) := by
  induction n generalizing w with
  | zero => simp [selectLoop, fail] at h
  | succ k ih =>
    unfold selectLoop at h
    rw [bind_apply] at h
    unfold request at h
    cases hf : w.faulty
    · rw [hf] at h
      simp only [Bool.false_eq_true, ↓reduceIte, bind_apply, getCluster] at h
      have hc : (w.next (.listPods options)).cluster = w.cluster := rfl
      rw [hc] at h
      rcases hp : env.pick w.cluster options with e | (_ | s)
      · rw [hp] at h
        simp [fail] at h
      · rw [hp] at h
        simp only [bind_apply, tick] at h
        exact ih h
      · rw [hp] at h
        simp only [pure_apply, Prod.mk.injEq, Except.ok.injEq] at h
        rw [← h.2, ← h.1]
        exact hp
    · rw [hf] at h
      simp at h

theorem findSingleReplacedPod_some_inv {env : Env} {replacePod : ReplacePodSpec} {timeout : Nat}
    {w w1 : World} {sel : SelectedPodContainer}
    (h : findSingleReplacedPod env replacePod timeout w = (.ok (some sel), w1)) :
    ∃ ls, replacedLabelSelector replacePod = some ls
      ∧ env.pick w1.cluster
          { labelSelector := ls, ns := replacePod.Namespace,
            containerName := replacePod.ContainerName, timeout := timeout,
            allowPick := false, skipInitContainers := true } = .ok (some sel) := by
  unfold findSingleReplacedPod at h
  cases hls : replacedLabelSelector replacePod with
  | none => rw [hls] at h; simp [fail] at h
  | some ls =>
    rw [hls] at h
    refine ⟨ls, rfl, ?_⟩
    simp only at h
    rw [bind_apply, attempt_apply] at h
    simp only at h
    rcases hs : SelectSingleContainer env
        { labelSelector := ls, ns := replacePod.Namespace,
          containerName := replacePod.ContainerName, timeout := timeout,
          allowPick := false, skipInitContainers := true } w with ⟨r, w2⟩
    rw [hs] at h
    cases r with
    | error e =>
      simp only at h
      split at h <;> simp [pure_apply, fail] at h
    | ok s =>
      simp only [pure_apply, Prod.mk.injEq, Except.ok.injEq, Option.some.injEq] at h
      rw [← h.1, ← h.2]
      exact selectLoop_ok_inv hs

theorem getController_ok_inv {kind : Kind} {ns name : String} {w w1 : World} {o : Controller}
    (h : getController kind ns name w = (.ok o, w1)) :
    w1 = w.next (.getController kind ns name) ∧ w.faulty = false
      ∧ findController w.cluster kind ns name = some o := by
  rw [getController_apply] at h
  cases hf : w.faulty
  · rw [hf] at h
    simp only [Bool.false_eq_true, ↓reduceIte] at h
    cases hc : findController w.cluster kind ns name with
    | none => rw [hc] at h; simp at h
    | some o2 =>
      rw [hc] at h
      simp only [Prod.mk.injEq, Except.ok.injEq] at h
      exact ⟨h.2.symm, rfl, by rw [h.1]⟩
  · rw [hf] at h
    simp at h

theorem getController_cluster (kind : Kind) (ns name : String) (w : World) :
    (getController kind ns name w).2.cluster = w.cluster := by
  rw [getController_apply]
  cases w.faulty
  · simp only [Bool.false_eq_true, ↓reduceIte]
    cases findController w.cluster kind ns name <;> rfl
  · rfl

theorem found_controller {c : Cluster} {kind : Kind} {ns name : String} {o : Controller}
    (h : findController c kind ns name = some o) :
    findController c o.kind o.metadata.ns o.metadata.name = some o := by
  obtain ⟨h1, h2, h3⟩ := isController_of_find h
  rw [h1, h2, h3]
  exact h

theorem attempt_getController_inv {kind : Kind} {ns name : String} {w w1 : World}
    {r : Except Err Controller} {x : Except Err (Except Err Controller)}
    (h : attempt (getController kind ns name) w = (x, w1)) (hx : x = .ok r) :
    w1.cluster = w.cluster
      ∧ ∀ o, r = .ok o → findController w.cluster kind ns name = some o := by
  subst hx
  rw [attempt_apply] at h
  simp only [Prod.mk.injEq, Except.ok.injEq] at h
  refine ⟨by rw [← h.2]; exact getController_cluster kind ns name w, ?_⟩
  intro o ho
  have h2 : getController kind ns name w = (.ok o, (getController kind ns name w).2) := by
    rw [← ho, ← h.1]
  exact (getController_ok_inv h2).2.2

theorem getParent_ok_inv {pod : Pod} {w w1 : World} {parent : Controller}
    (h : getParent pod w = (.ok parent, w1)) :
    w1.cluster = w.cluster
      ∧ findController w.cluster parent.kind pod.metadata.ns parent.metadata.name = some parent := by
  unfold getParent at h
  cases hg : GetControllerOf pod.metadata with
  | none => rw [hg] at h; simp [fail] at h
  | some controller =>
    rw [hg] at h
    simp only at h
    split at h
    · rw [bind_apply] at h
      rcases ha : attempt (getController .ReplicaSet pod.metadata.ns controller.name) w
        with ⟨x, w2⟩
      rw [ha] at h
      cases x with
      | error e => simp [attempt_apply] at ha
      | ok r =>
        obtain ⟨hc2, hfound⟩ := attempt_getController_inv ha rfl
        cases r with
        | error e => simp only at h; split at h <;> simp [fail] at h
        | ok replicaSet =>
          have hrs := hfound replicaSet rfl
          simp only at h
          cases hro : GetControllerOf replicaSet.metadata with
          | none =>
            rw [hro] at h
            simp only [pure_apply, Prod.mk.injEq, Except.ok.injEq] at h
            rw [← h.1, ← h.2]
            obtain ⟨k1, _, k3⟩ := isController_of_find hrs
            exact ⟨hc2, by rw [k1, k3]; exact hrs⟩
          | some owner =>
            rw [hro] at h
            simp only at h
            split at h
            · rw [bind_apply] at h
              rcases hb : attempt (getController .Deployment pod.metadata.ns owner.name) w2
                with ⟨y, w3⟩
              rw [hb] at h
              cases y with
              | error e => simp [attempt_apply] at hb
              | ok r2 =>
                obtain ⟨hc3, hfound2⟩ := attempt_getController_inv hb rfl
                cases r2 with
                | error e => simp only at h; split at h <;> simp [fail] at h
                | ok deployment =>
                  have hd := hfound2 deployment rfl
                  simp only [pure_apply, Prod.mk.injEq, Except.ok.injEq] at h
                  rw [← h.1, ← h.2]
                  rw [hc2] at hd
                  obtain ⟨k1, _, k3⟩ := isController_of_find hd
                  exact ⟨by rw [hc3, hc2], by rw [k1, k3]; exact hd⟩
            · simp [fail] at h
    · split at h
      · rw [bind_apply] at h
        rcases ha : attempt (getController .StatefulSet pod.metadata.ns controller.name) w
          with ⟨x, w2⟩
        rw [ha] at h
        cases x with
        | error e => simp [attempt_apply] at ha
        | ok r =>
          obtain ⟨hc2, hfound⟩ := attempt_getController_inv ha rfl
          cases r with
          | error e => simp only at h; split at h <;> simp [fail] at h
          | ok statefulSet =>
            have hss := hfound statefulSet rfl
            simp only [pure_apply, Prod.mk.injEq, Except.ok.injEq] at h
            rw [← h.1, ← h.2]
            obtain ⟨k1, _, k3⟩ := isController_of_find hss
            exact ⟨hc2, by rw [k1, k3]; exact hss⟩
      · simp [fail] at h

theorem findSingleReplaceablePodParent_ok_inv {env : Env} {config : Config}
    {dependencies : List Dependency} {replacePod : ReplacePodSpec} {w ws : World}
    {pod : SelectedPodContainer} {parent : Controller}
    (h : findSingleReplaceablePodParent env config dependencies replacePod w
      = (.ok (pod, parent), ws)) :
    Quiet env w ws
      ∧ findController ws.cluster parent.kind pod.pod.metadata.ns parent.metadata.name
          = some parent := by
  have hq := pres_findSingleReplaceablePodParent (allows_quiet env) config dependencies
    replacePod w
  rw [h] at hq
  refine ⟨hq, ?_⟩
  unfold findSingleReplaceablePodParent at h
  obtain ⟨sels, w1, _, h⟩ := bind_ok_inv h
  obtain ⟨container, w2, _, h⟩ := bind_ok_inv h
  obtain ⟨par, w3, hp, h⟩ := bind_ok_inv h
  simp only [pure_apply, Prod.mk.injEq, Except.ok.injEq] at h
  obtain ⟨⟨h1, h2⟩, h3⟩ := h
  subst h1 h2 h3
  obtain ⟨hc, hf⟩ := getParent_ok_inv (wrapErr_ok_inv hp)
  rw [hc]
  exact hf

/-! ## Counting the mutating requests -/

theorem mutates_of_quiet {env : Env} {w w2 : World} (h : Quiet env w w2) : Mutates [] w w2 := by
  obtain ⟨_, ⟨t, ht, hp⟩, _⟩ := h
  refine ⟨t, ht, ?_⟩
  rw [List.filter_eq_nil_iff]
  intro c hc
  simp [hp c hc]

theorem mutates_trans {l1 l2 : List Call} {a b c : World} (h1 : Mutates l1 a b)
    (h2 : Mutates l2 b c) : Mutates (l1 ++ l2) a c := by
  obtain ⟨t1, e1, f1⟩ := h1
  obtain ⟨t2, e2, f2⟩ := h2
  exact ⟨t1 ++ t2, by rw [e2, e1, List.append_assoc], by rw [List.filter_append, f1, f2]⟩

theorem mutates_refl (w : World) : Mutates [] w w := ⟨[], by simp, rfl⟩

theorem patchController_ok_inv {kind : Kind} {ns name : String} {patch : Patch} {w w1 : World}
    (h : patchController kind ns name patch w = (.ok (), w1)) :
    w.faulty = false
      ∧ (∃ o, findController w.cluster kind ns name = some o)
      ∧ w1 = { w.next (.patchController kind ns name patch) with
          cluster := { w.cluster with
            controllers := w.cluster.controllers.map (patchIn kind ns name patch) } } := by
  rw [patchController_apply] at h
  cases hf : w.faulty
  · rw [hf] at h
    simp only [Bool.false_eq_true, ↓reduceIte] at h
    cases hc : findController w.cluster kind ns name with
    | none => rw [hc] at h; simp at h
    | some o =>
      rw [hc] at h
      simp only [Prod.mk.injEq, true_and] at h
      exact ⟨rfl, ⟨o, rfl⟩, h.symm⟩
  · rw [hf] at h
    simp at h

theorem scaleDownParent_of_replicas {obj : Controller} (h : currentReplicas obj ≠ 0) :
    scaleDownParent obj
      = patchController obj.kind obj.metadata.ns obj.metadata.name (mergeFrom obj (quiesced obj)) := by
  unfold scaleDownParent
  simp only [h, ↓reduceIte]
  rfl

theorem scaleDownParent_of_zero {obj : Controller} (h : currentReplicas obj = 0) (w : World) :
    scaleDownParent obj w = (.ok (), w) := by
  unfold scaleDownParent
  simp only [h, ↓reduceIte]
  rfl

theorem replace_ok_inv {env : Env} {pod : SelectedPodContainer} {parent : Controller}
    {config : Config} {dependencies : List Dependency} {replacePod : ReplacePodSpec}
    {w w1 : World} (h : replace env pod parent config dependencies replacePod w = (.ok (), w1)) :
    ∃ body wa wb, replacementBody env pod parent config dependencies replacePod = .ok body
      ∧ scaleDownParent parent w = (.ok (), wa)
      ∧ poll env (originalGoneCondition pod body) 60 wa = (.ok (), wb)
      ∧ createPod body wb = (.ok (), w1) := by
  rcases replace_cases env pod parent config dependencies replacePod w with
    ⟨e, _, hr⟩ | ⟨body, hb, hc⟩
  · rw [hr] at h; simp at h
  · rcases hc with ⟨e, wa, _, hr⟩ | ⟨wa, h1, hc⟩
    · rw [hr] at h; simp at h
    · rcases hc with ⟨e, wb, _, hr⟩ | ⟨wb, h2, hr⟩
      · rw [hr] at h; simp at h
      · rw [hr] at h
        exact ⟨body, wa, wb, hb, wrapErr_ok_inv h1, wrapErr_ok_inv h2, wrapErr_ok_inv h⟩

theorem faulty_of_faults_nil {w : World} (h : w.faults = []) : w.faulty = false := by
  unfold World.faulty
  rw [h]

theorem sublist_nil_eq {α : Type} {l : List α} (h : List.Sublist l []) : l = [] :=
  List.eq_nil_of_sublist_nil h

theorem isController_self (o : Controller) :
    isController o.kind o.metadata.ns o.metadata.name o = true := by
  simp [isController]

theorem findController_after_patch {c : Cluster} {l : List Controller} {parent : Controller}
    {patch : Patch}
    (hl : l = c.controllers.map
      (patchIn parent.kind parent.metadata.ns parent.metadata.name patch))
    (hf : findController c parent.kind parent.metadata.ns parent.metadata.name = some parent) :
    l.find? (isController parent.kind parent.metadata.ns parent.metadata.name)
      = some (applyPatch parent patch) := by
  rw [hl, findController_patched]
  unfold findController at hf
  rw [hf]
  simp [patchIn, isController_self]

theorem kind_str_ne_empty (k : Kind) : k.str ≠ "" := by
  cases k <;> decide

theorem getParentFromReplaced_of_stamped {pod : Pod} {k : Kind} {name : String}
    (hk : mapGet pod.metadata.annotations ParentKindAnnotation = k.str)
    (hn : mapGet pod.metadata.annotations ParentNameAnnotation = name) :
    getParentFromReplaced pod = getController k pod.metadata.ns name := by
  unfold getParentFromReplaced
  simp only [hk, hn]
  cases k <;> simp [Kind.str]

theorem hashParentPodSpec_congr (env : Env) {o1 o2 : Controller} (config : Config)
    (dependencies : List Dependency) (replacePod : ReplacePodSpec)
    (h : o1.template = o2.template) :
    hashParentPodSpec env o1 config dependencies replacePod
      = hashParentPodSpec env o2 config dependencies replacePod := by
  unfold hashParentPodSpec
  rw [h]

theorem mem_of_mapLookup {m : StrMap} {k v : String} (h : mapLookup m k = some v) :
    (k, v) ∈ m := by
  induction m with
  | nil => cases h
  | cons x m ih =>
    rw [mapLookup_cons] at h
    by_cases hx : x.1 = k
    · rw [if_pos hx] at h
      simp only [Option.some.injEq] at h
      rw [← hx, ← h]
      exact List.mem_cons_self _ _
    · rw [if_neg hx] at h
      exact List.mem_cons_of_mem _ (ih h)

theorem isReplaced_of_hasLabels {ls : StrMap} {p : Pod}
    (hls : mapLookup ls ReplacedLabel = some "true") (h : hasLabels ls p = true) :
    isReplaced p = true := by
  unfold hasLabels at h
  have := List.all_eq_true.mp h _ (mem_of_mapLookup hls)
  exact this

theorem found_is_replaced {env : Env} (hE : EnvFrame env) {replacePod : ReplacePodSpec}
    {timeout : Nat} {w w1 : World} {sel : SelectedPodContainer}
    (hcrit : ∀ ls, replacedLabelSelector replacePod = some ls →
      mapLookup ls ReplacedLabel = some "true")
    (h : findSingleReplacedPod env replacePod timeout w = (.ok (some sel), w1)) :
    sel.pod ∈ replacedPods w1.cluster := by
  obtain ⟨ls, hls, hpick⟩ := findSingleReplacedPod_some_inv h
  obtain ⟨hmem, hlab⟩ := hE.pick_sound _ _ _ hpick
  exact List.mem_filter.mpr ⟨hmem, isReplaced_of_hasLabels (hcrit ls hls) hlab⟩

theorem replaced_stays {env : Env} (hE : EnvFrame env) {w w2 : World} {body : Pod}
    (hq : Quiet env w w2) (h : replacedPods w.cluster = [body])
    (hl : body.metadata.deletionTimestamp = none) : replacedPods w2.cluster = [body] := by
  have hb : body ∈ replacedPods w.cluster := by rw [h]; simp
  obtain ⟨hbm, hbr⟩ := List.mem_filter.mp hb
  have hin : body ∈ replacedPods w2.cluster :=
    List.mem_filter.mpr ⟨quiet_replaced_live hE hq hbm hbr hl, hbr⟩
  have hsub := quiet_replaced_sub hE hq
  rw [h] at hsub
  rcases List.sublist_cons_iff.mp hsub with h1 | ⟨r, hr, h1⟩
  · rw [sublist_nil_eq h1] at hin
    cases hin
  · rw [hr, sublist_nil_eq h1]

theorem mapGet_of_lookup {m : StrMap} {k v : String} (h : mapLookup m k = some v) :
    mapGet m k = v := by
  unfold mapGet
  rw [h]
  rfl

theorem mergeFrom_quiesced_replicas {o : Controller} (h0 : currentReplicas o ≠ 0) :
    (mergeFrom o (quiesced o)).replicas = some 0 := by
  have hne : ¬ (quiesced o).replicas = o.replicas := by
    intro e
    apply h0
    unfold currentReplicas
    rw [← e]
    rfl
  unfold mergeFrom
  simp only [hne, ↓reduceIte]
  rfl

/-! ## The concrete environment satisfies the assumptions -/

theorem demoReact_replaced (c : Cluster) :
    replacedPods (demoReact c)
      = (c.pods.filter (fun p => p.metadata.deletionTimestamp.isNone)).filter isReplaced := by
  unfold replacedPods demoReact
  simp only [List.filter_append]
  have h2 : ∀ l : List Pod, List.filter isReplaced (l.filter (fun p => !isReplaced p)) = [] := by
    intro l
    rw [List.filter_eq_nil_iff]
    intro p hp
    have := (List.mem_filter.mp hp).2
    simpa using this
  rw [h2, List.append_nil]
  generalize c.pods.filter (fun p => p.metadata.deletionTimestamp.isNone) = l
  have hg : ∀ p, isReplaced (demoMark c p) = isReplaced p := by
    intro p
    unfold demoMark
    split <;> rfl
  have hg2 : ∀ p, isReplaced p = true → demoMark c p = p := by
    intro p hp
    unfold demoMark
    simp [hp]
  induction l with
  | nil => rfl
  | cons p l ih =>
    simp only [List.map_cons, List.filter_cons, hg]
    by_cases hr : isReplaced p = true
    · simp only [hr, ↓reduceIte, hg2 p hr, ih]
    · simp only [hr, Bool.false_eq_true, ↓reduceIte, ih]

theorem demoEnv_frame : EnvFrame demoEnv where
  controllers := fun _ => rfl
  replaced_sub := by
    intro c
    show List.Sublist (replacedPods (demoReact c)) (replacedPods c)
    rw [demoReact_replaced]
    exact (List.filter_sublist _).filter _
  replaced_live := by
    intro c p hp hr hl
    show p ∈ (demoReact c).pods
    unfold demoReact
    simp only
    apply List.mem_append_left
    refine List.mem_map.mpr ⟨p, List.mem_filter.mpr ⟨hp, by simp [hl]⟩, ?_⟩
    simp [demoMark, hr]
  pick_sound := by
    intro c options sel h
    change demoPick c options = .ok (some sel) at h
    unfold demoPick at h
    simp only at h
    split at h
    · simp at h
    · rename_i p rest hcand
      have hp : p ∈ c.pods.filter (fun p =>
          p.metadata.ns == options.ns && p.metadata.deletionTimestamp.isNone
            && hasLabels options.labelSelector p) := by
        rw [hcand]
        exact List.mem_cons_self _ _
      obtain ⟨hmem, hcond⟩ := List.mem_filter.mp hp
      split at h
      · simp only [Except.ok.injEq, Option.some.injEq] at h
        rw [← h]
        simp only [Bool.and_eq_true] at hcond
        exact ⟨hmem, hcond.2⟩
      · simp at h
  patches_ns := by
    intro p ps q h
    change Except.ok p = Except.ok q at h
    cases h
    rfl

theorem demoSpec_criteria (ls : StrMap) (h : replacedLabelSelector demoSpec = some ls) :
    mapLookup ls ReplacedLabel = some "true" := by
  have h2 : replacedLabelSelector demoSpec
      = some [("devspace.sh/replaced", "true"), ("app", "db")] := by decide!
  rw [h2] at h
  cases h
  decide!

/-! ## Deleting the replacement and restoring the parent -/

theorem allows_keepsControllers {env : Env} (hE : EnvFrame env) :
    Allows env KeepsControllers (fun _ _ => True) (fun _ => True) (fun _ _ => False) where
  pre := { refl := fun _ => rfl, trans := fun _ _ _ h1 h2 => h2.trans h1 }
  tick := fun w => hE.controllers w.cluster
  read := by
    intro c _ w
    unfold request
    cases w.faulty <;> rfl
  deletePod := by
    intro ns name _ w
    rw [deletePod_apply]
    cases w.faulty
    · simp only [Bool.false_eq_true, ↓reduceIte]
      cases findPod w.cluster ns name <;> rfl
    · rfl
  createPod := by
    intro p _ w
    rw [createPod_apply]
    cases w.faulty
    · simp only [Bool.false_eq_true, ↓reduceIte]
      cases findPod w.cluster p.metadata.ns p.metadata.name <;> rfl
    · rfl
  patch := fun _ _ h => h.elim

theorem deletedCondition_true {pod : Pod} {w w1 : World}
    (h : deletedCondition pod w = (.ok true, w1)) :
    findPod w1.cluster pod.metadata.ns pod.metadata.name = none := by
  unfold deletedCondition at h
  rw [bind_apply, attempt_apply, getPod_apply] at h
  cases hf : w.faulty
  · rw [hf] at h
    simp only [Bool.false_eq_true, ↓reduceIte] at h
    cases hp : findPod w.cluster pod.metadata.ns pod.metadata.name with
    | none =>
      rw [hp] at h
      simp only [↓reduceIte, pure_apply, Prod.mk.injEq, true_and] at h
      rw [← h]
      exact hp
    | some p =>
      rw [hp] at h
      simp [pure_apply] at h
  · rw [hf] at h
    simp [fail] at h

theorem deleteAndWait_ok_inv {env : Env} {pod : Pod} {w w1 : World}
    (h : deleteAndWait env pod w = (.ok (), w1)) :
    findPod w1.cluster pod.metadata.ns pod.metadata.name = none := by
  unfold deleteAndWait at h
  rw [bind_apply, attempt_apply, deletePod_apply] at h
  cases hf : w.faulty
  · rw [hf] at h
    simp only [Bool.false_eq_true, ↓reduceIte] at h
    cases hp : findPod w.cluster pod.metadata.ns pod.metadata.name with
    | none =>
      rw [hp] at h
      simp only [↓reduceIte, pure_apply, Prod.mk.injEq, true_and] at h
      rw [← h]
      exact hp
    | some p =>
      rw [hp] at h
      simp only at h
      obtain ⟨w0, hc⟩ := poll_ok_inv h
      exact deletedCondition_true hc
  · rw [hf] at h
    simp [fail] at h

theorem toInt32_of_isInt32 {x : Int} (h : isInt32 x) : toInt32 x = x := by
  unfold isInt32 at h
  unfold toInt32
  omega

theorem scaleUpParent_of_recorded {parent : Controller} {n : Int}
    (ha : mapLookup parent.metadata.annotations ReplicasAnnotation = some (itoa n))
    (hn : n ≠ 0) (hn64 : isInt64 n) :
    scaleUpParent parent
      = wrapErr "patch parent" (patchController parent.kind parent.metadata.ns
          parent.metadata.name (mergeFrom parent (restored parent n))) := by
  unfold scaleUpParent
  have hg : mapGet parent.metadata.annotations ReplicasAnnotation = itoa n := mapGet_of_lookup ha
  simp only [hg, itoa_ne_empty, ↓reduceIte, Atoi_of_atoi (atoi_itoa n hn64), hn]
  rfl

theorem deleteAndWait_mutates (env : Env) (pod : Pod) (w : World) :
    Mutates [.deletePod pod.metadata.ns pod.metadata.name] w (deleteAndWait env pod w).2 := by
  have m1 : ∀ x : World, x.trace = w.trace ++ [.deletePod pod.metadata.ns pod.metadata.name] →
      Mutates [.deletePod pod.metadata.ns pod.metadata.name] w x :=
    fun x hx => ⟨[.deletePod pod.metadata.ns pod.metadata.name], hx, rfl⟩
  unfold deleteAndWait
  rw [bind_apply, attempt_apply, deletePod_apply]
  cases hf : w.faulty
  · simp only [Bool.false_eq_true, ↓reduceIte]
    cases hp : findPod w.cluster pod.metadata.ns pod.metadata.name with
    | none => exact m1 _ rfl
    | some p =>
      simp only
      have hq := pres_poll (allows_quiet env).pre env (allows_quiet env).tick
        (pres_deletedCondition (allows_quiet env) pod) 120
        { w.next (.deletePod pod.metadata.ns pod.metadata.name) with
          cluster := { w.cluster with
            pods := w.cluster.pods.map
              (markTerminating pod.metadata.ns pod.metadata.name) } }
      have := mutates_trans (m1 _ rfl) (mutates_of_quiet hq)
      simpa using this
  · simp only [↓reduceIte]
    exact m1 _ rfl

theorem revert_returns_found {env : Env} {replacePod : ReplacePodSpec} {w w2 : World}
    {sel : SelectedPodContainer}
    (h : RevertReplacePod env replacePod w = (.ok (some sel), w2)) :
    ∃ wl, findSingleReplacedPod env replacePod 4 w = (.ok (some sel), wl) := by
  unfold RevertReplacePod at h
  obtain ⟨found, wl, hfind, h⟩ := bind_ok_inv h
  refine ⟨wl, ?_⟩
  have hf := wrapErr_ok_inv hfind
  cases found with
  | none => simp [pure_apply] at h
  | some s =>
    rw [hf]
    simp only at h
    suffices hs : s = sel by rw [hs]
    split at h
    · obtain ⟨_, _, _, h⟩ := bind_ok_inv h
      simp only [pure_apply, Prod.mk.injEq, Except.ok.injEq, Option.some.injEq] at h
      exact h.1
    · obtain ⟨r, _, _, h⟩ := bind_ok_inv h
      cases r with
      | error e =>
        obtain ⟨_, _, _, h⟩ := bind_ok_inv h
        simp only [pure_apply, Prod.mk.injEq, Except.ok.injEq, Option.some.injEq] at h
        exact h.1
      | ok parent =>
        obtain ⟨_, _, _, h⟩ := bind_ok_inv h
        obtain ⟨_, _, _, h⟩ := bind_ok_inv h
        simp only [pure_apply, Prod.mk.injEq, Except.ok.injEq, Option.some.injEq] at h
        exact h.1

theorem revert_run_facts {env : Env} (hE : EnvFrame env) {replacePod : ReplacePodSpec}
    {sel : SelectedPodContainer} {w1 wl2 w2 : World} {k : Kind} {name : String}
    {stored : Controller} {n : Int}
    (hfind : findSingleReplacedPod env replacePod 4 w1 = (.ok (some sel), wl2))
    (hrev : RevertReplacePod env replacePod w1 = (.ok (some sel), w2))
    (hk : mapGet sel.pod.metadata.annotations ParentKindAnnotation = k.str)
    (hn : mapGet sel.pod.metadata.annotations ParentNameAnnotation = name) (hname : name ≠ "")
    (hff : wl2.faults = [])
    (hstored : findController wl2.cluster k sel.pod.metadata.ns name = some stored)
    (ha : mapLookup stored.metadata.annotations ReplicasAnnotation = some (itoa n))
    (hn0 : n ≠ 0) (hn64 : isInt64 n) :
    findController w2.cluster k sel.pod.metadata.ns name
        = some (applyPatch stored (mergeFrom stored (restored stored n)))
      ∧ findPod w2.cluster sel.pod.metadata.ns sel.pod.metadata.name = none
      ∧ Mutates [.deletePod sel.pod.metadata.ns sel.pod.metadata.name,
          .patchController k sel.pod.metadata.ns name (mergeFrom stored (restored stored n))]
          wl2 w2 := by
  unfold RevertReplacePod at hrev
  have h1 : wrapErr "find patched pod" (findSingleReplacedPod env replacePod 4) w1
      = (.ok (some sel), wl2) := by
    simp [wrapErr, hfind]
  rw [bind_of_ok h1] at hrev
  have hl : lacksParentAnnotations sel.pod = false := by
    unfold lacksParentAnnotations
    rw [hk, hn]
    simp [kind_str_ne_empty, hname]
  simp only [hl, Bool.false_eq_true, ↓reduceIte] at hrev
  rw [bind_apply, attempt_apply, getParentFromReplaced_of_stamped hk hn, getController_apply]
    at hrev
  simp only [faulty_of_faults_nil hff, Bool.false_eq_true, ↓reduceIte, hstored] at hrev
  obtain ⟨_, wd, hdel, hrev⟩ := bind_ok_inv hrev
  obtain ⟨_, wu, hup, hrev⟩ := bind_ok_inv hrev
  simp only [pure_apply, Prod.mk.injEq, true_and] at hrev
  subst hrev
  have hdel2 := wrapErr_ok_inv hdel
  have hgone := deleteAndWait_ok_inv hdel2
  have hkeep : wd.cluster.controllers = wl2.cluster.controllers := by
    have := pres_deleteAndWait (allows_keepsControllers hE) sel.pod trivial
      (wl2.next (.getController k sel.pod.metadata.ns name))
    rw [hdel2] at this
    exact this
  have hmd : Mutates [.deletePod sel.pod.metadata.ns sel.pod.metadata.name] wl2 wd := by
    have := deleteAndWait_mutates env sel.pod
      (wl2.next (.getController k sel.pod.metadata.ns name))
    rw [hdel2] at this
    have m0 : Mutates [] wl2 (wl2.next (.getController k sel.pod.metadata.ns name)) :=
      ⟨[_], rfl, rfl⟩
    exact mutates_trans m0 this
  obtain ⟨sk, sns, sname⟩ := isController_of_find hstored
  rw [scaleUpParent_of_recorded ha hn0 hn64] at hup
  obtain ⟨_, _, hwu⟩ := patchController_ok_inv (wrapErr_ok_inv hup)
  have hst2 : findController wd.cluster stored.kind stored.metadata.ns stored.metadata.name
      = some stored := by
    unfold findController
    rw [hkeep, sk, sns, sname]
    exact hstored
  refine ⟨?_, ?_, ?_⟩
  · have := @findController_after_patch wd.cluster wu.cluster.controllers
      stored (mergeFrom stored (restored stored n)) (by rw [hwu]) hst2
    rw [sk, sns, sname] at this
    exact this
  · rw [hwu]
    exact hgone
  · have m2 : Mutates [.patchController k sel.pod.metadata.ns name
        (mergeFrom stored (restored stored n))] wd wu := by
      refine ⟨[.patchController k sel.pod.metadata.ns name
        (mergeFrom stored (restored stored n))], ?_, rfl⟩
      rw [hwu, ← sk, ← sns, ← sname]
      rfl
    exact mutates_trans hmd m2

/-! ## The state a first `ReplacePod` leaves -/

theorem lookup_after_first_run {env : Env} (hE : EnvFrame env) {replacePod : ReplacePodSpec}
    {timeout : Nat} {w1 wl2 : World} {sel : SelectedPodContainer} {body : Pod}
    (hcrit : ∀ ls, replacedLabelSelector replacePod = some ls →
      mapLookup ls ReplacedLabel = some "true")
    (hr : replacedPods w1.cluster = [body]) (hts : body.metadata.deletionTimestamp = none)
    (hfind : findSingleReplacedPod env replacePod timeout w1 = (.ok (some sel), wl2)) :
    sel.pod = body ∧ Quiet env w1 wl2 ∧ replacedPods wl2.cluster = [body] := by
  have hq2 : Quiet env w1 wl2 := by
    have := pres_findSingleReplacedPod (allows_quiet env) replacePod timeout w1
    rw [hfind] at this
    exact this
  have hr2 : replacedPods wl2.cluster = [body] := replaced_stays hE hq2 hr hts
  have hsel : sel.pod = body := by
    have := found_is_replaced hE hcrit hfind
    rw [hr2] at this
    simpa using this
  exact ⟨hsel, hq2, hr2⟩

/-! ## A stale replacement is torn down -/

/-- C4 (as stated, refuted): a `RevertReplacePod` whose restore patch failed
leaves the replacement pod deleted and the controller at zero with its
annotation; re-running it with every request succeeding returns success
without a mutating request and leaves the controller at zero and annotated,
whereas the run that never failed ends with three replicas and no annotation.
Likewise a `ReplacePod` whose create failed leaves the controller quiesced and
no pod; re-running it fails in the selection and creates no replacement pod. -/
theorem recovery_counterexample :
    (RevertReplacePod demoEnv demoSpec demoW1Faulty).1
        = .error (.wrap "patch parent" .transient)
      ∧ (RevertReplacePod demoEnv demoSpec demoW1Faulty).2.faults = []
      ∧ replacedPods (RevertReplacePod demoEnv demoSpec demoW1Faulty).2.cluster = []
      ∧ (RevertReplacePod demoEnv demoSpec
          (RevertReplacePod demoEnv demoSpec demoW1Faulty).2).1 = .ok none
      ∧ mutatingCalls (RevertReplacePod demoEnv demoSpec demoW1Faulty).2
          (RevertReplacePod demoEnv demoSpec
            (RevertReplacePod demoEnv demoSpec demoW1Faulty).2).2 = []
      ∧ (RevertReplacePod demoEnv demoSpec
          (RevertReplacePod demoEnv demoSpec demoW1Faulty).2).2.cluster.controllers
          = [demoSetQuiesced]
      ∧ (RevertReplacePod demoEnv demoSpec demoW1).2.cluster.controllers = [demoSet]
      ∧ (ReplacePod demoEnv none [] demoSpec demoFaultyWorld).1
          = .error (.wrap "create copied pod" .transient)
      ∧ (ReplacePod demoEnv none [] demoSpec demoFaultyWorld).2.faults = []
      ∧ (ReplacePod demoEnv none [] demoSpec demoFaultyWorld).2.cluster
          = { pods := [], controllers := [demoSetQuiesced] }
      ∧ (ReplacePod demoEnv none [] demoSpec
          (ReplacePod demoEnv none [] demoSpec demoFaultyWorld).2).1 = .error .selectNotFound
      ∧ (ReplacePod demoEnv none [] demoSpec
          (ReplacePod demoEnv none [] demoSpec demoFaultyWorld).2).2.cluster
          = { pods := [], controllers := [demoSetQuiesced] }
      ∧ replacedPods (ReplacePod demoEnv none [] demoSpec demoWorld).2.cluster = [demoBody] := by
  decide!

theorem replacePod_of_select_error {env : Env} {config : Config}
    {dependencies : List Dependency} {replacePod : ReplacePodSpec} {w wl ws : World} {e : Err}
    (h : findSingleReplacedPod env replacePod 2 w = (.ok none, wl))
    (hs : findSingleReplaceablePodParent env config dependencies replacePod wl = (.error e, ws)) :
    ReplacePod env config dependencies replacePod w = (.error e, ws) := by
  rw [replacePod_of_not_found h, bind_of_error hs]

/-- C4 (amended): re-running resumes from the intermediate states in which the
replacement pod is still in place, and not from those in which it is gone.
(a) In every fault-free world whose only replacement pod is stamped for a
stored controller that is at zero replicas with a recorded count `n` (whatever
call left it so), a `RevertReplacePod` that returns the pod ends with the pod
absent and the controller at `n` replicas without the replicas annotation.
(b) In every world in which the lookup finds no replaced pod, in particular
one with the controller at zero and annotated, `RevertReplacePod` returns
success, issues no mutating request and leaves every controller as it is.
(c) In every world in which the lookup finds no replaced pod and the selection
of a target pod fails, `ReplacePod` fails with the error of the selection,
issues no mutating request and leaves every controller as it is. -/
theorem recovery_needs_replacement_pod (env : Env) (config : Config)
    (dependencies : List Dependency) (replacePod : ReplacePodSpec)
    (sel : SelectedPodContainer) (body : Pod) (stored : Controller) (n : Int)
    (wa wa2 wb wc wcl wcs : World) (e : Err)
    (hE : EnvFrame env)
    (hcrit : ∀ ls, replacedLabelSelector replacePod = some ls →
      mapLookup ls ReplacedLabel = some "true")
    (hff : wa.faults = [])
    (hr : replacedPods wa.cluster = [body])
    (hts : body.metadata.deletionTimestamp = none)
    (hk : mapLookup body.metadata.annotations ParentKindAnnotation = some stored.kind.str)
    (hn : mapLookup body.metadata.annotations ParentNameAnnotation = some stored.metadata.name)
    (hname : stored.metadata.name ≠ "")
    (hns : body.metadata.ns = stored.metadata.ns)
    (hstored : findController wa.cluster stored.kind stored.metadata.ns stored.metadata.name
      = some stored)
    (ha : mapLookup stored.metadata.annotations ReplicasAnnotation = some (itoa n))
    (hn0 : n ≠ 0) (hn32 : isInt32 n)
    (hrev : RevertReplacePod env replacePod wa = (.ok (some sel), wa2))
    (hnone : (findSingleReplacedPod env replacePod 4 wb).1 = .ok none)
    (hfind : findSingleReplacedPod env replacePod 2 wc = (.ok none, wcl))
    (hselect : findSingleReplaceablePodParent env config dependencies replacePod wcl
      = (.error e, wcs)) :
    (sel.pod = body
        ∧ findPod wa2.cluster body.metadata.ns body.metadata.name = none
        ∧ ∃ stored2,
            findController wa2.cluster stored.kind stored.metadata.ns stored.metadata.name
              = some stored2
            ∧ stored2.replicas = some n
            ∧ mapLookup stored2.metadata.annotations ReplicasAnnotation = none)
      ∧ ((RevertReplacePod env replacePod wb).1 = .ok none
        ∧ mutatingCalls wb (RevertReplacePod env replacePod wb).2 = []
        ∧ (RevertReplacePod env replacePod wb).2.cluster.controllers = wb.cluster.controllers)
      ∧ (ReplacePod env config dependencies replacePod wc = (.error e, wcs)
        ∧ mutatingCalls wc wcs = []
        ∧ wcs.cluster.controllers = wc.cluster.controllers) := by
  refine ⟨?_, ?_, ?_⟩
  · obtain ⟨wl2, hfind4⟩ := revert_returns_found hrev
    obtain ⟨hsel, hq2, _⟩ := lookup_after_first_run hE hcrit hr hts hfind4
    have hst2 : findController wl2.cluster stored.kind sel.pod.metadata.ns stored.metadata.name
        = some stored := by
      rw [hsel, hns]
      unfold findController
      rw [quiet_controllers hE hq2]
      exact hstored
    obtain ⟨f1, f2, _⟩ := revert_run_facts hE hfind4 hrev
      (by rw [hsel]; exact mapGet_of_lookup hk) (by rw [hsel]; exact mapGet_of_lookup hn)
      hname (hq2.2.2 hff) hst2 ha hn0 (isInt64_of_isInt32 hn32)
    rw [hsel] at f2
    refine ⟨hsel, f2, applyPatch stored (mergeFrom stored (restored stored n)), ?_, ?_, ?_⟩
    · rw [hsel, hns] at f1
      exact f1
    · rw [restore_patch_replicas _ _ _ rfl, toInt32_of_isInt32 hn32]
    · apply restore_patch_clears
      rw [mapGet_of_lookup ha]
      exact itoa_ne_empty n
  · have h1 : findSingleReplacedPod env replacePod 4 wb
        = (.ok none, (findSingleReplacedPod env replacePod 4 wb).2) := by
      rw [← hnone]
    have hq : Quiet env wb (findSingleReplacedPod env replacePod 4 wb).2 :=
      pres_findSingleReplacedPod (allows_quiet env) replacePod 4 wb
    rw [revert_of_not_found env replacePod wb _ h1]
    exact ⟨rfl, quiet_mutatingCalls hq, quiet_controllers hE hq⟩
  · have hq1 : Quiet env wc wcl := by
      have := pres_findSingleReplacedPod (allows_quiet env) replacePod 2 wc
      rw [hfind] at this
      exact this
    have hq2 : Quiet env wcl wcs := by
      have := pres_findSingleReplaceablePodParent (allows_quiet env) config dependencies
        replacePod wcl
      rw [hselect] at this
      exact this
    have hq := (allows_quiet env).pre.trans _ _ _ hq1 hq2
    exact ⟨replacePod_of_select_error hfind hselect, quiet_mutatingCalls hq,
      quiet_controllers hE hq⟩

theorem recovery_needs_replacement_pod_witness :
    ((RevertReplacePod demoEnv demoSpec { demoW1 with faults := [false, false, true] }).1
          = .error (.wrap "delete replaced pod" .transient)
        ∧ demoWa.faults = [] ∧ replacedPods demoWa.cluster = [demoBody]
        ∧ findController demoWa.cluster demoSetQuiesced.kind demoSetQuiesced.metadata.ns
            demoSetQuiesced.metadata.name = some demoSetQuiesced
        ∧ (3 : Int) ≠ 0 ∧ isInt32 3)
      ∧ (demoFound.pod = demoBody
        ∧ findPod (RevertReplacePod demoEnv demoSpec demoWa).2.cluster demoBody.metadata.ns
            demoBody.metadata.name = none
        ∧ ∃ stored2,
            findController (RevertReplacePod demoEnv demoSpec demoWa).2.cluster
              demoSetQuiesced.kind demoSetQuiesced.metadata.ns demoSetQuiesced.metadata.name
              = some stored2
            ∧ stored2.replicas = some 3
            ∧ mapLookup stored2.metadata.annotations ReplicasAnnotation = none)
      ∧ ((RevertReplacePod demoEnv demoSpec demoWb).1 = .ok none
        ∧ mutatingCalls demoWb (RevertReplacePod demoEnv demoSpec demoWb).2 = []
        ∧ (RevertReplacePod demoEnv demoSpec demoWb).2.cluster.controllers
            = demoWb.cluster.controllers)
      ∧ (ReplacePod demoEnv none [] demoSpec demoWc
            = (.error .selectNotFound,
                (findSingleReplaceablePodParent demoEnv none [] demoSpec
                  (findSingleReplacedPod demoEnv demoSpec 2 demoWc).2).2)
        ∧ mutatingCalls demoWc
            (findSingleReplaceablePodParent demoEnv none [] demoSpec
              (findSingleReplacedPod demoEnv demoSpec 2 demoWc).2).2 = []
        ∧ (findSingleReplaceablePodParent demoEnv none [] demoSpec
            (findSingleReplacedPod demoEnv demoSpec 2 demoWc).2).2.cluster.controllers
            = demoWc.cluster.controllers) :=
  ⟨⟨by decide!, by decide!, by decide!, by decide!, by decide, by decide⟩,
    recovery_needs_replacement_pod demoEnv none [] demoSpec demoFound demoBody
      demoSetQuiesced 3 demoWa (RevertReplacePod demoEnv demoSpec demoWa).2 demoWb demoWc
      (findSingleReplacedPod demoEnv demoSpec 2 demoWc).2
      (findSingleReplaceablePodParent demoEnv none [] demoSpec
        (findSingleReplacedPod demoEnv demoSpec 2 demoWc).2).2
      .selectNotFound demoEnv_frame demoSpec_criteria (by decide!) (by decide!) (by decide)
      (by decide!) (by decide!) (by decide) (by decide) (by decide!) (by decide!) (by decide)
      (by decide) (by decide!) (by decide!) (by decide!) (by decide!)⟩

/-! ## What a run of `updateNeeded` leaves -/

theorem scaleUpParent_pods (parent : Controller) (w : World) :
    (scaleUpParent parent w).2.cluster.pods = w.cluster.pods := by
  unfold scaleUpParent
  simp only
  split
  · rfl
  · cases Atoi (mapGet parent.metadata.annotations ReplicasAnnotation) with
    | error e => rfl
    | ok oldReplica =>
      simp only
      split
      · rfl
      · unfold wrapErr
        rw [patchController_apply]
        cases w.faulty
        · simp only [Bool.false_eq_true, ↓reduceIte]
          cases findController w.cluster (restored parent oldReplica).kind
            (restored parent oldReplica).metadata.ns
            (restored parent oldReplica).metadata.name <;> rfl
        · rfl

theorem updateNeeded_true_inv {env : Env} {sel : SelectedPodContainer} {config : Config}
    {dependencies : List Dependency} {replacePod : ReplacePodSpec} {w wu : World}
    (h : updateNeeded env sel config dependencies replacePod w = (.ok true, wu)) :
    findPod wu.cluster sel.pod.metadata.ns sel.pod.metadata.name = none := by
  unfold updateNeeded at h
  split at h
  · obtain ⟨_, wd, hd, h⟩ := bind_ok_inv h
    simp only [pure_apply, Prod.mk.injEq, true_and] at h
    rw [← h]
    exact deleteAndWait_ok_inv hd
  · obtain ⟨r, wg, _, h⟩ := bind_ok_inv h
    cases r with
    | error e =>
      obtain ⟨_, wd, hd, h⟩ := bind_ok_inv h
      simp only [pure_apply, Prod.mk.injEq, true_and] at h
      rw [← h]
      exact deleteAndWait_ok_inv hd
    | ok parent =>
      obtain ⟨parentHash, wa, _, h⟩ := bind_ok_inv h
      obtain ⟨configHash, wb, _, h⟩ := bind_ok_inv h
      split at h
      · obtain ⟨_, _, _, h⟩ := bind_ok_inv h
        simp [pure_apply] at h
      · obtain ⟨_, wd, hd, h⟩ := bind_ok_inv h
        obtain ⟨_, wu2, hu, h⟩ := bind_ok_inv h
        simp only [pure_apply, Prod.mk.injEq, true_and] at h
        rw [← h]
        have hp := scaleUpParent_pods parent wd
        rw [hu] at hp
        unfold findPod
        rw [hp]
        exact deleteAndWait_ok_inv (wrapErr_ok_inv hd)

theorem eq_of_mem_of_length_le_one {α : Type} {l : List α} {a b : α} (h : l.length ≤ 1)
    (ha : a ∈ l) (hb : b ∈ l) : b = a := by
  match l, h, ha, hb with
  | [x], _, ha, hb =>
    simp only [List.mem_singleton] at ha hb
    rw [ha, hb]
  | _ :: _ :: _, h, _, _ => simp at h

theorem not_mem_of_findPod_none {c : Cluster} {ns name : String}
    (h : findPod c ns name = none) (p : Pod) (hp : p ∈ c.pods) :
    ¬ (p.metadata.ns = ns ∧ p.metadata.name = name) := by
  unfold findPod at h
  have := List.find?_eq_none.mp h p hp
  intro hc
  apply this
  simp [isPod, hc.1, hc.2]

theorem runOps_cons (env : Env) (op : Op) (ops : List Op) (w : World) :
    runOps env (op :: ops) w = runOps env ops (runOp env op w) := rfl

/-! ## C11: hash stability -/

theorem sameSelector_isSome {a b : Option StrMap} (h : SameSelector a b) :
    a.isSome = b.isSome := by
  cases a <;> cases b <;> simp_all [SameSelector]

theorem replaceImageInPodSpec_sameSpec (env : Env) (podSpec : PodSpec) (config : Config)
    (dependencies : List Dependency) {r1 r2 : ReplacePodSpec} (h : SameSpec r1 r2) :
    replaceImageInPodSpec env podSpec config dependencies r1
      = replaceImageInPodSpec env podSpec config dependencies r2 := by
  obtain ⟨h1, h2, h3, _, h5, _⟩ := h
  unfold replaceImageInPodSpec
  rw [h1, sameSelector_isSome h2, h3, h5]

theorem hashParentPodSpecRun_fst (env : Env) (obj : Controller) (config : Config)
    (dependencies : List Dependency) (replacePod : ReplacePodSpec) :
    (hashParentPodSpecRun env obj config dependencies replacePod).1
      = hashParentPodSpec env obj config dependencies replacePod := by
  unfold hashParentPodSpecRun hashParentPodSpec
  by_cases hr : replacePod.ReplaceImage ≠ ""
  · simp only [if_pos hr]
    cases replaceImageInPodSpec env obj.template.spec config dependencies replacePod with
    | error e => rfl
    | ok spec =>
      simp only []
      cases env.jsonMarshal { obj.template with spec := spec } <;> rfl
  · simp only [if_neg hr]
    cases env.jsonMarshal obj.template <;> rfl

theorem hashParentPodSpecRun_obj (env : Env) (obj : Controller) (config : Config)
    (dependencies : List Dependency) (replacePod : ReplacePodSpec) :
    (hashParentPodSpecRun env obj config dependencies replacePod).2.obj = obj := by
  unfold hashParentPodSpecRun
  by_cases hr : replacePod.ReplaceImage ≠ ""
  · simp only [if_pos hr]
    cases replaceImageInPodSpec env obj.template.spec config dependencies replacePod with
    | error e => rfl
    | ok spec =>
      simp only []
      cases env.jsonMarshal { obj.template with spec := spec } <;> rfl
  · simp only [if_neg hr]
    cases env.jsonMarshal obj.template <;> rfl

theorem hashParentPodSpec_sameObject {env : Env} (hM : CanonicalMarshal env) (config : Config)
    (dependencies : List Dependency) {obj1 obj2 : Controller} {r1 r2 : ReplacePodSpec}
    (hobj : SameObject obj1 obj2) (hspec : SameSpec r1 r2) :
    hashParentPodSpec env obj1 config dependencies r1
      = hashParentPodSpec env obj2 config dependencies r2 := by
  obtain ⟨_, _, _, hl, ha, hs⟩ := hobj
  unfold hashParentPodSpec
  simp only []
  rw [replaceImageInPodSpec_sameSpec env obj1.template.spec config dependencies hspec, hspec.2.2.2.2.1,
    hs]
  by_cases hr : r2.ReplaceImage ≠ ""
  · simp only [if_pos hr]
    cases replaceImageInPodSpec env obj2.template.spec config dependencies r2 with
    | error e => rfl
    | ok spec =>
      simp only []
      rw [hM.json { obj1.template with spec := spec } { obj2.template with spec := spec }
        ⟨hl, ha, rfl⟩]
  · simp only [if_neg hr]
    rw [hM.json obj1.template obj2.template ⟨hl, ha, hs⟩]

theorem hashConfig_sameSpec {env : Env} (hM : CanonicalMarshal env) {r1 r2 : ReplacePodSpec}
    (hspec : SameSpec r1 r2) : hashConfig env r1 = hashConfig env r2 := by
  unfold hashConfig
  rw [hM.yaml r1 r2 hspec]

theorem mapGet_sameEntries {m1 m2 : StrMap} (h : SameEntries m1 m2) (k : String) :
    mapGet m1 k = mapGet m2 k := by
  unfold mapGet
  rw [h k]

theorem demoEnvCanon_canonical : CanonicalMarshal demoEnvCanon where
  json := by
    rintro t1 t2 ⟨hl, ha, hs⟩
    simp only [demoEnvCanon]
    rw [mapGet_sameEntries hl, mapGet_sameEntries ha, hs]
  yaml := by
    rintro r1 r2 ⟨h1, h2, h3, h4, h5, h6⟩
    simp only [demoEnvCanon]
    have hg : mapGet (r1.LabelSelector.getD []) "app" = mapGet (r2.LabelSelector.getD []) "app" := by
      cases ha : r1.LabelSelector <;> cases hb : r2.LabelSelector <;>
        simp_all [SameSelector, mapGet_sameEntries]
      exact mapGet_sameEntries h2 _
    rw [h1, h3, h4, h5, h6, sameSelector_isSome h2, hg]

theorem sameEntries_demo_labels :
    SameEntries [("app", "db"), ("tier", "data")] [("tier", "data"), ("app", "db")] := by
  intro k
  simp only [mapLookup]
  by_cases h1 : "app" = k
  · subst h1; simp
  · by_cases h2 : "tier" = k
    · subst h2; simp
    · simp [h1, h2]

/-- C11: hash stability.  `hashParentPodSpec` and `hashConfig` are functions of
their arguments, and with serialisers that write map entries independently of
the order of insertion they return the same hash for controllers and specs
that are equal as values, whatever the order of the entries of their labels,
annotations and label selector; `hashParentPodSpec` writes only to its deep
copy, the object it was given is the same afterwards. -/
theorem hash_stability (env : Env) (hM : CanonicalMarshal env) (config : Config)
    (dependencies : List Dependency) (obj1 obj2 : Controller) (r1 r2 : ReplacePodSpec)
    (hobj : SameObject obj1 obj2) (hspec : SameSpec r1 r2) :
    hashParentPodSpec env obj1 config dependencies r1
        = hashParentPodSpec env obj2 config dependencies r2
      ∧ hashConfig env r1 = hashConfig env r2
      ∧ (hashParentPodSpecRun env obj1 config dependencies r1).1
          = hashParentPodSpec env obj1 config dependencies r1
      ∧ (hashParentPodSpecRun env obj1 config dependencies r1).2.obj = obj1 :=
  ⟨hashParentPodSpec_sameObject hM config dependencies hobj hspec, hashConfig_sameSpec hM hspec,
    hashParentPodSpecRun_fst env obj1 config dependencies r1,
    hashParentPodSpecRun_obj env obj1 config dependencies r1⟩

theorem hash_stability_witness :
    CanonicalMarshal demoEnvCanon ∧ SameObject demoSetAB demoSetBA ∧ SameSpec demoSpecAB demoSpecBA
      ∧ demoSetAB ≠ demoSetBA ∧ demoSpecAB ≠ demoSpecBA
      ∧ hashParentPodSpec demoEnvCanon demoSetAB none [] demoSpecAB = .ok "db//main=postgres:dev;"
      ∧ (hashParentPodSpec demoEnvCanon demoSetAB none [] demoSpecAB
            = hashParentPodSpec demoEnvCanon demoSetBA none [] demoSpecBA
          ∧ hashConfig demoEnvCanon demoSpecAB = hashConfig demoEnvCanon demoSpecBA
          ∧ (hashParentPodSpecRun demoEnvCanon demoSetAB none [] demoSpecAB).1
              = hashParentPodSpec demoEnvCanon demoSetAB none [] demoSpecAB
          ∧ (hashParentPodSpecRun demoEnvCanon demoSetAB none [] demoSpecAB).2.obj = demoSetAB) :=
  have hobj : SameObject demoSetAB demoSetBA :=
    ⟨rfl, ⟨rfl, rfl, fun _ => rfl, fun _ => rfl, rfl, rfl, rfl, rfl⟩, rfl,
      sameEntries_demo_labels, fun _ => rfl, rfl⟩
  have hspec : SameSpec demoSpecAB demoSpecBA :=
    ⟨rfl, sameEntries_demo_labels, rfl, rfl, rfl, rfl⟩
  ⟨demoEnvCanon_canonical, hobj, hspec, by decide!, by decide!, by decide!,
    hash_stability demoEnvCanon demoEnvCanon_canonical none [] demoSetAB demoSetBA demoSpecAB
      demoSpecBA hobj hspec⟩

/-! ## C12: failure cases of the controller resolver -/

theorem faulty_next_of_nil {w : World} (h : w.faults = []) (c : Call) :
    (w.next c).faults = [] := by
  simp [World.next, h]

theorem getParent_no_owner {pod : Pod} (h : GetControllerOf pod.metadata = none) (w : World) :
    getParent pod w = (.error noOwnerError, w) := by
  unfold getParent
  rw [h]
  rfl

theorem getParent_unsupported_owner {pod : Pod} {ref : OwnerReference}
    (h : GetControllerOf pod.metadata = some ref) (h1 : ref.kind ≠ "ReplicaSet")
    (h2 : ref.kind ≠ "StatefulSet") (w : World) :
    getParent pod w = (.error (.msg ("unrecognized owner of Pod " ++ pod.metadata.name)), w) := by
  unfold getParent
  rw [h]
  simp only [if_neg h1, if_neg h2]
  rfl

theorem getParent_statefulSet {pod : Pod} {ref : OwnerReference} {w : World} {ss : Controller}
    (h : GetControllerOf pod.metadata = some ref) (hk : ref.kind = "StatefulSet")
    (hf : w.faulty = false)
    (hfind : findController w.cluster .StatefulSet pod.metadata.ns ref.name = some ss) :
    getParent pod w = (.ok ss, w.next (.getController .StatefulSet pod.metadata.ns ref.name)) := by
  have h1 : ref.kind ≠ "ReplicaSet" := by rw [hk]; decide
  unfold getParent
  rw [h]
  simp only [if_neg h1, if_pos hk]
  rw [bind_apply, attempt_apply, getController_apply]
  simp [hf, hfind, pure_apply]

theorem getParent_replicaSet {pod : Pod} {ref : OwnerReference} {w : World} {rs : Controller}
    (h : GetControllerOf pod.metadata = some ref) (hk : ref.kind = "ReplicaSet")
    (hf : w.faulty = false)
    (hfind : findController w.cluster .ReplicaSet pod.metadata.ns ref.name = some rs) :
    getParent pod w =
      match GetControllerOf rs.metadata with
      | none => (.ok rs, w.next (.getController .ReplicaSet pod.metadata.ns ref.name))
      | some replicaSetOwner =>
        if replicaSetOwner.kind = "Deployment" then
          match getController .Deployment pod.metadata.ns replicaSetOwner.name
              (w.next (.getController .ReplicaSet pod.metadata.ns ref.name)) with
          | (.ok deployment, w2) => (.ok deployment, w2)
          | (.error e, w2) =>
            if e = .notFound then
              (.error (.msg ("unrecognized owning Deployment " ++ replicaSetOwner.name)), w2)
            else (.error e, w2)
        else (.error (.msg ("unrecognized owner of ReplicaSet " ++ rs.metadata.name)),
          w.next (.getController .ReplicaSet pod.metadata.ns ref.name)) := by
  unfold getParent
  rw [h]
  simp only [if_pos hk]
  rw [bind_apply, attempt_apply, getController_apply]
  simp only [hf, hfind]
  simp only [Bool.false_eq_true, if_false]
  cases ho : GetControllerOf rs.metadata with
  | none => rfl
  | some o =>
    simp only []
    by_cases hd : o.kind = "Deployment"
    · simp only [if_pos hd]
      rw [bind_apply, attempt_apply]
      rcases hg : getController .Deployment pod.metadata.ns o.name
        (w.next (.getController .ReplicaSet pod.metadata.ns ref.name)) with ⟨r, w2⟩
      cases r with
      | ok d => rfl
      | error e =>
        by_cases he : e = .notFound
        · simp [he, fail]
        · simp [he, fail]
    · simp only [if_neg hd]
      simp [fail]


/-- C12 (counterexample): a pod whose controller owner reference names the
existing Deployment `api` has an ownership chain that ends in a Deployment, and
`getParent` fails with an error instead of returning the Deployment. -/
theorem getParent_direct_deployment_counterexample :
    GetControllerOf (demoOwnedPod "api-x" "Deployment" "api").metadata
        = some (demoOwner "Deployment" "api")
      ∧ findController demoChainWorld.cluster .Deployment "dev" "api" = some demoDeployment
      ∧ GetControllerOf demoDeployment.metadata = none
      ∧ demoChainWorld.faults = []
      ∧ getParent (demoOwnedPod "api-x" "Deployment" "api") demoChainWorld
          = (.error (.msg "unrecognized owner of Pod api-x"), demoChainWorld) := by
  decide!

/-- C12 (amended): `getParent` fails, without any request, for a pod without
controller owner reference and for a pod whose controller owner is of a kind
other than ReplicaSet and StatefulSet (DaemonSet, Job, also Deployment); it
fails for a pod of an existing ReplicaSet whose own controller owner is of a
kind other than Deployment.  When no request fails it returns the existing
StatefulSet named by the pod's owner reference, the existing ReplicaSet named by
it if that has no controller owner, and the existing Deployment named by the
controller owner reference of that ReplicaSet. -/
theorem getParent_outcomes (pod : Pod) (w : World) :
    (GetControllerOf pod.metadata = none → getParent pod w = (.error noOwnerError, w))
      ∧ (∀ ref, GetControllerOf pod.metadata = some ref → ref.kind ≠ "ReplicaSet" →
          ref.kind ≠ "StatefulSet" → ∃ e, getParent pod w = (.error e, w))
      ∧ (∀ ref rs owner, GetControllerOf pod.metadata = some ref → ref.kind = "ReplicaSet" →
          w.faults = [] →
          findController w.cluster .ReplicaSet pod.metadata.ns ref.name = some rs →
          GetControllerOf rs.metadata = some owner → owner.kind ≠ "Deployment" →
          ∃ e, (getParent pod w).1 = .error e)
      ∧ (∀ ref ss, GetControllerOf pod.metadata = some ref → ref.kind = "StatefulSet" →
          w.faults = [] →
          findController w.cluster .StatefulSet pod.metadata.ns ref.name = some ss →
          (getParent pod w).1 = .ok ss)
      ∧ (∀ ref rs, GetControllerOf pod.metadata = some ref → ref.kind = "ReplicaSet" →
          w.faults = [] →
          findController w.cluster .ReplicaSet pod.metadata.ns ref.name = some rs →
          GetControllerOf rs.metadata = none → (getParent pod w).1 = .ok rs)
      ∧ (∀ ref rs owner d, GetControllerOf pod.metadata = some ref → ref.kind = "ReplicaSet" →
          w.faults = [] →
          findController w.cluster .ReplicaSet pod.metadata.ns ref.name = some rs →
          GetControllerOf rs.metadata = some owner → owner.kind = "Deployment" →
          findController w.cluster .Deployment pod.metadata.ns owner.name = some d →
          (getParent pod w).1 = .ok d) := by
  refine ⟨fun h => getParent_no_owner h w,
    fun ref h h1 h2 => ⟨_, getParent_unsupported_owner h h1 h2 w⟩, ?_, ?_, ?_, ?_⟩
  · intro ref rs owner h hk hff hfind ho hd
    rw [getParent_replicaSet h hk (faulty_of_faults_nil hff) hfind, ho]
    simp only [if_neg hd]
    exact ⟨_, rfl⟩
  · intro ref ss h hk hff hfind
    rw [getParent_statefulSet h hk (faulty_of_faults_nil hff) hfind]
  · intro ref rs h hk hff hfind ho
    rw [getParent_replicaSet h hk (faulty_of_faults_nil hff) hfind, ho]
  · intro ref rs owner d h hk hff hfind ho hd hfd
    rw [getParent_replicaSet h hk (faulty_of_faults_nil hff) hfind, ho]
    simp only [if_pos hd]
    rw [getController_apply,
      if_neg (by rw [faulty_of_faults_nil (faulty_next_of_nil hff _)]; simp)]
    have hc : (w.next (.getController .ReplicaSet pod.metadata.ns ref.name)).cluster = w.cluster :=
      rfl
    rw [hc, hfd]

theorem getParent_outcomes_witness :
    getParent demoOrphanPod demoChainWorld = (.error noOwnerError, demoChainWorld)
      ∧ (∃ e, getParent (demoOwnedPod "agent-x" "DaemonSet" "agent") demoChainWorld
          = (.error e, demoChainWorld))
      ∧ (∃ e, (getParent (demoOwnedPod "roll-7c-x" "ReplicaSet" "roll-7c") demoChainWorld).1
          = .error e)
      ∧ (getParent (demoOwnedPod "db-0" "StatefulSet" "db") demoChainWorld).1 = .ok demoSet
      ∧ (getParent (demoOwnedPod "solo-x" "ReplicaSet" "solo") demoChainWorld).1
          = .ok demoBareReplicaSet
      ∧ (getParent (demoOwnedPod "api-5d-x" "ReplicaSet" "api-5d") demoChainWorld).1
          = .ok demoDeployment :=
  ⟨(getParent_outcomes demoOrphanPod demoChainWorld).1 (by decide!),
    (getParent_outcomes (demoOwnedPod "agent-x" "DaemonSet" "agent") demoChainWorld).2.1
      (demoOwner "DaemonSet" "agent") (by decide!) (by decide) (by decide),
    (getParent_outcomes (demoOwnedPod "roll-7c-x" "ReplicaSet" "roll-7c") demoChainWorld).2.2.1
      (demoOwner "ReplicaSet" "roll-7c") demoOwnedReplicaSet demoRolloutOwner (by decide!) (by decide) (by decide!) (by decide!) (by decide!)
      (by decide),
    (getParent_outcomes (demoOwnedPod "db-0" "StatefulSet" "db") demoChainWorld).2.2.2.1
      (demoOwner "StatefulSet" "db") demoSet (by decide!) (by decide) (by decide!) (by decide!),
    (getParent_outcomes (demoOwnedPod "solo-x" "ReplicaSet" "solo") demoChainWorld).2.2.2.2.1
      (demoOwner "ReplicaSet" "solo") demoBareReplicaSet (by decide!) (by decide) (by decide!) (by decide!) (by decide!),
    (getParent_outcomes (demoOwnedPod "api-5d-x" "ReplicaSet" "api-5d") demoChainWorld).2.2.2.2.2
      (demoOwner "ReplicaSet" "api-5d") demoReplicaSet (demoOwner "Deployment" "api")
      demoDeployment (by decide!) (by decide) (by decide!) (by decide!)
      (by decide!) (by decide) (by decide!)⟩

/-! ## C13: the ReplicaSet step of the controller resolver -/

/-- C13 (counterexample): the pod `roll-7c-x` is owned by the existing
ReplicaSet `roll-7c`, whose controller owner is of kind `Rollout`; `getParent`
fails with an error after fetching the ReplicaSet, it does not return the bare
ReplicaSet. -/
theorem replicaSet_other_owner_counterexample :
    GetControllerOf (demoOwnedPod "roll-7c-x" "ReplicaSet" "roll-7c").metadata
        = some (demoOwner "ReplicaSet" "roll-7c")
      ∧ findController demoChainWorld.cluster .ReplicaSet "dev" "roll-7c" = some demoOwnedReplicaSet
      ∧ GetControllerOf demoOwnedReplicaSet.metadata = some demoRolloutOwner
      ∧ demoChainWorld.faults = []
      ∧ (getParent (demoOwnedPod "roll-7c-x" "ReplicaSet" "roll-7c") demoChainWorld).1
          = .error (.msg "unrecognized owner of ReplicaSet roll-7c")
      ∧ (getParent (demoOwnedPod "roll-7c-x" "ReplicaSet" "roll-7c") demoChainWorld).1
          ≠ .ok demoOwnedReplicaSet := by
  decide!

/-- C13 (amended): for a pod whose controller owner reference names an existing
ReplicaSet R, when no request fails: `getParent` returns the Deployment D, after
two get requests, when the controller owner reference of R names an existing
Deployment D; it returns R itself, after one get request, when R has no
controller owner; and when the controller owner of R is of any kind other than
Deployment it returns an error, not R; so it does when the Deployment named by
R does not exist. -/
theorem replicaSet_chain_collapsing (pod : Pod) (ref : OwnerReference) (rs : Controller)
    (w : World) (h : GetControllerOf pod.metadata = some ref) (hk : ref.kind = "ReplicaSet")
    (hff : w.faults = [])
    (hfind : findController w.cluster .ReplicaSet pod.metadata.ns ref.name = some rs) :
    (∀ owner d, GetControllerOf rs.metadata = some owner → owner.kind = "Deployment" →
        findController w.cluster .Deployment pod.metadata.ns owner.name = some d →
        getParent pod w = (.ok d, (w.next (.getController .ReplicaSet pod.metadata.ns ref.name)).next
          (.getController .Deployment pod.metadata.ns owner.name)))
      ∧ (GetControllerOf rs.metadata = none →
        getParent pod w = (.ok rs, w.next (.getController .ReplicaSet pod.metadata.ns ref.name)))
      ∧ (∀ owner, GetControllerOf rs.metadata = some owner → owner.kind ≠ "Deployment" →
        getParent pod w = (.error (.msg ("unrecognized owner of ReplicaSet " ++ rs.metadata.name)),
          w.next (.getController .ReplicaSet pod.metadata.ns ref.name)))
      ∧ (∀ owner, GetControllerOf rs.metadata = some owner → owner.kind = "Deployment" →
        findController w.cluster .Deployment pod.metadata.ns owner.name = none →
        getParent pod w = (.error (.msg ("unrecognized owning Deployment " ++ owner.name)),
          (w.next (.getController .ReplicaSet pod.metadata.ns ref.name)).next
            (.getController .Deployment pod.metadata.ns owner.name))) := by
  have hf := faulty_of_faults_nil hff
  have hf2 : (w.next (.getController .ReplicaSet pod.metadata.ns ref.name)).faulty = false :=
    faulty_of_faults_nil (faulty_next_of_nil hff _)
  have hc : (w.next (.getController .ReplicaSet pod.metadata.ns ref.name)).cluster = w.cluster :=
    rfl
  refine ⟨?_, ?_, ?_, ?_⟩
  · intro owner d ho hd hfd
    rw [getParent_replicaSet h hk hf hfind, ho]
    simp only [if_pos hd]
    rw [getController_apply, hf2, hc, hfd]
    simp
  · intro ho
    rw [getParent_replicaSet h hk hf hfind, ho]
  · intro owner ho hd
    rw [getParent_replicaSet h hk hf hfind, ho]
    simp only [if_neg hd]
  · intro owner ho hd hfd
    rw [getParent_replicaSet h hk hf hfind, ho]
    simp only [if_pos hd]
    rw [getController_apply, hf2, hc, hfd]
    simp

theorem replicaSet_chain_collapsing_witness :
    (getParent (demoOwnedPod "api-5d-x" "ReplicaSet" "api-5d") demoChainWorld
        = (.ok demoDeployment, (demoChainWorld.next (.getController .ReplicaSet "dev" "api-5d")).next
            (.getController .Deployment "dev" "api")))
      ∧ (getParent (demoOwnedPod "solo-x" "ReplicaSet" "solo") demoChainWorld
        = (.ok demoBareReplicaSet, demoChainWorld.next (.getController .ReplicaSet "dev" "solo")))
      ∧ (getParent (demoOwnedPod "roll-7c-x" "ReplicaSet" "roll-7c") demoChainWorld
        = (.error (.msg ("unrecognized owner of ReplicaSet " ++ "roll-7c")),
            demoChainWorld.next (.getController .ReplicaSet "dev" "roll-7c"))) :=
  ⟨(replicaSet_chain_collapsing (demoOwnedPod "api-5d-x" "ReplicaSet" "api-5d")
      (demoOwner "ReplicaSet" "api-5d") demoReplicaSet demoChainWorld (by decide!) (by decide)
      (by decide!) (by decide!)).1 (demoOwner "Deployment" "api") demoDeployment (by decide!)
      (by decide) (by decide!),
    (replicaSet_chain_collapsing (demoOwnedPod "solo-x" "ReplicaSet" "solo")
      (demoOwner "ReplicaSet" "solo") demoBareReplicaSet demoChainWorld (by decide!) (by decide)
      (by decide!) (by decide!)).2.1 (by decide!),
    (replicaSet_chain_collapsing (demoOwnedPod "roll-7c-x" "ReplicaSet" "roll-7c")
      (demoOwner "ReplicaSet" "roll-7c") demoOwnedReplicaSet demoChainWorld (by decide!) (by decide)
      (by decide!) (by decide!)).2.2.1 demoRolloutOwner (by decide!) (by decide)⟩

/-! ## C14: the identity of the replacement body -/

theorem resetMetadata_fresh (env : Env) (pod : SelectedPodContainer) (parent : Controller)
    (replacePod : ReplacePodSpec) (parentHash configHash : String) (copiedPod : Pod) :
    FreshIdentity (resetMetadata env pod parent replacePod parentHash configHash copiedPod) :=
  ⟨rfl, rfl, rfl, rfl, rfl⟩

theorem freshIdentity_of_body {env : Env} {pod : SelectedPodContainer} {parent : Controller}
    {config : Config} {dependencies : List Dependency} {replacePod : ReplacePodSpec} {body : Pod}
    (h : replacementBody env pod parent config dependencies replacePod = .ok body) :
    FreshIdentity body := by
  obtain ⟨parentHash, configHash, copiedPod, _, _, _, hb⟩ := replacementBody_ok_inv h
  rw [hb]
  exact resetMetadata_fresh env pod parent replacePod parentHash configHash copiedPod

/-- C14: the replacement body has no resource identity.  For every source pod,
parent and replacement spec, with or without patches and whatever the patches
do, the body built by `replace` has an empty UID, an empty resource version, no
owner references and no deletion timestamp; its metadata consists of the name
derived from the name of the patched copy, the namespace of the copy, labels and
annotations; and every pod that `replace` or `ReplacePod` submits for creation
is such a body. -/
theorem replacement_body_identity (env : Env) (config : Config)
    (dependencies : List Dependency) (replacePod : ReplacePodSpec) :
    (∀ (pod : SelectedPodContainer) (parent : Controller) (body : Pod),
        replacementBody env pod parent config dependencies replacePod = .ok body →
        FreshIdentity body
          ∧ ∃ copiedPod, patchedCopy env pod config dependencies replacePod = .ok copiedPod
            ∧ body.metadata.name = env.safeConcatName copiedPod.metadata.name "devspace"
            ∧ body.metadata.ns = copiedPod.metadata.ns ∧ body.spec = copiedPod.spec)
      ∧ (∀ (pod : SelectedPodContainer) (parent : Controller) (w : World),
          Emits CreatesFresh w (replace env pod parent config dependencies replacePod w).2)
      ∧ (∀ w : World, Emits CreatesFresh w (ReplacePod env config dependencies replacePod w).2) := by
  refine ⟨?_, ?_, ?_⟩
  · intro pod parent body h
    refine ⟨freshIdentity_of_body h, ?_⟩
    obtain ⟨parentHash, configHash, copiedPod, _, _, hc, hb⟩ := replacementBody_ok_inv h
    exact ⟨copiedPod, hc, by rw [hb]; rfl, by rw [hb]; rfl, by rw [hb]; rfl⟩
  · intro pod parent w
    refine pres_replace (allows_emits env _ ?_) pod parent config dependencies replacePod ?_ ?_ w
    · intro c hc p hp
      subst hp
      simp [Call.mutating] at hc
    · intro o t _ p hp
      cases hp
    · intro body hb p hp
      cases hp
      exact freshIdentity_of_body hb
  · intro w
    refine pres_ReplacePod (allows_emits env _ ?_) config dependencies replacePod ?_ ?_ ?_ w
    · intro c hc p hp
      subst hp
      simp [Call.mutating] at hc
    · intro ns name p hp
      cases hp
    · intro o t _ p hp
      cases hp
    · rintro body ⟨pod, parent, hb⟩ p hp
      cases hp
      exact freshIdentity_of_body hb

theorem replacement_body_identity_witness :
    demoSelected.pod.metadata.uid = "uid-db" ∧ demoSelected.pod.metadata.resourceVersion = "1"
      ∧ demoSelected.pod.metadata.ownerReferences ≠ []
      ∧ FreshIdentity demoBody
      ∧ .createPod demoBody ∈ demoW1.trace :=
  ⟨by decide!, by decide!, by decide!,
    ((replacement_body_identity demoEnv none [] demoSpec).1 demoSelected demoSet demoBody
      (by decide!)).1, by decide!⟩

/-! ## C16: selection criteria are required -/

theorem replacedLabelSelector_none {replacePod : ReplacePodSpec}
    (hi : replacePod.ImageName = "") (hl : (replacePod.LabelSelector.getD []).length = 0) :
    replacedLabelSelector replacePod = none := by
  unfold replacedLabelSelector
  simp [hi, hl]

theorem findSingleReplacedPod_no_criteria (env : Env) {replacePod : ReplacePodSpec}
    (hi : replacePod.ImageName = "") (hl : (replacePod.LabelSelector.getD []).length = 0)
    (timeout : Nat) (w : World) :
    findSingleReplacedPod env replacePod timeout w = (.error noCriteriaError, w) := by
  unfold findSingleReplacedPod
  rw [replacedLabelSelector_none hi hl]
  rfl

/-- C16: selection criteria are required.  For every spec with an empty image
name and a label selector that is nil or empty, `findSingleReplacedPod` fails
before any request, and so `ReplacePod` and `RevertReplacePod` return that error
(wrapped with the step name) and leave the world as it was: the same cluster,
and no request issued. -/
theorem selection_criteria_required (env : Env) (config : Config)
    (dependencies : List Dependency) (replacePod : ReplacePodSpec) (w : World)
    (hi : replacePod.ImageName = "") (hl : (replacePod.LabelSelector.getD []).length = 0) :
    (∀ timeout, findSingleReplacedPod env replacePod timeout w = (.error noCriteriaError, w))
      ∧ ReplacePod env config dependencies replacePod w
          = (.error (.wrap "find patched pod" noCriteriaError), w)
      ∧ RevertReplacePod env replacePod w
          = (.error (.wrap "find patched pod" noCriteriaError), w) := by
  refine ⟨fun timeout => findSingleReplacedPod_no_criteria env hi hl timeout w, ?_, ?_⟩
  · unfold ReplacePod
    rw [bind_apply]
    simp only [wrapErr, findSingleReplacedPod_no_criteria env hi hl 2 w]
  · unfold RevertReplacePod
    rw [bind_apply]
    simp only [wrapErr, findSingleReplacedPod_no_criteria env hi hl 4 w]

theorem selection_criteria_required_witness :
    (∀ timeout, findSingleReplacedPod demoEnv demoSpecEmptyMap timeout demoWorld
        = (.error noCriteriaError, demoWorld))
      ∧ ReplacePod demoEnv none [] demoSpecEmptyMap demoWorld
          = (.error (.wrap "find patched pod" noCriteriaError), demoWorld)
      ∧ RevertReplacePod demoEnv demoSpecEmptyMap demoWorld
          = (.error (.wrap "find patched pod" noCriteriaError), demoWorld) :=
  selection_criteria_required demoEnv none [] demoSpecEmptyMap demoWorld (by decide) (by decide)

/-! ## C17: the effect of quiescing -/

theorem mapLookup_of_mem_nodup {m : StrMap} (h : (m.map Prod.fst).Nodup) {kv : String × String}
    (hm : kv ∈ m) : mapLookup m kv.1 = some kv.2 := by
  induction m with
  | nil => cases hm
  | cons a m ih =>
    rw [List.map_cons, List.nodup_cons] at h
    rcases List.mem_cons.mp hm with rfl | hm2
    · simp [mapLookup]
    · have hne : a.1 ≠ kv.1 := by
        intro he
        exact h.1 (he ▸ List.mem_map_of_mem Prod.fst hm2)
      simp only [mapLookup, if_neg hne]
      exact ih h.2 hm2

theorem not_mem_of_mapLookup_none {m : StrMap} {k : String} (h : mapLookup m k = none) :
    ∀ kv ∈ m, kv.1 ≠ k := by
  induction m with
  | nil => intro kv hkv; cases hkv
  | cons a m ih =>
    intro kv hkv
    by_cases ha : a.1 = k
    · simp [mapLookup, ha] at h
    · simp only [mapLookup, if_neg ha] at h
      rcases List.mem_cons.mp hkv with rfl | hm2
      · exact ha
      · exact ih h kv hm2

theorem opsEffect_const (ops : List (String × Option String)) (k : String)
    (init x : Option String) (hall : ∀ op ∈ ops, op.1 = k → op.2 = x)
    (hex : ∃ op ∈ ops, op.1 = k) : opsEffect ops k init = x := by
  unfold opsEffect
  induction ops generalizing init with
  | nil => obtain ⟨op, hop, _⟩ := hex; cases hop
  | cons op ops ih =>
    simp only [List.foldl_cons]
    by_cases hk : op.1 = k
    · rw [if_pos hk, hall op (List.mem_cons_self _ _) hk]
      by_cases hex2 : ∃ op2 ∈ ops, op2.1 = k
      · exact ih x (fun o ho => hall o (List.mem_cons_of_mem _ ho)) hex2
      · have := opsEffect_untouched ops k x (by
          intro o ho hok
          exact hex2 ⟨o, ho, hok⟩)
        unfold opsEffect at this
        exact this
    · rw [if_neg hk]
      obtain ⟨o, ho, hok⟩ := hex
      rcases List.mem_cons.mp ho with rfl | ho2
      · exact absurd hok hk
      · exact ih init (fun o ho => hall o (List.mem_cons_of_mem _ ho)) ⟨o, ho2, hok⟩

theorem nodup_mapDelete {m : StrMap} (h : (m.map Prod.fst).Nodup) (k : String) :
    ((mapDelete m k).map Prod.fst).Nodup := by
  induction m with
  | nil => simp [mapDelete]
  | cons a m ih =>
    rw [List.map_cons, List.nodup_cons] at h
    by_cases ha : a.1 = k
    · simp only [mapDelete, if_pos ha]
      exact ih h.2
    · simp only [mapDelete, if_neg ha, List.map_cons, List.nodup_cons]
      refine ⟨?_, ih h.2⟩
      intro hmem
      obtain ⟨kv, hkv, hk⟩ := List.mem_map.mp hmem
      exact h.1 (hk ▸ List.mem_map_of_mem Prod.fst (mem_mapDelete hkv).2)

theorem nodup_mapSet {m : StrMap} (h : (m.map Prod.fst).Nodup) (k v : String) :
    ((mapSet m k v).map Prod.fst).Nodup := by
  unfold mapSet
  rw [List.map_append, List.nodup_append]
  refine ⟨nodup_mapDelete h k, by simp, ?_⟩
  intro a ha hb
  obtain ⟨kv, hkv, hk⟩ := List.mem_map.mp ha
  simp at hb
  exact (mem_mapDelete hkv).1 (hk.trans hb)

/-- The merge patch computed from an object to its modified form, applied to that
object, gives the annotations of the modified form. -/
theorem mergeFrom_self_lookup (o t : Controller) (hnt : DistinctKeys t.metadata.annotations)
    (k : String) :
    mapLookup (applyPatch o (mergeFrom o t)).metadata.annotations k
      = mapLookup t.metadata.annotations k := by
  show mapLookup (applyAnnotationPatch o.metadata.annotations (mergeFrom o t).annotations) k = _
  unfold mergeFrom
  by_cases hc : (t.metadata.annotations.isEmpty && !o.metadata.annotations.isEmpty) = true
  · simp only [hc, if_true]
    have : t.metadata.annotations = [] := by
      simp only [Bool.and_eq_true] at hc
      exact List.isEmpty_iff.mp hc.1
    rw [this]
    rfl
  · simp only [hc, Bool.false_eq_true, if_false]
    rw [mapLookup_applyOps, opsEffect_append]
    cases hl : mapLookup t.metadata.annotations k with
    | some v =>
      have hB : ∀ op ∈ (o.metadata.annotations.filter
          (fun kv => !mapHas t.metadata.annotations kv.1)).map (fun kv => (kv.1, (none : Option String))),
          op.1 ≠ k := by
        intro op hop
        obtain ⟨kv, hkv, rfl⟩ := List.mem_map.mp hop
        have h2 := (List.mem_filter.mp hkv).2
        intro hk
        simp only at hk
        rw [hk] at h2
        simp [mapHas, hl] at h2
      rw [opsEffect_untouched _ _ _ hB]
      by_cases ho : mapLookup o.metadata.annotations k = some v
      · rw [opsEffect_untouched _ _ _ (by
          intro op hop
          obtain ⟨kv, hkv, rfl⟩ := List.mem_map.mp hop
          have hkv' := List.mem_filter.mp hkv
          intro hk
          simp only at hk
          have h3 := mapLookup_of_mem_nodup hnt hkv'.1
          rw [hk, hl] at h3
          have h4 := hkv'.2
          rw [hk, ho, h3] at h4
          simp at h4), ho]
      · refine opsEffect_const _ _ _ _ ?_ ?_
        · intro op hop hk
          obtain ⟨kv, hkv, rfl⟩ := List.mem_map.mp hop
          have hkv' := List.mem_filter.mp hkv
          simp only at hk
          have h3 := mapLookup_of_mem_nodup hnt hkv'.1
          rw [hk, hl] at h3
          simp only
          rw [h3]
        · refine ⟨(k, some v), List.mem_map.mpr ⟨(k, v), List.mem_filter.mpr
            ⟨mem_of_mapLookup hl, ?_⟩, rfl⟩, rfl⟩
          simpa using ho
    | none =>
      have hA : ∀ op ∈ (t.metadata.annotations.filter
          (fun kv => mapLookup o.metadata.annotations kv.1 != some kv.2)).map
            (fun kv => (kv.1, some kv.2)), op.1 ≠ k := by
        intro op hop
        obtain ⟨kv, hkv, rfl⟩ := List.mem_map.mp hop
        exact not_mem_of_mapLookup_none hl kv (List.mem_filter.mp hkv).1
      rw [opsEffect_untouched _ _ _ hA]
      cases ho : mapLookup o.metadata.annotations k with
      | none =>
        rw [opsEffect_untouched _ _ _ (by
          intro op hop
          obtain ⟨kv, hkv, rfl⟩ := List.mem_map.mp hop
          exact not_mem_of_mapLookup_none ho kv (List.mem_filter.mp hkv).1)]
      | some v =>
        refine opsEffect_const _ _ _ _ ?_ ?_
        · intro op hop _
          obtain ⟨kv, hkv, rfl⟩ := List.mem_map.mp hop
          rfl
        · refine ⟨(k, none), List.mem_map.mpr ⟨(k, v), List.mem_filter.mpr
            ⟨mem_of_mapLookup ho, ?_⟩, rfl⟩, rfl⟩
          simp [mapHas, hl]


theorem quiesced_sameButReplicas (obj : Controller) (hd : DistinctKeys obj.metadata.annotations) :
    SameButReplicas obj (applyPatch obj (mergeFrom obj (quiesced obj))) := by
  refine ⟨?_, rfl, rfl, rfl, rfl, rfl, rfl, rfl, rfl, rfl⟩
  intro k hk
  rw [mergeFrom_self_lookup obj (quiesced obj) (nodup_mapSet hd _ _) k]
  exact mapLookup_mapSet_ne _ _ _ _ hk

theorem patchController_trace (kind : Kind) (ns name : String) (patch : Patch) (w : World) :
    (patchController kind ns name patch w).2.trace
      = w.trace ++ [.patchController kind ns name patch] := by
  rw [patchController_apply]
  by_cases hf : w.faulty = true
  · simp [hf, World.next]
  · simp only [hf, Bool.false_eq_true, if_false]
    cases findController w.cluster kind ns name <;> simp [World.next]

/-- C17: quiesce.  For every controller with current replica count `n` (1 when
the replicas field is unset): if `n = 0`, `scaleDownParent` succeeds without a
request and leaves the world as it was; otherwise it issues exactly one request,
a merge patch on the controller, and when that request does not fail and the
stored controller is the fetched one, the stored controller afterwards has
zero replicas and the decimal text of `n` under the replicas annotation, and is
otherwise the same (every other annotation, the labels, the template and the
other fields), as is every other controller and every pod. -/
theorem scaleDownParent_effect (obj : Controller) (w : World)
    (hd : DistinctKeys obj.metadata.annotations) :
    (obj.replicas = none → currentReplicas obj = 1)
      ∧ (currentReplicas obj = 0 → scaleDownParent obj w = (.ok (), w))
      ∧ (currentReplicas obj ≠ 0 →
          (scaleDownParent obj w).2.trace = w.trace ++ [quiescePatchCall obj]
            ∧ (w.faulty = false →
                findController w.cluster obj.kind obj.metadata.ns obj.metadata.name = some obj →
                (scaleDownParent obj w).1 = .ok ()
                  ∧ (scaleDownParent obj w).2.cluster.pods = w.cluster.pods
                  ∧ (scaleDownParent obj w).2.cluster.controllers
                      = w.cluster.controllers.map (fun o =>
                          if isController obj.kind obj.metadata.ns obj.metadata.name o then
                            applyPatch o (mergeFrom obj (quiesced obj))
                          else o)
                  ∧ findController (scaleDownParent obj w).2.cluster obj.kind obj.metadata.ns
                      obj.metadata.name = some (applyPatch obj (mergeFrom obj (quiesced obj))))
            ∧ (applyPatch obj (mergeFrom obj (quiesced obj))).replicas = some 0
            ∧ mapLookup (applyPatch obj (mergeFrom obj (quiesced obj))).metadata.annotations
                ReplicasAnnotation = some (itoa (currentReplicas obj))
            ∧ SameButReplicas obj (applyPatch obj (mergeFrom obj (quiesced obj)))) := by
  refine ⟨fun h => by simp [currentReplicas, h], fun h => scaleDownParent_of_zero h w, ?_⟩
  intro h0
  rw [scaleDownParent_of_replicas h0]
  refine ⟨patchController_trace _ _ _ _ w, ?_, quiesce_patch_replicas obj obj h0,
    quiesce_patch_records obj obj rfl, quiesced_sameButReplicas obj hd⟩
  intro hf hfind
  have hrun : patchController obj.kind obj.metadata.ns obj.metadata.name
      (mergeFrom obj (quiesced obj)) w
      = (.ok (), { w.next (quiescePatchCall obj) with
          cluster := { w.cluster with
            controllers := w.cluster.controllers.map
              (patchIn obj.kind obj.metadata.ns obj.metadata.name
                (mergeFrom obj (quiesced obj))) } }) := by
    rw [patchController_apply, hf, hfind]
    rfl
  rw [hrun]
  exact ⟨rfl, rfl, rfl, findController_after_patch rfl hfind⟩

theorem scaleDownParent_effect_witness :
    currentReplicas demoShop = 1
      ∧ (scaleDownParent demoShop demoShopWorld).2.trace = [quiescePatchCall demoShop]
      ∧ findController (scaleDownParent demoShop demoShopWorld).2.cluster .Deployment "dev" "shop"
          = some { demoShop with
              metadata := { demoShop.metadata with
                annotations := [("team", "blue"), ("note", "keep"), ("devspace.sh/replicas", "1")] }
              replicas := some 0 }
      ∧ findController (scaleDownParent demoShop demoShopWorld).2.cluster .StatefulSet "dev" "db"
          = some demoSet
      ∧ SameButReplicas demoShop (applyPatch demoShop (mergeFrom demoShop (quiesced demoShop))) :=
  have h := scaleDownParent_effect demoShop demoShopWorld (by decide)
  ⟨h.1 rfl, (h.2.2 (by decide)).1, by decide!, by decide!, (h.2.2 (by decide)).2.2.2.2⟩

/-! ## C18: the effect of restoring -/

theorem scaleUpParent_of_atoi {parent : Controller} {r : Int}
    (ha : atoi (mapGet parent.metadata.annotations ReplicasAnnotation) = some r) (hr : r ≠ 0) :
    scaleUpParent parent
      = wrapErr "patch parent" (patchController parent.kind parent.metadata.ns
          parent.metadata.name (mergeFrom parent (restored parent r))) := by
  have hne : mapGet parent.metadata.annotations ReplicasAnnotation ≠ "" := by
    intro h
    rw [h, atoi_empty] at ha
    cases ha
  unfold scaleUpParent
  simp only [hne, if_false, Atoi_of_atoi ha, hr]
  rfl

theorem restored_sameButReplicas (parent : Controller) (r : Int)
    (hd : DistinctKeys parent.metadata.annotations) :
    SameButReplicas parent (applyPatch parent (mergeFrom parent (restored parent r))) := by
  refine ⟨?_, rfl, rfl, rfl, rfl, rfl, rfl, rfl, rfl, rfl⟩
  intro k hk
  rw [mergeFrom_self_lookup parent (restored parent r) (nodup_mapDelete hd _) k]
  exact mapLookup_mapDelete_ne _ _ _ hk

theorem wrapErr_trace {α : Type} (step : String) (m : M α) (w : World) :
    (wrapErr step m w).2 = (m w).2 := by
  unfold wrapErr
  rcases m w with ⟨r, w1⟩
  cases r <;> rfl

/-- C18 (counterexample): a controller that carries the replicas annotation with
the count 0 gets no request from `scaleUpParent`, which succeeds and leaves the
annotation in place; one that carries a text that is no number gets no request
either, and `scaleUpParent` fails; and so does one that carries the number
`2^63`, which `strconv.Atoi` rejects as out of range. -/
theorem restore_recorded_count_counterexample :
    mapLookup demoSetZero.metadata.annotations ReplicasAnnotation = some "0"
      ∧ scaleUpParent demoSetZero { cluster := { pods := [], controllers := [demoSetZero] } }
          = (.ok (), { cluster := { pods := [], controllers := [demoSetZero] } })
      ∧ mapLookup demoSetGarbled.metadata.annotations ReplicasAnnotation = some "three"
      ∧ scaleUpParent demoSetGarbled { cluster := { pods := [], controllers := [demoSetGarbled] } }
          = (.error (.wrap "parse old replicas" (.msg "invalid syntax")),
              { cluster := { pods := [], controllers := [demoSetGarbled] } })
      ∧ mapLookup demoSetHuge.metadata.annotations ReplicasAnnotation
          = some "9223372036854775808"
      ∧ scaleUpParent demoSetHuge { cluster := { pods := [], controllers := [demoSetHuge] } }
          = (.error (.wrap "parse old replicas" (.msg "value out of range")),
              { cluster := { pods := [], controllers := [demoSetHuge] } }) := by
  decide!

theorem parseUint_error (cs : List Char) (n : Nat) (e : Err) (h : parseUint cs n = .error e) :
    e = .msg "invalid syntax" ∨ e = .msg "value out of range" := by
  induction cs generalizing n with
  | nil => simp [parseUint] at h
  | cons c cs ih =>
    unfold parseUint at h
    cases hd : digitVal c with
    | none =>
      rw [hd] at h
      simp only [Except.error.injEq] at h
      exact Or.inl h.symm
    | some d =>
      rw [hd] at h
      simp only at h
      split at h
      · simp only [Except.error.injEq] at h
        exact Or.inr h.symm
      · split at h
        · simp only [Except.error.injEq] at h
          exact Or.inr h.symm
        · exact ih _ h

theorem Atoi_error (s : String) (e : Err) (h : Atoi s = .error e) :
    e = .msg "invalid syntax" ∨ e = .msg "value out of range" := by
  unfold Atoi at h
  cases hs : s.data with
  | nil =>
    rw [hs] at h
    simp only [Except.error.injEq] at h
    exact Or.inl h.symm
  | cons c cs =>
    rw [hs] at h
    dsimp only at h
    generalize (if c = '-' ∨ c = '+' then cs else c :: cs) = digits at h
    by_cases he : digits.isEmpty = true
    · rw [if_pos he] at h
      simp only [Except.error.injEq] at h
      exact Or.inl h.symm
    · rw [if_neg he] at h
      cases hp : parseUint digits 0 with
      | error e2 =>
        rw [hp] at h
        simp only [Except.error.injEq] at h
        rw [← h]
        exact parseUint_error _ _ _ hp
      | ok un =>
        rw [hp] at h
        dsimp only at h
        by_cases h1 : decide (c = '-') = false ∧ un ≥ 9223372036854775808
        · rw [if_pos h1] at h
          simp only [Except.error.injEq] at h
          exact Or.inr h.symm
        · rw [if_neg h1] at h
          by_cases h2 : decide (c = '-') = true ∧ un > 9223372036854775808
          · rw [if_pos h2] at h
            simp only [Except.error.injEq] at h
            exact Or.inr h.symm
          · rw [if_neg h2] at h
            by_cases h3 : decide (c = '-') = true
            · rw [if_pos h3] at h
              cases h
            · rw [if_neg h3] at h
              cases h

theorem Atoi_isInt64 (s : String) (r : Int) (h : Atoi s = .ok r) : isInt64 r := by
  unfold Atoi at h
  cases hs : s.data with
  | nil =>
    rw [hs] at h
    cases h
  | cons c cs =>
    rw [hs] at h
    dsimp only at h
    generalize (if c = '-' ∨ c = '+' then cs else c :: cs) = digits at h
    by_cases he : digits.isEmpty = true
    · rw [if_pos he] at h
      cases h
    · rw [if_neg he] at h
      cases hp : parseUint digits 0 with
      | error e2 =>
        rw [hp] at h
        cases h
      | ok un =>
        rw [hp] at h
        dsimp only at h
        by_cases h1 : decide (c = '-') = false ∧ un ≥ 9223372036854775808
        · rw [if_pos h1] at h
          cases h
        · rw [if_neg h1] at h
          by_cases h2 : decide (c = '-') = true ∧ un > 9223372036854775808
          · rw [if_pos h2] at h
            cases h
          · rw [if_neg h2] at h
            unfold isInt64
            by_cases h3 : decide (c = '-') = true
            · rw [if_pos h3] at h
              simp only [Except.ok.injEq] at h
              simp only [h3, true_and, gt_iff_lt, not_lt] at h2
              omega
            · rw [if_neg h3] at h
              simp only [Except.ok.injEq] at h
              simp only [Bool.not_eq_true] at h3
              simp only [h3, true_and, ge_iff_le, not_le] at h1
              omega

/-- C18 (amended): restore.  `scaleUpParent` succeeds without a request when the
replicas annotation is absent or empty, and also when it records the count 0
(the annotation then stays); it fails without a request, with the error of
`strconv.Atoi` wrapped as `parse old replicas`, when the annotation is no
decimal number or a number outside the 64 bits of an `int`.  When the
annotation records a count `r` other than 0, which then fits 64 bits, it issues
exactly one request, a merge patch on the controller, and when that request
does not fail and the stored controller is the fetched one, the stored
controller afterwards has no replicas annotation and the replica count
`int32(r)` (`r` itself when it fits 32 bits), and is otherwise the same. -/
theorem scaleUpParent_effect (parent : Controller) (w : World)
    (hd : DistinctKeys parent.metadata.annotations) :
    (mapLookup parent.metadata.annotations ReplicasAnnotation = none →
        scaleUpParent parent w = (.ok (), w))
      ∧ (mapGet parent.metadata.annotations ReplicasAnnotation = "" →
        scaleUpParent parent w = (.ok (), w))
      ∧ (atoi (mapGet parent.metadata.annotations ReplicasAnnotation) = some 0 →
        scaleUpParent parent w = (.ok (), w))
      ∧ (mapGet parent.metadata.annotations ReplicasAnnotation ≠ "" →
        atoi (mapGet parent.metadata.annotations ReplicasAnnotation) = none →
        ∃ e, Atoi (mapGet parent.metadata.annotations ReplicasAnnotation) = .error e
          ∧ (e = .msg "invalid syntax" ∨ e = .msg "value out of range")
          ∧ scaleUpParent parent w = (.error (.wrap "parse old replicas" e), w))
      ∧ (∀ r, atoi (mapGet parent.metadata.annotations ReplicasAnnotation) = some r → r ≠ 0 →
          isInt64 r
            ∧ (scaleUpParent parent w).2.trace = w.trace ++ [restorePatchCall parent r]
            ∧ (w.faulty = false →
                findController w.cluster parent.kind parent.metadata.ns parent.metadata.name
                  = some parent →
                (scaleUpParent parent w).1 = .ok ()
                  ∧ (scaleUpParent parent w).2.cluster.pods = w.cluster.pods
                  ∧ findController (scaleUpParent parent w).2.cluster parent.kind
                      parent.metadata.ns parent.metadata.name
                      = some (applyPatch parent (mergeFrom parent (restored parent r))))
            ∧ mapLookup (applyPatch parent (mergeFrom parent (restored parent r))).metadata.annotations
                ReplicasAnnotation = none
            ∧ (applyPatch parent (mergeFrom parent (restored parent r))).replicas
                = some (toInt32 r)
            ∧ (isInt32 r →
                (applyPatch parent (mergeFrom parent (restored parent r))).replicas = some r)
            ∧ SameButReplicas parent
                (applyPatch parent (mergeFrom parent (restored parent r)))) := by
  have hempty : mapGet parent.metadata.annotations ReplicasAnnotation = "" →
      scaleUpParent parent w = (.ok (), w) := by
    intro h
    unfold scaleUpParent
    simp only [h, if_true]
    rfl
  refine ⟨fun h => hempty (by simp [mapGet, h]), hempty, ?_, ?_, ?_⟩
  · intro h0
    unfold scaleUpParent
    by_cases he : mapGet parent.metadata.annotations ReplicasAnnotation = ""
    · simp only [he, if_true]
      rfl
    · simp only [he, if_false, Atoi_of_atoi h0, if_true]
      rfl
  · intro hne hnone
    obtain ⟨e, he⟩ := atoi_none_iff.mp hnone
    refine ⟨e, he, Atoi_error _ _ he, ?_⟩
    unfold scaleUpParent
    simp only [hne, if_false, he]
    rfl
  · intro r ha hr
    have hne : mapGet parent.metadata.annotations ReplicasAnnotation ≠ "" := by
      intro h
      rw [h, atoi_empty] at ha
      cases ha
    rw [scaleUpParent_of_atoi ha hr]
    refine ⟨Atoi_isInt64 _ _ (Atoi_of_atoi ha),
      by rw [wrapErr_trace]; exact patchController_trace _ _ _ _ w, ?_,
      restore_patch_clears parent parent r hne,
      restore_patch_replicas parent parent r rfl, ?_, restored_sameButReplicas parent r hd⟩
    · intro hf hfind
      have hrun : wrapErr "patch parent" (patchController parent.kind parent.metadata.ns
          parent.metadata.name (mergeFrom parent (restored parent r))) w
          = (.ok (), { w.next (restorePatchCall parent r) with
              cluster := { w.cluster with
                controllers := w.cluster.controllers.map
                  (patchIn parent.kind parent.metadata.ns parent.metadata.name
                    (mergeFrom parent (restored parent r))) } }) := by
        unfold wrapErr
        rw [patchController_apply, hf, hfind]
        rfl
      rw [hrun]
      exact ⟨rfl, rfl, findController_after_patch rfl hfind⟩
    · intro h32
      rw [restore_patch_replicas parent parent r rfl, toInt32_of_isInt32 h32]

theorem scaleUpParent_effect_witness :
    (scaleUpParent demoShop demoShopWorld = (.ok (), demoShopWorld))
      ∧ (scaleUpParent demoShopQuiesced demoShopQuiescedWorld).2.trace
          = [restorePatchCall demoShopQuiesced 5]
      ∧ findController (scaleUpParent demoShopQuiesced demoShopQuiescedWorld).2.cluster
            .Deployment "dev" "shop"
          = some { demoShop with replicas := some 5 }
      ∧ (applyPatch demoShopQuiesced
            (mergeFrom demoShopQuiesced (restored demoShopQuiesced 5))).replicas = some 5 :=
  have h := (scaleUpParent_effect demoShopQuiesced demoShopQuiescedWorld (by decide)).2.2.2.2
    5 (by decide!) (by decide)
  ⟨(scaleUpParent_effect demoShop demoShopWorld (by decide)).1 (by decide!), h.2.1, by decide!,
    h.2.2.2.2.2.1 (by decide)⟩

/-! ## C19: the staleness decision -/

theorem lacksParentAnnotations_false_iff (pod : Pod) :
    lacksParentAnnotations pod = false ↔
      mapGet pod.metadata.annotations ParentKindAnnotation ≠ ""
        ∧ mapGet pod.metadata.annotations ParentNameAnnotation ≠ "" := by
  unfold lacksParentAnnotations
  simp

theorem updateNeeded_of_lacking {env : Env} {pod : SelectedPodContainer} (config : Config)
    (dependencies : List Dependency) (replacePod : ReplacePodSpec) (w : World)
    (hl : lacksParentAnnotations pod.pod = true) :
    updateNeeded env pod config dependencies replacePod w
      = (deleteAndWait env pod.pod >>= fun _ => (pure true : M Bool)) w := by
  unfold updateNeeded
  rw [if_pos hl]

theorem updateNeeded_of_parent_error {env : Env} {pod : SelectedPodContainer} (config : Config)
    (dependencies : List Dependency) (replacePod : ReplacePodSpec) {w w1 : World} {e : Err}
    (hl : lacksParentAnnotations pod.pod = false)
    (hp : getParentFromReplaced pod.pod w = (.error e, w1)) :
    updateNeeded env pod config dependencies replacePod w
      = (deleteAndWait env pod.pod >>= fun _ => (pure true : M Bool)) w1 := by
  unfold updateNeeded
  rw [if_neg (by simp [hl]), bind_apply, attempt_apply, hp]

theorem updateNeeded_of_parent {env : Env} {pod : SelectedPodContainer} (config : Config)
    (dependencies : List Dependency) (replacePod : ReplacePodSpec) {w w1 : World}
    {parent : Controller} {parentHash configHash : String}
    (hl : lacksParentAnnotations pod.pod = false)
    (hp : getParentFromReplaced pod.pod w = (.ok parent, w1))
    (hph : hashParentPodSpec env parent config dependencies replacePod = .ok parentHash)
    (hch : hashConfig env replacePod = .ok configHash) :
    updateNeeded env pod config dependencies replacePod w
      = if parentHash = mapGet pod.pod.metadata.annotations ParentHashAnnotation
            ∧ configHash = mapGet pod.pod.metadata.annotations ReplaceConfigHashAnnotation then
          (attempt (scaleDownParent parent) >>= fun _ => (pure false : M Bool)) w1
        else
          (wrapErr "delete replaced pod" (deleteAndWait env pod.pod) >>= fun _ =>
            scaleUpParent parent >>= fun _ => (pure true : M Bool)) w1 := by
  unfold updateNeeded
  rw [if_neg (by simp [hl]), bind_apply, attempt_apply, hp]
  simp only [hph, hch, wrapExcept]
  rw [bind_apply]
  simp only [liftExcept]
  rw [bind_apply]
  simp only [liftExcept]
  by_cases hc : parentHash = mapGet pod.pod.metadata.annotations ParentHashAnnotation
      ∧ configHash = mapGet pod.pod.metadata.annotations ReplaceConfigHashAnnotation
  · rw [if_pos hc, if_pos hc]
  · rw [if_neg hc, if_neg hc]


theorem bind_const_fst {α β : Type} (m : M α) (b : β) (w : World) :
    ((m >>= fun _ => (pure b : M β)) w).1
      = (match (m w).1 with
        | .ok _ => .ok b
        | .error e => .error e) := by
  rw [bind_apply]
  rcases m w with ⟨r, w1⟩
  cases r <;> rfl

theorem updateNeeded_of_hash_error {env : Env} {pod : SelectedPodContainer} (config : Config)
    (dependencies : List Dependency) (replacePod : ReplacePodSpec) {w w1 : World}
    {parent : Controller}
    (hl : lacksParentAnnotations pod.pod = false)
    (hp : getParentFromReplaced pod.pod w = (.ok parent, w1))
    (hh : (∃ e, hashParentPodSpec env parent config dependencies replacePod = .error e)
      ∨ ∃ e, hashConfig env replacePod = .error e) :
    ∃ e, updateNeeded env pod config dependencies replacePod w = (.error e, w1) := by
  unfold updateNeeded
  rw [if_neg (by simp [hl]), bind_apply, attempt_apply, hp]
  simp only []
  rw [bind_apply]
  cases hph : hashParentPodSpec env parent config dependencies replacePod with
  | error e => exact ⟨_, rfl⟩
  | ok parentHash =>
    simp only [wrapExcept, liftExcept]
    rw [bind_apply]
    cases hch : hashConfig env replacePod with
    | error e => exact ⟨_, rfl⟩
    | ok configHash =>
      rcases hh with ⟨e, he⟩ | ⟨e, he⟩
      · rw [hph] at he; cases he
      · rw [hch] at he; cases he

/-- C19 (counterexample): the replacement pod of the examples is stale for the
changed spec (the config hash differs from the stamped one) and its deletion
succeeds, the pod is gone afterwards; the restore patch on the parent then
fails, and `updateNeeded` returns that error instead of reporting that an update
is needed. -/
theorem updateNeeded_restore_failure_counterexample :
    lacksParentAnnotations demoFound.pod = false
      ∧ findPod demoW1.cluster "dev" "db-0-devspace" = some demoFound.pod
      ∧ hashConfig demoEnv demoSpec2
          ≠ .ok (mapGet demoFound.pod.metadata.annotations ReplaceConfigHashAnnotation)
      ∧ findPod (updateNeeded demoEnv demoFound none [] demoSpec2
            { demoW1 with faults := [false, false, false, true] }).2.cluster "dev" "db-0-devspace"
          = none
      ∧ (updateNeeded demoEnv demoFound none [] demoSpec2
            { demoW1 with faults := [false, false, false, true] }).1
          = .error (.wrap "patch parent" .transient) := by
  decide!


/-- C19 (amended): the staleness decision.  `updateNeeded` reports that no
update is needed if and only if the pod carries non-empty parent-kind and
parent-name annotations, the named parent can be fetched, and the two hashes
computed afresh are the stamped parent hash and config hash.  It reports that an
update is needed when the annotations are missing and the deletion succeeds;
when the parent cannot be fetched and the deletion succeeds; and when a hash
differs, the deletion succeeds and the restore of the parent succeeds; a failed
hash computation, a failed deletion and a failed restore are returned as errors.
Whenever it reports that an update is needed, the replacement pod is gone. -/
theorem updateNeeded_decision (env : Env) (pod : SelectedPodContainer) (config : Config)
    (dependencies : List Dependency) (replacePod : ReplacePodSpec) (w : World) :
    ((updateNeeded env pod config dependencies replacePod w).1 = .ok false ↔
        (mapGet pod.pod.metadata.annotations ParentKindAnnotation ≠ ""
          ∧ mapGet pod.pod.metadata.annotations ParentNameAnnotation ≠ "")
        ∧ ∃ parent, (getParentFromReplaced pod.pod w).1 = .ok parent
          ∧ hashParentPodSpec env parent config dependencies replacePod
              = .ok (mapGet pod.pod.metadata.annotations ParentHashAnnotation)
          ∧ hashConfig env replacePod
              = .ok (mapGet pod.pod.metadata.annotations ReplaceConfigHashAnnotation))
      ∧ (lacksParentAnnotations pod.pod = true → ∀ w1,
          deleteAndWait env pod.pod w = (.ok (), w1) →
          updateNeeded env pod config dependencies replacePod w = (.ok true, w1))
      ∧ (lacksParentAnnotations pod.pod = false → ∀ e w1 w2,
          getParentFromReplaced pod.pod w = (.error e, w1) →
          deleteAndWait env pod.pod w1 = (.ok (), w2) →
          updateNeeded env pod config dependencies replacePod w = (.ok true, w2))
      ∧ (lacksParentAnnotations pod.pod = false → ∀ parent w1 parentHash configHash,
          getParentFromReplaced pod.pod w = (.ok parent, w1) →
          hashParentPodSpec env parent config dependencies replacePod = .ok parentHash →
          hashConfig env replacePod = .ok configHash →
          (parentHash ≠ mapGet pod.pod.metadata.annotations ParentHashAnnotation
            ∨ configHash ≠ mapGet pod.pod.metadata.annotations ReplaceConfigHashAnnotation) →
          (∀ w2 w3, deleteAndWait env pod.pod w1 = (.ok (), w2) →
              scaleUpParent parent w2 = (.ok (), w3) →
              updateNeeded env pod config dependencies replacePod w = (.ok true, w3))
            ∧ (∀ e w2, deleteAndWait env pod.pod w1 = (.error e, w2) →
              updateNeeded env pod config dependencies replacePod w
                = (.error (.wrap "delete replaced pod" e), w2))
            ∧ (∀ w2 e w3, deleteAndWait env pod.pod w1 = (.ok (), w2) →
              scaleUpParent parent w2 = (.error e, w3) →
              updateNeeded env pod config dependencies replacePod w = (.error e, w3)))
      ∧ (∀ w2, updateNeeded env pod config dependencies replacePod w = (.ok true, w2) →
          findPod w2.cluster pod.pod.metadata.ns pod.pod.metadata.name = none) := by
  refine ⟨?_, ?_, ?_, ?_, fun w2 h => updateNeeded_true_inv h⟩
  · rw [← lacksParentAnnotations_false_iff]
    cases hl : lacksParentAnnotations pod.pod with
    | true =>
      rw [updateNeeded_of_lacking config dependencies replacePod w hl, bind_const_fst]
      constructor
      · intro h
        cases hd : (deleteAndWait env pod.pod w).1 <;> rw [hd] at h <;> simp at h
      · rintro ⟨h, _⟩
        cases h
    | false =>
      rcases hp : getParentFromReplaced pod.pod w with ⟨r, w1⟩
      cases r with
      | error e =>
        rw [updateNeeded_of_parent_error config dependencies replacePod hl hp, bind_const_fst]
        constructor
        · intro h
          cases hd : (deleteAndWait env pod.pod w1).1 <;> rw [hd] at h <;> simp at h
        · rintro ⟨_, parent, h, _⟩
          simp at h
      | ok parent =>
        cases hph : hashParentPodSpec env parent config dependencies replacePod with
        | error e =>
          obtain ⟨e2, he2⟩ := updateNeeded_of_hash_error config dependencies replacePod hl hp
            (Or.inl ⟨e, hph⟩)
          rw [he2]
          constructor
          · intro h
            simp at h
          · rintro ⟨_, parent2, h, h2, _⟩
            simp only [Except.ok.injEq] at h
            subst h
            rw [hph] at h2
            cases h2
        | ok parentHash =>
          cases hch : hashConfig env replacePod with
          | error e =>
            obtain ⟨e2, he2⟩ := updateNeeded_of_hash_error config dependencies replacePod hl hp
              (Or.inr ⟨e, hch⟩)
            rw [he2]
            constructor
            · intro h
              simp at h
            · rintro ⟨_, parent2, _, _, h3⟩
              cases h3
          | ok configHash =>
            rw [updateNeeded_of_parent config dependencies replacePod hl hp hph hch]
            by_cases hc : parentHash = mapGet pod.pod.metadata.annotations ParentHashAnnotation
                ∧ configHash = mapGet pod.pod.metadata.annotations ReplaceConfigHashAnnotation
            · rw [if_pos hc, bind_const_fst, attempt_apply]
              simp only [true_iff, true_and]
              refine ⟨parent, rfl, ?_, ?_⟩
              · rw [hph, hc.1]
              · rw [hc.2]
            · rw [if_neg hc]
              constructor
              · intro h
                rw [bind_apply] at h
                rcases hd : wrapErr "delete replaced pod" (deleteAndWait env pod.pod) w1
                  with ⟨rd, wd⟩
                rw [hd] at h
                cases rd with
                | error e => simp at h
                | ok u =>
                  simp only [] at h
                  rw [bind_const_fst] at h
                  cases hs : (scaleUpParent parent wd).1 <;> rw [hs] at h <;> simp at h
              · rintro ⟨_, parent2, h, h2, h3⟩
                simp only [Except.ok.injEq] at h
                subst h
                rw [hph] at h2
                simp only [Except.ok.injEq] at h2 h3
                exact absurd ⟨h2, h3⟩ hc
  · intro hl w1 hd
    rw [updateNeeded_of_lacking config dependencies replacePod w hl, bind_of_ok hd]
    rfl
  · intro hl e w1 w2 hp hd
    rw [updateNeeded_of_parent_error config dependencies replacePod hl hp, bind_of_ok hd]
    rfl
  · intro hl parent w1 parentHash configHash hp hph hch hdiff
    have hc : ¬ (parentHash = mapGet pod.pod.metadata.annotations ParentHashAnnotation
        ∧ configHash = mapGet pod.pod.metadata.annotations ReplaceConfigHashAnnotation) := by
      rintro ⟨h1, h2⟩
      rcases hdiff with h | h
      · exact h h1
      · exact h h2
    rw [updateNeeded_of_parent config dependencies replacePod hl hp hph hch, if_neg hc]
    refine ⟨?_, ?_, ?_⟩
    · intro w2 w3 hd hs
      have hd2 : wrapErr "delete replaced pod" (deleteAndWait env pod.pod) w1 = (.ok (), w2) := by
        unfold wrapErr
        rw [hd]
      rw [bind_of_ok hd2, bind_of_ok hs]
      rfl
    · intro e w2 hd
      have hd2 : wrapErr "delete replaced pod" (deleteAndWait env pod.pod) w1
          = (.error (.wrap "delete replaced pod" e), w2) := by
        unfold wrapErr
        rw [hd]
      rw [bind_of_error hd2]
    · intro w2 e w3 hd hs
      have hd2 : wrapErr "delete replaced pod" (deleteAndWait env pod.pod) w1 = (.ok (), w2) := by
        unfold wrapErr
        rw [hd]
      rw [bind_of_ok hd2, bind_of_error hs]


theorem updateNeeded_decision_witness :
    (updateNeeded demoEnv demoFound none [] demoSpec demoW1).1 = .ok false
      ∧ updateNeeded demoEnv demoFound none [] demoSpec2 demoW1
          = (.ok true, (scaleUpParent demoSetQuiesced
              (deleteAndWait demoEnv demoFound.pod
                (getParentFromReplaced demoFound.pod demoW1).2).2).2) :=
  ⟨(updateNeeded_decision demoEnv demoFound none [] demoSpec demoW1).1.mpr
      ⟨⟨by decide!, by decide!⟩, demoSetQuiesced, by decide!, by decide!, by decide!⟩,
    ((updateNeeded_decision demoEnv demoFound none [] demoSpec2 demoW1).2.2.2.1 (by decide!)
      demoSetQuiesced (getParentFromReplaced demoFound.pod demoW1).2 "main=postgres:next;"
      "||dev|postgres:next" (by decide!) (by decide!) (by decide!) (Or.inl (by decide!))).1
      (deleteAndWait demoEnv demoFound.pod (getParentFromReplaced demoFound.pod demoW1).2).2
      (scaleUpParent demoSetQuiesced
        (deleteAndWait demoEnv demoFound.pod (getParentFromReplaced demoFound.pod demoW1).2).2).2
      (by decide!) (by decide!)⟩

/-! ## C20: image-based matching -/

theorem exchangeImage_no_match (matches_ : Container → Bool) (imageStr : String)
    (l : List Container) (h : ∀ c ∈ l, matches_ c = false) :
    exchangeImage matches_ imageStr false l = l := by
  induction l with
  | nil => rfl
  | cons c cs ih =>
    simp only [exchangeImage, Bool.false_eq_true, if_false, h c (List.mem_cons_self _ _)]
    rw [ih (fun x hx => h x (List.mem_cons_of_mem _ hx))]

theorem exchangeImage_first_match (matches_ : Container → Bool) (imageStr : String)
    (pre : List Container) (c : Container) (post : List Container)
    (hpre : ∀ x ∈ pre, matches_ x = false) (hc : matches_ c = true) :
    exchangeImage matches_ imageStr false (pre ++ c :: post)
      = pre ++ { c with image := imageStr } :: post := by
  induction pre with
  | nil => simp [exchangeImage, hc]
  | cons x xs ih =>
    have hx := hpre x (List.mem_cons_self _ _)
    have := ih (fun y hy => hpre y (List.mem_cons_of_mem _ hy))
    show exchangeImage matches_ imageStr false (x :: (xs ++ c :: post)) = _
    simp only [exchangeImage, Bool.false_eq_true, if_false, hx, this, List.cons_append]

theorem replaceImageInPodSpec_by_image (env : Env) (podSpec : PodSpec) (config : Config)
    (dependencies : List Dependency) (replacePod : ReplacePodSpec) {imageStr : String}
    {sel : ImageSelector} (hsel : replacePod.LabelSelector = none)
    (hr : env.replaceImage replacePod.ReplaceImage config dependencies = .ok imageStr)
    (hres : Resolve replacePod.ImageName config dependencies = .ok [sel]) :
    replaceImageInPodSpec env podSpec config dependencies replacePod
      = .ok { podSpec with
          containers := exchangeImage (fun c => CompareImageNames env sel c.image) imageStr
            (podSpec.containers.length == 1) podSpec.containers } := by
  unfold replaceImageInPodSpec
  rw [hr]
  simp only [hsel, Option.isSome_none, Bool.false_eq_true, if_false, hres]

/-- C20 (counterexample): in image-based mode, with two containers and no
container name: when both containers run the image, `replaceImageInPodSpec`
returns no error and gives the new image to the first of them; when no
container runs the image it returns no error either and leaves the pod spec as
it is. -/
theorem image_tie_break_counterexample :
    demoImageSpec.LabelSelector = none ∧ demoImageSpec.ContainerName = ""
      ∧ Resolve "app" demoImageConfig [] = .ok [demoImageSelector]
      ∧ demoTwoMatches.containers.map (fun c => CompareImageNames demoEnv demoImageSelector c.image)
          = [true, true]
      ∧ replaceImageInPodSpec demoEnv demoTwoMatches demoImageConfig [] demoImageSpec
          = .ok { containers := [{ name := "a", image := "nginx:dev" },
                                 { name := "b", image := "nginx:1.2" }] }
      ∧ demoNoMatch.containers.map (fun c => CompareImageNames demoEnv demoImageSelector c.image)
          = [false, false]
      ∧ replaceImageInPodSpec demoEnv demoNoMatch demoImageConfig [] demoImageSpec
          = .ok demoNoMatch := by
  decide!


/-- C20 (amended): image-based matching.  In image-based mode (no label
selector), whatever the container name of the spec, `replaceImageInPodSpec`
fails only with the error of the image resolver, with the error of the selector
resolution, or when that resolution gives no or several selectors; the
containers play no part in it.  Otherwise, for a pod spec with two or more
containers, it gives the new image to the first container whose image matches
the selector and leaves every other container as it is, also when further
containers match; when no container matches it returns the pod spec unchanged,
without error. -/
theorem image_matching_first_match (env : Env) (podSpec : PodSpec) (config : Config)
    (dependencies : List Dependency) (replacePod : ReplacePodSpec)
    (hsel : replacePod.LabelSelector = none) :
    (∀ e, env.replaceImage replacePod.ReplaceImage config dependencies = .error e →
        replaceImageInPodSpec env podSpec config dependencies replacePod = .error e)
      ∧ (∀ imageStr e, env.replaceImage replacePod.ReplaceImage config dependencies = .ok imageStr →
        Resolve replacePod.ImageName config dependencies = .error e →
        replaceImageInPodSpec env podSpec config dependencies replacePod = .error e)
      ∧ (∀ imageStr l, env.replaceImage replacePod.ReplaceImage config dependencies = .ok imageStr →
        Resolve replacePod.ImageName config dependencies = .ok l → l.length ≠ 1 →
        replaceImageInPodSpec env podSpec config dependencies replacePod
          = .error (.msg "unexpected amount of image selectors resolved"))
      ∧ (∀ imageStr sel,
        env.replaceImage replacePod.ReplaceImage config dependencies = .ok imageStr →
        Resolve replacePod.ImageName config dependencies = .ok [sel] →
        2 ≤ podSpec.containers.length →
        (∀ pre c post, podSpec.containers = pre ++ c :: post →
            (∀ x ∈ pre, CompareImageNames env sel x.image = false) →
            CompareImageNames env sel c.image = true →
            replaceImageInPodSpec env podSpec config dependencies replacePod
              = .ok { podSpec with containers := pre ++ { c with image := imageStr } :: post })
          ∧ ((∀ c ∈ podSpec.containers, CompareImageNames env sel c.image = false) →
            replaceImageInPodSpec env podSpec config dependencies replacePod = .ok podSpec)) := by
  refine ⟨?_, ?_, ?_, ?_⟩
  · intro e hr
    unfold replaceImageInPodSpec
    rw [hr]
  · intro imageStr e hr hres
    unfold replaceImageInPodSpec
    rw [hr]
    simp only [hsel, Option.isSome_none, Bool.false_eq_true, if_false, hres]
  · intro imageStr l hr hres hl
    unfold replaceImageInPodSpec
    rw [hr]
    simp only [hsel, Option.isSome_none, Bool.false_eq_true, if_false, hres]
    match l, hl with
    | [], _ => rfl
    | [_], h => exact absurd rfl h
    | _ :: _ :: _, _ => rfl
  · intro imageStr sel hr hres hlen
    have hne : (podSpec.containers.length == 1) = false := by
      simp only [beq_eq_false_iff_ne]
      omega
    rw [replaceImageInPodSpec_by_image env podSpec config dependencies replacePod hsel hr hres, hne]
    constructor
    · intro pre c post hcs hpre hc
      rw [hcs, exchangeImage_first_match _ _ _ _ _ hpre hc]
    · intro hnone
      rw [exchangeImage_no_match _ _ _ hnone]

theorem image_matching_first_match_witness :
    replaceImageInPodSpec demoEnv demoOneMatch demoImageConfig [] demoImageSpec
        = .ok { containers := [{ name := "a", image := "redis" }, { name := "b", image := "nginx:dev" }] }
      ∧ replaceImageInPodSpec demoEnv demoNoMatch demoImageConfig [] demoImageSpec
        = .ok demoNoMatch :=
  have h := (image_matching_first_match demoEnv demoOneMatch demoImageConfig [] demoImageSpec
    rfl).2.2.2 "nginx:dev" demoImageSelector rfl (by decide!) (by decide)
  have h2 := (image_matching_first_match demoEnv demoNoMatch demoImageConfig [] demoImageSpec
    rfl).2.2.2 "nginx:dev" demoImageSelector rfl (by decide!) (by decide)
  ⟨h.1 [{ name := "a", image := "redis" }] { name := "b", image := "nginx:1.2" } [] rfl
      (by decide!) (by decide!),
    h2.2 (by decide!)⟩

/-! ## C15: failed requests and what a run returns -/

theorem failedCalls_append (t1 t2 : List Call) (faults : List Bool) :
    failedCalls (t1 ++ t2) faults
      = failedCalls t1 faults ++ failedCalls t2 (faults.drop t1.length) := by
  induction t1 generalizing faults with
  | nil => simp [failedCalls]
  | cons c cs ih =>
    cases faults with
    | nil =>
      cases t2 <;> simp [failedCalls]
    | cons b bs =>
      cases b <;> simp [failedCalls, ih]

theorem failedCalls_nil_faults (t : List Call) : failedCalls t [] = [] := by
  cases t <;> rfl

theorem mem_of_mem_failedCalls {t : List Call} {faults : List Bool} {c : Call}
    (h : c ∈ failedCalls t faults) : c ∈ t := by
  induction t generalizing faults with
  | nil => simp [failedCalls] at h
  | cons a cs ih =>
    cases faults with
    | nil => simp [failedCalls] at h
    | cons b bs =>
      cases b
      · simp only [failedCalls, Bool.false_eq_true, if_false] at h
        exact List.mem_cons_of_mem _ (ih h)
      · simp only [failedCalls, if_true] at h
        rcases List.mem_cons.mp h with rfl | h2
        · exact List.mem_cons_self _ _
        · exact List.mem_cons_of_mem _ (ih h2)

theorem newCalls_of_trace {w w2 : World} {t : List Call} (h : w2.trace = w.trace ++ t) :
    newCalls w w2 = t := by
  unfold newCalls
  rw [h]
  simp

theorem tracked_isPreorder : IsPreorder Tracked where
  refl := fun w => ⟨[], by simp, by simp⟩
  trans := by
    rintro a b c ⟨t1, h1, f1⟩ ⟨t2, h2, f2⟩
    refine ⟨t1 ++ t2, by rw [h2, h1, List.append_assoc], ?_⟩
    rw [f2, f1, List.drop_drop, List.length_append, Nat.add_comm]

theorem failedBetween_trans {a b c : World} (h1 : Tracked a b) (h2 : Tracked b c) :
    failedBetween a c = failedBetween a b ++ failedBetween b c := by
  obtain ⟨t1, ht1, f1⟩ := h1
  obtain ⟨t2, ht2, f2⟩ := h2
  have hac : c.trace = a.trace ++ (t1 ++ t2) := by rw [ht2, ht1, List.append_assoc]
  unfold failedBetween
  rw [newCalls_of_trace hac, newCalls_of_trace ht1, newCalls_of_trace ht2, failedCalls_append, f1]

theorem failedBetween_self (w : World) : failedBetween w w = [] := by
  unfold failedBetween newCalls
  simp [failedCalls]

theorem failedBetween_of_same {w w2 : World} (ht : w2.trace = w.trace) :
    failedBetween w w2 = [] := by
  unfold failedBetween newCalls
  rw [ht]
  simp [failedCalls]

theorem tracked_request (c : Call) : Pres Tracked (request c) := by
  intro w
  refine ⟨[c], ?_, ?_⟩
  · unfold request
    split <;> rfl
  · unfold request
    split <;> simp [World.next]

/-- Every request of the engine is tracked. -/
theorem allows_tracked (env : Env) :
    Allows env Tracked (fun _ _ => True) (fun _ => True) (fun _ _ => True) where
  pre := tracked_isPreorder
  tick := fun w => ⟨[], by simp [tick], by simp [tick]⟩
  read := fun c _ => tracked_request c
  deletePod := by
    intro ns name _ w
    have h : Tracked w (w.next (.deletePod ns name)) := ⟨[_], rfl, by simp [World.next]⟩
    rw [deletePod_apply]
    split
    · exact h
    · split <;> exact h
  createPod := by
    intro p _ w
    have h : Tracked w (w.next (.createPod p)) := ⟨[_], rfl, by simp [World.next]⟩
    rw [createPod_apply]
    split
    · exact h
    · split <;> exact h
  patch := by
    intro o t _ w
    have h : Tracked w (w.next (.patchController t.kind t.metadata.ns t.metadata.name
        (mergeFrom o t))) := ⟨[_], rfl, by simp [World.next]⟩
    rw [patchController_apply]
    split
    · exact h
    · split <;> exact h


section Careful

variable {α β : Type} {P : Call → Prop}

theorem careful_of_silent {m : M α}
    (h : ∀ w, (m w).2.trace = w.trace ∧ (m w).2.faults = w.faults) : Careful P m := by
  constructor
  · intro w
    exact ⟨[], by simp [(h w).1], by simp [(h w).2]⟩
  · rintro w ⟨c, hc, _⟩
    rw [failedBetween_of_same (h w).1] at hc
    cases hc

theorem careful_pure (a : α) : Careful P (pure a : M α) :=
  careful_of_silent (fun _ => ⟨rfl, rfl⟩)

theorem careful_fail (e : Err) : Careful P (fail e : M α) :=
  careful_of_silent (fun _ => ⟨rfl, rfl⟩)

theorem careful_liftExcept (r : Except Err α) : Careful P (liftExcept r) :=
  careful_of_silent (fun _ => ⟨rfl, rfl⟩)

theorem careful_getCluster : Careful P getCluster :=
  careful_of_silent (fun _ => ⟨rfl, rfl⟩)

theorem careful_setCluster (c : Cluster) : Careful P (setCluster c) :=
  careful_of_silent (fun _ => ⟨rfl, rfl⟩)

theorem careful_tick (env : Env) : Careful P (tick env) :=
  careful_of_silent (fun _ => ⟨rfl, rfl⟩)

theorem careful_request (c : Call) : Careful P (request c) := by
  refine ⟨tracked_request c, ?_⟩
  rintro w ⟨d, hd, _⟩
  have ht : (request c w).2.trace = w.trace ++ [c] := by
    unfold request
    split <;> rfl
  unfold failedBetween at hd
  rw [newCalls_of_trace ht] at hd
  have hf : w.faulty = true := by
    unfold World.faulty
    rcases hw : w.faults with _ | ⟨b, bs⟩
    · rw [hw] at hd
      simp [failedCalls] at hd
    · rw [hw] at hd
      cases b
      · simp [failedCalls] at hd
      · rfl
  refine ⟨.transient, ?_, rfl⟩
  unfold request
  rw [if_pos hf]

theorem careful_bind {m : M α} {f : α → M β} (hm : Careful P m) (hf : ∀ a, Careful P (f a)) :
    Careful P (m >>= f) := by
  refine ⟨pres_bind tracked_isPreorder hm.1 (fun a => (hf a).1), ?_⟩
  rintro w ⟨c, hc, hP⟩
  rw [bind_apply] at hc ⊢
  have ht := hm.1 w
  rcases hmw : m w with ⟨r, w1⟩
  rw [hmw] at hc ht
  cases r with
  | error e =>
    have := hm.2 w ⟨c, by rw [hmw]; exact hc, hP⟩
    rw [hmw] at this
    obtain ⟨e2, he2, hfault⟩ := this
    simp only [Except.error.injEq] at he2
    exact ⟨e2, by rw [he2], hfault⟩
  | ok a =>
    simp only [] at hc ⊢
    rw [failedBetween_trans ht ((hf a).1 w1)] at hc
    rcases List.mem_append.mp hc with h1 | h2
    · obtain ⟨e, he, _⟩ := hm.2 w ⟨c, by rw [hmw]; exact h1, hP⟩
      rw [hmw] at he
      cases he
    · exact (hf a).2 w1 ⟨c, h2, hP⟩

theorem careful_wrapErr {m : M α} (step : String) (hm : Careful P m) :
    Careful P (wrapErr step m) := by
  refine ⟨pres_wrapErr step hm.1, ?_⟩
  intro w h
  rw [wrapErr_trace] at h
  obtain ⟨e, he, hfault⟩ := hm.2 w h
  refine ⟨.wrap step e, ?_, hfault⟩
  unfold wrapErr
  rcases hmw : m w with ⟨r, w1⟩
  rw [hmw] at he
  simp only at he
  rw [he]

/-- The pattern `x, err := f(); if err != nil ...` with a handler that returns
the error of a failed request. -/
theorem careful_attempt_rethrow {m : M α} {h : Except Err α → M β} (hm : Careful P m)
    (hh : ∀ r, Careful P (h r))
    (hre : ∀ e, e.isFault = true → ∀ w, ∃ e2, (h (.error e) w).1 = .error e2 ∧ e2.isFault = true) :
    Careful P (attempt m >>= h) := by
  refine ⟨pres_bind tracked_isPreorder (pres_attempt hm.1) (fun r => (hh r).1), ?_⟩
  rintro w ⟨c, hc, hP⟩
  rw [bind_apply, attempt_apply] at hc ⊢
  simp only [] at hc ⊢
  rw [failedBetween_trans (hm.1 w) ((hh (m w).1).1 (m w).2)] at hc
  rcases List.mem_append.mp hc with h1 | h2
  · obtain ⟨e, he, hfault⟩ := hm.2 w ⟨c, h1, hP⟩
    rw [he]
    exact hre e hfault (m w).2
  · exact (hh (m w).1).2 (m w).2 ⟨c, h2, hP⟩

/-- The pattern `x, err := f()` with a handler that carries on after an error:
the failed requests of `f` are hidden, they are all in `P`. -/
theorem careful_attempt_swallow {m : M α} {h : Except Err α → M β} (ht : Pres Tracked m)
    (hP : Pres (Emits P) m) (hh : ∀ r, Careful P (h r)) :
    Careful P (attempt m >>= h) := by
  refine ⟨pres_bind tracked_isPreorder (pres_attempt ht) (fun r => (hh r).1), ?_⟩
  rintro w ⟨c, hc, hnP⟩
  rw [bind_apply, attempt_apply] at hc ⊢
  simp only [] at hc ⊢
  rw [failedBetween_trans (ht w) ((hh (m w).1).1 (m w).2)] at hc
  rcases List.mem_append.mp hc with h1 | h2
  · obtain ⟨t, htr, hall⟩ := hP w
    unfold failedBetween at h1
    rw [newCalls_of_trace htr] at h1
    exact absurd (hall c (mem_of_mem_failedCalls h1)) hnP
  · exact (hh (m w).1).2 (m w).2 ⟨c, h2, hnP⟩

theorem careful_mono {Q : Call → Prop} {m : M α} (hPQ : ∀ c, P c → Q c) (hm : Careful P m) :
    Careful Q m :=
  ⟨hm.1, fun w ⟨c, hc, hQ⟩ => hm.2 w ⟨c, hc, fun hp => hQ (hPQ c hp)⟩⟩

theorem careful_poll (env : Env) {condition : M Bool} (hc : Careful P condition) (n : Nat) :
    Careful P (poll env condition n) := by
  induction n with
  | zero => exact careful_fail _
  | succ k ih =>
    unfold poll
    refine careful_bind (careful_tick env) (fun _ => careful_bind hc (fun done => ?_))
    cases done
    · exact ih
    · exact careful_pure ()

end Careful


section CarefulEngine

variable {P : Call → Prop} {env : Env}

theorem careful_getPod (ns name : String) : Careful P (getPod ns name) := by
  unfold getPod
  refine careful_bind (careful_request _) (fun _ => careful_bind careful_getCluster (fun c => ?_))
  cases findPod c ns name
  · exact careful_fail _
  · exact careful_pure _

theorem careful_deletePod (ns name : String) : Careful P (deletePod ns name) := by
  unfold deletePod
  refine careful_bind (careful_request _) (fun _ => careful_bind careful_getCluster (fun c => ?_))
  cases findPod c ns name
  · exact careful_fail _
  · exact careful_setCluster _

theorem careful_createPod (pod : Pod) : Careful P (createPod pod) := by
  unfold createPod
  refine careful_bind (careful_request _) (fun _ => careful_bind careful_getCluster (fun c => ?_))
  cases findPod c pod.metadata.ns pod.metadata.name
  · exact careful_setCluster _
  · exact careful_fail _

theorem careful_getController (kind : Kind) (ns name : String) :
    Careful P (getController kind ns name) := by
  unfold getController
  refine careful_bind (careful_request _) (fun _ => careful_bind careful_getCluster (fun c => ?_))
  cases findController c kind ns name
  · exact careful_fail _
  · exact careful_pure _

theorem careful_patchController (kind : Kind) (ns name : String) (patch : Patch) :
    Careful P (patchController kind ns name patch) := by
  unfold patchController
  refine careful_bind (careful_request _) (fun _ => careful_bind careful_getCluster (fun c => ?_))
  cases findController c kind ns name
  · exact careful_fail _
  · exact careful_setCluster _

theorem careful_selectLoop (options : TargetOptions) (n : Nat) :
    Careful P (selectLoop env options n) := by
  induction n with
  | zero => exact careful_fail _
  | succ k ih =>
    unfold selectLoop
    refine careful_bind (careful_request _) (fun _ => careful_bind careful_getCluster (fun c => ?_))
    rcases env.pick c options with e | (_ | sel)
    · exact careful_fail _
    · exact careful_bind (careful_tick env) (fun _ => ih)
    · exact careful_pure _

/-- A handler that returns every error but one, which is not the error of a
failed request. -/
theorem rethrows_unless {β : Type} (skip : Err) (hskip : skip.isFault = false) (a : M β)
    (e : Err) (he : e.isFault = true) (w : World) :
    ∃ e2, ((if e = skip then a else fail e : M β) w).1 = .error e2 ∧ e2.isFault = true := by
  have hne : e ≠ skip := by
    intro h
    rw [h, hskip] at he
    cases he
  refine ⟨e, ?_, he⟩
  rw [if_neg hne]
  rfl

theorem careful_findSingleReplacedPod (replacePod : ReplacePodSpec) (timeout : Nat) :
    Careful P (findSingleReplacedPod env replacePod timeout) := by
  unfold findSingleReplacedPod
  cases replacedLabelSelector replacePod with
  | none => exact careful_fail _
  | some ls =>
    refine careful_attempt_rethrow (careful_selectLoop _ _) (fun r => ?_) ?_
    · cases r with
      | error e =>
        dsimp only
        split
        · exact careful_pure _
        · exact careful_fail _
      | ok sel => exact careful_pure _
    · intro e he w
      exact rethrows_unless .selectNotFound rfl _ e he w

theorem careful_getParentFromReplaced (pod : Pod) : Careful P (getParentFromReplaced pod) := by
  unfold getParentFromReplaced
  dsimp only
  split
  · exact careful_getController _ _ _
  · split
    · exact careful_getController _ _ _
    · split
      · exact careful_getController _ _ _
      · exact careful_fail _

theorem careful_getParent (pod : Pod) : Careful P (getParent pod) := by
  unfold getParent
  cases GetControllerOf pod.metadata with
  | none => exact careful_fail _
  | some controller =>
    dsimp only
    split
    · refine careful_attempt_rethrow (careful_getController _ _ _) (fun r => ?_) ?_
      · cases r with
        | error e => dsimp only; split <;> exact careful_fail _
        | ok replicaSet =>
          dsimp only
          cases GetControllerOf replicaSet.metadata with
          | none => exact careful_pure _
          | some owner =>
            dsimp only
            split
            · refine careful_attempt_rethrow (careful_getController _ _ _) (fun r => ?_) ?_
              · cases r with
                | error e => dsimp only; split <;> exact careful_fail _
                | ok d => exact careful_pure _
              · intro e he w
                exact rethrows_unless .notFound rfl _ e he w
            · exact careful_fail _
      · intro e he w
        exact rethrows_unless .notFound rfl _ e he w
    · split
      · refine careful_attempt_rethrow (careful_getController _ _ _) (fun r => ?_) ?_
        · cases r with
          | error e => dsimp only; split <;> exact careful_fail _
          | ok d => exact careful_pure _
        · intro e he w
          exact rethrows_unless .notFound rfl _ e he w
      · exact careful_fail _

theorem careful_findSingleReplaceablePodParent (config : Config)
    (dependencies : List Dependency) (replacePod : ReplacePodSpec) :
    Careful P (findSingleReplaceablePodParent env config dependencies replacePod) := by
  unfold findSingleReplaceablePodParent
  refine careful_bind (careful_liftExcept _) (fun sel => ?_)
  refine careful_bind (careful_selectLoop _ _) (fun container => ?_)
  refine careful_bind (careful_wrapErr _ (careful_getParent _)) (fun parent => ?_)
  exact careful_pure _

theorem careful_deletedCondition (pod : Pod) : Careful P (deletedCondition pod) := by
  unfold deletedCondition
  refine careful_attempt_rethrow (careful_getPod _ _) (fun r => ?_) ?_
  · cases r with
    | error e =>
      dsimp only
      split
      · exact careful_pure _
      · exact careful_fail _
    | ok p => exact careful_pure _
  · intro e he w
    exact rethrows_unless .notFound rfl _ e he w

theorem careful_deleteAndWait (pod : Pod) : Careful P (deleteAndWait env pod) := by
  unfold deleteAndWait
  refine careful_attempt_rethrow (careful_deletePod _ _) (fun r => ?_) ?_
  · cases r with
    | error e =>
      dsimp only
      split
      · exact careful_pure _
      · exact careful_fail _
    | ok u => exact careful_poll env (careful_deletedCondition pod) _
  · intro e he w
    exact rethrows_unless .notFound rfl _ e he w

theorem careful_scaleDownParent (obj : Controller) : Careful P (scaleDownParent obj) := by
  unfold scaleDownParent
  dsimp only
  split
  · exact careful_pure _
  · exact careful_patchController _ _ _ _

theorem careful_scaleUpParent (parent : Controller) : Careful P (scaleUpParent parent) := by
  unfold scaleUpParent
  dsimp only
  split
  · exact careful_pure _
  · cases Atoi (mapGet parent.metadata.annotations ReplicasAnnotation) with
    | error e => exact careful_fail _
    | ok r =>
      dsimp only
      split
      · exact careful_pure _
      · exact careful_wrapErr _ (careful_patchController _ _ _ _)

theorem careful_originalGoneCondition (pod : SelectedPodContainer) (copiedPod : Pod) :
    Careful P (originalGoneCondition pod copiedPod) := by
  unfold originalGoneCondition
  refine careful_attempt_rethrow (careful_getPod _ _) (fun r => ?_) ?_
  · cases r with
    | error e =>
      dsimp only
      split
      · exact careful_pure _
      · exact careful_fail _
    | ok p => dsimp only; split <;> exact careful_pure _
  · intro e he w
    exact rethrows_unless .notFound rfl _ e he w

theorem careful_replace (pod : SelectedPodContainer) (parent : Controller) (config : Config)
    (dependencies : List Dependency) (replacePod : ReplacePodSpec) :
    Careful P (replace env pod parent config dependencies replacePod) := by
  unfold replace
  refine careful_bind (careful_liftExcept _) (fun body => ?_)
  refine careful_bind (careful_wrapErr _ (careful_scaleDownParent parent)) (fun _ => ?_)
  refine careful_bind (careful_wrapErr _ (careful_poll env
    (careful_originalGoneCondition pod body) _)) (fun _ => ?_)
  exact careful_wrapErr _ (careful_createPod body)

end CarefulEngine


theorem emits_getController (P : Call → Prop) (kind : Kind) (ns name : String)
    (h : P (.getController kind ns name)) : Pres (Emits P) (getController kind ns name) := by
  intro w
  refine ⟨[.getController kind ns name], ?_, by simpa using h⟩
  rw [getController_apply]
  split
  · rfl
  · split <;> rfl

theorem emits_getParentFromReplaced (pod : Pod) :
    Pres (Emits Call.isControllerGet) (getParentFromReplaced pod) := by
  unfold getParentFromReplaced
  dsimp only
  split
  · exact emits_getController _ _ _ _ trivial
  · split
    · exact emits_getController _ _ _ _ trivial
    · split
      · exact emits_getController _ _ _ _ trivial
      · exact pres_fail (emits_isPreorder _) _

theorem emits_scaleDownParent (obj : Controller) :
    Pres (Emits Call.isQuiescePatch) (scaleDownParent obj) := by
  unfold scaleDownParent
  dsimp only
  split
  · exact pres_pure (emits_isPreorder _) _
  · rename_i h
    exact emits_patchController _ _ _ _ _ ⟨obj, h, rfl⟩

theorem emits_mono {α : Type} {P Q : Call → Prop} (h : ∀ c, P c → Q c) {m : M α} (hm : Pres (Emits P) m) :
    Pres (Emits Q) m := by
  intro w
  obtain ⟨t, ht, hall⟩ := hm w
  exact ⟨t, ht, fun c hc => h c (hall c hc)⟩

section CarefulCalls

variable {env : Env}

theorem careful_updateNeeded (pod : SelectedPodContainer) (config : Config)
    (dependencies : List Dependency) (replacePod : ReplacePodSpec) :
    Careful Call.isHidden (updateNeeded env pod config dependencies replacePod) := by
  unfold updateNeeded
  split
  · exact careful_bind (careful_deleteAndWait _) (fun _ => careful_pure _)
  · refine careful_attempt_swallow (pres_getParentFromReplaced (allows_tracked env) _)
      (emits_mono (fun c h => Or.inl h) (emits_getParentFromReplaced _)) (fun r => ?_)
    cases r with
    | error e => exact careful_bind (careful_deleteAndWait _) (fun _ => careful_pure _)
    | ok parent =>
      dsimp only
      refine careful_bind (careful_liftExcept _) (fun parentHash => ?_)
      refine careful_bind (careful_liftExcept _) (fun configHash => ?_)
      split
      · exact careful_attempt_swallow
          (pres_scaleDownParent (allows_tracked env) parent (fun _ _ _ => trivial))
          (emits_mono (fun c h => Or.inr h) (emits_scaleDownParent _)) (fun _ => careful_pure _)
      · refine careful_bind (careful_wrapErr _ (careful_deleteAndWait _)) (fun _ => ?_)
        exact careful_bind (careful_scaleUpParent parent) (fun _ => careful_pure _)

theorem careful_RevertReplacePod (replacePod : ReplacePodSpec) :
    Careful Call.isControllerGet (RevertReplacePod env replacePod) := by
  unfold RevertReplacePod
  refine careful_bind (careful_wrapErr _ (careful_findSingleReplacedPod _ _)) (fun found => ?_)
  cases found with
  | none => exact careful_pure _
  | some sel =>
    dsimp only
    split
    · exact careful_bind (careful_deleteAndWait _) (fun _ => careful_pure _)
    · refine careful_attempt_swallow (pres_getParentFromReplaced (allows_tracked env) _)
        (emits_getParentFromReplaced _) (fun r => ?_)
      cases r with
      | error e => exact careful_bind (careful_deleteAndWait _) (fun _ => careful_pure _)
      | ok parent =>
        dsimp only
        refine careful_bind (careful_wrapErr _ (careful_deleteAndWait _)) (fun _ => ?_)
        exact careful_bind (careful_scaleUpParent parent) (fun _ => careful_pure _)

theorem careful_ReplacePod (config : Config) (dependencies : List Dependency)
    (replacePod : ReplacePodSpec) :
    Careful Call.isHidden (ReplacePod env config dependencies replacePod) := by
  unfold ReplacePod
  refine careful_bind (careful_wrapErr _ (careful_findSingleReplacedPod _ _)) (fun found => ?_)
  have hproceed : Careful Call.isHidden (match found with
      | some selectedPod => updateNeeded env selectedPod config dependencies replacePod
      | none => (pure true : M Bool)) := by
    cases found with
    | none => exact careful_pure _
    | some sel => exact careful_updateNeeded sel config dependencies replacePod
  refine careful_bind hproceed (fun proceed => ?_)
  split
  · exact careful_pure _
  · refine careful_bind (careful_findSingleReplaceablePodParent _ _ _) (fun cp => ?_)
    exact careful_replace cp.1 cp.2 config dependencies replacePod

/-- A successful run of a computation that hides nothing has no failed request. -/
theorem clean_of_ok {α : Type} {m : M α} (hm : Careful (fun _ => False) m) {w w1 : World}
    {a : α} (h : m w = (.ok a, w1)) : Tracked w w1 ∧ failedBetween w w1 = [] := by
  have ht := hm.1 w
  rw [h] at ht
  refine ⟨ht, ?_⟩
  by_contra hne
  obtain ⟨c, hc⟩ := List.exists_mem_of_ne_nil _ hne
  obtain ⟨e, he, _⟩ := hm.2 w ⟨c, by rw [h]; exact hc, fun hf => hf⟩
  rw [h] at he
  cases he

end CarefulCalls

/-! ## C15: what a run returns after a failed request -/

/-- C15 (counterexample): in a `RevertReplacePod` run the fetch of the parent
fails with a transient error, and the run returns the pod and no error, leaving
the parent at zero replicas with its annotation; in a `ReplacePod` run on an
up-to-date replacement the quiescing patch fails, and the run returns no
error, leaving the parent at three replicas. -/
theorem swallowed_error_counterexample :
    failedBetween demoW1GetFaulty (RevertReplacePod demoEnv demoSpec demoW1GetFaulty).2
        = [.getController .StatefulSet "dev" "db"]
      ∧ (RevertReplacePod demoEnv demoSpec demoW1GetFaulty).1 = .ok (some demoFound)
      ∧ (RevertReplacePod demoEnv demoSpec demoW1GetFaulty).2.cluster.controllers
          = [demoSetQuiesced]
      ∧ failedBetween demoScaledUpFaulty
            (ReplacePod demoEnv none [] demoSpec demoScaledUpFaulty).2
          = [quiescePatchCall demoSet]
      ∧ (ReplacePod demoEnv none [] demoSpec demoScaledUpFaulty).1 = .ok ()
      ∧ (ReplacePod demoEnv none [] demoSpec demoScaledUpFaulty).2.cluster.controllers
          = [demoSet] := by
  decide!

theorem updateNeeded_false_inv {env : Env} {sel : SelectedPodContainer} {config : Config}
    {dependencies : List Dependency} {replacePod : ReplacePodSpec} {w wu : World}
    (h : updateNeeded env sel config dependencies replacePod w = (.ok false, wu)) :
    ∃ parent parentHash configHash,
      hashParentPodSpec env parent config dependencies replacePod = .ok parentHash
        ∧ hashConfig env replacePod = .ok configHash := by
  unfold updateNeeded at h
  split at h
  · obtain ⟨_, wd, _, h⟩ := bind_ok_inv h
    simp [pure_apply] at h
  · obtain ⟨r, wg, _, h⟩ := bind_ok_inv h
    cases r with
    | error e =>
      obtain ⟨_, wd, _, h⟩ := bind_ok_inv h
      simp [pure_apply] at h
    | ok parent =>
      obtain ⟨parentHash, wa, h1, h⟩ := bind_ok_inv h
      obtain ⟨configHash, wb, h2, h⟩ := bind_ok_inv h
      simp only [liftExcept, Prod.mk.injEq] at h1 h2
      exact ⟨parent, parentHash, configHash, wrapExcept_ok_inv h1.1, wrapExcept_ok_inv h2.1⟩

/-- Every successful `ReplacePod` computed both hashes. -/
theorem replacePod_ok_hashes {env : Env} {config : Config} {dependencies : List Dependency}
    {replacePod : ReplacePodSpec} {w w2 : World}
    (h : ReplacePod env config dependencies replacePod w = (.ok (), w2)) :
    ∃ parent parentHash configHash,
      hashParentPodSpec env parent config dependencies replacePod = .ok parentHash
        ∧ hashConfig env replacePod = .ok configHash := by
  unfold ReplacePod at h
  obtain ⟨found, wl, _, h⟩ := bind_ok_inv h
  obtain ⟨b, wu, hu, h⟩ := bind_ok_inv h
  cases b with
  | false =>
    cases found with
    | none => simp [pure_apply] at hu
    | some sel => exact updateNeeded_false_inv hu
  | true =>
    simp only [Bool.true_eq_false, if_false] at h
    obtain ⟨⟨pod, parent⟩, ws, _, h⟩ := bind_ok_inv h
    obtain ⟨body, _, _, hb, _⟩ := replace_ok_inv h
    obtain ⟨parentHash, configHash, _, h1, h2, _⟩ := replacementBody_ok_inv hb
    exact ⟨parent, parentHash, configHash, h1, h2⟩


/-- Every failed request of a successful `ReplacePod` was issued by its
`updateNeeded`. -/
theorem replacePod_failures_in_updateNeeded {env : Env} {config : Config}
    {dependencies : List Dependency} {replacePod : ReplacePodSpec} {w w2 : World}
    (h : ReplacePod env config dependencies replacePod w = (.ok (), w2))
    (hne : failedBetween w w2 ≠ []) :
    ∃ sel wl, findSingleReplacedPod env replacePod 2 w = (.ok (some sel), wl)
      ∧ failedBetween w wl = []
      ∧ failedBetween w w2
          = failedBetween wl (updateNeeded env sel config dependencies replacePod wl).2 := by
  have hrest : Careful (fun _ => False)
      (findSingleReplaceablePodParent env config dependencies replacePod >>= fun cp =>
        replace env cp.1 cp.2 config dependencies replacePod) :=
    careful_bind (careful_findSingleReplaceablePodParent _ _ _)
      (fun cp => careful_replace cp.1 cp.2 config dependencies replacePod)
  unfold ReplacePod at h
  obtain ⟨found, wl, hl, h⟩ := bind_ok_inv h
  have hl2 := wrapErr_ok_inv hl
  obtain ⟨htl, hcl⟩ := clean_of_ok (@careful_findSingleReplacedPod _ env replacePod 2) hl2
  obtain ⟨b, wu, hu, h⟩ := bind_ok_inv h
  cases found with
  | none =>
    simp only [pure_apply, Prod.mk.injEq, Except.ok.injEq] at hu
    obtain ⟨hb, hwu⟩ := hu
    subst hb hwu
    simp only [Bool.true_eq_false, if_false] at h
    obtain ⟨htr, hcr⟩ := clean_of_ok hrest h
    rw [failedBetween_trans htl htr, hcl, hcr] at hne
    exact absurd rfl hne
  | some sel =>
    simp only [] at hu
    have htu : Tracked wl wu := by
      have := (@careful_updateNeeded env sel config dependencies replacePod).1 wl
      rw [hu] at this
      exact this
    refine ⟨sel, wl, hl2, hcl, ?_⟩
    rw [hu]
    cases b with
    | false =>
      simp only [if_true, pure_apply, Prod.mk.injEq, true_and] at h
      subst h
      rw [failedBetween_trans htl htu, hcl, List.nil_append]
    | true =>
      simp only [Bool.true_eq_false, if_false] at h
      obtain ⟨htr, hcr⟩ := clean_of_ok hrest h
      rw [failedBetween_trans htl (tracked_isPreorder.trans _ _ _ htu htr), hcl, List.nil_append,
        failedBetween_trans htu htr, hcr, List.append_nil]

/-- C15 (amended): failed requests and the result of a run.  A
`RevertReplacePod` run in which a request other than the fetch of a controller
failed returns an error; a `ReplacePod` run in which a request failed that is
neither the fetch of a controller nor a quiescing patch returns an error, and
every failed request of a successful `ReplacePod` run was issued by its
`updateNeeded` (the fetch of the parent of the replaced pod, or the quiescing
patch on an up-to-date replacement).  The lookup of the replaced pod, the
selection of the target with its parent, `replace`, `deleteAndWait`,
`scaleUpParent` and `scaleDownParent` return an error whenever one of their
requests failed.  A `ReplacePod` run returns an error when the config hash
cannot be computed, and when the parent hash cannot be computed for any
controller. -/
theorem failed_requests_surface (env : Env) (config : Config) (dependencies : List Dependency)
    (replacePod : ReplacePodSpec) (w : World) :
    ((∃ c ∈ failedBetween w (RevertReplacePod env replacePod w).2, ¬ c.isControllerGet) →
        ∃ e, (RevertReplacePod env replacePod w).1 = .error e ∧ e.isFault = true)
      ∧ ((∃ c ∈ failedBetween w (ReplacePod env config dependencies replacePod w).2,
            ¬ c.isHidden) →
        ∃ e, (ReplacePod env config dependencies replacePod w).1 = .error e ∧ e.isFault = true)
      ∧ ((ReplacePod env config dependencies replacePod w).1 = .ok () →
        failedBetween w (ReplacePod env config dependencies replacePod w).2 ≠ [] →
        ∃ sel wl, findSingleReplacedPod env replacePod 2 w = (.ok (some sel), wl)
          ∧ failedBetween w wl = []
          ∧ failedBetween w (ReplacePod env config dependencies replacePod w).2
              = failedBetween wl (updateNeeded env sel config dependencies replacePod wl).2)
      ∧ ((∀ timeout, Careful (fun _ => False) (findSingleReplacedPod env replacePod timeout))
        ∧ Careful (fun _ => False)
            (findSingleReplaceablePodParent env config dependencies replacePod)
        ∧ (∀ pod parent, Careful (fun _ => False)
            (replace env pod parent config dependencies replacePod))
        ∧ (∀ pod, Careful (fun _ => False) (deleteAndWait env pod))
        ∧ (∀ parent, Careful (fun _ => False) (scaleUpParent parent))
        ∧ (∀ obj, Careful (fun _ => False) (scaleDownParent obj)))
      ∧ ((∃ e, hashConfig env replacePod = .error e) →
        ∃ e, (ReplacePod env config dependencies replacePod w).1 = .error e)
      ∧ ((∀ parent, ∃ e, hashParentPodSpec env parent config dependencies replacePod = .error e) →
        ∃ e, (ReplacePod env config dependencies replacePod w).1 = .error e) := by
  refine ⟨(careful_RevertReplacePod replacePod).2 w,
    (careful_ReplacePod config dependencies replacePod).2 w, ?_,
    ⟨fun t => careful_findSingleReplacedPod replacePod t,
      careful_findSingleReplaceablePodParent config dependencies replacePod,
      fun pod parent => careful_replace pod parent config dependencies replacePod,
      fun pod => careful_deleteAndWait pod, fun parent => careful_scaleUpParent parent,
      fun obj => careful_scaleDownParent obj⟩, ?_, ?_⟩
  · intro hok hne
    exact replacePod_failures_in_updateNeeded (Prod.ext hok rfl) hne
  · rintro ⟨e, he⟩
    rcases hr : ReplacePod env config dependencies replacePod w with ⟨r, w2⟩
    cases r with
    | error e2 => exact ⟨e2, rfl⟩
    | ok u =>
      obtain ⟨_, _, _, _, h2⟩ := replacePod_ok_hashes hr
      rw [he] at h2
      cases h2
  · intro hall
    rcases hr : ReplacePod env config dependencies replacePod w with ⟨r, w2⟩
    cases r with
    | error e2 => exact ⟨e2, rfl⟩
    | ok u =>
      obtain ⟨parent, _, _, h1, _⟩ := replacePod_ok_hashes hr
      obtain ⟨e, he⟩ := hall parent
      rw [he] at h1
      cases h1

theorem failed_requests_surface_witness :
    (∃ e, (RevertReplacePod demoEnv demoSpec { demoW1 with faults := [false, false, true] }).1
        = .error e ∧ e.isFault = true)
      ∧ (∃ e, (ReplacePod demoEnv none [] demoSpec demoFaultyWorld).1 = .error e
        ∧ e.isFault = true) :=
  ⟨(failed_requests_surface demoEnv none [] demoSpec
      { demoW1 with faults := [false, false, true] }).1
      ⟨.deletePod "dev" "db-0-devspace", by decide!, fun h => h⟩,
    (failed_requests_surface demoEnv none [] demoSpec demoFaultyWorld).2.1
      ⟨.createPod demoBody, by decide!, by
        rintro (h | ⟨o, _, h⟩)
        · exact h
        · cases h⟩⟩

/-! ## C21: first-match substitution -/

/-- Either no element satisfies `p`, or the list splits at the first one that does. -/
theorem first_match_split {α : Type} (p : α → Bool) (l : List α) :
    (∀ x ∈ l, p x = false)
      ∨ ∃ pre c post, l = pre ++ c :: post ∧ (∀ x ∈ pre, p x = false) ∧ p c = true := by
  induction l with
  | nil => exact Or.inl (fun x hx => by cases hx)
  | cons a l ih =>
    cases ha : p a with
    | true => exact Or.inr ⟨[], a, l, rfl, (fun x hx => by cases hx), ha⟩
    | false =>
      rcases ih with hnone | ⟨pre, c, post, hl, hpre, hc⟩
      · refine Or.inl (fun x hx => ?_)
        rcases List.mem_cons.mp hx with rfl | hx2
        · exact ha
        · exact hnone x hx2
      · refine Or.inr ⟨a :: pre, c, post, (by rw [hl]; rfl), (fun x hx => ?_), hc⟩
        rcases List.mem_cons.mp hx with rfl | hx2
        · exact ha
        · exact hpre x hx2

theorem replaceImageInPodSpec_image_ok_inv {env : Env} {podSpec out : PodSpec} {config : Config}
    {dependencies : List Dependency} {replacePod : ReplacePodSpec}
    (hsel : replacePod.LabelSelector = none)
    (h : replaceImageInPodSpec env podSpec config dependencies replacePod = .ok out) :
    ∃ imageStr sel, env.replaceImage replacePod.ReplaceImage config dependencies = .ok imageStr
      ∧ Resolve replacePod.ImageName config dependencies = .ok [sel]
      ∧ out = { podSpec with
          containers := exchangeImage (fun c => CompareImageNames env sel c.image) imageStr
            (podSpec.containers.length == 1) podSpec.containers } := by
  unfold replaceImageInPodSpec at h
  cases hr : env.replaceImage replacePod.ReplaceImage config dependencies with
  | error e => rw [hr] at h; cases h
  | ok imageStr =>
    rw [hr] at h
    simp only [hsel, Option.isSome_none, Bool.false_eq_true, if_false] at h
    cases hres : Resolve replacePod.ImageName config dependencies with
    | error e => rw [hres] at h; cases h
    | ok l =>
      rw [hres] at h
      match l, h with
      | [sel], h =>
        simp only [Except.ok.injEq] at h
        exact ⟨imageStr, sel, rfl, rfl, h.symm⟩

/-- C21: first-match substitution.  In image-based mode, on a pod spec with two
or more containers, a successful `replaceImageInPodSpec` resolved a replacement
image and one selector, and either no container image matches the selector and
the pod spec is returned as it is, or the containers split at the first one
whose image matches (none before it matches), and the result is the same pod
spec with the image of that container set to the replacement image.  In both
cases the number and order of the containers, their names and other fields,
every other container and the other fields of the pod spec are unchanged. -/
theorem first_match_substitution (env : Env) (podSpec out : PodSpec) (config : Config)
    (dependencies : List Dependency) (replacePod : ReplacePodSpec)
    (hsel : replacePod.LabelSelector = none) (hlen : 2 ≤ podSpec.containers.length)
    (h : replaceImageInPodSpec env podSpec config dependencies replacePod = .ok out) :
    ∃ imageStr sel, env.replaceImage replacePod.ReplaceImage config dependencies = .ok imageStr
      ∧ Resolve replacePod.ImageName config dependencies = .ok [sel]
      ∧ (((∀ c ∈ podSpec.containers, CompareImageNames env sel c.image = false) ∧ out = podSpec)
        ∨ ∃ pre c post, podSpec.containers = pre ++ c :: post
            ∧ (∀ x ∈ pre, CompareImageNames env sel x.image = false)
            ∧ CompareImageNames env sel c.image = true
            ∧ out.containers = pre ++ { c with image := imageStr } :: post)
      ∧ out.rest = podSpec.rest
      ∧ out.containers.length = podSpec.containers.length
      ∧ out.containers.map (fun c => c.name) = podSpec.containers.map (fun c => c.name)
      ∧ out.containers.map (fun c => c.rest) = podSpec.containers.map (fun c => c.rest) := by
  obtain ⟨imageStr, sel, hr, hres, hout⟩ := replaceImageInPodSpec_image_ok_inv hsel h
  have hne : (podSpec.containers.length == 1) = false := by
    simp only [beq_eq_false_iff_ne]
    omega
  rw [hne] at hout
  refine ⟨imageStr, sel, hr, hres, ?_⟩
  rcases first_match_split (fun c => CompareImageNames env sel c.image) podSpec.containers with
    hnone | ⟨pre, c, post, hl, hpre, hc⟩
  · rw [exchangeImage_no_match _ _ _ hnone] at hout
    have : out = podSpec := hout
    subst this
    exact ⟨Or.inl ⟨hnone, rfl⟩, rfl, rfl, rfl, rfl⟩
  · have hcs : out.containers = pre ++ { c with image := imageStr } :: post := by
      rw [hout, hl, exchangeImage_first_match _ _ _ _ _ hpre hc]
    refine ⟨Or.inr ⟨pre, c, post, hl, hpre, hc, hcs⟩, by rw [hout], ?_, ?_, ?_⟩
    · rw [hcs, hl]; simp
    · rw [hcs, hl]; simp
    · rw [hcs, hl]; simp

theorem first_match_substitution_witness :
    ∃ imageStr sel, demoEnv.replaceImage demoImageSpec.ReplaceImage demoImageConfig [] = .ok imageStr
      ∧ Resolve demoImageSpec.ImageName demoImageConfig [] = .ok [sel]
      ∧ (((∀ c ∈ demoTwoMatches.containers, CompareImageNames demoEnv sel c.image = false)
          ∧ demoTwoMatchesSwapped = demoTwoMatches)
        ∨ ∃ pre c post, demoTwoMatches.containers = pre ++ c :: post
            ∧ (∀ x ∈ pre, CompareImageNames demoEnv sel x.image = false)
            ∧ CompareImageNames demoEnv sel c.image = true
            ∧ demoTwoMatchesSwapped.containers
                = pre ++ { c with image := imageStr } :: post)
      ∧ demoTwoMatchesSwapped.rest
          = demoTwoMatches.rest
      ∧ demoTwoMatchesSwapped.containers.length
          = demoTwoMatches.containers.length
      ∧ demoTwoMatchesSwapped.containers.map
            (fun c => c.name) = demoTwoMatches.containers.map (fun c => c.name)
      ∧ demoTwoMatchesSwapped.containers.map
            (fun c => c.rest) = demoTwoMatches.containers.map (fun c => c.rest) :=
  first_match_substitution demoEnv demoTwoMatches demoTwoMatchesSwapped demoImageConfig []
    demoImageSpec rfl (by decide) (by decide!)

/-! ## C22: the labels and annotations of the replacement body -/

theorem resetMetadata_labels (env : Env) (pod : SelectedPodContainer) (parent : Controller)
    (replacePod : ReplacePodSpec) (parentHash configHash : String) (copiedPod : Pod) :
    (∀ k ∈ controllerLabels,
        mapLookup (resetMetadata env pod parent replacePod parentHash configHash
          copiedPod).metadata.labels k = none)
      ∧ mapLookup (resetMetadata env pod parent replacePod parentHash configHash
          copiedPod).metadata.labels ReplacedLabel = some "true"
      ∧ (replacePod.ImageName ≠ "" →
          mapLookup (resetMetadata env pod parent replacePod parentHash configHash
            copiedPod).metadata.labels ImageNameLabel = some replacePod.ImageName)
      ∧ (∀ k, k ∉ controllerLabels → k ≠ ReplacedLabel →
          (replacePod.ImageName = "" ∨ k ≠ ImageNameLabel) →
          mapLookup (resetMetadata env pod parent replacePod parentHash configHash
            copiedPod).metadata.labels k = mapLookup copiedPod.metadata.labels k) := by
  have hbase : ∀ k, k ≠ ReplacedLabel →
      mapLookup (mapSet (mapDelete (mapDelete (mapDelete copiedPod.metadata.labels
        "pod-template-hash") "controller-revision-hash")
        "statefulset.kubernetes.io/pod-name") ReplacedLabel "true") k
      = if k ∈ controllerLabels then none else mapLookup copiedPod.metadata.labels k := by
    intro k hk
    rw [mapLookup_mapSet_ne _ _ _ _ hk]
    by_cases h3 : k = "statefulset.kubernetes.io/pod-name"
    · subst h3
      rw [mapLookup_mapDelete_self]
      simp [controllerLabels]
    · rw [mapLookup_mapDelete_ne _ _ _ h3]
      by_cases h2 : k = "controller-revision-hash"
      · subst h2
        rw [mapLookup_mapDelete_self]
        simp [controllerLabels]
      · rw [mapLookup_mapDelete_ne _ _ _ h2]
        by_cases h1 : k = "pod-template-hash"
        · subst h1
          rw [mapLookup_mapDelete_self]
          simp [controllerLabels]
        · rw [mapLookup_mapDelete_ne _ _ _ h1]
          simp [controllerLabels, h1, h2, h3]
  have hlabels : (resetMetadata env pod parent replacePod parentHash configHash
      copiedPod).metadata.labels
      = if replacePod.ImageName ≠ "" then
          mapSet (mapSet (mapDelete (mapDelete (mapDelete copiedPod.metadata.labels
            "pod-template-hash") "controller-revision-hash")
            "statefulset.kubernetes.io/pod-name") ReplacedLabel "true")
            ImageNameLabel replacePod.ImageName
        else
          mapSet (mapDelete (mapDelete (mapDelete copiedPod.metadata.labels
            "pod-template-hash") "controller-revision-hash")
            "statefulset.kubernetes.io/pod-name") ReplacedLabel "true" := rfl
  rw [hlabels]
  by_cases hi : replacePod.ImageName ≠ ""
  · rw [if_pos hi]
    refine ⟨?_, ?_, fun _ => mapLookup_mapSet_self _ _ _, ?_⟩
    · intro k hk
      have hk1 : k ≠ ImageNameLabel := by
        intro h; subst h; revert hk; decide
      have hk2 : k ≠ ReplacedLabel := by
        intro h; subst h; revert hk; decide
      rw [mapLookup_mapSet_ne _ _ _ _ hk1, hbase k hk2, if_pos hk]
    · rw [mapLookup_mapSet_ne _ _ _ _ (by decide), mapLookup_mapSet_self]
    · intro k hk hr himg
      have hk1 : k ≠ ImageNameLabel := by
        rcases himg with h | h
        · exact absurd h hi
        · exact h
      rw [mapLookup_mapSet_ne _ _ _ _ hk1, hbase k hr, if_neg hk]
  · rw [if_neg hi]
    refine ⟨?_, mapLookup_mapSet_self _ _ _, fun h => absurd h hi, ?_⟩
    · intro k hk
      have hk2 : k ≠ ReplacedLabel := by
        intro h; subst h; revert hk; decide
      rw [hbase k hk2, if_pos hk]
    · intro k hk hr _
      rw [hbase k hr, if_neg hk]

theorem resetMetadata_annotations (env : Env) (pod : SelectedPodContainer) (parent : Controller)
    (replacePod : ReplacePodSpec) (parentHash configHash : String) (copiedPod : Pod) :
    mapLookup (resetMetadata env pod parent replacePod parentHash configHash
        copiedPod).metadata.annotations MatchedContainerAnnotation = some pod.container.name
      ∧ (∀ k, k ∉ stampedAnnotations →
          mapLookup (resetMetadata env pod parent replacePod parentHash configHash
            copiedPod).metadata.annotations k = mapLookup copiedPod.metadata.annotations k) := by
  simp only [resetMetadata]
  constructor
  · rw [mapLookup_mapSet_ne _ _ _ _ (by decide), mapLookup_mapSet_ne _ _ _ _ (by decide),
      mapLookup_mapSet_ne _ _ _ _ (by decide), mapLookup_mapSet_ne _ _ _ _ (by decide),
      mapLookup_mapSet_self]
  · intro k hk
    simp only [stampedAnnotations, List.mem_cons, List.mem_singleton, not_or, List.mem_nil_iff,
      or_false] at hk
    obtain ⟨h1, h2, h3, h4, h5⟩ := hk
    rw [mapLookup_mapSet_ne _ _ _ _ h5, mapLookup_mapSet_ne _ _ _ _ h4,
      mapLookup_mapSet_ne _ _ _ _ h3, mapLookup_mapSet_ne _ _ _ _ h2,
      mapLookup_mapSet_ne _ _ _ _ h1]


/-- C22 (counterexample): the source pod carries the label
`devspace.sh/image-name` with the value `old`, which is none of the labels the
claim excepts; the spec names the image `app`, and the body built by `replace`
carries that label with the value `app`. -/
theorem image_name_label_counterexample :
    mapLookup demoLabelledSelected.pod.metadata.labels ImageNameLabel = some "old"
      ∧ ImageNameLabel ∉ controllerLabels ∧ ImageNameLabel ≠ ReplacedLabel
      ∧ ∃ body, replacementBody demoEnv demoLabelledSelected demoSet none [] demoRelabelSpec
            = .ok body
          ∧ patchedCopy demoEnv demoLabelledSelected none [] demoRelabelSpec
            = .ok demoLabelledSelected.pod
          ∧ mapLookup body.metadata.labels ImageNameLabel = some "app" :=
  ⟨by decide!, by decide!, by decide!, _, rfl, by decide!, by decide!⟩

/-- C22 (amended): the labels and annotations of the replacement body.  For
every source pod, parent and spec, the body built by `replace` from the patched
copy of the source pod has none of the labels `pod-template-hash`,
`controller-revision-hash` and `statefulset.kubernetes.io/pod-name`, has the
replaced label set to `true`, has the image-name label set to the image name of
the spec when that is not empty, and has the matched-container annotation set to
the name of the selected container; every other label of the patched copy, and
every annotation of it other than the matched-container annotation and the four
parent and hash annotations, is carried with its value unchanged; and every pod
`replace` submits for creation is that body. -/
theorem label_annotation_rewrite (env : Env) (pod : SelectedPodContainer) (parent : Controller)
    (config : Config) (dependencies : List Dependency) (replacePod : ReplacePodSpec) :
    (∀ body, replacementBody env pod parent config dependencies replacePod = .ok body →
        ∃ copiedPod, patchedCopy env pod config dependencies replacePod = .ok copiedPod
          ∧ (∀ k ∈ controllerLabels, mapLookup body.metadata.labels k = none)
          ∧ mapLookup body.metadata.labels ReplacedLabel = some "true"
          ∧ (replacePod.ImageName ≠ "" →
              mapLookup body.metadata.labels ImageNameLabel = some replacePod.ImageName)
          ∧ mapLookup body.metadata.annotations MatchedContainerAnnotation
              = some pod.container.name
          ∧ (∀ k, k ∉ controllerLabels → k ≠ ReplacedLabel →
              (replacePod.ImageName = "" ∨ k ≠ ImageNameLabel) →
              mapLookup body.metadata.labels k = mapLookup copiedPod.metadata.labels k)
          ∧ (∀ k, k ∉ stampedAnnotations →
              mapLookup body.metadata.annotations k
                = mapLookup copiedPod.metadata.annotations k))
      ∧ ∀ w : World, Emits (CreatesBodyOf env pod parent config dependencies replacePod) w
          (replace env pod parent config dependencies replacePod w).2 := by
  constructor
  · intro body h
    obtain ⟨parentHash, configHash, copiedPod, _, _, hc, hb⟩ := replacementBody_ok_inv h
    have hl := resetMetadata_labels env pod parent replacePod parentHash configHash copiedPod
    have ha := resetMetadata_annotations env pod parent replacePod parentHash configHash copiedPod
    rw [← hb] at hl ha
    exact ⟨copiedPod, hc, hl.1, hl.2.1, hl.2.2.1, ha.1, hl.2.2.2, ha.2⟩
  · intro w
    refine pres_replace (allows_emits env _ ?_) pod parent config dependencies replacePod ?_ ?_ w
    · intro c hc p hp
      subst hp
      simp [Call.mutating] at hc
    · intro o t _ p hp
      cases hp
    · intro body hb p hp
      cases hp
      exact hb

theorem label_annotation_rewrite_witness :
    ∃ copiedPod, patchedCopy demoEnv demoLabelledSelected none [] demoRelabelSpec = .ok copiedPod
      ∧ (∀ k ∈ controllerLabels, mapLookup demoRelabelBody.metadata.labels k = none)
      ∧ mapLookup demoRelabelBody.metadata.labels ReplacedLabel
          = some "true"
      ∧ (demoRelabelSpec.ImageName ≠ "" →
          mapLookup demoRelabelBody.metadata.labels ImageNameLabel
            = some demoRelabelSpec.ImageName)
      ∧ mapLookup demoRelabelBody.metadata.annotations
            MatchedContainerAnnotation = some demoLabelledSelected.container.name
      ∧ (∀ k, k ∉ controllerLabels → k ≠ ReplacedLabel →
          (demoRelabelSpec.ImageName = "" ∨ k ≠ ImageNameLabel) →
          mapLookup demoRelabelBody.metadata.labels k
            = mapLookup copiedPod.metadata.labels k)
      ∧ (∀ k, k ∉ stampedAnnotations →
          mapLookup demoRelabelBody.metadata.annotations k
            = mapLookup copiedPod.metadata.annotations k) :=
  (label_annotation_rewrite demoEnv demoLabelledSelected demoSet none [] demoRelabelSpec).1
    demoRelabelBody (by decide!)

/-! ## C23: deleting and waiting -/

theorem deletedCondition_apply (pod : Pod) (w : World) :
    deletedCondition pod w =
      if w.faulty then (.error .transient, w.next (.getPod pod.metadata.ns pod.metadata.name))
      else match findPod w.cluster pod.metadata.ns pod.metadata.name with
        | none => (.ok true, w.next (.getPod pod.metadata.ns pod.metadata.name))
        | some _ => (.ok false, w.next (.getPod pod.metadata.ns pod.metadata.name)) := by
  unfold deletedCondition
  rw [bind_apply, attempt_apply, getPod_apply]
  cases hf : w.faulty
  · simp only [Bool.false_eq_true, if_false]
    cases findPod w.cluster pod.metadata.ns pod.metadata.name <;> rfl
  · rfl

theorem deleteAndWait_apply (env : Env) (pod : Pod) (w : World) :
    deleteAndWait env pod w =
      if w.faulty then (.error .transient, w.next (.deletePod pod.metadata.ns pod.metadata.name))
      else match findPod w.cluster pod.metadata.ns pod.metadata.name with
        | none => (.ok (), w.next (.deletePod pod.metadata.ns pod.metadata.name))
        | some _ => poll env (deletedCondition pod) 120
            { w.next (.deletePod pod.metadata.ns pod.metadata.name) with
              cluster := { w.cluster with
                pods := w.cluster.pods.map
                  (markTerminating pod.metadata.ns pod.metadata.name) } } := by
  unfold deleteAndWait
  rw [bind_apply, attempt_apply, deletePod_apply]
  cases hf : w.faulty
  · simp only [Bool.false_eq_true, if_false]
    cases findPod w.cluster pod.metadata.ns pod.metadata.name <;> rfl
  · rfl

theorem deletedCondition_true_inv {pod : Pod} {w w1 : World}
    (h : deletedCondition pod w = (.ok true, w1)) :
    getPod pod.metadata.ns pod.metadata.name w = (.error .notFound, w1) := by
  rw [deletedCondition_apply] at h
  rw [getPod_apply]
  cases hf : w.faulty
  · rw [hf] at h
    simp only [Bool.false_eq_true, if_false] at h ⊢
    cases hp : findPod w.cluster pod.metadata.ns pod.metadata.name with
    | none =>
      rw [hp] at h
      simp only [Prod.mk.injEq, true_and] at h
      rw [h]
    | some p =>
      rw [hp] at h
      simp at h
  · rw [hf] at h
    simp at h

theorem findPod_markTerminating (c : Cluster) (ns name ns2 name2 : String) :
    (c.pods.map (markTerminating ns name)).find? (isPod ns2 name2)
      = (c.pods.find? (isPod ns2 name2)).map (markTerminating ns name) := by
  induction c.pods with
  | nil => rfl
  | cons p ps ih =>
    have hp : isPod ns2 name2 (markTerminating ns name p) = isPod ns2 name2 p := by
      unfold markTerminating
      split <;> rfl
    simp only [List.map_cons, List.find?_cons, hp]
    cases isPod ns2 name2 p
    · exact ih
    · rfl

theorem poll_deleted_timeout {env : Env} {pod : Pod}
    (hstuck : ∀ c, findPod c pod.metadata.ns pod.metadata.name ≠ none →
      findPod (env.react c) pod.metadata.ns pod.metadata.name ≠ none)
    (n : Nat) (w : World) (hff : w.faults = [])
    (hp : findPod w.cluster pod.metadata.ns pod.metadata.name ≠ none) :
    (poll env (deletedCondition pod) n w).1 = .error .timeout := by
  induction n generalizing w with
  | zero => rfl
  | succ k ih =>
    unfold poll
    rw [bind_apply]
    simp only [tick]
    rw [bind_apply, deletedCondition_apply]
    have hf : World.faulty { w with cluster := env.react w.cluster } = false := by
      unfold World.faulty
      simp [hff]
    rw [hf]
    simp only [Bool.false_eq_true, if_false]
    have hp2 := hstuck w.cluster hp
    cases hq : findPod (env.react w.cluster) pod.metadata.ns pod.metadata.name with
    | none => exact absurd hq hp2
    | some q =>
      simp only [Bool.false_eq_true, if_false]
      apply ih
      · simp [World.next, hff]
      · show findPod (env.react w.cluster) pod.metadata.ns pod.metadata.name ≠ none
        rw [hq]
        simp


/-- C23: delete is idempotent.  For a pod that is absent from the cluster,
`deleteAndWait` succeeds after its one delete request, which is the only
request it issues, and leaves the cluster as it is.  For a pod that is present,
it succeeds only in a world reached by a get request for the pod that reported
NotFound, and the pod is then absent.  It fails when the delete request fails,
it returns the error of a failed request whenever one of its requests failed,
and it fails with the timeout error when the pod is still there after the 120
polls of the two minutes. -/
theorem deleteAndWait_idempotent (env : Env) (pod : Pod) (w : World) :
    (findPod w.cluster pod.metadata.ns pod.metadata.name = none → w.faulty = false →
        deleteAndWait env pod w
          = (.ok (), w.next (.deletePod pod.metadata.ns pod.metadata.name)))
      ∧ (∀ w2, findPod w.cluster pod.metadata.ns pod.metadata.name ≠ none →
        deleteAndWait env pod w = (.ok (), w2) →
        (∃ w1, getPod pod.metadata.ns pod.metadata.name w1 = (.error .notFound, w2))
          ∧ findPod w2.cluster pod.metadata.ns pod.metadata.name = none)
      ∧ (w.faulty = true →
        deleteAndWait env pod w
          = (.error .transient, w.next (.deletePod pod.metadata.ns pod.metadata.name)))
      ∧ (failedBetween w (deleteAndWait env pod w).2 ≠ [] →
        ∃ e, (deleteAndWait env pod w).1 = .error e ∧ e.isFault = true)
      ∧ (w.faults = [] → findPod w.cluster pod.metadata.ns pod.metadata.name ≠ none →
        (∀ c, findPod c pod.metadata.ns pod.metadata.name ≠ none →
          findPod (env.react c) pod.metadata.ns pod.metadata.name ≠ none) →
        (deleteAndWait env pod w).1 = .error .timeout) := by
  refine ⟨?_, ?_, ?_, ?_, ?_⟩
  · intro hp hf
    rw [deleteAndWait_apply, hf, hp]
    rfl
  · intro w2 hp h
    refine ⟨?_, deleteAndWait_ok_inv h⟩
    rw [deleteAndWait_apply] at h
    cases hf : w.faulty
    · rw [hf] at h
      simp only [Bool.false_eq_true, if_false] at h
      cases hq : findPod w.cluster pod.metadata.ns pod.metadata.name with
      | none => exact absurd hq hp
      | some q =>
        rw [hq] at h
        obtain ⟨w0, hc⟩ := poll_ok_inv h
        exact ⟨w0, deletedCondition_true_inv hc⟩
    · rw [hf] at h
      simp at h
  · intro hf
    rw [deleteAndWait_apply, hf]
    rfl
  · intro hne
    obtain ⟨c, hc⟩ := List.exists_mem_of_ne_nil _ hne
    exact (@careful_deleteAndWait (fun _ => False) env pod).2 w ⟨c, hc, fun h => h⟩
  · intro hff hp hstuck
    rw [deleteAndWait_apply, faulty_of_faults_nil hff]
    simp only [Bool.false_eq_true, if_false]
    cases hq : findPod w.cluster pod.metadata.ns pod.metadata.name with
    | none => exact absurd hq hp
    | some q =>
      apply poll_deleted_timeout hstuck
      · simp [World.next, hff]
      · show (w.cluster.pods.map (markTerminating pod.metadata.ns pod.metadata.name)).find?
            (isPod pod.metadata.ns pod.metadata.name) ≠ none
        rw [findPod_markTerminating]
        unfold findPod at hq
        rw [hq]
        simp

theorem deleteAndWait_idempotent_witness :
    deleteAndWait demoEnv demoGhostPod demoWorld
        = (.ok (), demoWorld.next (.deletePod "dev" "ghost"))
      ∧ ((∃ w1, getPod "dev" "db-0-devspace" w1
            = (.error .notFound, (deleteAndWait demoEnv demoBody demoW1).2))
          ∧ findPod (deleteAndWait demoEnv demoBody demoW1).2.cluster "dev" "db-0-devspace" = none)
      ∧ (deleteAndWait demoEnvStuck demoBody demoW1).1 = .error .timeout :=
  ⟨(deleteAndWait_idempotent demoEnv demoGhostPod demoWorld).1 (by decide!) (by decide!),
    (deleteAndWait_idempotent demoEnv demoBody demoW1).2.1 _ (by decide!) (by decide!),
    (deleteAndWait_idempotent demoEnvStuck demoBody demoW1).2.2.2.2 (by decide!) (by decide!)
      (fun _ h => h)⟩

/-! ## C24: the order of the requests -/

theorem emits_getPod (P : Call → Prop) (ns name : String) (h : P (.getPod ns name)) :
    Pres (Emits P) (getPod ns name) := by
  intro w
  refine ⟨[.getPod ns name], ?_, by simpa using h⟩
  rw [getPod_apply]
  split
  · rfl
  · split <;> rfl

theorem emits_originalGoneCondition (pod : SelectedPodContainer) (copiedPod : Pod) :
    Pres (Emits (fun c => c = .getPod pod.pod.metadata.ns pod.pod.metadata.name))
      (originalGoneCondition pod copiedPod) := by
  unfold originalGoneCondition
  refine pres_bind (emits_isPreorder _) (pres_attempt (emits_getPod _ _ _ rfl)) (fun r => ?_)
  cases r with
  | error e =>
    dsimp only
    split
    · exact pres_pure (emits_isPreorder _) _
    · exact pres_fail (emits_isPreorder _) _
  | ok p => dsimp only; split <;> exact pres_pure (emits_isPreorder _) _

theorem emits_deletedCondition (pod : Pod) :
    Pres (Emits (fun c => c = .getPod pod.metadata.ns pod.metadata.name))
      (deletedCondition pod) := by
  unfold deletedCondition
  refine pres_bind (emits_isPreorder _) (pres_attempt (emits_getPod _ _ _ rfl)) (fun r => ?_)
  cases r with
  | error e =>
    dsimp only
    split
    · exact pres_pure (emits_isPreorder _) _
    · exact pres_fail (emits_isPreorder _) _
  | ok p => exact pres_pure (emits_isPreorder _) _

theorem emits_tick (P : Call → Prop) (env : Env) : Pres (Emits P) (tick env) :=
  fun w => ⟨[], by simp [tick], by simp⟩

theorem createPod_trace (pod : Pod) (w : World) :
    (createPod pod w).2.trace = w.trace ++ [.createPod pod] := by
  rw [createPod_apply]
  by_cases hf : w.faulty = true
  · simp [hf, World.next]
  · simp only [hf, Bool.false_eq_true, if_false]
    cases findPod w.cluster pod.metadata.ns pod.metadata.name <;> simp [World.next]

theorem scaleDownParent_trace (obj : Controller) (w : World) :
    (scaleDownParent obj w).2.trace = w.trace
      ∨ (scaleDownParent obj w).2.trace = w.trace ++ [quiescePatchCall obj] := by
  by_cases h0 : currentReplicas obj = 0
  · rw [scaleDownParent_of_zero h0]
    exact Or.inl rfl
  · rw [scaleDownParent_of_replicas h0]
    exact Or.inr (patchController_trace _ _ _ _ w)

theorem deleteAndWait_calls (env : Env) (pod : Pod) (w : World) :
    ∃ polls, (deleteAndWait env pod w).2.trace
        = w.trace ++ .deletePod pod.metadata.ns pod.metadata.name :: polls
      ∧ ∀ c ∈ polls, c = .getPod pod.metadata.ns pod.metadata.name := by
  rw [deleteAndWait_apply]
  split
  · exact ⟨[], rfl, fun c hc => by cases hc⟩
  · split
    · exact ⟨[], rfl, fun c hc => by cases hc⟩
    · obtain ⟨t, ht, hall⟩ := pres_poll (emits_isPreorder _) env (emits_tick _ env)
        (emits_deletedCondition pod) 120
        { w.next (.deletePod pod.metadata.ns pod.metadata.name) with
          cluster := { w.cluster with
            pods := w.cluster.pods.map (markTerminating pod.metadata.ns pod.metadata.name) } }
      refine ⟨t, ?_, hall⟩
      rw [ht]
      simp [World.next]


/-- The requests of `replace`, in order, and when the create is among them. -/
theorem replace_steps (env : Env) (pod : SelectedPodContainer) (parent : Controller)
    (config : Config) (dependencies : List Dependency) (replacePod : ReplacePodSpec) (w : World) :
    ∃ down polls cre,
      (replace env pod parent config dependencies replacePod w).2.trace
          = w.trace ++ (down ++ polls ++ cre)
        ∧ (down = [] ∨ down = [quiescePatchCall parent])
        ∧ (∀ c ∈ polls, c = .getPod pod.pod.metadata.ns pod.pod.metadata.name)
        ∧ (cre = [] ∨ ∃ body, cre = [.createPod body])
        ∧ (cre ≠ [] → ∃ wa wb, scaleDownParent parent w = (.ok (), wa)
            ∧ ∃ body, poll env (originalGoneCondition pod body) 60 wa = (.ok (), wb)) := by
  rcases replace_cases env pod parent config dependencies replacePod w with
    ⟨e, _, hr⟩ | ⟨body, _, h⟩
  · rw [hr]
    exact ⟨[], [], [], by simp, Or.inl rfl, (fun c hc => by cases hc), Or.inl rfl,
      fun h => absurd rfl h⟩
  · have hdown : ∀ wa, (wrapErr "scale down parent" (scaleDownParent parent) w).2 = wa →
        ∃ down, wa.trace = w.trace ++ down ∧ (down = [] ∨ down = [quiescePatchCall parent]) := by
      intro wa hwa
      rw [wrapErr_trace] at hwa
      rcases scaleDownParent_trace parent w with h0 | h1
      · exact ⟨[], by rw [← hwa, h0]; simp, Or.inl rfl⟩
      · exact ⟨_, by rw [← hwa, h1], Or.inr rfl⟩
    have hpolls : ∀ wa wb, (wrapErr "wait for original pod to terminate"
        (poll env (originalGoneCondition pod body) 60) wa).2 = wb →
        ∃ polls, wb.trace = wa.trace ++ polls
          ∧ ∀ c ∈ polls, c = .getPod pod.pod.metadata.ns pod.pod.metadata.name := by
      intro wa wb hwb
      rw [wrapErr_trace] at hwb
      obtain ⟨t, ht, hall⟩ := pres_poll (emits_isPreorder _) env (emits_tick _ env)
        (emits_originalGoneCondition pod body) 60 wa
      exact ⟨t, by rw [← hwb, ht], hall⟩
    rcases h with ⟨e, wa, h1, hr⟩ | ⟨wa, h1, h⟩
    · obtain ⟨down, hd, hdc⟩ := hdown wa (by rw [h1])
      rw [hr]
      exact ⟨down, [], [], by rw [hd]; simp, hdc, (fun c hc => by cases hc), Or.inl rfl,
        fun h => absurd rfl h⟩
    · obtain ⟨down, hd, hdc⟩ := hdown wa (by rw [h1])
      rcases h with ⟨e, wb, h2, hr⟩ | ⟨wb, h2, hr⟩
      · obtain ⟨polls, hp, hpc⟩ := hpolls wa wb (by rw [h2])
        rw [hr]
        exact ⟨down, polls, [], by rw [hp, hd]; simp, hdc, hpc, Or.inl rfl,
          fun h => absurd rfl h⟩
      · obtain ⟨polls, hp, hpc⟩ := hpolls wa wb (by rw [h2])
        rw [hr, wrapErr_trace, createPod_trace, hp, hd]
        refine ⟨down, polls, [.createPod body], by simp, hdc, hpc, Or.inr ⟨body, rfl⟩, ?_⟩
        intro _
        exact ⟨wa, wb, wrapErr_ok_inv h1, body, wrapErr_ok_inv h2⟩

theorem endsInReplace_of_notCreate {α : Type} {m : M α} (h : Pres (Emits NotCreate) m) :
    EndsInReplace m := by
  intro w
  obtain ⟨t, ht, hall⟩ := h w
  exact ⟨t, [], by rw [ht]; simp, hall, Or.inl rfl⟩

theorem endsInReplace_bind {α β : Type} {m : M α} {f : α → M β}
    (hm : Pres (Emits NotCreate) m) (hf : ∀ a, EndsInReplace (f a)) :
    EndsInReplace (m >>= f) := by
  intro w
  obtain ⟨t1, ht1, hall1⟩ := hm w
  rw [bind_apply]
  rcases hmw : m w with ⟨r, w1⟩
  rw [hmw] at ht1
  cases r with
  | error e => exact ⟨t1, [], by rw [ht1]; simp, hall1, Or.inl rfl⟩
  | ok a =>
    obtain ⟨pre, t, ht, hpre, hsteps⟩ := hf a w1
    refine ⟨t1 ++ pre, t, ?_, ?_, hsteps⟩
    · show (f a w1).2.trace = _
      rw [ht, ht1]
      simp
    · intro c hc
      rcases List.mem_append.mp hc with h | h
      · exact hall1 c h
      · exact hpre c h

theorem endsInReplace_replace (env : Env) (pod : SelectedPodContainer) (parent : Controller)
    (config : Config) (dependencies : List Dependency) (replacePod : ReplacePodSpec) :
    EndsInReplace (replace env pod parent config dependencies replacePod) := by
  intro w
  obtain ⟨down, polls, cre, ht, hd, hp, hc, _⟩ :=
    replace_steps env pod parent config dependencies replacePod w
  exact ⟨[], down ++ polls ++ cre, by rw [ht]; simp, (fun c hc => by cases hc),
    Or.inr ⟨pod, parent, down, polls, cre, rfl, hd, hp, hc⟩⟩

theorem endsInReplace_ReplacePod (env : Env) (config : Config) (dependencies : List Dependency)
    (replacePod : ReplacePodSpec) :
    EndsInReplace (ReplacePod env config dependencies replacePod) := by
  have A := allows_emits_notCreate env
  unfold ReplacePod
  refine endsInReplace_bind (pres_wrapErr _ (pres_findSingleReplacedPod A _ _)) (fun found => ?_)
  have hproceed : Pres (Emits NotCreate) (match found with
      | some selectedPod => updateNeeded env selectedPod config dependencies replacePod
      | none => (pure true : M Bool)) := by
    cases found with
    | none => exact pres_pure A.pre _
    | some sel =>
      exact pres_updateNeeded A sel config dependencies replacePod trivial (fun _ _ _ => trivial)
  refine endsInReplace_bind hproceed (fun proceed => ?_)
  split
  · exact endsInReplace_of_notCreate (pres_pure A.pre _)
  · refine endsInReplace_bind (pres_findSingleReplaceablePodParent A _ _ _) (fun cp => ?_)
    exact endsInReplace_replace env cp.1 cp.2 config dependencies replacePod


theorem scaleUpParent_noop {parent : Controller}
    (h : mapGet parent.metadata.annotations ReplicasAnnotation = ""
      ∨ atoi (mapGet parent.metadata.annotations ReplicasAnnotation) = some 0) (w : World) :
    scaleUpParent parent w = (.ok (), w) := by
  unfold scaleUpParent
  by_cases he : mapGet parent.metadata.annotations ReplicasAnnotation = ""
  · simp only [he, if_true]
    rfl
  · rcases h with h | h
    · exact absurd h he
    · simp only [he, if_false, Atoi_of_atoi h, if_true]
      rfl

/-- The requests of a successful `RevertReplacePod` after the fetch of the
parent. -/
theorem revert_steps {env : Env} {replacePod : ReplacePodSpec} {w w2 : World}
    {ret : SelectedPodContainer} {wl wg : World} {parent : Controller}
    (h : RevertReplacePod env replacePod w = (.ok (some ret), w2))
    (hl : findSingleReplacedPod env replacePod 4 w = (.ok (some ret), wl))
    (hlack : lacksParentAnnotations ret.pod = false)
    (hp : getParentFromReplaced ret.pod wl = (.ok parent, wg)) :
    (∀ r, atoi (mapGet parent.metadata.annotations ReplicasAnnotation) = some r → r ≠ 0 →
        ∃ t, w2.trace = wg.trace ++ t ∧ RevertSteps ret.pod parent r t)
      ∧ ((mapGet parent.metadata.annotations ReplicasAnnotation = ""
          ∨ atoi (mapGet parent.metadata.annotations ReplicasAnnotation) = some 0) →
        ∃ polls, w2.trace = wg.trace
            ++ .deletePod ret.pod.metadata.ns ret.pod.metadata.name :: polls
          ∧ ∀ c ∈ polls, c = .getPod ret.pod.metadata.ns ret.pod.metadata.name) := by
  unfold RevertReplacePod at h
  have hl2 : wrapErr "find patched pod" (findSingleReplacedPod env replacePod 4) w
      = (.ok (some ret), wl) := by
    unfold wrapErr
    rw [hl]
  rw [bind_of_ok hl2] at h
  simp only [hlack, Bool.false_eq_true, if_false] at h
  rw [bind_apply, attempt_apply, hp] at h
  simp only [] at h
  obtain ⟨_, wd, hd, h⟩ := bind_ok_inv h
  obtain ⟨_, wu, hs, h⟩ := bind_ok_inv h
  simp only [pure_apply, Prod.mk.injEq, true_and] at h
  subst h
  have hd2 := wrapErr_ok_inv hd
  obtain ⟨polls, hpt, hpc⟩ := deleteAndWait_calls env ret.pod wg
  rw [hd2] at hpt
  constructor
  · intro r ha hr
    rw [scaleUpParent_of_atoi ha hr] at hs
    have ht : (wrapErr "patch parent" (patchController parent.kind parent.metadata.ns
        parent.metadata.name (mergeFrom parent (restored parent r))) wd).2.trace
        = wd.trace ++ [restorePatchCall parent r] := by
      rw [wrapErr_trace]
      exact patchController_trace _ _ _ _ wd
    rw [hs] at ht
    refine ⟨_, ?_, polls, rfl, hpc⟩
    rw [ht, hpt]
    simp
  · intro hno
    rw [scaleUpParent_noop hno wd] at hs
    simp only [Prod.mk.injEq, true_and] at hs
    subst hs
    exact ⟨polls, hpt, hpc⟩

/-- C24 (counterexample): the replacement pod of the examples names the
StatefulSet `db` as its parent, the StatefulSet can be fetched and carries no
replicas annotation; `RevertReplacePod` returns the pod without error, and the
only mutating request it has issued is the delete of the pod: no restore patch
was issued. -/
theorem revert_without_restore_counterexample :
    (RevertReplacePod demoEnv demoSpec demoScaledUp).1 = .ok (some demoFound)
      ∧ lacksParentAnnotations demoFound.pod = false
      ∧ (getParentFromReplaced demoFound.pod
          (findSingleReplacedPod demoEnv demoSpec 4 demoScaledUp).2).1 = .ok demoSet
      ∧ mutatingCalls demoScaledUp (RevertReplacePod demoEnv demoSpec demoScaledUp).2
          = [.deletePod "dev" "db-0-devspace"] := by
  decide!


/-- C24 (amended): the order of the requests.  The requests of a `ReplacePod`
invocation end in those of its `replace`, if it gets there: at most one request
that scales the parent to zero, then the polls of the original pod, then at
most one create; no pod is created before them, and the create is issued only
after the scale-down and the wait succeeded, not when one of them failed.  In a
`RevertReplacePod` invocation that returns a replacement pod whose parent was
fetched, when the parent records a replica count other than 0, the requests
after the fetch are the delete of the pod, the polls of the pod and, last, the
restore patch of the parent; when the parent carries no count, or the count 0,
they are the delete and the polls, and no patch is issued. -/
theorem step_ordering (env : Env) (config : Config) (dependencies : List Dependency)
    (replacePod : ReplacePodSpec) (w : World) :
    (∃ pre t, (ReplacePod env config dependencies replacePod w).2.trace = w.trace ++ (pre ++ t)
        ∧ (∀ c ∈ pre, NotCreate c) ∧ (t = [] ∨ ∃ pod parent, ReplaceSteps pod parent t))
      ∧ (∀ pod parent, ∃ down polls cre,
          (replace env pod parent config dependencies replacePod w).2.trace
              = w.trace ++ (down ++ polls ++ cre)
            ∧ (down = [] ∨ down = [quiescePatchCall parent])
            ∧ (∀ c ∈ polls, c = .getPod pod.pod.metadata.ns pod.pod.metadata.name)
            ∧ (cre = [] ∨ ∃ body, cre = [.createPod body])
            ∧ (cre ≠ [] → ∃ wa wb, scaleDownParent parent w = (.ok (), wa)
                ∧ ∃ body, poll env (originalGoneCondition pod body) 60 wa = (.ok (), wb)))
      ∧ (∀ pod parent e wa,
          wrapErr "scale down parent" (scaleDownParent parent) w = (.error e, wa) →
          ∀ p, Call.createPod p ∉
            newCalls w (replace env pod parent config dependencies replacePod w).2)
      ∧ (∀ pod parent body wa e wb,
          replacementBody env pod parent config dependencies replacePod = .ok body →
          wrapErr "scale down parent" (scaleDownParent parent) w = (.ok (), wa) →
          wrapErr "wait for original pod to terminate"
            (poll env (originalGoneCondition pod body) 60) wa = (.error e, wb) →
          ∀ p, Call.createPod p ∉
            newCalls w (replace env pod parent config dependencies replacePod w).2)
      ∧ (∀ ret w2 wl parent wg, RevertReplacePod env replacePod w = (.ok (some ret), w2) →
          findSingleReplacedPod env replacePod 4 w = (.ok (some ret), wl) →
          lacksParentAnnotations ret.pod = false →
          getParentFromReplaced ret.pod wl = (.ok parent, wg) →
          (∀ r, atoi (mapGet parent.metadata.annotations ReplicasAnnotation) = some r →
              r ≠ 0 → ∃ t, w2.trace = wg.trace ++ t ∧ RevertSteps ret.pod parent r t)
            ∧ ((mapGet parent.metadata.annotations ReplicasAnnotation = ""
                ∨ atoi (mapGet parent.metadata.annotations ReplicasAnnotation) = some 0) →
              ∃ polls, w2.trace = wg.trace
                  ++ .deletePod ret.pod.metadata.ns ret.pod.metadata.name :: polls
                ∧ ∀ c ∈ polls, c = .getPod ret.pod.metadata.ns ret.pod.metadata.name)) := by
  have hsd : ∀ parent w0, Emits NotCreate w0
      (wrapErr "scale down parent" (scaleDownParent parent) w0).2 := fun parent =>
    pres_wrapErr _ (pres_scaleDownParent (allows_emits_notCreate env) parent (fun _ _ _ => trivial))
  have hwait : ∀ pod body w0, Emits NotCreate w0 (wrapErr "wait for original pod to terminate"
      (poll env (originalGoneCondition pod body) 60) w0).2 := fun pod body =>
    pres_wrapErr _ (pres_poll (allows_emits_notCreate env).pre env (allows_emits_notCreate env).tick
      (pres_originalGoneCondition (allows_emits_notCreate env) pod body) 60)
  refine ⟨endsInReplace_ReplacePod env config dependencies replacePod w,
    fun pod parent => replace_steps env pod parent config dependencies replacePod w, ?_, ?_,
    fun ret w2 wl parent wg h hl hlack hp => revert_steps h hl hlack hp⟩
  · intro pod parent e wa h1 p
    have hem : Emits NotCreate w (replace env pod parent config dependencies replacePod w).2 := by
      rcases replace_cases env pod parent config dependencies replacePod w with
        ⟨e2, _, hr⟩ | ⟨body, _, h⟩
      · rw [hr]
        exact (emits_isPreorder _).refl w
      · rcases h with ⟨e2, wa2, h2, hr⟩ | ⟨wa2, h2, _⟩
        · rw [hr]
          have := hsd parent w
          rw [h2] at this
          exact this
        · rw [h1] at h2
          cases h2
    exact not_created_of_emits hem p
  · intro pod parent body wa e wb hb h1 h2 p
    have hem : Emits NotCreate w (replace env pod parent config dependencies replacePod w).2 := by
      rcases replace_cases env pod parent config dependencies replacePod w with
        ⟨e2, he2, _⟩ | ⟨body2, hb2, h⟩
      · rw [hb] at he2
        cases he2
      · rw [hb] at hb2
        cases hb2
        rcases h with ⟨e2, wa2, h3, _⟩ | ⟨wa2, h3, h⟩
        · rw [h1] at h3
          cases h3
        · rw [h1] at h3
          cases h3
          rcases h with ⟨e2, wb2, h4, hr⟩ | ⟨wb2, h4, _⟩
          · rw [hr]
            have ha := hsd parent w
            rw [h1] at ha
            have hb3 := hwait pod body wa
            rw [h4] at hb3
            exact emits_trans ha hb3
          · rw [h2] at h4
            cases h4
    exact not_created_of_emits hem p

theorem step_ordering_witness :
    (∃ down polls cre,
        (replace demoEnv demoSelected demoSet none [] demoSpec demoWorld).2.trace
            = demoWorld.trace ++ (down ++ polls ++ cre)
          ∧ (down = [] ∨ down = [quiescePatchCall demoSet])
          ∧ (∀ c ∈ polls, c = .getPod demoSelected.pod.metadata.ns demoSelected.pod.metadata.name)
          ∧ (cre = [] ∨ ∃ body, cre = [.createPod body])
          ∧ (cre ≠ [] → ∃ wa wb, scaleDownParent demoSet demoWorld = (.ok (), wa)
              ∧ ∃ body, poll demoEnv (originalGoneCondition demoSelected body) 60 wa
                  = (.ok (), wb)))
      ∧ (replace demoEnv demoSelected demoSet none [] demoSpec demoWorld).2.trace
          = [quiescePatchCall demoSet, .getPod "dev" "db-0", .getPod "dev" "db-0",
              .createPod demoBody]
      ∧ (∃ t, (RevertReplacePod demoEnv demoSpec demoW1).2.trace
            = (getParentFromReplaced demoFound.pod
                (findSingleReplacedPod demoEnv demoSpec 4 demoW1).2).2.trace ++ t
          ∧ RevertSteps demoFound.pod demoSetQuiesced 3 t) :=
  ⟨(step_ordering demoEnv none [] demoSpec demoWorld).2.1 demoSelected demoSet, by decide!,
    ((step_ordering demoEnv none [] demoSpec demoW1).2.2.2.2 demoFound
      (RevertReplacePod demoEnv demoSpec demoW1).2
      (findSingleReplacedPod demoEnv demoSpec 4 demoW1).2 demoSetQuiesced
      (getParentFromReplaced demoFound.pod (findSingleReplacedPod demoEnv demoSpec 4 demoW1).2).2
      (by decide!) (by decide!) (by decide!) (by decide!)).1 3 (by decide!) (by decide)⟩

/-! ## C25: the parent fingerprint and quiescing -/

theorem patchController_controllers (kind : Kind) (ns name : String) (patch : Patch) (w : World) :
    (patchController kind ns name patch w).2.cluster.controllers = w.cluster.controllers
      ∨ (patchController kind ns name patch w).2.cluster.controllers
          = w.cluster.controllers.map (patchIn kind ns name patch) := by
  rw [patchController_apply]
  split
  · exact Or.inl rfl
  · split
    · exact Or.inl rfl
    · exact Or.inr rfl

theorem scaleDownParent_controllers (obj : Controller) (w : World) :
    (scaleDownParent obj w).2.cluster.controllers = w.cluster.controllers
      ∨ ∃ kind ns name patch, (scaleDownParent obj w).2.cluster.controllers
          = w.cluster.controllers.map (patchIn kind ns name patch) := by
  by_cases h0 : currentReplicas obj = 0
  · rw [scaleDownParent_of_zero h0]
    exact Or.inl rfl
  · rw [scaleDownParent_of_replicas h0]
    rcases patchController_controllers obj.kind obj.metadata.ns obj.metadata.name
      (mergeFrom obj (quiesced obj)) w with h | h
    · exact Or.inl h
    · exact Or.inr ⟨_, _, _, _, h⟩

theorem scaleUpParent_controllers (parent : Controller) (w : World) :
    (scaleUpParent parent w).2.cluster.controllers = w.cluster.controllers
      ∨ ∃ kind ns name patch, (scaleUpParent parent w).2.cluster.controllers
          = w.cluster.controllers.map (patchIn kind ns name patch) := by
  unfold scaleUpParent
  simp only
  split
  · exact Or.inl rfl
  · cases Atoi (mapGet parent.metadata.annotations ReplicasAnnotation) with
    | error e => exact Or.inl rfl
    | ok r =>
      simp only
      split
      · exact Or.inl rfl
      · rw [wrapErr_trace]
        rcases patchController_controllers (restored parent r).kind
          (restored parent r).metadata.ns (restored parent r).metadata.name
          (mergeFrom parent (restored parent r)) w with h | h
        · exact Or.inl h
        · exact Or.inr ⟨_, _, _, _, h⟩

theorem patchIn_template (kind : Kind) (ns name : String) (patch : Patch) (o : Controller) :
    (patchIn kind ns name patch o).template = o.template := by
  unfold patchIn
  split <;> rfl

/-- After a change of the controllers by at most one patch, the controller found
under a kind, namespace and name has the template it had before. -/
theorem found_template_of_patched {c c2 : Cluster}
    (h : c2.controllers = c.controllers
      ∨ ∃ kind ns name patch, c2.controllers = c.controllers.map (patchIn kind ns name patch))
    (k : Kind) (ns name : String) (o : Controller)
    (hf : findController c2 k ns name = some o) :
    ∃ o0, findController c k ns name = some o0 ∧ o.template = o0.template := by
  unfold findController at hf ⊢
  rcases h with h | ⟨kind, ns2, name2, patch, h⟩
  · rw [h] at hf
    exact ⟨o, hf, rfl⟩
  · rw [h, findController_patched] at hf
    cases hq : c.controllers.find? (isController k ns name) with
    | none => rw [hq] at hf; cases hf
    | some o0 =>
      rw [hq] at hf
      simp only [Option.map_some', Option.some.injEq] at hf
      exact ⟨o0, rfl, by rw [← hf, patchIn_template]⟩

/-- C25: the parent fingerprint ignores quiescing.  `hashParentPodSpec` gives
the same result for two controllers with the same pod template, whatever their
replica count and metadata; so it gives the same result for a controller, for
the object `scaleDownParent` builds from it (zero replicas, the replicas
annotation added), for the object `scaleUpParent` builds from it, and for the
controller after any merge patch of the engine; and the controller stored in
the cluster after `scaleDownParent` or `scaleUpParent` has the hash of the one
stored before. -/
theorem parent_hash_ignores_quiescing (env : Env) (config : Config)
    (dependencies : List Dependency) (replacePod : ReplacePodSpec) (c : Controller) :
    (∀ c2 : Controller, c2.template = c.template →
        hashParentPodSpec env c2 config dependencies replacePod
          = hashParentPodSpec env c config dependencies replacePod)
      ∧ hashParentPodSpec env (quiesced c) config dependencies replacePod
          = hashParentPodSpec env c config dependencies replacePod
      ∧ (∀ r, hashParentPodSpec env (restored c r) config dependencies replacePod
          = hashParentPodSpec env c config dependencies replacePod)
      ∧ (∀ p, hashParentPodSpec env (applyPatch c p) config dependencies replacePod
          = hashParentPodSpec env c config dependencies replacePod)
      ∧ hashParentPodSpec env (applyPatch (applyPatch c (mergeFrom c (quiesced c)))
            (mergeFrom (applyPatch c (mergeFrom c (quiesced c)))
              (restored (applyPatch c (mergeFrom c (quiesced c))) (currentReplicas c))))
            config dependencies replacePod
          = hashParentPodSpec env c config dependencies replacePod
      ∧ (∀ w k ns name o,
          findController (scaleDownParent c w).2.cluster k ns name = some o →
          ∃ o0, findController w.cluster k ns name = some o0
            ∧ hashParentPodSpec env o config dependencies replacePod
              = hashParentPodSpec env o0 config dependencies replacePod)
      ∧ (∀ w k ns name o,
          findController (scaleUpParent c w).2.cluster k ns name = some o →
          ∃ o0, findController w.cluster k ns name = some o0
            ∧ hashParentPodSpec env o config dependencies replacePod
              = hashParentPodSpec env o0 config dependencies replacePod) := by
  refine ⟨fun c2 h => hashParentPodSpec_congr env config dependencies replacePod h,
    hashParentPodSpec_congr env config dependencies replacePod rfl,
    fun r => hashParentPodSpec_congr env config dependencies replacePod rfl,
    fun p => hashParentPodSpec_congr env config dependencies replacePod rfl,
    hashParentPodSpec_congr env config dependencies replacePod rfl, ?_, ?_⟩
  · intro w k ns name o hf
    obtain ⟨o0, h0, ht⟩ := found_template_of_patched (scaleDownParent_controllers c w) k ns name o hf
    exact ⟨o0, h0, hashParentPodSpec_congr env config dependencies replacePod ht⟩
  · intro w k ns name o hf
    obtain ⟨o0, h0, ht⟩ := found_template_of_patched (scaleUpParent_controllers c w) k ns name o hf
    exact ⟨o0, h0, hashParentPodSpec_congr env config dependencies replacePod ht⟩

theorem parent_hash_ignores_quiescing_witness :
    hashParentPodSpec demoEnv demoSet none [] demoSpec = .ok "main=postgres:dev;"
      ∧ hashParentPodSpec demoEnv demoSetQuiesced none [] demoSpec
          = hashParentPodSpec demoEnv demoSet none [] demoSpec
      ∧ findController (scaleDownParent demoSet demoWorld).2.cluster .StatefulSet "dev" "db"
          = some demoSetQuiesced
      ∧ ∃ o0, findController demoWorld.cluster .StatefulSet "dev" "db" = some o0
          ∧ hashParentPodSpec demoEnv demoSetQuiesced none [] demoSpec
            = hashParentPodSpec demoEnv o0 none [] demoSpec :=
  ⟨by decide!,
    (parent_hash_ignores_quiescing demoEnv none [] demoSpec demoSet).1 demoSetQuiesced rfl,
    by decide!,
    (parent_hash_ignores_quiescing demoEnv none [] demoSpec demoSet).2.2.2.2.2.1 demoWorld
      .StatefulSet "dev" "db" demoSetQuiesced (by decide!)⟩

/-! ## C27: resolving an image name -/

theorem splitFirstDot_length {l a b : List Char} (h : splitFirstDot l = some (a, b)) :
    b.length < l.length := by
  induction l generalizing a b with
  | nil => simp [splitFirstDot] at h
  | cons c cs ih =>
    unfold splitFirstDot at h
    by_cases hc : c = '.'
    · simp only [hc, if_true, Option.some.injEq, Prod.mk.injEq] at h
      rw [← h.2]
      simp
    · simp only [hc, if_false] at h
      cases hs : splitFirstDot cs with
      | none => rw [hs] at h; cases h
      | some p =>
        obtain ⟨a2, b2⟩ := p
        rw [hs] at h
        simp only [Option.some.injEq, Prod.mk.injEq] at h
        have := ih hs
        rw [← h.2]
        simp only [List.length_cons]
        omega

/-- One unfolding of `Resolve`: the four ways it can go. -/
theorem ResolveAux_cases (configImageName : String) (config : Config)
    (dependencies : List Dependency) :
    (¬ ResolveGuard configImageName config
        ∧ ∀ fuel, ResolveAux (fuel + 1) configImageName config dependencies = .ok [])
      ∨ (ResolveGuard configImageName config ∧ DefinedImage configImageName config
        ∧ ∃ image, ∀ fuel, ResolveAux (fuel + 1) configImageName config dependencies
            = .ok [{ ConfigImageName := configImageName, Image := image }])
      ∨ (ResolveGuard configImageName config ∧ ¬ DefinedImage configImageName config
        ∧ (∀ dependency rest, splitFirstDot configImageName.data = some (dependency, rest) →
            dependencies.find? (fun dep => dep.name == String.mk dependency) = none)
        ∧ ∀ fuel, ResolveAux (fuel + 1) configImageName config dependencies
            = .error (.msg ("couldn't find imageName " ++ configImageName)))
      ∨ (ResolveGuard configImageName config ∧ ¬ DefinedImage configImageName config
        ∧ ∃ dependency rest dep, splitFirstDot configImageName.data = some (dependency, rest)
          ∧ dependencies.find? (fun dep => dep.name == String.mk dependency) = some dep
          ∧ ∀ fuel, ResolveAux (fuel + 1) configImageName config dependencies
              = afterDependency configImageName dep
                  (ResolveAux fuel (String.mk rest) dep.config dep.children)) := by
  cases config with
  | none =>
    refine Or.inl ⟨?_, fun _ => rfl⟩
    rintro ⟨_, cfg, g, c, h, _⟩
    cases h
  | some cfg =>
    cases hg : cfg.generatedConfig with
    | none =>
      refine Or.inl ⟨?_, fun _ => by simp [ResolveAux, hg]⟩
      rintro ⟨_, cfg2, g, c, h, h2, _⟩
      cases h
      rw [hg] at h2
      cases h2
    | some generated =>
      cases hp : cfg.parsedConfig with
      | none =>
        refine Or.inl ⟨?_, fun _ => by simp [ResolveAux, hg, hp]⟩
        rintro ⟨_, cfg2, g, c, h, _, h3⟩
        cases h
        rw [hp] at h3
        cases h3
      | some c =>
        by_cases hn : configImageName = ""
        · refine Or.inl ⟨fun h => h.1 hn, fun _ => by simp [ResolveAux, hg, hp, hn]⟩
        · have hguard : ResolveGuard configImageName (some cfg) :=
            ⟨hn, cfg, generated, c, rfl, hg, hp⟩
          cases hi : c.Images.lookup configImageName with
          | some img =>
            refine Or.inr (Or.inl ⟨hguard, ⟨cfg, c, img, rfl, hp, hi⟩, ?_⟩)
            cases hc : generated.Images.lookup configImageName with
            | none =>
              cases ht : img.Tags with
              | nil =>
                exact ⟨img.Image, fun _ => by simp [ResolveAux, hg, hp, hn, hi, hc, ht]⟩
              | cons tag tags =>
                exact ⟨img.Image ++ ":" ++ tag,
                  fun _ => by simp [ResolveAux, hg, hp, hn, hi, hc, ht]⟩
            | some cached =>
              by_cases hcached : cached.ImageName ≠ "" ∧ cached.Tag ≠ ""
              · exact ⟨cached.ImageName ++ ":" ++ cached.Tag,
                  fun _ => by simp [ResolveAux, hg, hp, hn, hi, hc, hcached]⟩
              · cases ht : img.Tags with
                | nil =>
                  exact ⟨img.Image,
                    fun _ => by simp [ResolveAux, hg, hp, hn, hi, hc, hcached, ht]⟩
                | cons tag tags =>
                  exact ⟨img.Image ++ ":" ++ tag,
                    fun _ => by simp [ResolveAux, hg, hp, hn, hi, hc, hcached, ht]⟩
          | none =>
            have hundef : ¬ DefinedImage configImageName (some cfg) := by
              rintro ⟨cfg2, c2, img, h1, h2, h3⟩
              cases h1
              rw [hp] at h2
              cases h2
              rw [hi] at h3
              cases h3
            have hstep : ∀ fuel, ResolveAux (fuel + 1) configImageName (some cfg) dependencies
                = match splitFirstDot configImageName.data with
                  | none => .error (.msg ("couldn't find imageName " ++ configImageName))
                  | some (dependency, dependencyImageName) =>
                    match dependencies.find? (fun dep => dep.name == String.mk dependency) with
                    | none => .error (.msg ("couldn't find imageName " ++ configImageName))
                    | some dep =>
                      afterDependency configImageName dep
                        (ResolveAux fuel (String.mk dependencyImageName) dep.config
                          dep.children) := by
              intro fuel
              rw [ResolveAux]
              simp only [hg, hp, hn, if_false, hi]
              have hleaf : ∀ (dep : Dependency) (r : Except Err (List ImageSelector)),
                  (match r with
                    | .error e => (.error e : Except Err (List ImageSelector))
                    | .ok [sel] =>
                      .ok [{ sel with
                             Dependency := match sel.Dependency with
                               | none => some dep.name
                               | some d => some d
                             ConfigImageName := configImageName }]
                    | .ok imageSelector => .ok imageSelector)
                  = afterDependency configImageName dep r := by
                intro dep r
                rcases r with e | l
                · rfl
                · rcases l with _ | ⟨s, _ | ⟨s2, l2⟩⟩ <;> rfl
              cases generated.Images.lookup configImageName <;>
                (cases hs : splitFirstDot configImageName.data with
                  | none => rfl
                  | some p =>
                    obtain ⟨d, rest⟩ := p
                    dsimp only
                    cases hf : dependencies.find? (fun dep => dep.name == String.mk d) with
                    | none => rfl
                    | some dep =>
                      dsimp only
                      exact hleaf dep _)
            cases hs : splitFirstDot configImageName.data with
            | none =>
              refine Or.inr (Or.inr (Or.inl ⟨hguard, hundef, ?_, ?_⟩))
              · intro d rest h
                cases h
              · intro fuel
                rw [hstep, hs]
            | some p =>
              obtain ⟨d, rest⟩ := p
              cases hf : dependencies.find? (fun dep => dep.name == String.mk d) with
              | none =>
                refine Or.inr (Or.inr (Or.inl ⟨hguard, hundef, ?_, ?_⟩))
                · intro d2 rest2 h
                  simp only [Option.some.injEq, Prod.mk.injEq] at h
                  rw [← h.1]
                  exact hf
                · intro fuel
                  rw [hstep, hs]
                  simp only [hf]
              | some dep =>
                refine Or.inr (Or.inr (Or.inr ⟨hguard, hundef, d, rest, dep, rfl, hf, ?_⟩))
                intro fuel
                rw [hstep, hs]
                simp only [hf]


theorem afterDependency_ok_inv {configImageName : String} {dep : Dependency}
    {r : Except Err (List ImageSelector)} {l : List ImageSelector}
    (h : afterDependency configImageName dep r = .ok l) :
    ∃ l0, r = .ok l0 ∧ l.length = l0.length := by
  rcases r with e | l0
  · cases h
  · refine ⟨l0, rfl, ?_⟩
    rcases l0 with _ | ⟨s, _ | ⟨s2, l2⟩⟩ <;>
      · simp only [afterDependency, Except.ok.injEq] at h
        rw [← h]
        try rfl

theorem afterDependency_error_inv {configImageName : String} {dep : Dependency}
    {r : Except Err (List ImageSelector)} {e : Err}
    (h : afterDependency configImageName dep r = .error e) : r = .error e := by
  rcases r with e0 | l0
  · simp only [afterDependency, Except.error.injEq] at h
    rw [h]
  · rcases l0 with _ | ⟨s, _ | ⟨s2, l2⟩⟩ <;> cases h

theorem afterDependency_nil_iff (configImageName : String) (dep : Dependency)
    (r : Except Err (List ImageSelector)) :
    afterDependency configImageName dep r = .ok [] ↔ r = .ok [] := by
  constructor
  · intro h
    obtain ⟨l0, hr, hl⟩ := afterDependency_ok_inv h
    cases l0 with
    | nil => exact hr
    | cons a l => cases hl
  · intro h
    rw [h]
    rfl

theorem rest_shorter {configImageName : String} {dependency rest : List Char}
    (h : splitFirstDot configImageName.data = some (dependency, rest)) :
    (String.mk rest).length < configImageName.length :=
  splitFirstDot_length h

theorem ResolveAux_fuel_indep (f1 f2 : Nat) (configImageName : String) (config : Config)
    (dependencies : List Dependency) (h1 : configImageName.length < f1)
    (h2 : configImageName.length < f2) :
    ResolveAux f1 configImageName config dependencies
      = ResolveAux f2 configImageName config dependencies := by
  induction f1 generalizing f2 configImageName config dependencies with
  | zero => omega
  | succ k ih =>
    cases f2 with
    | zero => omega
    | succ j =>
      rcases ResolveAux_cases configImageName config dependencies with
        ⟨_, h⟩ | ⟨_, _, _, h⟩ | ⟨_, _, _, h⟩ | ⟨_, _, d, rest, dep, hs, _, h⟩
      · rw [h k, h j]
      · rw [h k, h j]
      · rw [h k, h j]
      · have hlt := rest_shorter hs
        rw [h k, h j, ih j (String.mk rest) dep.config dep.children (by omega) (by omega)]

theorem ResolveAux_eq_Resolve {fuel : Nat} {configImageName : String} (config : Config)
    (dependencies : List Dependency) (h : configImageName.length < fuel) :
    ResolveAux fuel configImageName config dependencies
      = Resolve configImageName config dependencies :=
  ResolveAux_fuel_indep _ _ _ _ _ h (Nat.lt_succ_self _)

theorem ResolveAux_length (fuel : Nat) (configImageName : String) (config : Config)
    (dependencies : List Dependency) (l : List ImageSelector)
    (h : ResolveAux fuel configImageName config dependencies = .ok l) : l.length ≤ 1 := by
  induction fuel generalizing configImageName config dependencies l with
  | zero => simp [ResolveAux] at h
  | succ k ih =>
    rcases ResolveAux_cases configImageName config dependencies with
      ⟨_, hc⟩ | ⟨_, _, image, hc⟩ | ⟨_, _, _, hc⟩ | ⟨_, _, d, rest, dep, _, _, hc⟩
    · rw [hc k] at h
      cases h
      simp
    · rw [hc k] at h
      cases h
      simp
    · rw [hc k] at h
      cases h
    · rw [hc k] at h
      obtain ⟨l0, hr, hl⟩ := afterDependency_ok_inv h
      rw [hl]
      exact ih _ _ _ _ hr

theorem couldnt_find_ne_fuelError (configImageName : String) :
    Err.msg ("couldn't find imageName " ++ configImageName) ≠ fuelError := by
  intro h
  simp only [fuelError, Err.msg.injEq] at h
  have := congrArg String.data h
  simp [String.data_append] at this

theorem ResolveAux_ne_fuelError (fuel : Nat) (configImageName : String) (config : Config)
    (dependencies : List Dependency) (hlt : configImageName.length < fuel) :
    ResolveAux fuel configImageName config dependencies ≠ .error fuelError := by
  induction fuel generalizing configImageName config dependencies with
  | zero => omega
  | succ k ih =>
    rcases ResolveAux_cases configImageName config dependencies with
      ⟨_, hc⟩ | ⟨_, _, image, hc⟩ | ⟨_, _, _, hc⟩ | ⟨_, _, d, rest, dep, hs, _, hc⟩
    · rw [hc k]
      intro h
      cases h
    · rw [hc k]
      intro h
      cases h
    · rw [hc k]
      intro h
      simp only [Except.error.injEq] at h
      exact couldnt_find_ne_fuelError _ h
    · rw [hc k]
      intro h
      have hlt2 := rest_shorter hs
      exact ih (String.mk rest) dep.config dep.children (by omega) (afterDependency_error_inv h)


/-- C27 (counterexample): the image name `base.app` is not empty and the
config, its parsed config and its generated config are not nil, and `Resolve`
returns the empty list: the name is no image of the config, the dependency
`base` exists, and its config is nil. -/
theorem resolve_empty_counterexample :
    ResolveGuard "base.app" demoEmptyConfig
      ∧ Resolve "base.app" demoEmptyConfig [demoNilDependency] = .ok [] :=
  ⟨⟨by decide, _, _, _, rfl, rfl, rfl⟩, by decide!⟩

/-- C27 (amended): image resolution is total and single-valued.  Each recursive
call of `Resolve` into a dependency is on a strictly shorter image name, so any
fuel above the length of the name gives the same result, which is never the
error of the fuel bound; the result is an error or a list of at most one
selector, so `ResolveSingle` never takes its branch for several selectors.
`Resolve` returns the empty list when the image name is empty or the config, its
parsed config or its generated config is nil, and otherwise exactly when the
name is no image of the config, its text before the first dot names a
dependency, and the resolution of the rest of the name in that dependency
returns the empty list. -/
theorem resolve_total_single (configImageName : String) (config : Config)
    (dependencies : List Dependency) :
    (∀ fuel, configImageName.length < fuel →
        ResolveAux fuel configImageName config dependencies
          = Resolve configImageName config dependencies)
      ∧ Resolve configImageName config dependencies ≠ .error fuelError
      ∧ (∀ dependency rest, splitFirstDot configImageName.data = some (dependency, rest) →
          (String.mk rest).length < configImageName.length)
      ∧ (∀ l, Resolve configImageName config dependencies = .ok l → l.length ≤ 1)
      ∧ (¬ ResolveGuard configImageName config →
          Resolve configImageName config dependencies = .ok [])
      ∧ (Resolve configImageName config dependencies = .ok [] ↔
          ¬ ResolveGuard configImageName config
            ∨ (¬ DefinedImage configImageName config
              ∧ ∃ dependency rest dep,
                  splitFirstDot configImageName.data = some (dependency, rest)
                  ∧ dependencies.find? (fun dep => dep.name == String.mk dependency) = some dep
                  ∧ Resolve (String.mk rest) dep.config dep.children = .ok []))
      ∧ (∀ e, ResolveSingle configImageName config dependencies = .error e →
          Resolve configImageName config dependencies = .error e
            ∨ (Resolve configImageName config dependencies = .ok []
              ∧ e = .msg ("imageName " ++ configImageName ++ " not found"))) := by
  have hlen : ∀ l, Resolve configImageName config dependencies = .ok l → l.length ≤ 1 :=
    fun l h => ResolveAux_length _ _ _ _ l h
  refine ⟨fun fuel h => ResolveAux_eq_Resolve config dependencies h,
    ResolveAux_ne_fuelError _ _ _ _ (Nat.lt_succ_self _), fun d rest h => rest_shorter h, hlen,
    ?_, ?_, ?_⟩
  · intro hg
    rcases ResolveAux_cases configImageName config dependencies with
      ⟨_, hc⟩ | ⟨h, _⟩ | ⟨h, _⟩ | ⟨h, _⟩
    · exact hc _
    · exact absurd h hg
    · exact absurd h hg
    · exact absurd h hg
  · rcases ResolveAux_cases configImageName config dependencies with
      ⟨hg, hc⟩ | ⟨hg, hdef, image, hc⟩ | ⟨hg, hdef, hnone, hc⟩
        | ⟨hg, hdef, d, rest, dep, hs, hf, hc⟩
    · exact ⟨fun _ => Or.inl hg, fun _ => hc _⟩
    · constructor
      · intro h
        have h2 : ResolveAux (configImageName.length + 1) configImageName config dependencies
            = .ok [] := h
        rw [hc] at h2
        cases h2
      · rintro (h | ⟨h, _⟩)
        · exact absurd hg h
        · exact absurd hdef h
    · constructor
      · intro h
        have h2 : ResolveAux (configImageName.length + 1) configImageName config dependencies
            = .ok [] := h
        rw [hc] at h2
        cases h2
      · rintro (h | ⟨_, d, rest, dep, hs, hf, _⟩)
        · exact absurd hg h
        · rw [hnone d rest hs] at hf
          cases hf
    · have hrec : ResolveAux configImageName.length (String.mk rest) dep.config dep.children
          = Resolve (String.mk rest) dep.config dep.children :=
        ResolveAux_eq_Resolve _ _ (rest_shorter hs)
      have hres : Resolve configImageName config dependencies
          = afterDependency configImageName dep
              (Resolve (String.mk rest) dep.config dep.children) := by
        rw [← hrec]
        exact hc _
      rw [hres, afterDependency_nil_iff]
      constructor
      · intro h
        exact Or.inr ⟨hdef, d, rest, dep, hs, hf, h⟩
      · rintro (h | ⟨_, d2, rest2, dep2, hs2, hf2, h⟩)
        · exact absurd hg h
        · rw [hs] at hs2
          simp only [Option.some.injEq, Prod.mk.injEq] at hs2
          obtain ⟨hd, hr⟩ := hs2
          subst hd hr
          rw [hf] at hf2
          simp only [Option.some.injEq] at hf2
          subst hf2
          exact h
  · intro e h
    unfold ResolveSingle at h
    cases hr : Resolve configImageName config dependencies with
    | error e2 =>
      rw [hr] at h
      simp only [Except.error.injEq] at h
      rw [h]
      exact Or.inl rfl
    | ok l =>
      have hl := hlen l hr
      rw [hr] at h
      rcases l with _ | ⟨s, _ | ⟨s2, l2⟩⟩
      · simp only [Except.error.injEq] at h
        exact Or.inr ⟨rfl, h.symm⟩
      · cases h
      · simp at hl

theorem resolve_total_single_witness :
    Resolve "lib.app" demoEmptyConfig [demoLibDependency]
        = .ok [{ ConfigImageName := "lib.app", Image := "nginx", Dependency := some "lib" }]
      ∧ ResolveAux 100 "lib.app" demoEmptyConfig [demoLibDependency]
          = Resolve "lib.app" demoEmptyConfig [demoLibDependency]
      ∧ [({ ConfigImageName := "lib.app", Image := "nginx", Dependency := some "lib" } :
            ImageSelector)].length ≤ 1
      ∧ Resolve "" demoImageConfig [] = .ok [] :=
  ⟨by decide!,
    (resolve_total_single "lib.app" demoEmptyConfig [demoLibDependency]).1 100 (by decide),
    (resolve_total_single "lib.app" demoEmptyConfig [demoLibDependency]).2.2.2.1 _ (by decide!),
    (resolve_total_single "" demoImageConfig []).2.2.2.2.1 (fun h => h.1 rfl)⟩

/-! ## C26: comparing image names -/

/-- C26 (failing input): the selector image `nginx:latest` and the untagged
container image `redis` have the tag-stripped names `nginx` and `redis`, and
`CompareImageNames` returns true for them. -/
theorem compareImageNames_latest_failing_input :
    GetStrippedDockerImageName demoEnv "nginx:latest" = some "nginx"
      ∧ GetStrippedDockerImageName demoEnv "redis" = some "redis"
      ∧ CompareImageNames demoEnv { ConfigImageName := "web", Image := "nginx:latest" } "redis"
          = true := by
  decide!

/-! ## C28: completing a config -/

theorem ensure_filled (newRaw : ParsedConfig) (newGenerated : GeneratedConfig) (config : Config) :
    (Ensure newRaw newGenerated config).Raw ≠ none
      ∧ (Ensure newRaw newGenerated config).Config ≠ none
      ∧ (Ensure newRaw newGenerated config).Generated ≠ none
      ∧ (Ensure newRaw newGenerated config).Variables ≠ none := by
  rcases config with _ | ⟨⟨_ | r, _ | p, _ | g, _ | v⟩⟩ <;>
    simp [Ensure, NewConfig, ConfigData.Raw, ConfigData.Config, ConfigData.Generated,
      ConfigData.Variables]

theorem ensure_keeps (newRaw : ParsedConfig) (newGenerated : GeneratedConfig) (c : ConfigData) :
    (c.Raw ≠ none → (Ensure newRaw newGenerated (some c)).Raw = c.Raw)
      ∧ (c.Config ≠ none → (Ensure newRaw newGenerated (some c)).Config = c.Config)
      ∧ (c.Generated ≠ none → (Ensure newRaw newGenerated (some c)).Generated = c.Generated)
      ∧ (c.Variables ≠ none → (Ensure newRaw newGenerated (some c)).Variables = c.Variables) := by
  rcases c with ⟨_ | r, _ | p, _ | g, _ | v⟩ <;>
    simp [Ensure, NewConfig, ConfigData.Raw, ConfigData.Config, ConfigData.Generated,
      ConfigData.Variables]

theorem ensure_of_filled (newRaw : ParsedConfig) (newGenerated : GeneratedConfig)
    (c : ConfigData) (h1 : c.Raw ≠ none) (h2 : c.Config ≠ none) (h3 : c.Generated ≠ none)
    (h4 : c.Variables ≠ none) : Ensure newRaw newGenerated (some c) = c := by
  rcases c with ⟨_ | r, _ | p, _ | g, _ | v⟩ <;>
    simp_all [Ensure, NewConfig, ConfigData.Raw, ConfigData.Config, ConfigData.Generated,
      ConfigData.Variables]

/-- C28: `Ensure` completes a config without altering it.  For every config,
nil included, the config returned has a raw config, a parsed config, a
generated config and variables that are all not nil; the components that were
not nil in the argument are returned as they were, and the missing ones are the
empty map, the value of `latest.NewRaw()`, the value of `generated.New()` and
the empty map; applying `Ensure` to its own result gives that result again. -/
theorem ensure_completes (newRaw : ParsedConfig) (newGenerated : GeneratedConfig)
    (config : Config) :
    ((Ensure newRaw newGenerated config).Raw ≠ none
        ∧ (Ensure newRaw newGenerated config).Config ≠ none
        ∧ (Ensure newRaw newGenerated config).Generated ≠ none
        ∧ (Ensure newRaw newGenerated config).Variables ≠ none)
      ∧ (∀ c, config = some c →
          (c.Raw ≠ none → (Ensure newRaw newGenerated config).Raw = c.Raw)
            ∧ (c.Config ≠ none → (Ensure newRaw newGenerated config).Config = c.Config)
            ∧ (c.Generated ≠ none → (Ensure newRaw newGenerated config).Generated = c.Generated)
            ∧ (c.Variables ≠ none → (Ensure newRaw newGenerated config).Variables = c.Variables))
      ∧ Ensure newRaw newGenerated none
          = NewConfig (some []) (some newRaw) (some newGenerated) (some [])
      ∧ Ensure newRaw newGenerated (some (Ensure newRaw newGenerated config))
          = Ensure newRaw newGenerated config := by
  have hf := ensure_filled newRaw newGenerated config
  refine ⟨hf, ?_, rfl, ensure_of_filled _ _ _ hf.1 hf.2.1 hf.2.2.1 hf.2.2.2⟩
  intro c hc
  subst hc
  exact ensure_keeps newRaw newGenerated c

theorem ensure_completes_witness :
    Ensure {} {} (some demoPartialConfig)
        = { rawConfig := some [], parsedConfig := demoPartialConfig.parsedConfig,
            generatedConfig := some {}, resolvedVariables := demoPartialConfig.resolvedVariables }
      ∧ ((demoPartialConfig.Raw ≠ none → (Ensure {} {} (some demoPartialConfig)).Raw
            = demoPartialConfig.Raw)
        ∧ (demoPartialConfig.Config ≠ none → (Ensure {} {} (some demoPartialConfig)).Config
            = demoPartialConfig.Config)
        ∧ (demoPartialConfig.Generated ≠ none →
            (Ensure {} {} (some demoPartialConfig)).Generated = demoPartialConfig.Generated)
        ∧ (demoPartialConfig.Variables ≠ none →
            (Ensure {} {} (some demoPartialConfig)).Variables = demoPartialConfig.Variables)) :=
  ⟨by decide!, (ensure_completes {} {} (some demoPartialConfig)).2.1 demoPartialConfig rfl⟩

/-! ## The second call of `ReplacePod` -/

theorem trace_extends_replace (env : Env) (pod : SelectedPodContainer) (parent : Controller)
    (config : Config) (dependencies : List Dependency) (replacePod : ReplacePodSpec) (w : World) :
    Emits (fun _ => True) w (replace env pod parent config dependencies replacePod w).2 :=
  pres_replace (allows_emits env (fun _ => True) (fun _ _ => trivial)) pod parent config
    dependencies replacePod (fun _ _ _ => trivial) (fun _ _ => trivial) w

theorem isReplaced_of_candidate {ls : StrMap} {ns cn : String} {p : Pod}
    (hls : mapLookup ls ReplacedLabel = some "true") (h : isCandidate ls ns cn p = true) :
    isReplaced p = true := by
  unfold isCandidate at h
  simp only [Bool.and_eq_true] at h
  exact isReplaced_of_hasLabels hls h.1.2

theorem candidates_eq_filter_replaced {ls : StrMap} {ns cn : String}
    (hls : mapLookup ls ReplacedLabel = some "true") (c : Cluster) :
    candidates ls ns cn c = (replacedPods c).filter (isCandidate ls ns cn) := by
  unfold candidates replacedPods
  rw [List.filter_filter]
  apply List.filter_congr
  intro p _
  cases hm : isCandidate ls ns cn p
  · simp
  · simp [isReplaced_of_candidate hls hm]

theorem isCandidate_markTerminating (ls : StrMap) (ns cn : String) (ns2 name : String)
    (p : Pod) :
    (isCandidate ls ns cn (markTerminating ns2 name p) = true → isCandidate ls ns cn p = true)
      ∧ (markTerminating ns2 name p).metadata.ns = p.metadata.ns
      ∧ (markTerminating ns2 name p).metadata.name = p.metadata.name := by
  unfold markTerminating
  split
  · refine ⟨?_, rfl, rfl⟩
    intro h
    simp [isCandidate] at h
  · exact ⟨fun h => h, rfl, rfl⟩

theorem noNewCandidate_of_pods_eq {ls : StrMap} {ns cn : String} {w w2 : World}
    (h : w2.cluster.pods = w.cluster.pods) : NoNewCandidate ls ns cn w w2 := by
  unfold NoNewCandidate candidates
  rw [h]
  exact ⟨fun p hp => ⟨p, hp, rfl, rfl⟩, le_refl _⟩

theorem noNewCandidate_of_sublist {ls : StrMap} {ns cn : String} {w w2 : World}
    (h : List.Sublist (candidates ls ns cn w2.cluster) (candidates ls ns cn w.cluster)) :
    NoNewCandidate ls ns cn w w2 :=
  ⟨fun p hp => ⟨p, h.subset hp, rfl, rfl⟩, h.length_le⟩

theorem noNewCandidate_map_mark (ls : StrMap) (ns cn : String) (ns2 name : String)
    (l : List Pod) :
    (∀ p ∈ (l.map (markTerminating ns2 name)).filter (isCandidate ls ns cn),
        ∃ q ∈ l.filter (isCandidate ls ns cn),
          q.metadata.ns = p.metadata.ns ∧ q.metadata.name = p.metadata.name)
      ∧ ((l.map (markTerminating ns2 name)).filter (isCandidate ls ns cn)).length
          ≤ (l.filter (isCandidate ls ns cn)).length := by
  constructor
  · intro p hp
    obtain ⟨hpm, hpc⟩ := List.mem_filter.mp hp
    obtain ⟨q, hq, rfl⟩ := List.mem_map.mp hpm
    obtain ⟨e1, e2, e3⟩ := isCandidate_markTerminating ls ns cn ns2 name q
    exact ⟨q, List.mem_filter.mpr ⟨hq, e1 hpc⟩, e2.symm, e3.symm⟩
  · induction l with
    | nil => simp
    | cons q l ih =>
      simp only [List.map_cons, List.filter_cons]
      by_cases hm : isCandidate ls ns cn (markTerminating ns2 name q) = true
      · have hq := (isCandidate_markTerminating ls ns cn ns2 name q).1 hm
        simp only [hm, hq, ↓reduceIte, List.length_cons]
        omega
      · simp only [hm, Bool.false_eq_true, ↓reduceIte]
        split
        · simp only [List.length_cons]
          omega
        · exact ih

theorem allows_noNewCandidate {env : Env} (hE : EnvFrame env) {ls : StrMap} (ns cn : String)
    (hls : mapLookup ls ReplacedLabel = some "true") :
    Allows env (NoNewCandidate ls ns cn) (fun _ _ => True) (fun _ => False)
      (fun _ _ => True) where
  pre :=
    { refl := fun w => ⟨fun p hp => ⟨p, hp, rfl, rfl⟩, le_refl _⟩
      trans := by
        rintro a b c ⟨h1, l1⟩ ⟨h2, l2⟩
        refine ⟨?_, le_trans l2 l1⟩
        intro p hp
        obtain ⟨q, hq, e1, e2⟩ := h2 p hp
        obtain ⟨r, hr, e3, e4⟩ := h1 q hq
        exact ⟨r, hr, e3.trans e1, e4.trans e2⟩ }
  tick := by
    intro w
    apply noNewCandidate_of_sublist
    show List.Sublist (candidates ls ns cn (env.react w.cluster)) (candidates ls ns cn w.cluster)
    rw [candidates_eq_filter_replaced hls, candidates_eq_filter_replaced hls]
    exact (hE.replaced_sub w.cluster).filter _
  read := by
    intro c _ w
    apply noNewCandidate_of_pods_eq
    unfold request
    cases w.faulty <;> rfl
  deletePod := by
    intro ns2 name _ w
    rw [deletePod_apply]
    cases w.faulty
    · simp only [Bool.false_eq_true, ↓reduceIte]
      cases findPod w.cluster ns2 name with
      | none => exact noNewCandidate_of_pods_eq rfl
      | some _ => exact noNewCandidate_map_mark ls ns cn ns2 name w.cluster.pods
    · exact noNewCandidate_of_pods_eq rfl
  createPod := fun _ h => h.elim
  patch := by
    intro o t _ w
    apply noNewCandidate_of_pods_eq
    rw [patchController_apply]
    cases w.faulty
    · simp only [Bool.false_eq_true, ↓reduceIte]
      cases findController w.cluster t.kind t.metadata.ns t.metadata.name <;> rfl
    · rfl

theorem selectLoop_notFound_live {env : Env} (hE : EnvFrame env) (hL : PickLive env)
    {options : TargetOptions} (himg : options.imageSelector = [])
    (hls : mapLookup options.labelSelector ReplacedLabel = some "true") {n : Nat}
    {w w1 : World} (h : selectLoop env options n w = (.error .selectNotFound, w1)) :
    n = 0 ∨ candidates options.labelSelector options.ns options.containerName w1.cluster = [] := by
  induction n generalizing w with
  | zero => exact Or.inl rfl
  | succ k ih =>
    right
    unfold selectLoop at h
    rw [bind_apply] at h
    unfold request at h
    cases hf : w.faulty
    · rw [hf] at h
      simp only [Bool.false_eq_true, ↓reduceIte, bind_apply, getCluster] at h
      have hc : (w.next (.listPods options)).cluster = w.cluster := rfl
      rw [hc] at h
      rcases hp : env.pick w.cluster options with e | (_ | s)
      · rw [hp] at h
        simp only [fail, Prod.mk.injEq, Except.error.injEq] at h
        rw [← h.2, hc]
        apply hL.none_found _ _ himg
        right
        rw [hp, h.1]
      · rw [hp] at h
        simp only [bind_apply, tick] at h
        have h0 := hL.none_found w.cluster options himg (Or.inl hp)
        have hsub : candidates options.labelSelector options.ns options.containerName
            (env.react w.cluster) = [] := by
          have := (hE.replaced_sub w.cluster).filter
            (isCandidate options.labelSelector options.ns options.containerName)
          rw [← candidates_eq_filter_replaced hls, ← candidates_eq_filter_replaced hls,
            h0] at this
          exact sublist_nil_eq this
        rcases ih h with hk | hk
        · subst hk
          simp only [selectLoop, fail, Prod.mk.injEq, true_and] at h
          rw [← h]
          exact hsub
        · exact hk
      · rw [hp] at h
        simp [pure_apply] at h
    · rw [hf] at h
      simp at h

theorem findSingleReplacedPod_none_live {env : Env} (hE : EnvFrame env) (hL : PickLive env)
    {replacePod : ReplacePodSpec} {timeout : Nat} {w wl : World}
    (hcrit : ∀ ls, replacedLabelSelector replacePod = some ls →
      mapLookup ls ReplacedLabel = some "true")
    (h : findSingleReplacedPod env replacePod timeout w = (.ok none, wl)) :
    ∃ ls, replacedLabelSelector replacePod = some ls
      ∧ candidates ls replacePod.Namespace replacePod.ContainerName wl.cluster = [] := by
  unfold findSingleReplacedPod at h
  cases hls : replacedLabelSelector replacePod with
  | none => rw [hls] at h; simp [fail] at h
  | some ls =>
    rw [hls] at h
    refine ⟨ls, rfl, ?_⟩
    simp only at h
    rw [bind_apply, attempt_apply] at h
    simp only at h
    rcases hs : SelectSingleContainer env
        { labelSelector := ls, ns := replacePod.Namespace,
          containerName := replacePod.ContainerName, timeout := timeout,
          allowPick := false, skipInitContainers := true } w with ⟨r, w2⟩
    rw [hs] at h
    cases r with
    | error e =>
      simp only at h
      split at h
      · rename_i he
        simp only [pure_apply, Prod.mk.injEq, true_and] at h
        rw [he] at hs
        rw [← h]
        rcases selectLoop_notFound_live hE hL rfl (hcrit ls hls) hs with h0 | h0
        · simp at h0
        · exact h0
      · simp [fail] at h
    | ok s => simp [pure_apply] at h

theorem replace_adds_candidate {env : Env} (hE : EnvFrame env) {ls : StrMap} (ns cn : String)
    (hls : mapLookup ls ReplacedLabel = some "true") (pod : SelectedPodContainer)
    (parent : Controller) (config : Config) (dependencies : List Dependency)
    (replacePod : ReplacePodSpec) (w : World) :
    (candidates ls ns cn
        (replace env pod parent config dependencies replacePod w).2.cluster).length
      ≤ (candidates ls ns cn w.cluster).length + 1 := by
  have A := allows_noNewCandidate hE ns cn hls
  have hsd : ∀ w0, NoNewCandidate ls ns cn w0
      (wrapErr "scale down parent" (scaleDownParent parent) w0).2 :=
    pres_wrapErr _ (pres_scaleDownParent A parent (fun _ _ _ => trivial))
  have hwait : ∀ body w0, NoNewCandidate ls ns cn w0
      (wrapErr "wait for original pod to terminate"
        (poll env (originalGoneCondition pod body) 60) w0).2 := fun body =>
    pres_wrapErr _ (pres_poll A.pre env A.tick (pres_originalGoneCondition A pod body) 60)
  rcases replace_cases env pod parent config dependencies replacePod w with
    ⟨e, _, hr⟩ | ⟨body, _, h⟩
  · rw [hr]
    exact Nat.le_succ _
  · rcases h with ⟨e, wa, h1, hr⟩ | ⟨wa, h1, h⟩
    · rw [hr]
      have := hsd w
      rw [h1] at this
      exact le_trans this.2 (Nat.le_succ _)
    · have e1 := hsd w
      rw [h1] at e1
      rcases h with ⟨e, wb, h2, hr⟩ | ⟨wb, h2, hr⟩
      · rw [hr]
        have e2 := hwait body wa
        rw [h2] at e2
        exact le_trans (le_trans e2.2 e1.2) (Nat.le_succ _)
      · rw [hr]
        have e2 := hwait body wa
        rw [h2] at e2
        have hb : (candidates ls ns cn wb.cluster).length
            ≤ (candidates ls ns cn w.cluster).length := le_trans e2.2 e1.2
        have hc : (candidates ls ns cn
            (wrapErr "create copied pod" (createPod body) wb).2.cluster).length
            ≤ (candidates ls ns cn wb.cluster).length + 1 := by
          unfold wrapErr
          rw [createPod_apply]
          cases wb.faulty
          · simp only [Bool.false_eq_true, ↓reduceIte]
            cases findPod wb.cluster body.metadata.ns body.metadata.name with
            | some _ => exact Nat.le_succ _
            | none =>
              show (List.filter (isCandidate ls ns cn) (wb.cluster.pods ++ [body])).length
                ≤ (List.filter (isCandidate ls ns cn) wb.cluster.pods).length + 1
              rw [List.filter_append, List.length_append]
              exact Nat.add_le_add_left (List.length_filter_le _ [body]) _
          · exact Nat.le_succ _
        omega

theorem select_replace_adds_candidate {env : Env} (hE : EnvFrame env) {ls : StrMap}
    (ns cn : String) (hls : mapLookup ls ReplacedLabel = some "true") (config : Config)
    (dependencies : List Dependency) (replacePod : ReplacePodSpec) (w : World) :
    (candidates ls ns cn
        ((findSingleReplaceablePodParent env config dependencies replacePod >>= fun cp =>
          replace env cp.1 cp.2 config dependencies replacePod) w).2.cluster).length
      ≤ (candidates ls ns cn w.cluster).length + 1 := by
  have A := allows_noNewCandidate hE ns cn hls
  have hs := pres_findSingleReplaceablePodParent A config dependencies replacePod w
  rw [bind_apply]
  rcases hsel : findSingleReplaceablePodParent env config dependencies replacePod w
    with ⟨r, ws⟩
  rw [hsel] at hs
  cases r with
  | error e => exact le_trans hs.2 (Nat.le_succ _)
  | ok cp =>
    have := replace_adds_candidate hE ns cn hls cp.1 cp.2 config dependencies replacePod ws
    exact le_trans this (Nat.add_le_add_right hs.2 1)

theorem replacePod_keeps_candidate {env : Env} (hE : EnvFrame env) (hL : PickLive env)
    {ls : StrMap} {ns cn : String} (hls : mapLookup ls ReplacedLabel = some "true")
    (config : Config) (dependencies : List Dependency) (replacePod : ReplacePodSpec)
    (hspec : replacedLabelSelector replacePod = some ls ∧ replacePod.Namespace = ns
      ∧ replacePod.ContainerName = cn)
    (w : World) (h : (candidates ls ns cn w.cluster).length ≤ 1) :
    (candidates ls ns cn (ReplacePod env config dependencies replacePod w).2.cluster).length
      ≤ 1 := by
  have A := allows_noNewCandidate hE ns cn hls
  have hcrit : ∀ l, replacedLabelSelector replacePod = some l →
      mapLookup l ReplacedLabel = some "true" := by
    intro l hl
    rw [hspec.1] at hl
    cases hl
    exact hls
  have hgo : ∀ wu : World, candidates ls ns cn wu.cluster = [] →
      (candidates ls ns cn
        ((findSingleReplaceablePodParent env config dependencies replacePod >>= fun cp =>
          replace env cp.1 cp.2 config dependencies replacePod) wu).2.cluster).length ≤ 1 := by
    intro wu h0
    have := select_replace_adds_candidate hE ns cn hls config dependencies replacePod wu
    rw [h0] at this
    simpa using this
  unfold ReplacePod
  rw [bind_apply]
  have hf := pres_wrapErr "find patched pod" (pres_findSingleReplacedPod A replacePod 2) w
  rcases hfind : wrapErr "find patched pod" (findSingleReplacedPod env replacePod 2) w
    with ⟨r, wl⟩
  rw [hfind] at hf
  have hl1 : (candidates ls ns cn wl.cluster).length ≤ 1 := le_trans hf.2 h
  cases r with
  | error e => exact hl1
  | ok found =>
    simp only
    rw [bind_apply]
    cases found with
    | none =>
      simp only [pure_apply, Bool.true_eq_false, ↓reduceIte]
      obtain ⟨l, hl, h0⟩ := findSingleReplacedPod_none_live hE hL hcrit (wrapErr_ok_inv hfind)
      rw [hspec.1] at hl
      cases hl
      rw [hspec.2.1, hspec.2.2] at h0
      exact hgo wl h0
    | some sel =>
      simp only
      have hu := pres_updateNeeded A sel config dependencies replacePod trivial
        (fun _ _ _ => trivial) wl
      rcases hupd : updateNeeded env sel config dependencies replacePod wl with ⟨r3, wu⟩
      rw [hupd] at hu
      cases r3 with
      | error e => exact le_trans hu.2 hl1
      | ok b =>
        cases b with
        | false => exact le_trans hu.2 hl1
        | true =>
          simp only [Bool.true_eq_false, ↓reduceIte]
          apply hgo
          obtain ⟨l, hl, hpick⟩ := findSingleReplacedPod_some_inv (wrapErr_ok_inv hfind)
          rw [hspec.1] at hl
          cases hl
          obtain ⟨hmem, _⟩ := hE.pick_sound _ _ _ hpick
          have hcand := hL.candidate _ _ _ hpick
          simp only at hcand
          rw [hspec.2.1, hspec.2.2] at hcand
          have hselm : sel.pod ∈ candidates ls ns cn wl.cluster :=
            List.mem_filter.mpr ⟨hmem, hcand⟩
          have hgone := updateNeeded_true_inv hupd
          apply List.eq_nil_iff_forall_not_mem.mpr
          intro p hp
          obtain ⟨q, hq, e1, e2⟩ := hu.1 p hp
          have hqs : q = sel.pod := eq_of_mem_of_length_le_one hl1 hselm hq
          rw [hqs] at e1 e2
          exact not_mem_of_findPod_none hgone p (List.mem_filter.mp hp).1 ⟨e1.symm, e2.symm⟩

theorem demoReactLinger_replaced (c : Cluster) :
    replacedPods (demoReactLinger c) = replacedPods c := by
  unfold replacedPods demoReactLinger
  simp only [List.filter_append]
  have h2 : ∀ l : List Pod, List.filter isReplaced (l.filter (fun p => !isReplaced p)) = [] := by
    intro l
    rw [List.filter_eq_nil_iff]
    intro p hp
    have := (List.mem_filter.mp hp).2
    simpa using this
  rw [h2, List.append_nil]
  have hg : ∀ p, isReplaced (demoMark c p) = isReplaced p := by
    intro p
    unfold demoMark
    split <;> rfl
  have hg2 : ∀ p, isReplaced p = true → demoMark c p = p := by
    intro p hp
    unfold demoMark
    simp [hp]
  generalize c.pods = l
  induction l with
  | nil => rfl
  | cons p l ih =>
    by_cases hr : isReplaced p = true
    · simp only [List.filter_cons, hr, Bool.or_true, ↓reduceIte, List.map_cons, hg, hg2 p hr, ih]
    · simp only [List.filter_cons, hr, Bool.or_false, Bool.false_eq_true, ↓reduceIte]
      split
      · simp only [List.map_cons, List.filter_cons, hg, hr, Bool.false_eq_true, ↓reduceIte]
        exact ih
      · exact ih

theorem demoPickLive_candidate (c : Cluster) (options : TargetOptions)
    (sel : SelectedPodContainer) (h : demoPickLive c options = .ok (some sel)) :
    sel.pod ∈ candidates options.labelSelector options.ns options.containerName c := by
  unfold demoPickLive at h
  split at h
  · simp at h
  · rename_i p rest hcand
    have hp : p ∈ candidates options.labelSelector options.ns options.containerName c := by
      rw [hcand]
      exact List.mem_cons_self _ _
    split at h
    · simp only [Except.ok.injEq, Option.some.injEq] at h
      rw [← h]
      exact hp
    · simp at h

theorem demoEnvLinger_frame : EnvFrame demoEnvLinger where
  controllers := fun _ => rfl
  replaced_sub := by
    intro c
    show List.Sublist (replacedPods (demoReactLinger c)) (replacedPods c)
    rw [demoReactLinger_replaced]
  replaced_live := by
    intro c p hp hr hl
    show p ∈ (demoReactLinger c).pods
    unfold demoReactLinger
    simp only
    apply List.mem_append_left
    refine List.mem_map.mpr ⟨p, List.mem_filter.mpr ⟨hp, by simp [hl]⟩, ?_⟩
    simp [demoMark, hr]
  pick_sound := by
    intro c options sel h
    have hc := demoPickLive_candidate c options sel h
    obtain ⟨hmem, hcond⟩ := List.mem_filter.mp hc
    simp only [isCandidate, Bool.and_eq_true] at hcond
    exact ⟨hmem, hcond.1.2⟩
  patches_ns := demoEnv_frame.patches_ns

theorem demoEnvLinger_live : PickLive demoEnvLinger where
  none_found := by
    intro c options _ h
    change demoPickLive c options = .ok none ∨ demoPickLive c options = .error .selectNotFound
      at h
    unfold demoPickLive at h
    split at h
    · assumption
    · rename_i p rest hcand
      have hp : p ∈ candidates options.labelSelector options.ns options.containerName c := by
        rw [hcand]
        exact List.mem_cons_self _ _
      have hany := (List.mem_filter.mp hp).2
      simp only [isCandidate, Bool.and_eq_true, List.any_eq_true] at hany
      obtain ⟨k, hk, hkn⟩ := hany.2
      split at h
      · simp at h
      · rename_i hnone
        have := List.find?_eq_none.mp hnone k hk
        exact absurd hkn this
  candidate := by
    intro c options sel h
    exact (List.mem_filter.mp (demoPickLive_candidate c options sel h)).2

theorem demoOpsRetry_lookup : ∀ op ∈ demoOpsRetry, op.usesLookup demoCriteria "dev" "" := by
  intro op hop
  simp only [demoOpsRetry, List.mem_cons, List.mem_singleton, List.not_mem_nil, or_false] at hop
  rcases hop with rfl | rfl | rfl
  · exact ⟨by decide!, rfl, rfl⟩
  · exact ⟨by decide!, rfl, rfl⟩
  · exact ⟨by decide!, rfl, rfl⟩

/-- C5 (counterexample): two StatefulSets, `db` and `cache`, have pods with the
label `app=db`, and there is no replacement pod; the cluster lets a terminating
replacement pod linger, and the selector waits until a pod is not terminating.
A `ReplacePod` replaces the pod of `db`; the `RevertReplacePod` deletes the
replacement and times out waiting for it to go away; the next `ReplacePod` does
not see the terminating replacement and replaces the pod of `cache`.  The
cluster then has two pods that carry the replaced label and the label of the
criteria, of which one is not terminating. -/
theorem two_replacements_counterexample :
    replacedPods demoTwoSetsWorld.cluster = []
      ∧ (∀ op ∈ demoOpsRetry, op.usesLookup demoCriteria "dev" "")
      ∧ (ReplacePod demoEnvLinger none [] demoSpec demoTwoSetsWorld).1 = .ok ()
      ∧ (RevertReplacePod demoEnvLinger demoSpec
          (runOps demoEnvLinger [.replacePod none [] demoSpec] demoTwoSetsWorld)).1
          = .error (.wrap "delete replaced pod" .timeout)
      ∧ (ReplacePod demoEnvLinger none [] demoSpec
          (runOps demoEnvLinger [.replacePod none [] demoSpec, .revertReplacePod demoSpec]
            demoTwoSetsWorld)).1 = .ok ()
      ∧ (matchingPods demoCriteria "dev"
            (runOps demoEnvLinger demoOpsRetry demoTwoSetsWorld).cluster).map
          (fun p => (p.metadata.name, p.metadata.deletionTimestamp))
          = [("db-0-devspace", some "now"), ("cache-0-devspace", none)]
      ∧ (candidates demoCriteria "dev" ""
            (runOps demoEnvLinger demoOpsRetry demoTwoSetsWorld).cluster).map
          (fun p => p.metadata.name) = ["cache-0-devspace"] := by
  exact ⟨by decide!, demoOpsRetry_lookup, by decide!, by decide!, by decide!, by decide!,
    by decide!⟩

/-- C5 (amended): take a criteria of the lookup (its label selector, which asks
for the replaced label, a namespace and a container name), an environment that
leaves replacement pods alone and whose selector waits until a pod is not
terminating, and any sequence of `ReplacePod` and `RevertReplacePod` calls that
use the criteria, with any fault schedule.  Starting from a world without
replacement pods, the resulting cluster has at most one pod that the lookup can
return: a pod of the namespace that is not terminating, carries the labels of
the criteria and has the container asked for.  A replacement is only created
after the lookup found none, or after the one it found was deleted. -/
theorem at_most_one_replacement (env : Env) (ops : List Op) (w : World) (ls : StrMap)
    (ns cn : String) (hE : EnvFrame env) (hL : PickLive env)
    (hls : mapLookup ls ReplacedLabel = some "true")
    (hops : ∀ op ∈ ops, op.usesLookup ls ns cn)
    (h0 : replacedPods w.cluster = []) :
    (candidates ls ns cn (runOps env ops w).cluster).length ≤ 1 := by
  have hstart : (candidates ls ns cn w.cluster).length ≤ 1 := by
    rw [candidates_eq_filter_replaced hls, h0]
    simp
  clear h0
  induction ops generalizing w with
  | nil => exact hstart
  | cons op ops ih =>
    rw [runOps_cons]
    apply ih (runOp env op w) (fun o ho => hops o (List.mem_cons_of_mem _ ho))
    have hop := hops op (List.mem_cons_self _ _)
    cases op with
    | replacePod config dependencies replacePod =>
      exact replacePod_keeps_candidate hE hL hls config dependencies replacePod hop w hstart
    | revertReplacePod replacePod =>
      have := pres_RevertReplacePod (allows_noNewCandidate hE ns cn hls) replacePod
        (fun _ _ => trivial) (fun _ _ _ => trivial) w
      exact le_trans this.2 hstart

theorem at_most_one_replacement_witness :
    (mapLookup demoCriteria ReplacedLabel = some "true"
        ∧ replacedPods demoTwoSetsWorld.cluster = [])
      ∧ (candidates demoCriteria "dev" ""
          (runOps demoEnvLinger demoOpsRetry demoTwoSetsWorld).cluster).length ≤ 1 :=
  ⟨⟨by decide, by decide!⟩,
    at_most_one_replacement demoEnvLinger demoOpsRetry demoTwoSetsWorld demoCriteria "dev" ""
      demoEnvLinger_frame demoEnvLinger_live (by decide) demoOpsRetry_lookup (by decide!)⟩

/-! ## C6: the replicas annotation -/

theorem replayControllers_append (t1 t2 : List Call) (faults : List Bool)
    (cs : List Controller) :
    replayControllers faults (t1 ++ t2) cs
      = replayControllers (faults.drop t1.length) t2 (replayControllers faults t1 cs) := by
  induction t1 generalizing faults cs with
  | nil => rfl
  | cons c t ih =>
    show replayControllers faults.tail (t ++ t2) (stepControllers (nextFails faults) c cs) = _
    rw [ih]
    have e : List.drop (c :: t).length faults = List.drop t.length faults.tail := by
      cases faults <;> simp
    rw [e]
    rfl

theorem faithful_append (t1 t2 : List Call) (faults : List Bool) (cs : List Controller)
    (h1 : Faithful faults t1 cs)
    (h2 : Faithful (faults.drop t1.length) t2 (replayControllers faults t1 cs)) :
    Faithful faults (t1 ++ t2) cs := by
  induction t1 generalizing faults cs with
  | nil => exact h2
  | cons c t ih =>
    simp only [List.cons_append, Faithful] at h1 ⊢
    refine ⟨h1.1, ih _ _ h1.2 ?_⟩
    have e : List.drop (c :: t).length faults = List.drop t.length faults.tail := by
      cases faults <;> simp
    rw [e] at h2
    exact h2

theorem replayQuiesced_append (kind : Kind) (ns name : String) (t1 t2 : List Call)
    (faults : List Bool) (cs : List Controller) (g : Option Int) :
    replayQuiesced kind ns name faults (t1 ++ t2) cs g
      = replayQuiesced kind ns name (faults.drop t1.length) t2 (replayControllers faults t1 cs)
          (replayQuiesced kind ns name faults t1 cs g) := by
  induction t1 generalizing faults cs g with
  | nil => rfl
  | cons c t ih =>
    show replayQuiesced kind ns name faults.tail (t ++ t2)
      (stepControllers (nextFails faults) c cs)
      (stepQuiesced kind ns name (nextFails faults) c cs g) = _
    rw [ih]
    have e : List.drop (c :: t).length faults = List.drop t.length faults.tail := by
      cases faults <;> simp
    rw [e]
    rfl

theorem replays_isPreorder : IsPreorder Replays where
  refl := fun w => ⟨[], by simp, by simp, rfl, trivial⟩
  trans := by
    rintro a b c ⟨t1, e1, f1, c1, h1⟩ ⟨t2, e2, f2, c2, h2⟩
    refine ⟨t1 ++ t2, ?_, ?_, ?_, ?_⟩
    · rw [e2, e1, List.append_assoc]
    · rw [f2, f1, List.drop_drop, List.length_append, Nat.add_comm]
    · rw [c2, c1, f1, replayControllers_append]
    · apply faithful_append _ _ _ _ h1
      rw [← f1, ← c1]
      exact h2

theorem nextFails_faults (w : World) : nextFails w.faults = w.faulty := rfl

theorem replays_request (c : Call) (hc : ∀ kind ns name patch, c ≠ .patchController kind ns name patch)
    (w : World) (cl : Cluster) (hcl : cl.controllers = w.cluster.controllers) :
    Replays w { w.next c with cluster := cl } := by
  refine ⟨[c], rfl, ?_, ?_, ?_, trivial⟩
  · show w.faults.tail = _
    cases w.faults <;> rfl
  · show cl.controllers = stepControllers (nextFails w.faults) c w.cluster.controllers
    rw [hcl]
    cases c <;> first | rfl | exact absurd rfl (hc _ _ _ _)
  · intro kind ns name patch h
    exact absurd h (hc _ _ _ _)

theorem allows_replays {env : Env} (hctl : ∀ c, (env.react c).controllers = c.controllers) :
    Allows env Replays (fun _ _ => True) (fun _ => True) (fun _ _ => False) where
  pre := replays_isPreorder
  tick := by
    intro w
    exact ⟨[], by simp [tick], by simp [tick], hctl w.cluster, trivial⟩
  read := by
    intro c hc w
    have hnp : ∀ kind ns name patch, c ≠ .patchController kind ns name patch := by
      intro kind ns name patch h
      rw [h] at hc
      simp [Call.mutating] at hc
    unfold request
    cases w.faulty
    · exact replays_request c hnp w w.cluster rfl
    · exact replays_request c hnp w w.cluster rfl
  deletePod := by
    intro ns name _ w
    have hnp : ∀ kind ns2 name2 patch,
        Call.deletePod ns name ≠ .patchController kind ns2 name2 patch := by
      intro _ _ _ _ h
      cases h
    rw [deletePod_apply]
    cases w.faulty
    · simp only [Bool.false_eq_true, ↓reduceIte]
      cases findPod w.cluster ns name with
      | none => exact replays_request _ hnp w w.cluster rfl
      | some _ => exact replays_request _ hnp w _ rfl
    · exact replays_request _ hnp w w.cluster rfl
  createPod := by
    intro p _ w
    have hnp : ∀ kind ns2 name2 patch,
        Call.createPod p ≠ .patchController kind ns2 name2 patch := by
      intro _ _ _ _ h
      cases h
    rw [createPod_apply]
    cases w.faulty
    · simp only [Bool.false_eq_true, ↓reduceIte]
      cases findPod w.cluster p.metadata.ns p.metadata.name with
      | some _ => exact replays_request _ hnp w w.cluster rfl
      | none => exact replays_request _ hnp w _ rfl
    · exact replays_request _ hnp w w.cluster rfl
  patch := fun _ _ h => h.elim

theorem replays_patch {o t : Controller} (h : EnginePatch o t) (w : World)
    (hkey : t.kind = o.kind ∧ t.metadata.ns = o.metadata.ns ∧ t.metadata.name = o.metadata.name)
    (hs : Stored o w) :
    Replays w (patchController t.kind t.metadata.ns t.metadata.name (mergeFrom o t) w).2 := by
  unfold Stored at hs
  rw [← hkey.1, ← hkey.2.1, ← hkey.2.2] at hs
  rw [patchController_apply]
  cases hf : w.faulty
  · simp only [Bool.false_eq_true, ↓reduceIte, hs]
    refine ⟨[.patchController t.kind t.metadata.ns t.metadata.name (mergeFrom o t)], rfl, ?_, ?_,
      ?_, trivial⟩
    · show w.faults.tail = _
      cases w.faults <;> rfl
    · show w.cluster.controllers.map _ = stepControllers (nextFails w.faults)
        (Call.patchController t.kind t.metadata.ns t.metadata.name (mergeFrom o t))
        w.cluster.controllers
      rw [nextFails_faults, hf]
      rfl
    · intro kind ns name patch hc _ s hfind
      cases hc
      unfold findController at hs
      rw [hs] at hfind
      cases hfind
      exact ⟨t, h, rfl⟩
  · simp only [↓reduceIte]
    refine ⟨[.patchController t.kind t.metadata.ns t.metadata.name (mergeFrom o t)], rfl, ?_, ?_,
      ?_, trivial⟩
    · show w.faults.tail = _
      cases w.faults <;> rfl
    · show w.cluster.controllers = stepControllers (nextFails w.faults)
        (Call.patchController t.kind t.metadata.ns t.metadata.name (mergeFrom o t))
        w.cluster.controllers
      rw [nextFails_faults, hf]
      rfl
    · intro kind ns name patch _ hfalse
      rw [nextFails_faults, hf] at hfalse
      cases hfalse

theorem allows_keepsControllers_of {env : Env}
    (hctl : ∀ c, (env.react c).controllers = c.controllers) :
    Allows env KeepsControllers (fun _ _ => True) (fun _ => True) (fun _ _ => False) where
  pre := { refl := fun _ => rfl, trans := fun _ _ _ h1 h2 => h2.trans h1 }
  tick := fun w => hctl w.cluster
  read := by
    intro c _ w
    unfold request
    cases w.faulty <;> rfl
  deletePod := by
    intro ns name _ w
    rw [deletePod_apply]
    cases w.faulty
    · simp only [Bool.false_eq_true, ↓reduceIte]
      cases findPod w.cluster ns name <;> rfl
    · rfl
  createPod := by
    intro p _ w
    rw [createPod_apply]
    cases w.faulty
    · simp only [Bool.false_eq_true, ↓reduceIte]
      cases findPod w.cluster p.metadata.ns p.metadata.name <;> rfl
    · rfl
  patch := fun _ _ h => h.elim

theorem hoare_bind {α β : Type} {R : World → World → Prop} (hR : IsPreorder R)
    {P : World → Prop} {m : M α} {Q : α → World → Prop} {f : α → M β}
    {Q2 : β → World → Prop} (hm : Hoare R P m Q) (hf : ∀ a, Hoare R (Q a) (f a) Q2) :
    Hoare R P (m >>= f) Q2 := by
  intro w hw
  rw [bind_apply]
  obtain ⟨r1, q1⟩ := hm w hw
  rcases hmw : m w with ⟨r, w1⟩
  rw [hmw] at r1 q1
  cases r with
  | error e => exact ⟨r1, fun a h => by cases h⟩
  | ok a =>
    obtain ⟨r2, q2⟩ := hf a w1 (q1 a rfl)
    exact ⟨hR.trans _ _ _ r1 r2, q2⟩

theorem hoare_of_pres {α : Type} {R : World → World → Prop} {P : World → Prop} {m : M α}
    (h : Pres R m) : Hoare R P m (fun _ _ => True) :=
  fun w _ => ⟨h w, fun _ _ => trivial⟩

theorem hoare_keep {α : Type} {R : World → World → Prop} {o : Controller} {m : M α}
    (h : Pres R m) (hk : Pres KeepsControllers m) :
    Hoare R (Stored o) m (fun _ w => Stored o w) := by
  intro w hw
  refine ⟨h w, fun _ _ => ?_⟩
  have e : (m w).2.cluster.controllers = w.cluster.controllers := hk w
  show findController (m w).2.cluster o.kind o.metadata.ns o.metadata.name = some o
  unfold Stored at hw
  unfold findController at hw ⊢
  rw [e]
  exact hw

theorem hoare_weaken {α : Type} {R : World → World → Prop} {P P2 : World → Prop} {m : M α}
    {Q Q2 : α → World → Prop} (h : Hoare R P m Q) (hp : ∀ w, P2 w → P w)
    (hq : ∀ a w, Q a w → Q2 a w) : Hoare R P2 m Q2 :=
  fun w hw => ⟨(h w (hp w hw)).1, fun a ha => hq a _ ((h w (hp w hw)).2 a ha)⟩

theorem hoare_pure {α : Type} {R : World → World → Prop} (hR : IsPreorder R)
    {P : World → Prop} (a : α) : Hoare R P (pure a : M α) (fun _ _ => True) :=
  fun w _ => ⟨hR.refl w, fun _ _ => trivial⟩

theorem hoare_liftExcept {α : Type} {R : World → World → Prop} (hR : IsPreorder R)
    {P : World → Prop} (r : Except Err α) : Hoare R P (liftExcept r) (fun _ w => P w) :=
  fun w hw => ⟨hR.refl w, fun _ _ => hw⟩

theorem hoare_attempt {α : Type} {R : World → World → Prop} {P : World → Prop} {m : M α}
    {Q : α → World → Prop} (h : Hoare R P m Q) :
    Hoare R P (attempt m) (fun r w => ∀ a, r = .ok a → Q a w) := by
  intro w hw
  rw [attempt_apply]
  refine ⟨(h w hw).1, ?_⟩
  intro r hr a ha
  simp only [Except.ok.injEq] at hr
  rw [← hr] at ha
  exact (h w hw).2 a ha

theorem hoare_wrapErr {α : Type} {R : World → World → Prop} {P : World → Prop} {m : M α}
    {Q : α → World → Prop} (step : String) (h : Hoare R P m Q) :
    Hoare R P (wrapErr step m) Q := by
  intro w hw
  obtain ⟨r1, q1⟩ := h w hw
  unfold wrapErr
  rcases hmw : m w with ⟨r, w1⟩
  rw [hmw] at r1 q1
  cases r with
  | error e => exact ⟨r1, fun a h => by cases h⟩
  | ok a => exact ⟨r1, q1⟩

theorem hoare_getController {env : Env}
    (hctl : ∀ c, (env.react c).controllers = c.controllers) (kind : Kind) (ns name : String) :
    Hoare Replays (fun _ => True) (getController kind ns name) (fun o w => Stored o w) := by
  intro w _
  refine ⟨pres_getController (allows_replays hctl) kind ns name w, ?_⟩
  · intro o ho
    have h2 : getController kind ns name w = (.ok o, (getController kind ns name w).2) := by
      rw [← ho]
    obtain ⟨hw1, _, hfind⟩ := getController_ok_inv h2
    unfold Stored
    rw [hw1]
    exact found_controller hfind

theorem hoare_getParentFromReplaced {env : Env}
    (hctl : ∀ c, (env.react c).controllers = c.controllers) (pod : Pod) :
    Hoare Replays (fun _ => True) (getParentFromReplaced pod) (fun o w => Stored o w) := by
  unfold getParentFromReplaced
  dsimp only
  split
  · exact hoare_getController hctl _ _ _
  · split
    · exact hoare_getController hctl _ _ _
    · split
      · exact hoare_getController hctl _ _ _
      · exact fun w _ => ⟨replays_isPreorder.refl w, fun a h => by cases h⟩

theorem hoare_scaleDownParent (parent : Controller) :
    Hoare Replays (Stored parent) (scaleDownParent parent) (fun _ _ => True) := by
  intro w hw
  refine ⟨?_, fun _ _ => trivial⟩
  by_cases h0 : currentReplicas parent = 0
  · rw [scaleDownParent_of_zero h0]
    exact replays_isPreorder.refl w
  · rw [scaleDownParent_of_replicas h0]
    exact replays_patch (Or.inl ⟨h0, rfl⟩) w ⟨rfl, rfl, rfl⟩ hw

theorem hoare_scaleUpParent (parent : Controller) :
    Hoare Replays (Stored parent) (scaleUpParent parent) (fun _ _ => True) := by
  intro w hw
  refine ⟨?_, fun _ _ => trivial⟩
  unfold scaleUpParent
  dsimp only
  split
  · exact replays_isPreorder.refl w
  · cases hr : Atoi (mapGet parent.metadata.annotations ReplicasAnnotation) with
    | error e => exact replays_isPreorder.refl w
    | ok r =>
      dsimp only
      split
      · exact replays_isPreorder.refl w
      · rename_i h0
        rw [wrapErr_trace]
        exact replays_patch (Or.inr ⟨r, atoi_of_Atoi hr, h0, rfl⟩) w ⟨rfl, rfl, rfl⟩ hw

theorem hoare_replace {env : Env} (hctl : ∀ c, (env.react c).controllers = c.controllers)
    (pod : SelectedPodContainer) (parent : Controller) (config : Config)
    (dependencies : List Dependency) (replacePod : ReplacePodSpec) :
    Hoare Replays (Stored parent) (replace env pod parent config dependencies replacePod)
      (fun _ _ => True) := by
  have A := allows_replays hctl
  unfold replace
  refine hoare_bind A.pre (hoare_liftExcept A.pre _) (fun body => ?_)
  refine hoare_bind A.pre (hoare_wrapErr _ (hoare_scaleDownParent parent)) (fun _ => ?_)
  refine hoare_bind A.pre (hoare_of_pres (pres_wrapErr _
    (pres_poll A.pre env A.tick (pres_originalGoneCondition A pod body) 60))) (fun _ => ?_)
  exact hoare_of_pres (pres_wrapErr _ (A.createPod body trivial))

theorem hoare_updateNeeded {env : Env} (hctl : ∀ c, (env.react c).controllers = c.controllers)
    (pod : SelectedPodContainer) (config : Config) (dependencies : List Dependency)
    (replacePod : ReplacePodSpec) :
    Hoare Replays (fun _ => True) (updateNeeded env pod config dependencies replacePod)
      (fun _ _ => True) := by
  have A := allows_replays hctl
  have K := allows_keepsControllers_of hctl
  unfold updateNeeded
  split
  · exact hoare_of_pres (pres_bind A.pre (pres_deleteAndWait A _ trivial)
      (fun _ => pres_pure A.pre _))
  · refine hoare_bind A.pre (hoare_attempt (hoare_getParentFromReplaced hctl _)) (fun r => ?_)
    cases r with
    | error e =>
      exact hoare_of_pres (pres_bind A.pre (pres_deleteAndWait A _ trivial)
        (fun _ => pres_pure A.pre _))
    | ok parent =>
      dsimp only
      have hpre : ∀ w, (∀ a, (Except.ok parent : Except Err Controller) = Except.ok a →
            Stored a w) → Stored parent w :=
        fun w h => h parent rfl
      refine hoare_weaken (P := Stored parent) ?_ hpre (fun _ _ h => h)
      refine hoare_bind A.pre (hoare_liftExcept A.pre _) (fun parentHash => ?_)
      refine hoare_bind A.pre (hoare_liftExcept A.pre _) (fun configHash => ?_)
      split
      · exact hoare_bind A.pre (hoare_attempt (hoare_scaleDownParent parent))
          (fun _ => hoare_pure A.pre _)
      · refine hoare_bind A.pre (hoare_wrapErr _ (hoare_keep (pres_deleteAndWait A _ trivial)
          (pres_deleteAndWait K _ trivial))) (fun _ => ?_)
        exact hoare_bind A.pre (hoare_scaleUpParent parent) (fun _ => hoare_pure A.pre _)

theorem hoare_RevertReplacePod {env : Env}
    (hctl : ∀ c, (env.react c).controllers = c.controllers) (replacePod : ReplacePodSpec) :
    Hoare Replays (fun _ => True) (RevertReplacePod env replacePod) (fun _ _ => True) := by
  have A := allows_replays hctl
  have K := allows_keepsControllers_of hctl
  unfold RevertReplacePod
  refine hoare_bind A.pre (hoare_of_pres (pres_wrapErr _
    (pres_findSingleReplacedPod A replacePod 4))) (fun found => ?_)
  cases found with
  | none => exact hoare_pure A.pre _
  | some sel =>
    dsimp only
    split
    · exact hoare_of_pres (pres_bind A.pre (pres_deleteAndWait A _ trivial)
        (fun _ => pres_pure A.pre _))
    · refine hoare_bind A.pre (hoare_attempt (hoare_getParentFromReplaced hctl _)) (fun r => ?_)
      cases r with
      | error e =>
        exact hoare_of_pres (pres_bind A.pre (pres_deleteAndWait A _ trivial)
          (fun _ => pres_pure A.pre _))
      | ok parent =>
        dsimp only
        have hpre : ∀ w, (∀ a, (Except.ok parent : Except Err Controller) = Except.ok a →
            Stored a w) → Stored parent w :=
          fun w h => h parent rfl
        refine hoare_weaken (P := Stored parent) ?_ hpre (fun _ _ h => h)
        refine hoare_bind A.pre (hoare_wrapErr _ (hoare_keep (pres_deleteAndWait A _ trivial)
          (pres_deleteAndWait K _ trivial))) (fun _ => ?_)
        exact hoare_bind A.pre (hoare_scaleUpParent parent) (fun _ => hoare_pure A.pre _)

theorem hoare_select {env : Env} (hctl : ∀ c, (env.react c).controllers = c.controllers)
    (config : Config) (dependencies : List Dependency) (replacePod : ReplacePodSpec) :
    Hoare Replays (fun _ => True)
      (findSingleReplaceablePodParent env config dependencies replacePod)
      (fun cp w => Stored cp.2 w) := by
  intro w _
  refine ⟨pres_findSingleReplaceablePodParent (allows_replays hctl) config dependencies
    replacePod w, ?_⟩
  intro cp hcp
  have h2 : findSingleReplaceablePodParent env config dependencies replacePod w
      = (.ok (cp.1, cp.2),
          (findSingleReplaceablePodParent env config dependencies replacePod w).2) := by
    rw [← hcp]
  exact found_controller (findSingleReplaceablePodParent_ok_inv h2).2

theorem hoare_ReplacePod {env : Env} (hctl : ∀ c, (env.react c).controllers = c.controllers)
    (config : Config) (dependencies : List Dependency) (replacePod : ReplacePodSpec) :
    Hoare Replays (fun _ => True) (ReplacePod env config dependencies replacePod)
      (fun _ _ => True) := by
  have A := allows_replays hctl
  unfold ReplacePod
  refine hoare_bind A.pre (hoare_of_pres (pres_wrapErr _
    (pres_findSingleReplacedPod A replacePod 2))) (fun found => ?_)
  have hproceed : Hoare Replays (fun _ => True) (match found with
      | some selectedPod => updateNeeded env selectedPod config dependencies replacePod
      | none => (pure true : M Bool)) (fun _ _ => True) := by
    cases found with
    | none => exact hoare_pure A.pre _
    | some sel => exact hoare_updateNeeded hctl sel config dependencies replacePod
  refine hoare_bind A.pre hproceed (fun proceed => ?_)
  split
  · exact hoare_pure A.pre _
  · refine hoare_bind A.pre (hoare_weaken (hoare_select hctl config dependencies replacePod)
      (fun _ _ => trivial) (fun _ _ h => h)) (fun cp => ?_)
    obtain ⟨container, parent⟩ := cp
    exact hoare_replace hctl container parent config dependencies replacePod

theorem replays_runOps {env : Env} (hctl : ∀ c, (env.react c).controllers = c.controllers)
    (ops : List Op) (w : World) : Replays w (runOps env ops w) := by
  induction ops generalizing w with
  | nil => exact replays_isPreorder.refl w
  | cons op ops ih =>
    rw [runOps_cons]
    refine replays_isPreorder.trans _ _ _ ?_ (ih (runOp env op w))
    cases op with
    | replacePod config dependencies replacePod =>
      exact (hoare_ReplacePod hctl config dependencies replacePod w trivial).1
    | revertReplacePod replacePod =>
      exact (hoare_RevertReplacePod hctl replacePod w trivial).1

theorem restore_patch_replicas_ne_zero (s : Controller) (r : Int)
    (h0 : s.replicas = some 0) : (mergeFrom s (restored s r)).replicas ≠ some 0 := by
  unfold mergeFrom
  dsimp only
  split
  · intro h
    cases h
  · rename_i hne
    intro h
    apply hne
    rw [h, h0]

theorem keyInv_step (kind : Kind) (ns name : String) (failed : Bool) (c : Call)
    (cs : List Controller) (g : Option Int) (hf : EnginePatchOn cs failed c)
    (hi : KeyInv kind ns name cs g) :
    KeyInv kind ns name (stepControllers failed c cs) (stepQuiesced kind ns name failed c cs g) := by
  cases c with
  | patchController k2 ns2 name2 patch =>
    cases failed with
    | true =>
      have e1 : stepControllers true (.patchController k2 ns2 name2 patch) cs = cs := rfl
      have e2 : stepQuiesced kind ns name true (.patchController k2 ns2 name2 patch) cs g = g := by
        simp [stepQuiesced]
      rw [e1, e2]
      exact hi
    | false =>
      have e1 : stepControllers false (.patchController k2 ns2 name2 patch) cs
          = cs.map (patchIn k2 ns2 name2 patch) := rfl
      rw [e1]
      by_cases hkey : k2 = kind ∧ ns2 = ns ∧ name2 = name
      · obtain ⟨rfl, rfl, rfl⟩ := hkey
        intro o ho
        rw [findController_patched] at ho
        cases hs : cs.find? (isController k2 ns2 name2) with
        | none => rw [hs] at ho; cases ho
        | some s =>
          rw [hs] at ho
          simp only [Option.map_some', Option.some.injEq] at ho
          have hisc : isController k2 ns2 name2 s = true := List.find?_some hs
          have ho2 : o = applyPatch s patch := by
            rw [← ho]
            unfold patchIn
            rw [if_pos hisc]
          obtain ⟨t, ht, hpatch⟩ := hf k2 ns2 name2 patch rfl rfl s hs
          obtain ⟨hann, hrep⟩ := hi s hs
          have e2 : stepQuiesced k2 ns2 name2 false (.patchController k2 ns2 name2 patch) cs g
              = if patch.replicas = some 0 then some (currentReplicas s) else none := by
            simp [stepQuiesced, hs]
          rw [e2, ho2, hpatch]
          rcases ht with ⟨h0, rfl⟩ | ⟨r, hr, hr0, rfl⟩
          · rw [if_pos (mergeFrom_quiesced_replicas h0)]
            refine ⟨quiesce_patch_records s s rfl, ?_⟩
            intro n hn
            simp only [Option.some.injEq] at hn
            rw [← hn]
            exact ⟨h0, quiesce_patch_replicas s s h0⟩
          · have hne : mapGet s.metadata.annotations ReplicasAnnotation ≠ "" := by
              intro he
              rw [he, atoi_empty] at hr
              cases hr
            have hg : ∃ n, g = some n := by
              cases g with
              | some n => exact ⟨n, rfl⟩
              | none =>
                exfalso
                apply hne
                unfold mapGet
                rw [hann]
                rfl
            obtain ⟨n, hn⟩ := hg
            have hs0 := (hrep n hn).2
            rw [if_neg (restore_patch_replicas_ne_zero s r hs0)]
            refine ⟨restore_patch_clears s s r hne, ?_⟩
            intro m hm
            cases hm
      · have e2 : stepQuiesced kind ns name false (.patchController k2 ns2 name2 patch) cs g
            = g := by
          simp only [stepQuiesced]
          rw [if_neg]
          intro h
          exact hkey h.2
        rw [e2]
        intro o ho
        rw [findController_patched] at ho
        cases hs : cs.find? (isController kind ns name) with
        | none => rw [hs] at ho; cases ho
        | some s =>
          rw [hs] at ho
          simp only [Option.map_some', Option.some.injEq] at ho
          have hisc : isController kind ns name s = true := List.find?_some hs
          have hnot : isController k2 ns2 name2 s = false := by
            cases hc : isController k2 ns2 name2 s with
            | false => rfl
            | true =>
              exfalso
              apply hkey
              simp only [isController, Bool.and_eq_true, decide_eq_true_eq, beq_iff_eq] at hisc hc
              exact ⟨hc.1.1.symm.trans hisc.1.1, hc.1.2.symm.trans hisc.1.2,
                hc.2.symm.trans hisc.2⟩
          have ho2 : o = s := by
            rw [← ho]
            unfold patchIn
            rw [hnot]
            rfl
          rw [ho2]
          exact hi s hs
  | getPod _ _ => exact hi
  | deletePod _ _ => exact hi
  | createPod _ => exact hi
  | getController _ _ _ => exact hi
  | listPods _ => exact hi

theorem keyInv_replay (kind : Kind) (ns name : String) (t : List Call) (faults : List Bool)
    (cs : List Controller) (g : Option Int) (hf : Faithful faults t cs)
    (hi : KeyInv kind ns name cs g) :
    KeyInv kind ns name (replayControllers faults t cs)
      (replayQuiesced kind ns name faults t cs g) := by
  induction t generalizing faults cs g with
  | nil => exact hi
  | cons c t ih =>
    exact ih _ _ _ hf.2 (keyInv_step kind ns name _ c cs g hf.1 hi)

/-- C6: start from a world in which no controller carries the
`devspace.sh/replicas` annotation, with any fault schedule, in an environment
that leaves controllers alone, and run any sequence of `ReplacePod` and
`RevertReplacePod` calls.  The controllers of the resulting cluster are the
initial ones changed by the patches of the run that took effect, and each of
these patches is the quiesce patch or the restore patch computed from the
controller as it was stored at that moment.  The controller of a kind, namespace
and name carries the annotation if and only if the last patch that took effect
on it scaled it to zero, that is, the engine has scaled it to zero and has not
restored it since; it then has the replica count 0, and its annotation is the
decimal text of the replica count it had right before that patch, which is not
zero. -/
theorem replicas_annotation_invariant (env : Env) (ops : List Op) (w : World)
    (hctl : ∀ c, (env.react c).controllers = c.controllers)
    (h0 : ∀ o ∈ w.cluster.controllers,
      mapLookup o.metadata.annotations ReplicasAnnotation = none) :
    (runOps env ops w).cluster.controllers
        = replayControllers w.faults (newCalls w (runOps env ops w)) w.cluster.controllers
      ∧ Faithful w.faults (newCalls w (runOps env ops w)) w.cluster.controllers
      ∧ ∀ kind ns name o, findController (runOps env ops w).cluster kind ns name = some o →
          (mapLookup o.metadata.annotations ReplicasAnnotation ≠ none
              ↔ quiescedCount kind ns name w (runOps env ops w) ≠ none)
            ∧ ∀ n, quiescedCount kind ns name w (runOps env ops w) = some n →
                n ≠ 0 ∧ o.replicas = some 0
                  ∧ mapLookup o.metadata.annotations ReplicasAnnotation = some (itoa n) := by
  obtain ⟨t, ht, _, hc, hf⟩ := replays_runOps hctl ops w
  rw [newCalls_of_trace ht]
  refine ⟨hc, hf, ?_⟩
  intro kind ns name o ho
  have hstart : KeyInv kind ns name w.cluster.controllers none := by
    intro o2 ho2
    exact ⟨h0 o2 (List.mem_of_find?_eq_some ho2), fun n hn => by cases hn⟩
  have hinv := keyInv_replay kind ns name t w.faults w.cluster.controllers none hf hstart
  unfold findController at ho
  rw [hc] at ho
  obtain ⟨hann, hrep⟩ := hinv o ho
  have hq : quiescedCount kind ns name w (runOps env ops w)
      = replayQuiesced kind ns name w.faults t w.cluster.controllers none := by
    unfold quiescedCount
    rw [newCalls_of_trace ht]
  rw [hq]
  refine ⟨?_, ?_⟩
  · rw [hann]
    cases replayQuiesced kind ns name w.faults t w.cluster.controllers none <;> simp
  · intro n hn
    refine ⟨(hrep n hn).1, (hrep n hn).2, ?_⟩
    rw [hann, hn]
    rfl

theorem replicas_annotation_invariant_witness :
    (∀ o ∈ demoFaultyWorld.cluster.controllers,
        mapLookup o.metadata.annotations ReplicasAnnotation = none)
      ∧ (runOps demoEnv demoOps demoFaultyWorld).cluster.controllers = [demoSetQuiesced]
      ∧ quiescedCount .StatefulSet "dev" "db" demoFaultyWorld
          (runOps demoEnv demoOps demoFaultyWorld) = some 3
      ∧ ((3 : Int) ≠ 0 ∧ demoSetQuiesced.replicas = some 0
          ∧ mapLookup demoSetQuiesced.metadata.annotations ReplicasAnnotation
              = some (itoa 3))
      ∧ quiescedCount .StatefulSet "dev" "db" demoWorld (runOps demoEnv demoOps demoWorld) = none
      ∧ (∀ o, findController (runOps demoEnv demoOps demoWorld).cluster .StatefulSet "dev" "db"
            = some o → ¬ mapLookup o.metadata.annotations ReplicasAnnotation ≠ none) := by
  have h1 := replicas_annotation_invariant demoEnv demoOps demoFaultyWorld (fun _ => rfl)
    (by decide!)
  have h2 := replicas_annotation_invariant demoEnv demoOps demoWorld (fun _ => rfl)
    (by decide!)
  have q1 : quiescedCount .StatefulSet "dev" "db" demoFaultyWorld
      (runOps demoEnv demoOps demoFaultyWorld) = some 3 := by decide!
  have q2 : quiescedCount .StatefulSet "dev" "db" demoWorld
      (runOps demoEnv demoOps demoWorld) = none := by decide!
  refine ⟨by decide!, by decide!, q1,
    (h1.2.2 .StatefulSet "dev" "db" demoSetQuiesced (by decide!)).2 3 q1, q2, ?_⟩
  intro o ho hne
  exact ((h2.2.2 .StatefulSet "dev" "db" o ho).1.mp hne) q2

end PodReplace
